import Mathlib

/-!
# The SDP parser of ortc-lib

A shallow embedding of `ortc/adapter/cpp/ortc_adapter_SDPParser.cpp` and
theorems about it.

Conventions of the embedding:

* a C string is the list of its characters up to, and without, the
  terminating NUL;
* the raw buffer of an `SDP` is the list of the characters of its
  allocation, and a read past the last of them is a step that C++ gives no
  meaning to;
* a thrown exception is an `Except.error`; a function that cannot throw is
  a total Lean function;
* a record of the line list (`LineTypeInfo`) holds, for its pointer
  `mValue` into the raw buffer, the C string that this pointer designates
  once the pass that produced it has finished writing NUL characters
  into the buffer;
* an object behind a shared pointer that is written after it has been
  shared (an `MLine`, an `ASSRCLine`) lives in a list of objects of the
  `SDP`, and a pointer to it is its position there, `none` for the null
  pointer; every other typed line is held by value;
* a step that C++ gives no meaning to ends in the error
  `UndefinedBehaviour`;
* the helpers of the surrounding media stack are the fields of the
  parameters `External` and `RTPTypes`.
-/

set_option linter.dupNamespace false
set_option maxRecDepth 4096

namespace OrtcSDP

/-! ## Errors -/

/-- The ways in which a function of the parser ends without a result: the
exceptions of `ORTC_THROW_INVALID_PARAMETERS...`, of
`ORTC_THROW_NOT_SUPPORTED_ERRROR` and of `ZS_THROW_INVALID_ASSUMPTION_IF`, the
`SafeIntException` of a `SafeInt` conversion, and `UndefinedBehaviour` for a
step that C++ gives no meaning to (a read past the end of a table or of the
raw buffer, the use of a null pointer, a second `erase` of the same list
position). -/
inductive SDPError
  | InvalidParameters
  | NotSupported
  | InvalidAssumption
  | SafeIntException
  | UndefinedBehaviour
  deriving DecidableEq, Repr

/-! ## Characters -/

/-- The terminating character of a C string. -/
def NUL : Char := Char.ofNat 0

/-- The C string that starts at the head of a buffer: the characters before
the first NUL. It is what `String(blob)` holds, and its length is what
`length()` returns. -/
def cString (buffer : List Char) : List Char :=
  buffer.takeWhile (fun c => c != NUL)

/-- The C library predicate `isspace` in the "C" locale: space, `\t`, `\n`,
vertical tab, form feed and `\r`. -/
def isspace (c : Char) : Bool :=
  c = ' ' || c = '\t' || c = '\n' || c = Char.ofNat 11 || c = Char.ofNat 12 || c = '\r'

/-- The end-of-line test of `parseLines`: `('\r' == *pos) || ('\n' == *pos)`. -/
def isEOL (c : Char) : Bool :=
  c = '\r' || c = '\n'

/-! ## ISDPTypes: enumerations -/

/-- The enumeration `ISDPTypes::LineTypes`. -/
inductive LineTypes
  | LineType_Unknown
  | LineType_v_Version
  | LineType_o_Origin
  | LineType_s_SessionName
  | LineType_b_Bandwidth
  | LineType_t_Timing
  | LineType_a_Attributes
  | LineType_m_MediaLine
  | LineType_c_ConnectionDataLine
  deriving DecidableEq, Repr

open LineTypes

/-- Modelled from the spec: the header that declares `enum LineTypes` is not
among the sources, so the numeric value of each enumerator is taken from the
spec. Section 3.1 describes a line type as a single-letter line tag
`v o s b t a m c`, section 4.1 reads the first byte of a line as a line
type, and `toString(LineTypes)` prints exactly these letters: each
enumerator has the character code of its letter and `LineType_Unknown` is 0. -/
def LineTypes.toChar : LineTypes → Char
  | LineType_Unknown => NUL
  | LineType_v_Version => 'v'
  | LineType_o_Origin => 'o'
  | LineType_s_SessionName => 's'
  | LineType_b_Bandwidth => 'b'
  | LineType_t_Timing => 't'
  | LineType_a_Attributes => 'a'
  | LineType_m_MediaLine => 'm'
  | LineType_c_ConnectionDataLine => 'c'

/-- The function `ISDPTypes::toString(LineTypes)`. -/
def LineTypes.toString : LineTypes → List Char
  | LineType_Unknown => "".toList
  | LineType_v_Version => "v".toList
  | LineType_o_Origin => "o".toList
  | LineType_s_SessionName => "s".toList
  | LineType_b_Bandwidth => "b".toList
  | LineType_t_Timing => "t".toList
  | LineType_a_Attributes => "a".toList
  | LineType_m_MediaLine => "m".toList
  | LineType_c_ConnectionDataLine => "c".toList

/-- The function `ISDPTypes::toLineType(const char type)`: a `switch` of the
character over the enumerators; the case `LineType_Unknown` breaks and every
character that matches no case falls out of the switch. -/
def toLineType (type : Char) : LineTypes :=
  if type = LineType_Unknown.toChar then LineType_Unknown
  else if type = LineType_v_Version.toChar then LineType_v_Version
  else if type = LineType_o_Origin.toChar then LineType_o_Origin
  else if type = LineType_s_SessionName.toChar then LineType_s_SessionName
  else if type = LineType_b_Bandwidth.toChar then LineType_b_Bandwidth
  else if type = LineType_t_Timing.toChar then LineType_t_Timing
  else if type = LineType_a_Attributes.toChar then LineType_a_Attributes
  else if type = LineType_m_MediaLine.toChar then LineType_m_MediaLine
  else if type = LineType_c_ConnectionDataLine.toChar then LineType_c_ConnectionDataLine
  else LineType_Unknown

/-- The enumeration `ISDPTypes::Attributes`, in the order of the `switch`
statements of the source (the source spells `Attirbute_FMTP`). -/
inductive Attributes
  | Attribute_Unknown
  | Attribute_Group
  | Attribute_BundleOnly
  | Attribute_MSID
  | Attribute_MSIDSemantic
  | Attribute_ICEUFrag
  | Attribute_ICEPwd
  | Attribute_ICEOptions
  | Attribute_ICELite
  | Attribute_Candidate
  | Attribute_EndOfCandidates
  | Attribute_Fingerprint
  | Attribute_Crypto
  | Attribute_Setup
  | Attribute_MID
  | Attribute_Extmap
  | Attribute_SendRecv
  | Attribute_SendOnly
  | Attribute_RecvOnly
  | Attribute_Inactive
  | Attribute_RTPMap
  | Attirbute_FMTP
  | Attribute_RTCP
  | Attribute_RTCPMux
  | Attribute_RTCPFB
  | Attribute_RTCPRSize
  | Attribute_PTime
  | Attribute_MaxPTime
  | Attribute_SSRC
  | Attribute_SSRCGroup
  | Attribute_Simulcast
  | Attribute_RID
  | Attribute_SCTPPort
  | Attribute_MaxMessageSize
  deriving DecidableEq, Repr

open Attributes

/-- The function `ISDPTypes::toString(Attributes)`. -/
def Attributes.toString : Attributes → List Char
  | Attribute_Unknown => "".toList
  | Attribute_Group => "group".toList
  | Attribute_BundleOnly => "bundle-only".toList
  | Attribute_MSID => "msid".toList
  | Attribute_MSIDSemantic => "msid-semantic".toList
  | Attribute_ICEUFrag => "ice-ufrag".toList
  | Attribute_ICEPwd => "ice-pwd".toList
  | Attribute_ICEOptions => "ice-options".toList
  | Attribute_ICELite => "ice-lite".toList
  | Attribute_Candidate => "candidate".toList
  | Attribute_EndOfCandidates => "end-of-candidates".toList
  | Attribute_Fingerprint => "fingerprint".toList
  | Attribute_Crypto => "crypto".toList
  | Attribute_Setup => "setup".toList
  | Attribute_MID => "mid".toList
  | Attribute_Extmap => "extmap".toList
  | Attribute_SendRecv => "sendrecv".toList
  | Attribute_SendOnly => "sendonly".toList
  | Attribute_RecvOnly => "recvonly".toList
  | Attribute_Inactive => "inactive".toList
  | Attribute_RTPMap => "rtpmap".toList
  | Attirbute_FMTP => "fmtp".toList
  | Attribute_RTCP => "rtcp".toList
  | Attribute_RTCPMux => "rtcp-mux".toList
  | Attribute_RTCPFB => "rtcp-fb".toList
  | Attribute_RTCPRSize => "rtcp-rsize".toList
  | Attribute_PTime => "ptime".toList
  | Attribute_MaxPTime => "maxptime".toList
  | Attribute_SSRC => "ssrc".toList
  | Attribute_SSRCGroup => "ssrc-group".toList
  | Attribute_Simulcast => "simulcast".toList
  | Attribute_RID => "rid".toList
  | Attribute_SCTPPort => "sctp-port".toList
  | Attribute_MaxMessageSize => "max-message-size".toList

/-- The function `ISDPTypes::requiresValue`. -/
def requiresValue : Attributes → Bool
  | Attribute_Unknown => false
  | Attribute_Group => true
  | Attribute_BundleOnly => false
  | Attribute_MSID => true
  | Attribute_MSIDSemantic => true
  | Attribute_ICEUFrag => true
  | Attribute_ICEPwd => true
  | Attribute_ICEOptions => true
  | Attribute_ICELite => false
  | Attribute_Candidate => true
  | Attribute_EndOfCandidates => false
  | Attribute_Fingerprint => true
  | Attribute_Crypto => true
  | Attribute_Setup => true
  | Attribute_MID => true
  | Attribute_Extmap => true
  | Attribute_SendRecv => false
  | Attribute_SendOnly => false
  | Attribute_RecvOnly => false
  | Attribute_Inactive => false
  | Attribute_RTPMap => true
  | Attirbute_FMTP => true
  | Attribute_RTCP => true
  | Attribute_RTCPMux => false
  | Attribute_RTCPFB => true
  | Attribute_RTCPRSize => false
  | Attribute_PTime => true
  | Attribute_MaxPTime => true
  | Attribute_SSRC => true
  | Attribute_SSRCGroup => true
  | Attribute_Simulcast => true
  | Attribute_RID => true
  | Attribute_SCTPPort => true
  | Attribute_MaxMessageSize => true

/-- The function `ISDPTypes::requiresEmptyValue`. -/
def requiresEmptyValue : Attributes → Bool
  | Attribute_Unknown => false
  | Attribute_Group => false
  | Attribute_BundleOnly => true
  | Attribute_MSID => false
  | Attribute_MSIDSemantic => false
  | Attribute_ICEUFrag => false
  | Attribute_ICEPwd => false
  | Attribute_ICEOptions => false
  | Attribute_ICELite => true
  | Attribute_Candidate => false
  | Attribute_EndOfCandidates => true
  | Attribute_Fingerprint => false
  | Attribute_Crypto => false
  | Attribute_Setup => false
  | Attribute_MID => false
  | Attribute_Extmap => false
  | Attribute_SendRecv => true
  | Attribute_SendOnly => true
  | Attribute_RecvOnly => true
  | Attribute_Inactive => true
  | Attribute_RTPMap => false
  | Attirbute_FMTP => false
  | Attribute_RTCP => false
  | Attribute_RTCPMux => true
  | Attribute_RTCPFB => false
  | Attribute_RTCPRSize => true
  | Attribute_PTime => false
  | Attribute_MaxPTime => false
  | Attribute_SSRC => false
  | Attribute_SSRCGroup => false
  | Attribute_Simulcast => false
  | Attribute_RID => false
  | Attribute_SCTPPort => false
  | Attribute_MaxMessageSize => false

/-- Modelled from the spec: `Attribute_First` and `Attribute_Last` are
declared in the header, which is not among the sources. Section 3.1 lists the
recognized attribute names from `group` to `max-message-size`; the range
`Attribute_First ..= Attribute_Last` that `toAttribute` walks is taken to be
every enumerator but `Attribute_Unknown`, in declaration order. -/
def attributeRange : List Attributes :=
  [Attribute_Group, Attribute_BundleOnly, Attribute_MSID, Attribute_MSIDSemantic,
   Attribute_ICEUFrag, Attribute_ICEPwd, Attribute_ICEOptions, Attribute_ICELite,
   Attribute_Candidate, Attribute_EndOfCandidates, Attribute_Fingerprint,
   Attribute_Crypto, Attribute_Setup, Attribute_MID, Attribute_Extmap,
   Attribute_SendRecv, Attribute_SendOnly, Attribute_RecvOnly, Attribute_Inactive,
   Attribute_RTPMap, Attirbute_FMTP, Attribute_RTCP, Attribute_RTCPMux,
   Attribute_RTCPFB, Attribute_RTCPRSize, Attribute_PTime, Attribute_MaxPTime,
   Attribute_SSRC, Attribute_SSRCGroup, Attribute_Simulcast, Attribute_RID,
   Attribute_SCTPPort, Attribute_MaxMessageSize]

/-- The loop of `ISDPTypes::toAttribute`: the first enumerator of the range
whose name compares equal (`0 == str.compare(toString(index))`, a
case-sensitive comparison) to the given string. -/
def toAttributeLoop (str : List Char) : List Attributes → Attributes
  | [] => Attribute_Unknown
  | index :: rest => if str = index.toString then index else toAttributeLoop str rest

/-- The function `ISDPTypes::toAttribute(const char *)`. -/
def toAttribute (str : List Char) : Attributes :=
  toAttributeLoop str attributeRange

/-- The enumeration `ISDPTypes::AttributeLevels`. -/
inductive AttributeLevels
  | AttributeLevel_None
  | AttributeLevel_Session
  | AttributeLevel_Media
  | AttributeLevel_Source
  | AttributeLevel_SessionAndMedia
  | AttributeLevel_SessionAndSource
  | AttributeLevel_MediaAndSource
  | AttributeLevel_All
  deriving DecidableEq, Repr

open AttributeLevels

/-- Modelled from the spec: the header that gives the enumerators of
`AttributeLevels` their values is not among the sources. Section 3.1 describes
the scope as a bitmask over session, media and source with the unions
session+media, media+source and all: one bit for each of the three scopes,
the other enumerators being the unions their names say. -/
def AttributeLevels.toNat : AttributeLevels → Nat
  | AttributeLevel_None => 0
  | AttributeLevel_Session => 1
  | AttributeLevel_Media => 2
  | AttributeLevel_Source => 4
  | AttributeLevel_SessionAndMedia => 3
  | AttributeLevel_SessionAndSource => 5
  | AttributeLevel_MediaAndSource => 6
  | AttributeLevel_All => 7

/-- The expression `a & b` of the source on two attribute levels. -/
def AttributeLevels.and (a b : AttributeLevels) : Nat :=
  a.toNat &&& b.toNat

/-- The function `ISDPTypes::getAttributeLevel(LineTypes)`; the case
`LineType_Unknown` breaks out of the switch into the throw. -/
def LineTypes.getAttributeLevel : LineTypes → Except SDPError AttributeLevels
  | LineType_Unknown => .error .NotSupported
  | LineType_v_Version => .ok AttributeLevel_Session
  | LineType_o_Origin => .ok AttributeLevel_Session
  | LineType_s_SessionName => .ok AttributeLevel_Session
  | LineType_b_Bandwidth => .ok AttributeLevel_SessionAndMedia
  | LineType_t_Timing => .ok AttributeLevel_Session
  | LineType_a_Attributes => .ok AttributeLevel_All
  | LineType_m_MediaLine => .ok AttributeLevel_Session
  | LineType_c_ConnectionDataLine => .ok AttributeLevel_SessionAndMedia

/-- The function `ISDPTypes::getAttributeLevel(Attributes)`; the case
`Attribute_Unknown` breaks out of the switch into the throw. -/
def Attributes.getAttributeLevel : Attributes → Except SDPError AttributeLevels
  | Attribute_Unknown => .error .NotSupported
  | Attribute_Group => .ok AttributeLevel_Session
  | Attribute_BundleOnly => .ok AttributeLevel_Media
  | Attribute_MSID => .ok AttributeLevel_Media
  | Attribute_MSIDSemantic => .ok AttributeLevel_Session
  | Attribute_ICEUFrag => .ok AttributeLevel_SessionAndMedia
  | Attribute_ICEPwd => .ok AttributeLevel_SessionAndMedia
  | Attribute_ICEOptions => .ok AttributeLevel_Session
  | Attribute_ICELite => .ok AttributeLevel_Session
  | Attribute_Candidate => .ok AttributeLevel_Media
  | Attribute_EndOfCandidates => .ok AttributeLevel_Media
  | Attribute_Fingerprint => .ok AttributeLevel_SessionAndMedia
  | Attribute_Crypto => .ok AttributeLevel_Media
  | Attribute_Setup => .ok AttributeLevel_SessionAndMedia
  | Attribute_MID => .ok AttributeLevel_Media
  | Attribute_Extmap => .ok AttributeLevel_SessionAndMedia
  | Attribute_SendRecv => .ok AttributeLevel_SessionAndMedia
  | Attribute_SendOnly => .ok AttributeLevel_SessionAndMedia
  | Attribute_RecvOnly => .ok AttributeLevel_SessionAndMedia
  | Attribute_Inactive => .ok AttributeLevel_SessionAndMedia
  | Attribute_RTPMap => .ok AttributeLevel_Media
  | Attirbute_FMTP => .ok AttributeLevel_MediaAndSource
  | Attribute_RTCP => .ok AttributeLevel_Media
  | Attribute_RTCPMux => .ok AttributeLevel_Media
  | Attribute_RTCPFB => .ok AttributeLevel_Media
  | Attribute_RTCPRSize => .ok AttributeLevel_Media
  | Attribute_PTime => .ok AttributeLevel_Media
  | Attribute_MaxPTime => .ok AttributeLevel_Media
  | Attribute_SSRC => .ok AttributeLevel_Media
  | Attribute_SSRCGroup => .ok AttributeLevel_Media
  | Attribute_Simulcast => .ok AttributeLevel_Media
  | Attribute_RID => .ok AttributeLevel_Media
  | Attribute_SCTPPort => .ok AttributeLevel_Media
  | Attribute_MaxMessageSize => .ok AttributeLevel_Media

/-- The function `ISDPTypes::supportedAtLevel(AttributeLevels, LineTypes)`:
`0 != (allowedLevels & currentLevel)`. -/
def LineTypes.supportedAtLevel (currentLevel : AttributeLevels) (lineType : LineTypes) :
    Except SDPError Bool :=
  match lineType.getAttributeLevel with
  | .error e => .error e
  | .ok allowedLevels => .ok (decide (allowedLevels.and currentLevel ≠ 0))

/-- The function `ISDPTypes::supportedAtLevel(AttributeLevels, Attributes)`:
`0 != (allowedLevels & currentLevel)`. -/
def Attributes.supportedAtLevel (currentLevel : AttributeLevels) (attr : Attributes) :
    Except SDPError Bool :=
  match attr.getAttributeLevel with
  | .error e => .error e
  | .ok allowedLevels => .ok (decide (allowedLevels.and currentLevel ≠ 0))

/-- The enumeration `ISDPTypes::Locations`. -/
inductive Locations
  | Location_Local
  | Location_Remote
  deriving DecidableEq, Repr

open Locations

/-- The enumeration `ISDPTypes::Directions`. -/
inductive Directions
  | Direction_None
  | Direction_Send
  | Direction_Receive
  | Direction_SendReceive
  deriving DecidableEq, Repr

open Directions

/-- Modelled from the spec: the header that gives the enumerators of
`Directions` their values is not among the sources. Sections 3.2 and 4.7.5
describe a direction as the set of the bits `send` and `recv` it contains,
`none` containing neither and `sendrecv` both. -/
def Directions.toNat : Directions → Nat
  | Direction_None => 0
  | Direction_Send => 1
  | Direction_Receive => 2
  | Direction_SendReceive => 3

/-- The expression `a & b` of the source on two directions. -/
def Directions.and (a b : Directions) : Nat :=
  a.toNat &&& b.toNat

/-- The enumeration `ISDPTypes::ActorRoles`. -/
inductive ActorRoles
  | ActorRole_Sender
  | ActorRole_Receiver
  | ActorRole_Transceiver
  deriving DecidableEq, Repr

open ActorRoles

/-- The function `ISDPTypes::isApplicable`. Every case of the outer switch
holds an inner switch that returns for both locations, so no case falls
through and the throw after the switch is not reached. -/
def isApplicable (actor : ActorRoles) (location : Locations) (direction : Directions) : Bool :=
  match actor with
  | ActorRole_Sender =>
    match location with
    | Location_Local => decide (0 ≠ Direction_Send.and direction)
    | Location_Remote => decide (0 ≠ Direction_Receive.and direction)
  | ActorRole_Receiver =>
    match location with
    | Location_Local => decide (0 ≠ Direction_Receive.and direction)
    | Location_Remote => decide (0 ≠ Direction_Send.and direction)
  | ActorRole_Transceiver =>
    match location with
    | Location_Local => decide (0 ≠ Direction_SendReceive.and direction)
    | Location_Remote => decide (0 ≠ Direction_SendReceive.and direction)

/-! ## Helpers that live outside the repository -/

/-- Modelled from the spec: `zsLib::String::trim` is not among the sources.
Section 4.4 has leading and trailing whitespace trimmed: the string without
its leading and its trailing `isspace` characters. -/
def trim (str : List Char) : List Char :=
  ((str.dropWhile isspace).reverse.dropWhile isspace).reverse

/-- The value of a string of decimal digits read most significant digit
first. -/
def digitsValue (digits : List Char) : Nat :=
  digits.foldl (fun acc c => acc * 10 + (c.toNat - '0'.toNat)) 0

/-- Modelled from the spec: `zsLib::Numeric<T>` is not among the sources.
Section 4.4 has a numeric field parsed at the width of its type and the
parse fail on overflow or underflow: for an unsigned type of `bits` bits, a
string whose trimmed text is a non-empty run of decimal digits denoting a
value below `2 ^ bits` converts to that value and every other string makes
the conversion throw `ValueOutOfRange` (here `none`). -/
def Numeric (bits : Nat) (str : List Char) : Option Nat :=
  let digits := trim str
  if digits ≠ [] ∧ digits.all Char.isDigit ∧ digitsValue digits < 2 ^ bits then
    some (digitsValue digits)
  else
    none

/-- The test `0 == a.compareNoCase(b)`. Modelled from the spec:
`zsLib::String::compareNoCase` is not among the sources; section 6.1 has the
direction and role tokens compared without regard to case. -/
def equalNoCase (a b : List Char) : Bool :=
  a.map Char.toLower == b.map Char.toLower

/-- The type `UseServicesHelper::SplitMap`, a `std::map` from index to
string, as the list of its entries in key order. -/
abbrev SplitMap := List (Nat × List Char)

/-- The member `size()` of a split map. -/
def SplitMap.size (m : SplitMap) : Nat := m.length

/-- The value of `m[index]`: the string stored under the key and, as for every
`std::map`, an empty string when the key is absent. -/
def SplitMap.get (m : SplitMap) (index : Nat) : List Char :=
  match m.lookup index with
  | some value => value
  | none => []

/-- The split map after the expression `m[index]` has been evaluated: a
`std::map` inserts an empty string under a key that was absent. -/
def SplitMap.touch : SplitMap → Nat → SplitMap
  | [], index => [(index, [])]
  | (key, value) :: rest, index =>
    if index = key then (key, value) :: rest
    else if index < key then (index, []) :: (key, value) :: rest
    else (key, value) :: SplitMap.touch rest index

/-- The strings of a split map in key order, as a loop from `begin()` to
`end()` over `(*iter).second` meets them. -/
def SplitMap.values (m : SplitMap) : List (List Char) :=
  m.map Prod.snd

/-- The pieces of a string between the occurrences of a separator. -/
def splitPieces (sep : Char) : List Char → List (List Char)
  | [] => [[]]
  | c :: rest =>
    match splitPieces sep rest with
    | [] => [[c]]
    | piece :: pieces => if c = sep then [] :: piece :: pieces else (c :: piece) :: pieces

/-- Modelled from the spec: `UseServicesHelper::split` is not among the
sources. Section 4.4 has a value split at a separator: an empty input gives
no entry, any other input gives its pieces between the separators under the
keys 0, 1, 2, ... -/
def split (input : List Char) (sep : Char) : SplitMap :=
  if input = [] then [] else (splitPieces sep input).enum

/-- Modelled from the spec: `UseServicesHelper::splitTrim` is not among the
sources; section 4.4 has every field trimmed. -/
def splitTrim (m : SplitMap) : SplitMap :=
  m.map (fun entry => (entry.1, trim entry.2))

/-- Modelled from the spec: `UseServicesHelper::splitPruneEmpty` is not among
the sources; section 4.4 has consecutive separators collapse: the empty
strings are removed and the others are numbered again from 0. -/
def splitPruneEmpty (m : SplitMap) : SplitMap :=
  ((m.filter (fun entry => entry.2 ≠ [])).map Prod.snd).enum

/-- The function `ISDPTypes::toString(Directions)`. -/
def Directions.toString : Directions → List Char
  | Direction_None => "inactive".toList
  | Direction_Send => "send".toList
  | Direction_Receive => "recv".toList
  | Direction_SendReceive => "sendrecv".toList

/-- The loop of `ISDPTypes::toDirection` over the table `check`. Its bound is
`index <= sizeof(check)/sizeof(check[0])`, so that after the four entries the
loop reads `check[4]`, past the end of the table; whatever is read there, no
direction is returned (an enumerator names one of the four strings already
compared, any other value makes `toString` throw). -/
def toDirectionLoop (str : List Char) : List Directions → Except SDPError Directions
  | [] => .error .UndefinedBehaviour
  | check :: rest =>
    if equalNoCase str check.toString then .ok check else toDirectionLoop str rest

/-- The function `ISDPTypes::toDirection(const char *)`. -/
def toDirection (direction : List Char) : Except SDPError Directions :=
  if direction = [] then .ok Direction_None
  else toDirectionLoop direction
    [Direction_Send, Direction_Receive, Direction_SendReceive, Direction_None]

/-- The function `ISDPTypes::isValid`. -/
def isValid (direction : Directions) (allowNone allowSend allowReceive allowSendReceive : Bool) :
    Bool :=
  if !allowNone && direction = Direction_None then false
  else if !allowSend && direction = Direction_Send then false
  else if !allowReceive && direction = Direction_Receive then false
  else if !allowSendReceive && direction = Direction_SendReceive then false
  else true

/-- The enumeration `ISDPTypes::ProtocolTypes`. -/
inductive ProtocolTypes
  | ProtocolType_Unknown
  | ProtocolType_RTP
  | ProtocolType_SCTP
  deriving DecidableEq, Repr

open ProtocolTypes

/-- The function `ISDPTypes::toString(ProtocolTypes)`. -/
def ProtocolTypes.toString : ProtocolTypes → List Char
  | ProtocolType_Unknown => "".toList
  | ProtocolType_RTP => "UDP/TLS/RTP/SAVPF".toList
  | ProtocolType_SCTP => "UDP/DTLS/SCTP".toList

/-- The function `ISDPTypes::toProtocolType`. -/
def toProtocolType (proto : List Char) : Except SDPError ProtocolTypes :=
  let protoSplit := split proto '/'
  if protoSplit.size < 2 then .error .InvalidParameters
  else if equalNoCase (protoSplit.get 0) "RTP".toList then
    if equalNoCase (protoSplit.get 1) "AVP".toList then .ok ProtocolType_RTP
    else if equalNoCase (protoSplit.get 1) "SAVP".toList then .ok ProtocolType_RTP
    else if equalNoCase (protoSplit.get 1) "AVPF".toList then .ok ProtocolType_RTP
    else if equalNoCase (protoSplit.get 1) "SAVPF".toList then .ok ProtocolType_RTP
    else .ok ProtocolType_Unknown
  else if equalNoCase (protoSplit.get 0) "DTLS".toList then
    if equalNoCase (protoSplit.get 1) "SCTP".toList then .ok ProtocolType_SCTP
    else .ok ProtocolType_Unknown
  else if protoSplit.size < 3 then .ok ProtocolType_Unknown
  else if !equalNoCase (protoSplit.get 0) "UDP".toList
      && !equalNoCase (protoSplit.get 0) "TCP".toList then .ok ProtocolType_Unknown
  else if equalNoCase (protoSplit.get 1) "DTLS".toList then
    if !equalNoCase (protoSplit.get 2) "SCTP".toList then .ok ProtocolType_Unknown
    else .ok ProtocolType_Unknown
  else if protoSplit.size < 4 then .ok ProtocolType_Unknown
  else if equalNoCase (protoSplit.get 3) "SAVP".toList then .ok ProtocolType_RTP
  else if equalNoCase (protoSplit.get 3) "SAVPF".toList then .ok ProtocolType_RTP
  else .ok ProtocolType_Unknown

/-- The function `ISDPTypes::toString(AttributeLevels)`. -/
def AttributeLevels.toString : AttributeLevels → List Char
  | AttributeLevel_None => "none".toList
  | AttributeLevel_Session => "session".toList
  | AttributeLevel_Media => "media".toList
  | AttributeLevel_Source => "source".toList
  | AttributeLevel_SessionAndMedia => "session+media".toList
  | AttributeLevel_SessionAndSource => "session+source".toList
  | AttributeLevel_MediaAndSource => "media+source".toList
  | AttributeLevel_All => "all".toList

/-- The loop `for (size_t index = 0; AttributeLevel_None != check[index];
++index)` of `ISDPTypes::toAttributeLevel` over the table `check`: it ends at
the entry `AttributeLevel_None`, after which the function throws. The table
of the source ends in that entry, so that the loop does not read past it. -/
def toAttributeLevelLoop (str : List Char) : List AttributeLevels → Except SDPError AttributeLevels
  | [] => .error .UndefinedBehaviour
  | check :: rest =>
    if AttributeLevel_None = check then .error .InvalidParameters
    else if equalNoCase str check.toString then .ok check
    else toAttributeLevelLoop str rest

/-- The function `ISDPTypes::toAttributeLevel`, with the table `check` of the
source: its seventh entry is `AttributeLevel_MediaAndSource`, as its sixth
is, and `AttributeLevel_All` is not among the entries. -/
def toAttributeLevel (level : List Char) : Except SDPError AttributeLevels :=
  toAttributeLevelLoop level
    [AttributeLevel_Session, AttributeLevel_Media, AttributeLevel_Source,
     AttributeLevel_SessionAndMedia, AttributeLevel_SessionAndSource,
     AttributeLevel_MediaAndSource, AttributeLevel_MediaAndSource, AttributeLevel_None]

/-! ## Typed line values -/

/-- The typed value `ISDPTypes::VLine`; `mVersion` is a `ULONGLONG`. -/
structure VLine where
  mVersion : Nat
  deriving DecidableEq, Repr

/-- The constructor `ISDPTypes::VLine::VLine(const char *value)`. -/
def VLine.VLine (value : List Char) : Except SDPError VLine :=
  let str := trim value
  match Numeric 64 str with
  | none => .error .InvalidParameters
  | some mVersion =>
    if 0 ≠ mVersion then .error .InvalidParameters
    else .ok { mVersion := mVersion }

/-- The pattern `try { field = Numeric<T>(str); } catch (const
Numeric<T>::ValueOutOfRange &) { ORTC_THROW_INVALID_PARAMETERS(...) }` of the
line constructors, for an unsigned `T` of `bits` bits. Modelled from the
spec: the header that declares the fields is not among the sources; the width
of every numeric field is the one section 3.2 gives it. -/
def numericField (bits : Nat) (str : List Char) : Except SDPError Nat :=
  match Numeric bits str with
  | some value => .ok value
  | none => .error .InvalidParameters

/-- The statement `ORTC_THROW_INVALID_PARAMETERS_IF(condition)`. -/
def throwInvalidParametersIf (condition : Bool) : Except SDPError Unit :=
  if condition then .error .InvalidParameters else .ok ()

/-- A pointer `MLinePtr`: the position of the media line among the `MLine`
objects that `parseLinesDetails` has created, `none` for the null pointer. -/
abbrev MLinePtr := Option Nat

/-- A pointer `ASSRCLinePtr`: the position of the line among the `ASSRCLine`
objects that `parseLinesDetails` has created, `none` for the null pointer. -/
abbrev ASSRCLinePtr := Option Nat

/-- The typed value `ISDPTypes::OLine`. -/
structure OLine where
  mUsername : List Char := []
  mSessionID : Nat := 0
  mSessionVersion : Nat := 0
  mNetType : List Char := []
  mAddrType : List Char := []
  mUnicastAddress : List Char := []
  deriving DecidableEq, Repr

/-- The constructor `ISDPTypes::OLine::OLine(const char *value)`. -/
def OLine.OLine (value : List Char) : Except SDPError OLine := do
  let split := splitPruneEmpty (split value ' ')
  throwInvalidParametersIf (6 ≠ split.size)
  let mSessionID ← numericField 64 (split.get 1)
  let mSessionVersion ← numericField 64 (split.get 2)
  pure { mUsername := split.get 0, mNetType := split.get 3, mAddrType := split.get 4,
         mUnicastAddress := split.get 5, mSessionID := mSessionID,
         mSessionVersion := mSessionVersion }

/-- The typed value `ISDPTypes::SLine`. -/
structure SLine where
  mSessionName : List Char := []
  deriving DecidableEq, Repr

/-- The constructor `ISDPTypes::SLine::SLine(const char *value)`. -/
def SLine.SLine (value : List Char) : Except SDPError SLine :=
  .ok { mSessionName := value }

/-- The typed value `ISDPTypes::BLine`. -/
structure BLine where
  mMLine : MLinePtr := none
  mBWType : List Char := []
  mBandwidth : Nat := 0
  deriving DecidableEq, Repr

/-- The constructor `ISDPTypes::BLine::BLine(MLinePtr, const char *value)`.
The value is split at `:` into exactly two strings and the bandwidth is read
from `split[2]`. -/
def BLine.BLine (mline : MLinePtr) (value : List Char) : Except SDPError BLine := do
  let split := splitPruneEmpty (splitTrim (split value ':'))
  throwInvalidParametersIf (2 ≠ split.size)
  let mBandwidth ← numericField 64 (split.get 2)
  pure { mMLine := mline, mBWType := split.get 0, mBandwidth := mBandwidth }

/-- The typed value `ISDPTypes::TLine`. -/
structure TLine where
  mStartTime : Nat := 0
  mEndTime : Nat := 0
  deriving DecidableEq, Repr

/-- The constructor `ISDPTypes::TLine::TLine(const char *value)`. -/
def TLine.TLine (value : List Char) : Except SDPError TLine := do
  let split := splitPruneEmpty (split value ' ')
  throwInvalidParametersIf (2 ≠ split.size)
  let mStartTime ← numericField 64 (split.get 0)
  let mEndTime ← numericField 64 (split.get 1)
  pure { mStartTime := mStartTime, mEndTime := mEndTime }

/-- The typed value `ISDPTypes::CLine`. -/
structure CLine where
  mMLine : MLinePtr := none
  mNetType : List Char := []
  mAddrType : List Char := []
  mConnectionAddress : List Char := []
  deriving DecidableEq, Repr

/-- The constructor `ISDPTypes::CLine::CLine(MLinePtr, const char *value)`. -/
def CLine.CLine (mline : MLinePtr) (value : List Char) : Except SDPError CLine := do
  let split := splitPruneEmpty (split value ' ')
  throwInvalidParametersIf (3 ≠ split.size)
  pure { mMLine := mline, mNetType := split.get 0, mAddrType := split.get 1,
         mConnectionAddress := split.get 2 }

/-- The typed value `ISDPTypes::AGroupLine`. -/
structure AGroupLine where
  mSemantic : List Char := []
  mIdentificationTags : List (List Char) := []
  deriving DecidableEq, Repr

/-- The constructor `ISDPTypes::AGroupLine::AGroupLine(const char *value)`. -/
def AGroupLine.AGroupLine (value : List Char) : Except SDPError AGroupLine := do
  let split := splitPruneEmpty (split value ' ')
  throwInvalidParametersIf (split.size < 1)
  pure { mSemantic := split.get 0, mIdentificationTags := split.values.drop 1 }

/-- The typed value `ISDPTypes::AMediaFlagLine`. Modelled from the spec: its
constructor is in the header, which is not among the sources; the flag lines
of section 4.5 refer to a media line and carry nothing else. -/
structure AMediaFlagLine where
  mMLine : MLinePtr := none
  deriving DecidableEq, Repr

/-- The typed value `ISDPTypes::AMSIDLine`. -/
structure AMSIDLine where
  mMLine : MLinePtr := none
  mID : List Char := []
  mAppData : List Char := []
  deriving DecidableEq, Repr

/-- The constructor `ISDPTypes::AMSIDLine::AMSIDLine(MLinePtr, const char *value)`. -/
def AMSIDLine.AMSIDLine (mline : MLinePtr) (value : List Char) : Except SDPError AMSIDLine := do
  let split := splitPruneEmpty (split value ' ')
  throwInvalidParametersIf (split.size < 1)
  throwInvalidParametersIf (split.size > 2)
  pure { mMLine := mline, mID := split.get 0,
         mAppData := if split.size > 1 then split.get 1 else [] }

/-- The typed value `ISDPTypes::AMSIDSemanticLine`. Modelled from the spec: the
class and its constructor are in the header, which is not among the sources,
and section 3.2 gives the line no field; the line keeps its value and its
construction does not fail. -/
structure AMSIDSemanticLine where
  mValue : List Char := []
  deriving DecidableEq, Repr

/-- The typed value `ISDPTypes::AICEUFragLine`. -/
structure AICEUFragLine where
  mMLine : MLinePtr := none
  mICEUFrag : List Char := []
  deriving DecidableEq, Repr

/-- The constructor `ISDPTypes::AICEUFragLine::AICEUFragLine`. -/
def AICEUFragLine.AICEUFragLine (mline : MLinePtr) (value : List Char) : AICEUFragLine :=
  { mMLine := mline, mICEUFrag := trim value }

/-- The typed value `ISDPTypes::AICEPwdLine`. -/
structure AICEPwdLine where
  mMLine : MLinePtr := none
  mICEPwd : List Char := []
  deriving DecidableEq, Repr

/-- The constructor `ISDPTypes::AICEPwdLine::AICEPwdLine`. -/
def AICEPwdLine.AICEPwdLine (mline : MLinePtr) (value : List Char) : AICEPwdLine :=
  { mMLine := mline, mICEPwd := trim value }

/-- The typed value `ISDPTypes::AICEOptionsLine`. -/
structure AICEOptionsLine where
  mTags : List (List Char) := []
  deriving DecidableEq, Repr

/-- The constructor `ISDPTypes::AICEOptionsLine::AICEOptionsLine`. -/
def AICEOptionsLine.AICEOptionsLine (value : List Char) : Except SDPError AICEOptionsLine := do
  let split := splitPruneEmpty (splitTrim (split value ' '))
  throwInvalidParametersIf (split.size < 1)
  pure { mTags := split.values }

/-- The typed value `ISDPTypes::ACandidateLine`. -/
structure ACandidateLine where
  mMLine : MLinePtr := none
  mFoundation : List Char := []
  mComponentID : Nat := 0
  mTransport : List Char := []
  mPriority : Nat := 0
  mConnectionAddress : List Char := []
  mPort : Nat := 0
  mTyp : List Char := []
  mCandidateType : List Char := []
  mRelAddr : List Char := []
  mRelPort : Option Nat := none
  mExtensionPairs : List (List Char × List Char) := []
  deriving DecidableEq, Repr

/-- The loop `for (auto index = 10; index < split.size(); index += 2)` of the
candidate constructor, over the strings from index 10 on; it is entered only
when their number is even. -/
def extensionPairs : List (List Char) → List (List Char × List Char)
  | name :: value :: rest => (name, value) :: extensionPairs rest
  | [name] => [(name, [])]
  | [] => []

/-- The constructor `ISDPTypes::ACandidateLine::ACandidateLine`. The related
address is read from `split[9]`, which inserts an empty ninth string when the
value has nine fields, before the size test that guards the related port. -/
def ACandidateLine.ACandidateLine (mline : MLinePtr) (value : List Char) :
    Except SDPError ACandidateLine := do
  let split := splitPruneEmpty (splitTrim (split value ' '))
  throwInvalidParametersIf (split.size < 8)
  throwInvalidParametersIf (decide (split.size > 10) && decide (0 ≠ split.size % 2))
  let mComponentID ← numericField 32 (split.get 1)
  let mPriority ← numericField 64 (split.get 3)
  let mPort ← numericField 16 (split.get 5)
  let mTyp := split.get 6
  throwInvalidParametersIf (!equalNoCase mTyp "typ".toList)
  let mRelAddr := if split.size > 8 then split.get 9 else []
  let split := if split.size > 8 then split.touch 9 else split
  let mRelPort ← if split.size > 9 then (numericField 16 (split.get 9)).map some else pure none
  pure { mMLine := mline, mFoundation := split.get 0, mComponentID := mComponentID,
         mTransport := split.get 2, mPriority := mPriority,
         mConnectionAddress := split.get 4, mPort := mPort, mTyp := mTyp,
         mCandidateType := split.get 7, mRelAddr := mRelAddr, mRelPort := mRelPort,
         mExtensionPairs :=
           if split.size > 10 then extensionPairs (split.values.drop 10) else [] }

/-- The typed value `ISDPTypes::AFingerprintLine`. -/
structure AFingerprintLine where
  mMLine : MLinePtr := none
  mHashFunc : List Char := []
  mFingerprint : List Char := []
  deriving DecidableEq, Repr

/-- The constructor `ISDPTypes::AFingerprintLine::AFingerprintLine`. -/
def AFingerprintLine.AFingerprintLine (mline : MLinePtr) (value : List Char) :
    Except SDPError AFingerprintLine := do
  let split := splitPruneEmpty (splitTrim (split value ' '))
  throwInvalidParametersIf (2 ≠ split.size)
  pure { mMLine := mline, mHashFunc := split.get 0, mFingerprint := split.get 1 }

/-- The typed value `ISDPTypes::ACryptoLine`. -/
structure ACryptoLine where
  mMLine : MLinePtr := none
  mTag : Nat := 0
  mCryptoSuite : List Char := []
  mKeyParams : List (List Char × List Char) := []
  mSessionParams : List (List Char) := []
  deriving DecidableEq, Repr

/-- The loop of the crypto constructor over the key parameters. -/
def cryptoKeyParams : List (List Char) → Except SDPError (List (List Char × List Char))
  | [] => .ok []
  | keyParam :: rest => do
    let keyMethodInfoSplit := splitPruneEmpty (splitTrim (split keyParam ':'))
    throwInvalidParametersIf (2 ≠ keyMethodInfoSplit.size)
    let others ← cryptoKeyParams rest
    pure ((keyMethodInfoSplit.get 0, keyMethodInfoSplit.get 1) :: others)

/-- The constructor `ISDPTypes::ACryptoLine::ACryptoLine`. -/
def ACryptoLine.ACryptoLine (mline : MLinePtr) (value : List Char) :
    Except SDPError ACryptoLine := do
  let split := splitPruneEmpty (splitTrim (split value ' '))
  throwInvalidParametersIf (split.size < 3)
  let mTag ← numericField 64 (split.get 0)
  let keyParamsSplit := splitPruneEmpty (splitTrim (OrtcSDP.split (split.get 2) ';'))
  throwInvalidParametersIf (keyParamsSplit.size < 1)
  let mKeyParams ← cryptoKeyParams keyParamsSplit.values
  pure { mMLine := mline, mTag := mTag, mCryptoSuite := split.get 1, mKeyParams := mKeyParams,
         mSessionParams := split.values.drop 3 }

/-- The typed value `ISDPTypes::ASetupLine`. -/
structure ASetupLine where
  mMLine : MLinePtr := none
  mSetup : List Char := []
  deriving DecidableEq, Repr

/-- The constructor `ISDPTypes::ASetupLine::ASetupLine`. -/
def ASetupLine.ASetupLine (mline : MLinePtr) (value : List Char) : ASetupLine :=
  { mMLine := mline, mSetup := trim value }

/-- The typed value `ISDPTypes::AMIDLine`. -/
structure AMIDLine where
  mMLine : MLinePtr := none
  mMID : List Char := []
  deriving DecidableEq, Repr

/-- The constructor `ISDPTypes::AMIDLine::AMIDLine`. -/
def AMIDLine.AMIDLine (mline : MLinePtr) (value : List Char) : AMIDLine :=
  { mMLine := mline, mMID := trim value }

/-- The typed value `ISDPTypes::AExtmapLine`. -/
structure AExtmapLine where
  mMLine : MLinePtr := none
  mID : Nat := 0
  mDirection : Directions := Direction_None
  mURI : List Char := []
  mExtensionAttributes : List Char := []
  deriving DecidableEq, Repr

/-- The constructor `ISDPTypes::AExtmapLine::AExtmapLine`. -/
def AExtmapLine.AExtmapLine (mline : MLinePtr) (value : List Char) :
    Except SDPError AExtmapLine := do
  let split := splitPruneEmpty (splitTrim (split value ' '))
  throwInvalidParametersIf (split.size < 2)
  let entrySplit := splitPruneEmpty (splitTrim (OrtcSDP.split (split.get 0) '/'))
  throwInvalidParametersIf (entrySplit.size < 1)
  let mID ← numericField 32 (entrySplit.get 0)
  let mDirection ←
    if entrySplit.size > 1 then do
      let direction ← toDirection (entrySplit.get 1)
      throwInvalidParametersIf (!isValid direction false true true true)
      pure direction
    else pure Direction_SendReceive
  pure { mMLine := mline, mID := mID, mDirection := mDirection, mURI := split.get 1,
         mExtensionAttributes := if split.size > 2 then split.get 2 else [] }

/-- The typed value `ISDPTypes::AMediaDirectionLine`. -/
structure AMediaDirectionLine where
  mMLine : MLinePtr := none
  mDirection : Directions := Direction_None
  deriving DecidableEq, Repr

/-- The constructor `ISDPTypes::AMediaDirectionLine::AMediaDirectionLine`. -/
def AMediaDirectionLine.AMediaDirectionLine (mline : MLinePtr) (value : List Char) :
    Except SDPError AMediaDirectionLine := do
  let str := trim value
  let mDirection ← toDirection str
  throwInvalidParametersIf (!isValid mDirection true true true true)
  pure { mMLine := mline, mDirection := mDirection }

/-- The typed value `ISDPTypes::ARTPMapLine`. -/
structure ARTPMapLine where
  mMLine : MLinePtr := none
  mPayloadType : Nat := 0
  mEncodingName : List Char := []
  mClockRate : Nat := 0
  mEncodingParameters : Option Nat := none
  deriving DecidableEq, Repr

/-- The constructor `ISDPTypes::ARTPMapLine::ARTPMapLine`. The clock rate is
read from `encodingSplit[0]` and the encoding parameters from
`encodingSplit[1]`; the encoding name is not assigned. -/
def ARTPMapLine.ARTPMapLine (mline : MLinePtr) (value : List Char) :
    Except SDPError ARTPMapLine := do
  let split := splitPruneEmpty (splitTrim (split value ' '))
  throwInvalidParametersIf (2 ≠ split.size)
  let mPayloadType ← numericField 8 (split.get 0)
  let encodingSplit := splitPruneEmpty (splitTrim (OrtcSDP.split (split.get 1) '/'))
  throwInvalidParametersIf (encodingSplit.size < 1)
  let mClockRate ← numericField 32 (encodingSplit.get 0)
  let mEncodingParameters ←
    if encodingSplit.size > 1 then (numericField 32 (encodingSplit.get 1)).map some
    else pure none
  pure { mMLine := mline, mPayloadType := mPayloadType, mClockRate := mClockRate,
         mEncodingParameters := mEncodingParameters }

/-- The typed value `ISDPTypes::AFMTPLine`. -/
structure AFMTPLine where
  mMLine : MLinePtr := none
  mSourceLine : ASSRCLinePtr := none
  mFormat : Nat := 0
  mFormatSpecific : List (List Char) := []
  deriving DecidableEq, Repr

/-- The constructor `ISDPTypes::AFMTPLine::AFMTPLine`. -/
def AFMTPLine.AFMTPLine (mline : MLinePtr) (sourceLine : ASSRCLinePtr) (value : List Char) :
    Except SDPError AFMTPLine := do
  let split := splitPruneEmpty (splitTrim (split value ' '))
  throwInvalidParametersIf (2 ≠ split.size)
  let mFormat ← numericField 8 (split.get 0)
  pure { mMLine := mline, mSourceLine := sourceLine, mFormat := mFormat,
         mFormatSpecific := split.values }

/-- The typed value `ISDPTypes::ARTCPLine`. -/
structure ARTCPLine where
  mMLine : MLinePtr := none
  mPort : Nat := 0
  mNetType : List Char := []
  mAddrType : List Char := []
  mConnectionAddress : List Char := []
  deriving DecidableEq, Repr

/-- The constructor `ISDPTypes::ARTCPLine::ARTCPLine`. -/
def ARTCPLine.ARTCPLine (mline : MLinePtr) (value : List Char) : Except SDPError ARTCPLine := do
  let split := splitPruneEmpty (splitTrim (split value ' '))
  throwInvalidParametersIf (split.size < 1)
  let mPort ← numericField 16 (split.get 0)
  if split.size > 1 then do
    throwInvalidParametersIf (4 ≠ split.size)
    pure { mMLine := mline, mPort := mPort, mNetType := split.get 1, mAddrType := split.get 2,
           mConnectionAddress := split.get 3 }
  else pure { mMLine := mline, mPort := mPort }

/-- The typed value `ISDPTypes::ARTCPFBLine`. -/
structure ARTCPFBLine where
  mMLine : MLinePtr := none
  mPayloadType : Option Nat := none
  mID : List Char := []
  mParam1 : List Char := []
  mParam2 : List Char := []
  deriving DecidableEq, Repr

/-- The constructor `ISDPTypes::ARTCPFBLine::ARTCPFBLine`. The first parameter
is read from `split[2]` under the test `split.size() > 1` and the second from
`split[3]` under the test `split.size() > 2`, each read inserting an empty
string when the index is absent. -/
def ARTCPFBLine.ARTCPFBLine (mline : MLinePtr) (value : List Char) :
    Except SDPError ARTCPFBLine := do
  let split := splitPruneEmpty (splitTrim (split value ' '))
  throwInvalidParametersIf (split.size < 2)
  throwInvalidParametersIf (split.size > 4)
  let mPayloadType ←
    if split.get 0 ≠ "*".toList then (numericField 8 (split.get 0)).map some else pure none
  let mID := split.get 1
  let mParam1 := if split.size > 1 then split.get 2 else []
  let split := if split.size > 1 then split.touch 2 else split
  let mParam2 := if split.size > 2 then split.get 3 else []
  pure { mMLine := mline, mPayloadType := mPayloadType, mID := mID, mParam1 := mParam1,
         mParam2 := mParam2 }

/-- The typed value `ISDPTypes::APTimeLine`, in milliseconds. -/
structure APTimeLine where
  mMLine : MLinePtr := none
  mPTime : Nat := 0
  deriving DecidableEq, Repr

/-- The constructor `ISDPTypes::APTimeLine::APTimeLine`. -/
def APTimeLine.APTimeLine (mline : MLinePtr) (value : List Char) : Except SDPError APTimeLine := do
  let mPTime ← numericField 64 value
  pure { mMLine := mline, mPTime := mPTime }

/-- The typed value `ISDPTypes::AMaxPTimeLine`, in milliseconds. -/
structure AMaxPTimeLine where
  mMLine : MLinePtr := none
  mMaxPTime : Nat := 0
  deriving DecidableEq, Repr

/-- The constructor `ISDPTypes::AMaxPTimeLine::AMaxPTimeLine`. -/
def AMaxPTimeLine.AMaxPTimeLine (mline : MLinePtr) (value : List Char) :
    Except SDPError AMaxPTimeLine := do
  let mMaxPTime ← numericField 64 value
  pure { mMLine := mline, mMaxPTime := mMaxPTime }

/-- The typed value `ISDPTypes::ASSRCLine`. -/
structure ASSRCLine where
  mMLine : MLinePtr := none
  mSSRC : Nat := 0
  mAttribute : List Char := []
  mAttributeValues : List (List Char) := []
  mAFMTPLines : List AFMTPLine := []
  deriving DecidableEq, Repr

/-- The constructor `ISDPTypes::ASSRCLine::ASSRCLine`. -/
def ASSRCLine.ASSRCLine (mline : MLinePtr) (value : List Char) : Except SDPError ASSRCLine := do
  let split := splitPruneEmpty (splitTrim (split value ' '))
  throwInvalidParametersIf (split.size < 2)
  let mSSRC ← numericField 32 (split.get 0)
  pure { mMLine := mline, mSSRC := mSSRC, mAttribute := split.get 1,
         mAttributeValues := split.values.drop 2 }

/-- The typed value `ISDPTypes::ASSRCGroupLine`. -/
structure ASSRCGroupLine where
  mMLine : MLinePtr := none
  mSemantics : List Char := []
  mSSRCs : List Nat := []
  deriving DecidableEq, Repr

/-- The loop of the ssrc-group constructor over the strings from index 1 on. -/
def ssrcGroupSSRCs : List (List Char) → Except SDPError (List Nat)
  | [] => .ok []
  | str :: rest => do
    let ssrc ← numericField 32 str
    let others ← ssrcGroupSSRCs rest
    pure (ssrc :: others)

/-- The constructor `ISDPTypes::ASSRCGroupLine::ASSRCGroupLine`. -/
def ASSRCGroupLine.ASSRCGroupLine (mline : MLinePtr) (value : List Char) :
    Except SDPError ASSRCGroupLine := do
  let split := splitPruneEmpty (splitTrim (split value ' '))
  throwInvalidParametersIf (split.size < 2)
  let mSSRCs ← ssrcGroupSSRCs (split.values.drop 1)
  pure { mMLine := mline, mSemantics := split.get 0, mSSRCs := mSSRCs }

/-- The typed value `ISDPTypes::ARIDLine`. -/
structure ARIDLine where
  mMLine : MLinePtr := none
  mID : List Char := []
  mDirection : Directions := Direction_None
  mParams : List (List Char × List Char) := []
  mPayloadTypes : List Nat := []
  deriving DecidableEq, Repr

/-- The inner loop of the rid constructor over `payloadTypeSplit`: every round
reads `(*iter).second`, the string of the outer loop (the whole parameter),
and not the string of the inner iterator. -/
def ridPayloadTypes (param : List Char) : List (List Char) → Except SDPError (List Nat)
  | [] => .ok []
  | _ptStr :: rest => do
    let pt ← numericField 8 param
    let others ← ridPayloadTypes param rest
    pure (pt :: others)

/-- The outer loop of the rid constructor over `ridParamSplit`; the test
`if (keyValueSplit[0].compare("pt"))` holds when the key differs from `pt`. -/
def ridParams : List (List Char) →
    Except SDPError (List (List Char × List Char) × List Nat)
  | [] => .ok ([], [])
  | param :: rest => do
    let keyValueSplit := splitPruneEmpty (splitTrim (split param '='))
    throwInvalidParametersIf (keyValueSplit.size < 1)
    if keyValueSplit.get 0 ≠ "pt".toList then do
      throwInvalidParametersIf (keyValueSplit.size < 2)
      let payloadTypeSplit := splitPruneEmpty (splitTrim (split (keyValueSplit.get 1) ','))
      throwInvalidParametersIf (payloadTypeSplit.size < 1)
      let pts ← ridPayloadTypes param payloadTypeSplit.values
      let (params, others) ← ridParams rest
      pure (params, pts ++ others)
    else do
      let (params, others) ← ridParams rest
      pure ((keyValueSplit.get 0,
             if keyValueSplit.size > 1 then keyValueSplit.get 1 else []) :: params, others)

/-- The constructor `ISDPTypes::ARIDLine::ARIDLine`. -/
def ARIDLine.ARIDLine (mline : MLinePtr) (value : List Char) : Except SDPError ARIDLine := do
  let split := splitPruneEmpty (splitTrim (split value ' '))
  throwInvalidParametersIf (split.size < 3)
  let mDirection ← toDirection (split.get 1)
  throwInvalidParametersIf (!isValid mDirection false true true false)
  let ridParamSplit := splitPruneEmpty (splitTrim (OrtcSDP.split (split.get 2) ';'))
  throwInvalidParametersIf (ridParamSplit.size < 1)
  let (mParams, mPayloadTypes) ← ridParams ridParamSplit.values
  pure { mMLine := mline, mID := split.get 0, mDirection := mDirection, mParams := mParams,
         mPayloadTypes := mPayloadTypes }

/-- The type `ISDPTypes::ASimulcastLine::SCID`. -/
structure SCID where
  mPaused : Bool := false
  mRID : List Char := []
  deriving DecidableEq, Repr

/-- The type `ISDPTypes::ASimulcastLine::SCValue`. -/
structure SCValue where
  mDirection : Directions := Direction_None
  mAltSCIDs : List (List SCID) := []
  deriving DecidableEq, Repr

/-- The loop of the simulcast constructor over `scidListSplit`. -/
def simulcastSCIDs (scidValues : List (List Char)) : List SCID :=
  scidValues.map (fun scidValue =>
    match scidValue with
    | c :: rest => if '~' = c then { mPaused := true, mRID := rest } else { mRID := scidValue }
    | [] => { mRID := scidValue })

/-- The loop of the simulcast constructor over `altListSplit`. -/
def simulcastAlternatives : List (List Char) → Except SDPError (List (List SCID))
  | [] => .ok []
  | altValue :: rest => do
    let scidListSplit := splitPruneEmpty (splitTrim (split altValue ','))
    throwInvalidParametersIf (scidListSplit.size < 1)
    let others ← simulcastAlternatives rest
    pure (simulcastSCIDs scidListSplit.values :: others)

/-- One round of the loop of the simulcast constructor: the direction read from
`split[index]` and the alternatives read from `split[index+1]`. -/
def simulcastValue (direction alternatives : List Char) : Except SDPError SCValue := do
  let mDirection ← toDirection direction
  throwInvalidParametersIf (!isValid mDirection false true true false)
  let altListSplit := splitPruneEmpty (splitTrim (split alternatives ';'))
  throwInvalidParametersIf (altListSplit.size < 1)
  let mAltSCIDs ← simulcastAlternatives altListSplit.values
  pure { mDirection := mDirection, mAltSCIDs := mAltSCIDs }

/-- The loop `for (size_t index = 0; index < split.size(); ++index)` of the
simulcast constructor, over the strings from `index` on. The index advances
by one, so that every string but the first is read both as alternatives and
as a direction; in the round of the last string `split[index+1]` is absent
and reads as an empty string, which has no alternative, so that this round
throws (the rounds after it are not reached). -/
def simulcastValues : List (List Char) → Except SDPError (List SCValue)
  | [] => .ok []
  | [direction] => do
    let _ ← simulcastValue direction []
    .error .InvalidParameters
  | direction :: alternatives :: rest => do
    let scValue ← simulcastValue direction alternatives
    let others ← simulcastValues (alternatives :: rest)
    pure (scValue :: others)

/-- The typed value `ISDPTypes::ASimulcastLine`. -/
structure ASimulcastLine where
  mMLine : MLinePtr := none
  mValues : List SCValue := []
  deriving DecidableEq, Repr

/-- The constructor `ISDPTypes::ASimulcastLine::ASimulcastLine`. -/
def ASimulcastLine.ASimulcastLine (mline : MLinePtr) (value : List Char) :
    Except SDPError ASimulcastLine := do
  let split := splitPruneEmpty (splitTrim (split value ' '))
  throwInvalidParametersIf (split.size < 2)
  throwInvalidParametersIf (0 ≠ split.size % 2)
  let mValues ← simulcastValues split.values
  pure { mMLine := mline, mValues := mValues }

/-- The typed value `ISDPTypes::ASCTPPortLine`. -/
structure ASCTPPortLine where
  mMLine : MLinePtr := none
  mPort : Nat := 0
  deriving DecidableEq, Repr

/-- The constructor `ISDPTypes::ASCTPPortLine::ASCTPPortLine`. -/
def ASCTPPortLine.ASCTPPortLine (mline : MLinePtr) (value : List Char) :
    Except SDPError ASCTPPortLine := do
  let mPort ← numericField 16 value
  pure { mMLine := mline, mPort := mPort }

/-- The typed value `ISDPTypes::AMaxMessageSizeLine`. -/
structure AMaxMessageSizeLine where
  mMLine : MLinePtr := none
  mMaxMessageSize : Nat := 0
  deriving DecidableEq, Repr

/-- The constructor `ISDPTypes::AMaxMessageSizeLine::AMaxMessageSizeLine`. -/
def AMaxMessageSizeLine.AMaxMessageSizeLine (mline : MLinePtr) (value : List Char) :
    Except SDPError AMaxMessageSizeLine := do
  let mMaxMessageSize ← numericField 64 value
  pure { mMLine := mline, mMaxMessageSize := mMaxMessageSize }

/-- The typed value `ISDPTypes::MLine`: the fields the constructor reads from
the `m=` line, the flags and the direction the flag folder sets, and the
lines the media and source folders attach. The `ssrc` lines are held by
pointer, as the source folder writes to them after they are attached. -/
structure MLine where
  mMedia : List Char := []
  mPort : Nat := 0
  mInteger : Option Nat := none
  mProtoStr : List Char := []
  mProto : ProtocolTypes := ProtocolType_Unknown
  mFmts : List (List Char) := []
  mBundleOnly : Option Bool := none
  mEndOfCandidates : Option Bool := none
  mRTCPMux : Option Bool := none
  mRTCPRSize : Option Bool := none
  mMediaDirection : Option Directions := none
  mBLines : List BLine := []
  mCLine : Option CLine := none
  mAMSIDLines : List AMSIDLine := []
  mAICEUFragLine : Option AICEUFragLine := none
  mAICEPwdLine : Option AICEPwdLine := none
  mACandidateLines : List ACandidateLine := []
  mAFingerprintLines : List AFingerprintLine := []
  mACryptoLines : List ACryptoLine := []
  mASetupLine : Option ASetupLine := none
  mAMIDLine : Option AMIDLine := none
  mAExtmapLines : List AExtmapLine := []
  mARTPMapLines : List ARTPMapLine := []
  mAFMTPLines : List AFMTPLine := []
  mARTCPLine : Option ARTCPLine := none
  mARTCPFBLines : List ARTCPFBLine := []
  mAPTimeLine : Option APTimeLine := none
  mAMaxPTimeLine : Option AMaxPTimeLine := none
  mASSRCLines : List Nat := []
  mASSRCGroupLines : List ASSRCGroupLine := []
  mASimulcastLine : Option ASimulcastLine := none
  mARIDLines : List ARIDLine := []
  mASCTPPortLine : Option ASCTPPortLine := none
  mAMaxMessageSize : Option AMaxMessageSizeLine := none
  deriving DecidableEq, Repr

/-- The constructor `ISDPTypes::MLine::MLine(const char *value)`. The formats
are copied by the loop `for (size_t index = 4; index < split.size(); ++index)`. -/
def MLine.MLine (value : List Char) : Except SDPError MLine := do
  let split := splitPruneEmpty (splitTrim (split value ' '))
  throwInvalidParametersIf (split.size < 4)
  let mProtoStr := split.get 2
  let mProto ← toProtocolType mProtoStr
  let portSplit := splitPruneEmpty (splitTrim (OrtcSDP.split (split.get 1) '/'))
  throwInvalidParametersIf (portSplit.size > 2)
  throwInvalidParametersIf (portSplit.size < 1)
  let mPort ← numericField 16 (portSplit.get 0)
  let mInteger ←
    if portSplit.size > 1 then (numericField 16 (portSplit.get 1)).map some else pure none
  pure { mMedia := split.get 0, mPort := mPort, mInteger := mInteger, mProtoStr := mProtoStr,
         mProto := mProto, mFmts := split.values.drop 4 }

/-- The typed value of a line, `info.mLineValue`: one case for each class the
source derives from `LineValue`. A media line and an `ssrc` line are held by
pointer (they are written to after their construction), every other line by
value. -/
inductive LineValue
  | vLine (line : VLine)
  | oLine (line : OLine)
  | sLine (line : SLine)
  | bLine (line : BLine)
  | tLine (line : TLine)
  | mLine (line : Nat)
  | cLine (line : CLine)
  | aGroupLine (line : AGroupLine)
  | aMediaFlagLine (line : AMediaFlagLine)
  | aMSIDLine (line : AMSIDLine)
  | aMSIDSemanticLine (line : AMSIDSemanticLine)
  | aICEUFragLine (line : AICEUFragLine)
  | aICEPwdLine (line : AICEPwdLine)
  | aICEOptionsLine (line : AICEOptionsLine)
  | aCandidateLine (line : ACandidateLine)
  | aFingerprintLine (line : AFingerprintLine)
  | aCryptoLine (line : ACryptoLine)
  | aSetupLine (line : ASetupLine)
  | aMIDLine (line : AMIDLine)
  | aExtmapLine (line : AExtmapLine)
  | aMediaDirectionLine (line : AMediaDirectionLine)
  | aRTPMapLine (line : ARTPMapLine)
  | aFMTPLine (line : AFMTPLine)
  | aRTCPLine (line : ARTCPLine)
  | aRTCPFBLine (line : ARTCPFBLine)
  | aPTimeLine (line : APTimeLine)
  | aMaxPTimeLine (line : AMaxPTimeLine)
  | aSSRCLine (line : Nat)
  | aSSRCGroupLine (line : ASSRCGroupLine)
  | aRIDLine (line : ARIDLine)
  | aSimulcastLine (line : ASimulcastLine)
  | aSCTPPortLine (line : ASCTPPortLine)
  | aMaxMessageSizeLine (line : AMaxMessageSizeLine)
  deriving DecidableEq, Repr

/-! ## SDPParser: the line list -/

/-- Modelled from the spec: the header that declares `LineTypeInfo` is not
among the sources. Section 3.1 gives a line record a line type, an attribute,
a scope and a raw value; `mValue` holds the C string that the pointer
`info.mValue` designates in the raw buffer, which `parseLines` always sets to
a position inside the buffer (it is never null). A record starts with type
and attribute unknown and scope none; `mLineValue` is the typed value that
`parseLinesDetails` attaches (`none` for the null pointer). -/
structure LineTypeInfo where
  mLineType : LineTypes := LineType_Unknown
  mAttribute : Attributes := Attribute_Unknown
  mAttributeLevel : AttributeLevels := AttributeLevel_None
  mValue : List Char := []
  mLineValue : Option LineValue := none
  deriving DecidableEq, Repr

/-- The C string found at a position of the raw buffer once `parseLines` has
run: the characters up to the next NUL, every `\r` and `\n` of the text
having been overwritten with NUL by then. -/
def lineAt (buffer : List Char) : List Char :=
  buffer.takeWhile (fun c => c != NUL && !isEOL c)

/-- The loop of `SDPParser::parseLines` from a position of the buffer, the
list being the characters of the allocation from `pos` on and `lastWasEOL`
the flag of the source. The only exit of the loop is the test
`'\0' != *pos`: it ends at the first NUL, and when it has stepped over the
last character of the allocation without meeting one, `*pos` reads past the
end of the allocation. -/
def parseLinesFrom : Bool → List Char → Except SDPError (List LineTypeInfo)
  | _, [] => .error .UndefinedBehaviour
  | lastWasEOL, c :: rest =>
    if c = NUL then .ok []
    else if isEOL c then parseLinesFrom true rest
    else if !lastWasEOL then parseLinesFrom false rest
    else if toLineType c = LineType_Unknown then parseLinesFrom false rest
    else
      match parseLinesFrom false rest with
      | .error e => .error e
      | .ok infos => .ok ({ mLineType := toLineType c, mValue := lineAt (c :: rest) } :: infos)

/-- The function `SDPParser::parseLines`, as the list `mLineInfos` it
fills from the raw buffer, given as the characters of its allocation. -/
def parseLines (mRawBuffer : List Char) : Except SDPError (List LineTypeInfo) :=
  parseLinesFrom true mRawBuffer

/-- The scan of `SDPParser::parseAttributes` once the colon has been reached:
the colon is overwritten with NUL, the white space after it is skipped, and
`attributeValue` is set when a character other than NUL is found there. The
result is the rest of the attribute name (empty, the name ended at the colon)
and `attributeValue`. -/
def parseAttributeColon (afterColon : List Char) :
    Except SDPError (List Char × Option (List Char)) :=
  let pos := afterColon.dropWhile isspace
  .ok ([], if pos ≠ [] then some pos else none)

/-- The inner `while` loop of `SDPParser::parseAttributes` over the value of
one `a=` record, the list being the characters from `pos` on. The result is
the C string left at `attributeName` when the loop ends, from `pos` on (the
characters before the first NUL written), and the local `attributeValue`
(`none` for the null pointer). -/
def parseAttributeScan : List Char → Except SDPError (List Char × Option (List Char))
  | [] => .ok ([], none)
  | c :: rest =>
    if c ≠ ':' then
      if !isspace c then
        match parseAttributeScan rest with
        | .error e => .error e
        | .ok (attributeName, attributeValue) => .ok (c :: attributeName, attributeValue)
      else
        match rest.dropWhile isspace with
        | [] => .ok ([], none)
        | d :: afterColon =>
          if ':' ≠ d then .error .InvalidParameters
          else parseAttributeColon afterColon
    else parseAttributeColon rest

/-- The test `if (info.mValue)` of `SDPParser::parseAttributes`: a test of the
pointer `mValue` against null. `parseLines` sets the pointer of every record
to a position inside the buffer and nothing resets it, so the test holds for
every record. -/
def LineTypeInfo.mValueSet (_info : LineTypeInfo) : Bool := true

/-- The body of the `for` loop of `SDPParser::parseAttributes` on one record.
The NUL written at the end of the attribute name leaves the name as the C
string at `info.mValue`; `attributeValue` is used for the log line only. -/
def parseAttribute (info : LineTypeInfo) : Except SDPError LineTypeInfo :=
  if LineType_a_Attributes ≠ info.mLineType then .ok info
  else
    match parseAttributeScan info.mValue with
    | .error e => .error e
    | .ok (attributeName, _attributeValue) =>
      let info := { info with mValue := attributeName, mAttribute := toAttribute attributeName }
      if Attribute_Unknown = info.mAttribute then .ok info
      else if info.mValueSet then
        if requiresEmptyValue info.mAttribute then .error .InvalidParameters else .ok info
      else
        if requiresValue info.mAttribute then .error .InvalidParameters else .ok info

/-- The function `SDPParser::parseAttributes` on the line list: the records
in order, the first exception ending the pass. -/
def parseAttributes : List LineTypeInfo → Except SDPError (List LineTypeInfo)
  | [] => .ok []
  | info :: rest =>
    match parseAttribute info with
    | .error e => .error e
    | .ok info =>
      match parseAttributes rest with
      | .error e => .error e
      | .ok rest => .ok (info :: rest)

/-- The level `validateAttributeLevels` moves to when it meets a record at
source level: the block `if (AttributeLevel_Source == currentLevel)`. -/
def leaveSourceLevel (currentLevel : AttributeLevels) (info : LineTypeInfo) :
    Except SDPError AttributeLevels :=
  if AttributeLevel_Source = currentLevel then
    match (if LineType_a_Attributes = info.mLineType then info.mAttribute.getAttributeLevel
           else info.mLineType.getAttributeLevel) with
    | .error e => .error e
    | .ok allowedLevels =>
      if 0 = AttributeLevel_Source.and allowedLevels then
        if 0 ≠ AttributeLevel_Media.and allowedLevels then .ok AttributeLevel_Media
        else .ok currentLevel
      else .ok currentLevel
  else .ok currentLevel

/-- The level switch at the end of the loop body of `validateAttributeLevels`. -/
def switchLevel (currentLevel : AttributeLevels) (info : LineTypeInfo) : AttributeLevels :=
  match info.mLineType with
  | LineType_Unknown => currentLevel
  | LineType_v_Version => currentLevel
  | LineType_o_Origin => currentLevel
  | LineType_s_SessionName => currentLevel
  | LineType_b_Bandwidth => currentLevel
  | LineType_t_Timing => currentLevel
  | LineType_a_Attributes =>
    if Attribute_SSRC = info.mAttribute then AttributeLevel_Source else currentLevel
  | LineType_m_MediaLine => AttributeLevel_Media
  | LineType_c_ConnectionDataLine => currentLevel

/-- The body of the `for` loop of `SDPParser::validateAttributeLevels` on one
record: the level after the record and the record as it is left. -/
def validateAttributeLevel (currentLevel : AttributeLevels) (info : LineTypeInfo) :
    Except SDPError (AttributeLevels × LineTypeInfo) :=
  if LineType_Unknown = info.mLineType then .ok (currentLevel, info)
  else
    let currentLevel :=
      if LineType_m_MediaLine = info.mLineType then AttributeLevel_Session else currentLevel
    if LineType_a_Attributes = info.mLineType ∧ Attribute_Unknown = info.mAttribute then
      .ok (currentLevel, info)
    else
      match leaveSourceLevel currentLevel info with
      | .error e => .error e
      | .ok currentLevel =>
        match info.mLineType.supportedAtLevel currentLevel with
        | .error e => .error e
        | .ok false => .error .InvalidParameters
        | .ok true =>
          match (if LineType_a_Attributes = info.mLineType
                 then info.mAttribute.supportedAtLevel currentLevel else .ok true) with
          | .error e => .error e
          | .ok false => .error .InvalidParameters
          | .ok true =>
            let info := { info with mAttributeLevel := currentLevel }
            .ok (switchLevel currentLevel info, info)

/-- The loop of `SDPParser::validateAttributeLevels` from a current level. -/
def validateAttributeLevelsFrom :
    AttributeLevels → List LineTypeInfo → Except SDPError (List LineTypeInfo)
  | _, [] => .ok []
  | currentLevel, info :: rest =>
    match validateAttributeLevel currentLevel info with
    | .error e => .error e
    | .ok (currentLevel, info) =>
      match validateAttributeLevelsFrom currentLevel rest with
      | .error e => .error e
      | .ok rest => .ok (info :: rest)

/-- The function `SDPParser::validateAttributeLevels` on the line list. -/
def validateAttributeLevels (mLineInfos : List LineTypeInfo) :
    Except SDPError (List LineTypeInfo) :=
  validateAttributeLevelsFrom AttributeLevel_Session mLineInfos

/-! ## SDPParser: typed parsing -/

/-- The type `ISDPTypes::SDP`: the line list, the fields the session folder
fills, and the media lines. Modelled from the spec: the header that declares
it is not among the sources; the fields are those of section 3.3 under the
names the source uses. The two lists of objects stand for the memory behind
the shared pointers: the `MLine` and the `ASSRCLine` objects in the order of
their creation, a pointer being a position in its list. -/
structure SDP where
  mLineInfos : List LineTypeInfo := []
  mlineObjects : List MLine := []
  assrcLineObjects : List ASSRCLine := []
  mVLine : Option VLine := none
  mOLine : Option OLine := none
  mSLine : Option SLine := none
  mTLine : Option TLine := none
  mCLine : Option CLine := none
  mAGroupLines : List AGroupLine := []
  mAMSIDSemanticLines : List AMSIDSemanticLine := []
  mAICEUFragLine : Option AICEUFragLine := none
  mAICEPwdLine : Option AICEPwdLine := none
  mAICEOptionsLine : Option AICEOptionsLine := none
  mAFingerprintLines : List AFingerprintLine := []
  mASetupLine : Option ASetupLine := none
  mAExtmapLines : List AExtmapLine := []
  mICELite : Option Bool := none
  mMediaDirection : Option Directions := none
  mMLines : List Nat := []
  deriving DecidableEq, Repr

/-- The media line a pointer designates; a pointer to no object has no
meaning. -/
def SDP.mline (sdp : SDP) (pointer : Nat) : Except SDPError MLine :=
  match sdp.mlineObjects[pointer]? with
  | some mline => .ok mline
  | none => .error .UndefinedBehaviour

/-- A write to the media line a pointer designates. -/
def SDP.setMLine (sdp : SDP) (pointer : Nat) (mline : MLine) : SDP :=
  { sdp with mlineObjects := sdp.mlineObjects.set pointer mline }

/-- The `ssrc` line a pointer designates. -/
def SDP.assrcLine (sdp : SDP) (pointer : Nat) : Except SDPError ASSRCLine :=
  match sdp.assrcLineObjects[pointer]? with
  | some line => .ok line
  | none => .error .UndefinedBehaviour

/-- A write to the `ssrc` line a pointer designates. -/
def SDP.setASSRCLine (sdp : SDP) (pointer : Nat) (line : ASSRCLine) : SDP :=
  { sdp with assrcLineObjects := sdp.assrcLineObjects.set pointer line }

/-- The switch of `SDPParser::parseLinesDetails` over the attribute of an `a=`
record: the typed value it attaches. The `ssrc` case creates the line object
and does not assign `currentSourceLine`. -/
def parseAttributeDetails (sdp : SDP) (currentMLine : MLinePtr)
    (currentSourceLine : ASSRCLinePtr) (info : LineTypeInfo) :
    Except SDPError (SDP × Option LineValue) :=
  match info.mAttribute with
  | Attribute_Unknown => .ok (sdp, info.mLineValue)
  | Attribute_Group => do
    let line ← AGroupLine.AGroupLine info.mValue
    pure (sdp, some (.aGroupLine line))
  | Attribute_BundleOnly => .ok (sdp, some (.aMediaFlagLine { mMLine := currentMLine }))
  | Attribute_MSID => do
    let line ← AMSIDLine.AMSIDLine currentMLine info.mValue
    pure (sdp, some (.aMSIDLine line))
  | Attribute_MSIDSemantic => .ok (sdp, some (.aMSIDSemanticLine { mValue := info.mValue }))
  | Attribute_ICEUFrag =>
    .ok (sdp, some (.aICEUFragLine (AICEUFragLine.AICEUFragLine currentMLine info.mValue)))
  | Attribute_ICEPwd =>
    .ok (sdp, some (.aICEPwdLine (AICEPwdLine.AICEPwdLine currentMLine info.mValue)))
  | Attribute_ICEOptions => do
    let line ← AICEOptionsLine.AICEOptionsLine info.mValue
    pure (sdp, some (.aICEOptionsLine line))
  | Attribute_ICELite => .ok (sdp, info.mLineValue)
  | Attribute_Candidate => do
    let line ← ACandidateLine.ACandidateLine currentMLine info.mValue
    pure (sdp, some (.aCandidateLine line))
  | Attribute_EndOfCandidates => .ok (sdp, some (.aMediaFlagLine { mMLine := currentMLine }))
  | Attribute_Fingerprint => do
    let line ← AFingerprintLine.AFingerprintLine currentMLine info.mValue
    pure (sdp, some (.aFingerprintLine line))
  | Attribute_Crypto => do
    let line ← ACryptoLine.ACryptoLine currentMLine info.mValue
    pure (sdp, some (.aCryptoLine line))
  | Attribute_Setup =>
    .ok (sdp, some (.aSetupLine (ASetupLine.ASetupLine currentMLine info.mValue)))
  | Attribute_MID =>
    .ok (sdp, some (.aMIDLine (AMIDLine.AMIDLine currentMLine info.mValue)))
  | Attribute_Extmap => do
    let line ← AExtmapLine.AExtmapLine currentMLine info.mValue
    pure (sdp, some (.aExtmapLine line))
  | Attribute_SendRecv => do
    let line ← AMediaDirectionLine.AMediaDirectionLine currentMLine info.mAttribute.toString
    pure (sdp, some (.aMediaDirectionLine line))
  | Attribute_SendOnly => do
    let line ← AMediaDirectionLine.AMediaDirectionLine currentMLine info.mAttribute.toString
    pure (sdp, some (.aMediaDirectionLine line))
  | Attribute_RecvOnly => do
    let line ← AMediaDirectionLine.AMediaDirectionLine currentMLine info.mAttribute.toString
    pure (sdp, some (.aMediaDirectionLine line))
  | Attribute_Inactive => do
    let line ← AMediaDirectionLine.AMediaDirectionLine currentMLine info.mAttribute.toString
    pure (sdp, some (.aMediaDirectionLine line))
  | Attribute_RTPMap => do
    let line ← ARTPMapLine.ARTPMapLine currentMLine info.mValue
    pure (sdp, some (.aRTPMapLine line))
  | Attirbute_FMTP => do
    let line ← AFMTPLine.AFMTPLine currentMLine currentSourceLine info.mValue
    pure (sdp, some (.aFMTPLine line))
  | Attribute_RTCP => do
    let line ← ARTCPLine.ARTCPLine currentMLine info.mValue
    pure (sdp, some (.aRTCPLine line))
  | Attribute_RTCPMux => .ok (sdp, some (.aMediaFlagLine { mMLine := currentMLine }))
  | Attribute_RTCPFB => do
    let line ← ARTCPFBLine.ARTCPFBLine currentMLine info.mValue
    pure (sdp, some (.aRTCPFBLine line))
  | Attribute_RTCPRSize => .ok (sdp, some (.aMediaFlagLine { mMLine := currentMLine }))
  | Attribute_PTime => do
    let line ← APTimeLine.APTimeLine currentMLine info.mValue
    pure (sdp, some (.aPTimeLine line))
  | Attribute_MaxPTime => do
    let line ← AMaxPTimeLine.AMaxPTimeLine currentMLine info.mValue
    pure (sdp, some (.aMaxPTimeLine line))
  | Attribute_SSRC => do
    let line ← ASSRCLine.ASSRCLine currentMLine info.mValue
    pure ({ sdp with assrcLineObjects := sdp.assrcLineObjects ++ [line] },
          some (.aSSRCLine sdp.assrcLineObjects.length))
  | Attribute_SSRCGroup => do
    let line ← ASSRCGroupLine.ASSRCGroupLine currentMLine info.mValue
    pure (sdp, some (.aSSRCGroupLine line))
  | Attribute_Simulcast => do
    let line ← ASimulcastLine.ASimulcastLine currentMLine info.mValue
    pure (sdp, some (.aSimulcastLine line))
  | Attribute_RID => do
    let line ← ARIDLine.ARIDLine currentMLine info.mValue
    pure (sdp, some (.aRIDLine line))
  | Attribute_SCTPPort => do
    let line ← ASCTPPortLine.ASCTPPortLine currentMLine info.mValue
    pure (sdp, some (.aSCTPPortLine line))
  | Attribute_MaxMessageSize => do
    let line ← AMaxMessageSizeLine.AMaxMessageSizeLine currentMLine info.mValue
    pure (sdp, some (.aMaxMessageSizeLine line))

/-- The local variables `currentMLine` and `currentSourceLine` of
`SDPParser::parseLinesDetails`. -/
structure DetailsCursor where
  currentMLine : MLinePtr := none
  currentSourceLine : ASSRCLinePtr := none
  deriving DecidableEq, Repr

/-- The resets at the head of the loop body of `parseLinesDetails`. -/
def DetailsCursor.reset (cursor : DetailsCursor) (level : AttributeLevels) : DetailsCursor :=
  let cursor :=
    if AttributeLevel_Session = level then
      { cursor with currentMLine := none, currentSourceLine := none }
    else cursor
  if AttributeLevel_Media = level then { cursor with currentSourceLine := none } else cursor

/-- The body of the `for` loop of `SDPParser::parseLinesDetails` on one record:
the memory and the cursor after the record, and the record as it is left. -/
def parseLineDetails (sdp : SDP) (cursor : DetailsCursor) (info : LineTypeInfo) :
    Except SDPError (SDP × DetailsCursor × LineTypeInfo) :=
  let cursor := cursor.reset info.mAttributeLevel
  match info.mLineType with
  | LineType_Unknown => .ok (sdp, cursor, info)
  | LineType_v_Version => do
    let line ← VLine.VLine info.mValue
    pure (sdp, cursor, { info with mLineValue := some (.vLine line) })
  | LineType_o_Origin => do
    let line ← OLine.OLine info.mValue
    pure (sdp, cursor, { info with mLineValue := some (.oLine line) })
  | LineType_s_SessionName => do
    let line ← SLine.SLine info.mValue
    pure (sdp, cursor, { info with mLineValue := some (.sLine line) })
  | LineType_b_Bandwidth =>
    if AttributeLevel_Session = info.mAttributeLevel then
      .ok (sdp, cursor, { info with mLineType := LineType_Unknown })
    else do
      let line ← BLine.BLine cursor.currentMLine info.mValue
      pure (sdp, cursor, { info with mLineValue := some (.bLine line) })
  | LineType_t_Timing => do
    let line ← TLine.TLine info.mValue
    pure (sdp, cursor, { info with mLineValue := some (.tLine line) })
  | LineType_a_Attributes => do
    let (sdp, value) ← parseAttributeDetails sdp cursor.currentMLine cursor.currentSourceLine info
    pure (sdp, cursor, { info with mLineValue := value })
  | LineType_m_MediaLine => do
    let line ← MLine.MLine info.mValue
    pure ({ sdp with mlineObjects := sdp.mlineObjects ++ [line] },
          { cursor with currentMLine := some sdp.mlineObjects.length },
          { info with mLineValue := some (.mLine sdp.mlineObjects.length) })
  | LineType_c_ConnectionDataLine => do
    let line ← CLine.CLine cursor.currentMLine info.mValue
    pure (sdp, cursor, { info with mLineValue := some (.cLine line) })

/-- The loop of `SDPParser::parseLinesDetails` from a cursor. -/
def parseLinesDetailsFrom :
    SDP → DetailsCursor → List LineTypeInfo → Except SDPError (SDP × List LineTypeInfo)
  | sdp, _, [] => .ok (sdp, [])
  | sdp, cursor, info :: rest =>
    match parseLineDetails sdp cursor info with
    | .error e => .error e
    | .ok (sdp, cursor, info) =>
      match parseLinesDetailsFrom sdp cursor rest with
      | .error e => .error e
      | .ok (sdp, rest) => .ok (sdp, info :: rest)

/-- The function `SDPParser::parseLinesDetails`. The list is taken out of the
`SDP` while the loop runs (the loop body does not read it) and put back at
the end. -/
def parseLinesDetails (sdp : SDP) : Except SDPError SDP :=
  match parseLinesDetailsFrom { sdp with mLineInfos := [] } {} sdp.mLineInfos with
  | .error e => .error e
  | .ok (sdp, infos) => .ok { sdp with mLineInfos := infos }

/-! ## SDPParser: the folders

A folder walks the line list once; the step of a folder gives, for one
record, the `SDP` after the record and what is left of the record in the
list: `none` when the record is erased, the record (with the writes made to
its typed value) when it stays.

A `ZS_DYNAMIC_PTR_CAST` gives a null pointer when the typed value is absent or
of another class. Where the source tests the result, the step throws as the
source does; where the source reads through the result without a test, or
appends it to a list whose readers all read through their elements without a
test, the step ends in `UndefinedBehaviour`; where the source stores the
result in a field, the field is left null. `parseLinesDetails` attaches to
every record the class its folders cast to. -/

/-- The loop shared by the four folders: the step on every record in list
order, the first exception ending the pass. -/
def foldLines (step : SDP → LineTypeInfo → Except SDPError (SDP × Option LineTypeInfo)) :
    SDP → List LineTypeInfo → Except SDPError (SDP × List LineTypeInfo)
  | sdp, [] => .ok (sdp, [])
  | sdp, info :: rest =>
    match step sdp info with
    | .error e => .error e
    | .ok (sdp, left) =>
      match foldLines step sdp rest with
      | .error e => .error e
      | .ok (sdp, rest) =>
        .ok (sdp, match left with
                  | some info => info :: rest
                  | none => rest)

/-- A folder as a function on the `SDP`: the loop over `sdp.mLineInfos`, the
list being left with the records that were not erased. The list is taken out
of the `SDP` while the loop runs (no step reads it) and put back at the end. -/
def runFolder (step : SDP → LineTypeInfo → Except SDPError (SDP × Option LineTypeInfo))
    (sdp : SDP) : Except SDPError SDP :=
  match foldLines step { sdp with mLineInfos := [] } sdp.mLineInfos with
  | .error e => .error e
  | .ok (sdp, infos) => .ok { sdp with mLineInfos := infos }

/-- The direction case of `SDPParser::processFlagAttributes`. After the
direction has been stored, the source runs `sdp.mLineInfos.erase(current)`
and then `goto remove_line`, where `sdp.mLineInfos.erase(current)` runs a
second time on the position just erased. -/
def processDirectionFlag (sdp : SDP) (info : LineTypeInfo) :
    Except SDPError (SDP × Option LineTypeInfo) :=
  match info.mLineValue with
  | some (.aMediaDirectionLine direction) =>
    match direction.mMLine with
    | some pointer => do
      let mline ← sdp.mline pointer
      throwInvalidParametersIf mline.mMediaDirection.isSome
      let _sdp := sdp.setMLine pointer { mline with mMediaDirection := some direction.mDirection }
      .error .UndefinedBehaviour
    | none => do
      throwInvalidParametersIf sdp.mMediaDirection.isSome
      let _sdp := { sdp with mMediaDirection := some direction.mDirection }
      .error .UndefinedBehaviour
  | _ => .error .InvalidAssumption

/-- The media flag cases of `SDPParser::processFlagAttributes`: the cast to
`AMediaFlagLine` and the second switch. The cases `Attribute_RTCPMux` and
`Attribute_RTCPRSize` read `... = true; break; goto remove_line;`: they leave
the switch at the `break` and reach the `continue` after it. -/
def processMediaFlag (sdp : SDP) (info : LineTypeInfo) :
    Except SDPError (SDP × Option LineTypeInfo) :=
  match info.mLineValue with
  | some (.aMediaFlagLine flag) =>
    match flag.mMLine with
    | none => .error .InvalidParameters
    | some pointer => do
      let mline ← sdp.mline pointer
      match info.mAttribute with
      | Attribute_BundleOnly =>
        pure (sdp.setMLine pointer { mline with mBundleOnly := some true }, none)
      | Attribute_EndOfCandidates =>
        pure (sdp.setMLine pointer { mline with mEndOfCandidates := some true }, none)
      | Attribute_RTCPMux =>
        pure (sdp.setMLine pointer { mline with mRTCPMux := some true }, some info)
      | Attribute_RTCPRSize =>
        pure (sdp.setMLine pointer { mline with mRTCPRSize := some true }, some info)
      | _ => pure (sdp, some info)
  | _ => .error .InvalidAssumption

/-- The body of the loop of `SDPParser::processFlagAttributes` on one record. -/
def processFlagAttribute (sdp : SDP) (info : LineTypeInfo) :
    Except SDPError (SDP × Option LineTypeInfo) :=
  if LineType_a_Attributes ≠ info.mLineType then .ok (sdp, some info)
  else if !requiresEmptyValue info.mAttribute then .ok (sdp, some info)
  else
    match info.mAttribute with
    | Attribute_BundleOnly => processMediaFlag sdp info
    | Attribute_ICELite => .ok ({ sdp with mICELite := some true }, some info)
    | Attribute_EndOfCandidates => processMediaFlag sdp info
    | Attribute_SendRecv => processDirectionFlag sdp info
    | Attribute_SendOnly => processDirectionFlag sdp info
    | Attribute_RecvOnly => processDirectionFlag sdp info
    | Attribute_Inactive => processDirectionFlag sdp info
    | Attribute_RTCPMux => processMediaFlag sdp info
    | Attribute_RTCPRSize => processMediaFlag sdp info
    | _ => .ok (sdp, some info)

/-- The function `SDPParser::processFlagAttributes`. -/
def processFlagAttributes (sdp : SDP) : Except SDPError SDP :=
  runFolder processFlagAttribute sdp

/-- The second switch of `SDPParser::processSessionLevelValues`, over the
attribute of a session level `a=` record. -/
def processSessionLevelAttribute (sdp : SDP) (info : LineTypeInfo) :
    Except SDPError (SDP × Option LineTypeInfo) :=
  match info.mAttribute with
  | Attribute_Unknown => .ok (sdp, none)
  | Attribute_Group =>
    match info.mLineValue with
    | some (.aGroupLine line) =>
      .ok ({ sdp with mAGroupLines := sdp.mAGroupLines ++ [line] }, none)
    | _ => .error .UndefinedBehaviour
  | Attribute_MSIDSemantic =>
    match info.mLineValue with
    | some (.aMSIDSemanticLine line) =>
      .ok ({ sdp with mAMSIDSemanticLines := sdp.mAMSIDSemanticLines ++ [line] }, none)
    | _ => .error .UndefinedBehaviour
  | Attribute_ICEUFrag =>
    if sdp.mAICEUFragLine.isSome then .error .InvalidParameters
    else
      .ok ({ sdp with mAICEUFragLine :=
               match info.mLineValue with
               | some (.aICEUFragLine line) => some line
               | _ => none }, none)
  | Attribute_ICEPwd =>
    if sdp.mAICEPwdLine.isSome then .error .InvalidParameters
    else
      .ok ({ sdp with mAICEPwdLine :=
               match info.mLineValue with
               | some (.aICEPwdLine line) => some line
               | _ => none }, none)
  | Attribute_ICEOptions =>
    if sdp.mAICEOptionsLine.isSome then .error .InvalidParameters
    else
      .ok ({ sdp with mAICEOptionsLine :=
               match info.mLineValue with
               | some (.aICEOptionsLine line) => some line
               | _ => none }, none)
  | Attribute_Fingerprint =>
    match info.mLineValue with
    | some (.aFingerprintLine line) =>
      .ok ({ sdp with mAFingerprintLines := sdp.mAFingerprintLines ++ [line] }, none)
    | _ => .error .UndefinedBehaviour
  | Attribute_Setup =>
    if sdp.mASetupLine.isSome then .error .InvalidParameters
    else
      .ok ({ sdp with mASetupLine :=
               match info.mLineValue with
               | some (.aSetupLine line) => some line
               | _ => none }, none)
  | Attribute_Extmap =>
    match info.mLineValue with
    | some (.aExtmapLine line) =>
      .ok ({ sdp with mAExtmapLines := sdp.mAExtmapLines ++ [line] }, none)
    | _ => .error .UndefinedBehaviour
  | _ => .ok (sdp, some info)

/-- The body of the loop of `SDPParser::processSessionLevelValues` on one
record. -/
def processSessionLevelValue (sdp : SDP) (info : LineTypeInfo) :
    Except SDPError (SDP × Option LineTypeInfo) :=
  if AttributeLevel_Session ≠ info.mAttributeLevel then .ok (sdp, some info)
  else
    match info.mLineType with
    | LineType_Unknown => .ok (sdp, none)
    | LineType_v_Version =>
      if sdp.mVLine.isSome then .error .InvalidParameters
      else
        .ok ({ sdp with mVLine :=
                 match info.mLineValue with
                 | some (.vLine line) => some line
                 | _ => none }, none)
    | LineType_o_Origin =>
      if sdp.mOLine.isSome then .error .InvalidParameters
      else
        .ok ({ sdp with mOLine :=
                 match info.mLineValue with
                 | some (.oLine line) => some line
                 | _ => none }, none)
    | LineType_s_SessionName =>
      if sdp.mSLine.isSome then .error .InvalidParameters
      else
        .ok ({ sdp with mSLine :=
                 match info.mLineValue with
                 | some (.sLine line) => some line
                 | _ => none }, none)
    | LineType_b_Bandwidth => .ok (sdp, none)
    | LineType_t_Timing =>
      if sdp.mTLine.isSome then .error .InvalidParameters
      else
        .ok ({ sdp with mTLine :=
                 match info.mLineValue with
                 | some (.tLine line) => some line
                 | _ => none }, none)
    | LineType_a_Attributes => processSessionLevelAttribute sdp info
    | LineType_m_MediaLine =>
      match info.mLineValue with
      | some (.mLine pointer) => .ok ({ sdp with mMLines := sdp.mMLines ++ [pointer] }, none)
      | _ => .error .UndefinedBehaviour
    | LineType_c_ConnectionDataLine =>
      if sdp.mCLine.isSome then .error .InvalidParameters
      else
        .ok ({ sdp with mCLine :=
                 match info.mLineValue with
                 | some (.cLine line) => some line
                 | _ => none }, none)

/-- The function `SDPParser::processSessionLevelValues`. -/
def processSessionLevelValues (sdp : SDP) : Except SDPError SDP :=
  runFolder processSessionLevelValue sdp

/-- The statements `auto mediaLine = ZS_DYNAMIC_PTR_CAST(AMediaLine, ...);
ZS_THROW_INVALID_ASSUMPTION_IF(!mediaLine); MLinePtr mline = mediaLine->mMLine;
mediaLine->mMLine.reset();` of the media folder: the media line pointer of the
typed value, and the memory and the typed value after the reset. Modelled
from the spec: the class hierarchy is in the header, which is not among the
sources; the classes taken to derive from `AMediaLine` are those whose
constructor initializes `AMediaLine(mline)`, and the media flag line. -/
def takeAMediaLine (sdp : SDP) (value : Option LineValue) :
    Except SDPError (MLinePtr × SDP × LineValue) :=
  match value with
  | some (.aMediaFlagLine line) => .ok (line.mMLine, sdp, .aMediaFlagLine { line with mMLine := none })
  | some (.aMSIDLine line) => .ok (line.mMLine, sdp, .aMSIDLine { line with mMLine := none })
  | some (.aICEUFragLine line) => .ok (line.mMLine, sdp, .aICEUFragLine { line with mMLine := none })
  | some (.aICEPwdLine line) => .ok (line.mMLine, sdp, .aICEPwdLine { line with mMLine := none })
  | some (.aCandidateLine line) =>
    .ok (line.mMLine, sdp, .aCandidateLine { line with mMLine := none })
  | some (.aFingerprintLine line) =>
    .ok (line.mMLine, sdp, .aFingerprintLine { line with mMLine := none })
  | some (.aCryptoLine line) => .ok (line.mMLine, sdp, .aCryptoLine { line with mMLine := none })
  | some (.aSetupLine line) => .ok (line.mMLine, sdp, .aSetupLine { line with mMLine := none })
  | some (.aMIDLine line) => .ok (line.mMLine, sdp, .aMIDLine { line with mMLine := none })
  | some (.aExtmapLine line) => .ok (line.mMLine, sdp, .aExtmapLine { line with mMLine := none })
  | some (.aMediaDirectionLine line) =>
    .ok (line.mMLine, sdp, .aMediaDirectionLine { line with mMLine := none })
  | some (.aRTPMapLine line) => .ok (line.mMLine, sdp, .aRTPMapLine { line with mMLine := none })
  | some (.aFMTPLine line) => .ok (line.mMLine, sdp, .aFMTPLine { line with mMLine := none })
  | some (.aRTCPLine line) => .ok (line.mMLine, sdp, .aRTCPLine { line with mMLine := none })
  | some (.aRTCPFBLine line) => .ok (line.mMLine, sdp, .aRTCPFBLine { line with mMLine := none })
  | some (.aPTimeLine line) => .ok (line.mMLine, sdp, .aPTimeLine { line with mMLine := none })
  | some (.aMaxPTimeLine line) =>
    .ok (line.mMLine, sdp, .aMaxPTimeLine { line with mMLine := none })
  | some (.aSSRCLine pointer) => do
    let line ← sdp.assrcLine pointer
    pure (line.mMLine, sdp.setASSRCLine pointer { line with mMLine := none }, .aSSRCLine pointer)
  | some (.aSSRCGroupLine line) =>
    .ok (line.mMLine, sdp, .aSSRCGroupLine { line with mMLine := none })
  | some (.aRIDLine line) => .ok (line.mMLine, sdp, .aRIDLine { line with mMLine := none })
  | some (.aSimulcastLine line) =>
    .ok (line.mMLine, sdp, .aSimulcastLine { line with mMLine := none })
  | some (.aSCTPPortLine line) =>
    .ok (line.mMLine, sdp, .aSCTPPortLine { line with mMLine := none })
  | some (.aMaxMessageSizeLine line) =>
    .ok (line.mMLine, sdp, .aMaxMessageSizeLine { line with mMLine := none })
  | _ => .error .InvalidAssumption

/-- The second switch of `SDPParser::processMediaLevelValues`, over the
attribute of a media level `a=` record whose media line is `mline`, at
`pointer`; `value` is the typed value of the record after the reset of its
media line pointer. -/
def processMediaLevelAttribute (sdp : SDP) (pointer : Nat) (mline : MLine)
    (info : LineTypeInfo) (value : LineValue) : Except SDPError (SDP × Option LineTypeInfo) :=
  match info.mAttribute with
  | Attribute_MSID =>
    match value with
    | .aMSIDLine line =>
      .ok (sdp.setMLine pointer { mline with mAMSIDLines := mline.mAMSIDLines ++ [line] }, none)
    | _ => .error .UndefinedBehaviour
  | Attribute_ICEUFrag =>
    if mline.mAICEUFragLine.isSome then .error .InvalidParameters
    else
      .ok (sdp.setMLine pointer { mline with mAICEUFragLine :=
             match value with
             | .aICEUFragLine line => some line
             | _ => none }, none)
  | Attribute_ICEPwd =>
    if mline.mAICEPwdLine.isSome then .error .InvalidParameters
    else
      .ok (sdp.setMLine pointer { mline with mAICEPwdLine :=
             match value with
             | .aICEPwdLine line => some line
             | _ => none }, none)
  | Attribute_Candidate =>
    match value with
    | .aCandidateLine line =>
      .ok (sdp.setMLine pointer
            { mline with mACandidateLines := mline.mACandidateLines ++ [line] }, none)
    | _ => .error .UndefinedBehaviour
  | Attribute_Fingerprint =>
    match value with
    | .aFingerprintLine line =>
      .ok (sdp.setMLine pointer
            { mline with mAFingerprintLines := mline.mAFingerprintLines ++ [line] }, none)
    | _ => .error .UndefinedBehaviour
  | Attribute_Crypto =>
    match value with
    | .aCryptoLine line =>
      .ok (sdp.setMLine pointer { mline with mACryptoLines := mline.mACryptoLines ++ [line] },
           none)
    | _ => .error .UndefinedBehaviour
  | Attribute_Setup =>
    if mline.mASetupLine.isSome then .error .InvalidParameters
    else
      .ok (sdp.setMLine pointer { mline with mASetupLine :=
             match value with
             | .aSetupLine line => some line
             | _ => none }, none)
  | Attribute_MID =>
    if mline.mAMIDLine.isSome then .error .InvalidParameters
    else
      .ok (sdp.setMLine pointer { mline with mAMIDLine :=
             match value with
             | .aMIDLine line => some line
             | _ => none }, none)
  | Attribute_Extmap =>
    match value with
    | .aExtmapLine line =>
      .ok (sdp.setMLine pointer { mline with mAExtmapLines := mline.mAExtmapLines ++ [line] },
           none)
    | _ => .error .UndefinedBehaviour
  | Attribute_RTPMap =>
    match value with
    | .aRTPMapLine line =>
      .ok (sdp.setMLine pointer { mline with mARTPMapLines := mline.mARTPMapLines ++ [line] },
           none)
    | _ => .error .UndefinedBehaviour
  | Attirbute_FMTP =>
    match value with
    | .aFMTPLine line =>
      .ok (sdp.setMLine pointer { mline with mAFMTPLines := mline.mAFMTPLines ++ [line] }, none)
    | _ => .error .UndefinedBehaviour
  | Attribute_RTCP =>
    if mline.mARTCPLine.isSome then .error .InvalidParameters
    else
      .ok (sdp.setMLine pointer { mline with mARTCPLine :=
             match value with
             | .aRTCPLine line => some line
             | _ => none }, none)
  | Attribute_RTCPFB =>
    match value with
    | .aRTCPFBLine line =>
      .ok (sdp.setMLine pointer { mline with mARTCPFBLines := mline.mARTCPFBLines ++ [line] },
           none)
    | _ => .error .UndefinedBehaviour
  | Attribute_PTime =>
    if mline.mAPTimeLine.isSome then .error .InvalidParameters
    else
      .ok (sdp.setMLine pointer { mline with mAPTimeLine :=
             match value with
             | .aPTimeLine line => some line
             | _ => none }, none)
  | Attribute_MaxPTime =>
    if mline.mAMaxPTimeLine.isSome then .error .InvalidParameters
    else
      .ok (sdp.setMLine pointer { mline with mAMaxPTimeLine :=
             match value with
             | .aMaxPTimeLine line => some line
             | _ => none }, none)
  | Attribute_SSRC =>
    match value with
    | .aSSRCLine line =>
      .ok (sdp.setMLine pointer { mline with mASSRCLines := mline.mASSRCLines ++ [line] }, none)
    | _ => .error .UndefinedBehaviour
  | Attribute_SSRCGroup =>
    match value with
    | .aSSRCGroupLine line =>
      .ok (sdp.setMLine pointer
            { mline with mASSRCGroupLines := mline.mASSRCGroupLines ++ [line] }, none)
    | _ => .error .UndefinedBehaviour
  | Attribute_Simulcast =>
    if mline.mASimulcastLine.isSome then .error .InvalidParameters
    else
      .ok (sdp.setMLine pointer { mline with mASimulcastLine :=
             match value with
             | .aSimulcastLine line => some line
             | _ => none }, none)
  | Attribute_RID =>
    match value with
    | .aRIDLine line =>
      .ok (sdp.setMLine pointer { mline with mARIDLines := mline.mARIDLines ++ [line] }, none)
    | _ => .error .UndefinedBehaviour
  | Attribute_SCTPPort =>
    if mline.mASCTPPortLine.isSome then .error .InvalidParameters
    else
      .ok (sdp.setMLine pointer { mline with mASCTPPortLine :=
             match value with
             | .aSCTPPortLine line => some line
             | _ => none }, none)
  | Attribute_MaxMessageSize =>
    if mline.mAMaxMessageSize.isSome then .error .InvalidParameters
    else
      .ok (sdp.setMLine pointer { mline with mAMaxMessageSize :=
             match value with
             | .aMaxMessageSizeLine line => some line
             | _ => none }, none)
  | _ => .ok (sdp, some { info with mLineValue := some value })

/-- The body of the loop of `SDPParser::processMediaLevelValues` on one record. -/
def processMediaLevelValue (sdp : SDP) (info : LineTypeInfo) :
    Except SDPError (SDP × Option LineTypeInfo) :=
  if AttributeLevel_Media ≠ info.mAttributeLevel then .ok (sdp, some info)
  else
    match info.mLineType with
    | LineType_Unknown => .ok (sdp, none)
    | LineType_v_Version => .ok (sdp, some info)
    | LineType_o_Origin => .ok (sdp, some info)
    | LineType_s_SessionName => .ok (sdp, some info)
    | LineType_b_Bandwidth =>
      match info.mLineValue with
      | some (.bLine bline) =>
        match bline.mMLine with
        | none => .error .InvalidParameters
        | some pointer => do
          let mline ← sdp.mline pointer
          pure (sdp.setMLine pointer
                 { mline with mBLines := mline.mBLines ++ [{ bline with mMLine := none }] }, none)
      | _ => .error .UndefinedBehaviour
    | LineType_t_Timing => .ok (sdp, some info)
    | LineType_a_Attributes => do
      let (mlinePointer, sdp, value) ← takeAMediaLine sdp info.mLineValue
      match mlinePointer with
      | none => .error .InvalidParameters
      | some pointer => do
        let mline ← sdp.mline pointer
        processMediaLevelAttribute sdp pointer mline info value
    | LineType_m_MediaLine => .ok (sdp, some info)
    | LineType_c_ConnectionDataLine =>
      match info.mLineValue with
      | some (.cLine cline) =>
        match cline.mMLine with
        | none => .error .InvalidParameters
        | some pointer => do
          let mline ← sdp.mline pointer
          throwInvalidParametersIf mline.mCLine.isSome
          pure (sdp.setMLine pointer { mline with mCLine := some { cline with mMLine := none } },
                none)
      | _ => .error .UndefinedBehaviour

/-- The function `SDPParser::processMediaLevelValues`. -/
def processMediaLevelValues (sdp : SDP) : Except SDPError SDP :=
  runFolder processMediaLevelValue sdp

/-- The body of the loop of `SDPParser::processSourceLevelValues` on one
record. -/
def processSourceLevelValue (sdp : SDP) (info : LineTypeInfo) :
    Except SDPError (SDP × Option LineTypeInfo) :=
  if AttributeLevel_Source ≠ info.mAttributeLevel then .ok (sdp, some info)
  else
    match info.mLineType with
    | LineType_Unknown => .ok (sdp, none)
    | LineType_a_Attributes =>
      match info.mAttribute with
      | Attirbute_FMTP =>
        match info.mLineValue with
        | some (.aFMTPLine fmtpLine) =>
          match fmtpLine.mMLine with
          | none => .error .InvalidParameters
          | some _ =>
            match fmtpLine.mSourceLine with
            | none => .error .InvalidParameters
            | some sourcePointer => do
              let sourceLine ← sdp.assrcLine sourcePointer
              pure (sdp.setASSRCLine sourcePointer
                     { sourceLine with mAFMTPLines := sourceLine.mAFMTPLines ++
                         [{ fmtpLine with mMLine := none, mSourceLine := none }] }, none)
        | _ => .error .UndefinedBehaviour
      | _ => .ok (sdp, some info)
    | _ => .ok (sdp, some info)

/-- The function `SDPParser::processSourceLevelValues`. -/
def processSourceLevelValues (sdp : SDP) : Except SDPError SDP :=
  runFolder processSourceLevelValue sdp

/-- The four folders in the order in which `SDPParser::parse` calls them. -/
def processLines (sdp : SDP) : Except SDPError SDP := do
  let sdp ← processFlagAttributes sdp
  let sdp ← processSessionLevelValues sdp
  let sdp ← processMediaLevelValues sdp
  processSourceLevelValues sdp

/-- The passes of `SDPParser::parse` that follow the scope validator, on the
line list it leaves: typed parsing and the four folders. -/
def parseValidated (infos : List LineTypeInfo) : Except SDPError SDP := do
  let sdp ← parseLinesDetails { mLineInfos := infos }
  processLines sdp

/-- The function `SDPParser::parse` on a blob that is not null. The raw
buffer is allocated with `new char[sdp->mOriginal.length()]` and filled by
`memcpy` with `length()` characters of the blob: it holds the characters of
the C string `blob` and not its terminating NUL. The eight passes follow in
order. None of them makes a `SafeInt` conversion, so the handler of
`SafeIntException` has nothing to catch. -/
def parse (blob : List Char) : Except SDPError SDP := do
  let mRawBuffer := cString blob
  let infos ← parseLines mRawBuffer
  let infos ← parseAttributes infos
  let infos ← validateAttributeLevels infos
  parseValidated infos

/-! ## The session description

Modelled from the spec: the types of the session description and of the
RTP, ICE, DTLS and SRTP packages are declared outside the sources; section
3.4 and section 6.2 define them by the fields the lowering fills in, which
are the fields kept here, under the names the source uses. -/

/-- The type `IRTPTypes::RTCPFeedback`. -/
structure RTCPFeedback where
  mType : List Char := []
  mParameter : List Char := []
  deriving DecidableEq, Repr

/-- The type `IRTPTypes::OpusCodecCapabilityParameters`, with the fields
`fillCodecFormatSpecific` assigns. -/
structure OpusCodecCapabilityParameters where
  mMaxPlaybackRate : Option Nat := none
  mSPropMaxCaptureRate : Option Nat := none
  mMaxAverageBitrate : Option Nat := none
  mStereo : Option Nat := none
  mSPropStereo : Option Nat := none
  mCBR : Option Nat := none
  mUseInbandFEC : Option Nat := none
  mUseDTX : Option Nat := none
  deriving DecidableEq, Repr

/-- The type `IRTPTypes::VP8CodecCapabilityParameters`. -/
structure VP8CodecCapabilityParameters where
  mMaxFR : Option Nat := none
  mMaxFS : Option Nat := none
  deriving DecidableEq, Repr

/-- The type `IRTPTypes::H264CodecCapabilityParameters`, with the fields
`fillCodecFormatSpecific` assigns. -/
structure H264CodecCapabilityParameters where
  mPacketizationModes : List Nat := []
  mProfileLevelID : Option Nat := none
  mMaxMBPS : Option Nat := none
  mMaxSMBPS : Option Nat := none
  mMaxFS : Option Nat := none
  mMaxCPB : Option Nat := none
  mMaxDPB : Option Nat := none
  mMaxBR : Option Nat := none
  deriving DecidableEq, Repr

/-- The type `IRTPTypes::RTXCodecCapabilityParameters`; the time is in
milliseconds. -/
structure RTXCodecCapabilityParameters where
  mApt : Nat := 0
  mRTXTime : Nat := 0
  deriving DecidableEq, Repr

/-- The type `IRTPTypes::FlexFECCodecCapabilityParameters`; the repair window
is in microseconds. -/
structure FlexFECCodecCapabilityParameters where
  mRepairWindow : Nat := 0
  mL : Option Nat := none
  mD : Option Nat := none
  mToP : Option Nat := none
  deriving DecidableEq, Repr

/-- The codec specific parameters a `CodecCapability` points to: the objects
`fillCodecFormatSpecific` creates. -/
inductive CodecCapabilityParameters
  | opus (parameters : OpusCodecCapabilityParameters)
  | vp8 (parameters : VP8CodecCapabilityParameters)
  | h264 (parameters : H264CodecCapabilityParameters)
  | rtx (parameters : RTXCodecCapabilityParameters)
  | flexFEC (parameters : FlexFECCodecCapabilityParameters)
  deriving DecidableEq, Repr

/-- The type `IRTPTypes::CodecCapability`, with the fields `fillCapabilities`
and `fillCodecFormatSpecific` assign. -/
structure CodecCapability where
  mName : List Char := []
  mKind : List Char := []
  mClockRate : Nat := 0
  mPreferredPayloadType : Nat := 0
  mPTime : Nat := 0
  mMaxPTime : Nat := 0
  mNumChannels : Option Nat := none
  mParameters : Option CodecCapabilityParameters := none
  mRTCPFeedback : List RTCPFeedback := []
  deriving DecidableEq, Repr

/-- The type `IRTPTypes::HeaderExtension`. -/
structure HeaderExtension where
  mKind : List Char := []
  mURI : List Char := []
  mPreferredID : Nat := 0
  mPreferredEncrypt : Bool := false
  deriving DecidableEq, Repr

/-- The type `IRTPTypes::Capabilities`. -/
structure Capabilities where
  mCodecs : List CodecCapability := []
  mHeaderExtensions : List HeaderExtension := []
  mFECMechanisms : List (List Char) := []
  deriving DecidableEq, Repr

/-- The type `IRTPTypes::RTCPParameters`. -/
structure RTCPParameters where
  mCName : List Char := []
  mReducedSize : Bool := false
  mMux : Bool := false
  deriving DecidableEq, Repr

/-- The codec specific parameters a `CodecParameters` points to: the RED
parameters that `fillREDFormatParameters` builds, or whatever
`capabilitiesToParameters` has put there. -/
inductive CodecParametersAny
  | redCodecParameters (mPayloadTypes : List Nat)
  | other (parameters : Nat)
  deriving DecidableEq, Repr

/-- The type `IRTPTypes::CodecParameters`. -/
structure CodecParameters where
  mName : List Char := []
  mPayloadType : Nat := 0
  mParameters : Option CodecParametersAny := none
  deriving DecidableEq, Repr

/-- The type `IRTPTypes::RTXParameters`. -/
structure RTXParameters where
  mSSRC : Option Nat := none
  deriving DecidableEq, Repr

/-- The type `IRTPTypes::FECParameters`. -/
structure FECParameters where
  mSSRC : Option Nat := none
  mMechanism : List Char := []
  deriving DecidableEq, Repr

/-- The type `IRTPTypes::EncodingParameters`. -/
structure EncodingParameters where
  mSSRC : Option Nat := none
  mRTX : Option RTXParameters := none
  mFEC : Option FECParameters := none
  deriving DecidableEq, Repr

/-- The type `IRTPTypes::Parameters`. -/
structure Parameters where
  mMuxID : List Char := []
  mRTCP : RTCPParameters := {}
  mCodecs : List CodecParameters := []
  mEncodings : List EncodingParameters := []
  deriving DecidableEq, Repr

/-- The helpers of the surrounding media stack that the lowering calls and
that are not among the sources (section 6.3), taken as parameters: the digest
behind the derived ids, the conversions of `IICETypes`, the helper
`capabilitiesToParameters`, the name `IRTPTypes::toString` gives the RED
codec, and `UseServicesHelper::combine`. -/
structure External where
  hash : List Char → Nat → List Char
  toProtocol : List Char → Except SDPError Nat
  toCandidateType : List Char → Except SDPError Nat
  toTCPCandidateType : List Char → Except SDPError Nat
  capabilitiesToParameters : Capabilities → Except SDPError Parameters
  redCodecName : List Char
  combine : List (List Char) → Char → List Char

/-- The enumeration `IRTPTypes::SupportedCodecs`. Modelled from the spec: the
enumeration is declared outside the sources; its enumerators are those the
switch of `fillCodecFormatSpecific` names. -/
inductive SupportedCodecs
  | SupportedCodec_Unknown
  | SupportedCodec_Opus
  | SupportedCodec_Isac
  | SupportedCodec_G722
  | SupportedCodec_ILBC
  | SupportedCodec_PCMU
  | SupportedCodec_PCMA
  | SupportedCodec_VP8
  | SupportedCodec_VP9
  | SupportedCodec_H264
  | SupportedCodec_RTX
  | SupportedCodec_RED
  | SupportedCodec_ULPFEC
  | SupportedCodec_FlexFEC
  | SupportedCodec_CN
  | SupportedCodec_TelephoneEvent
  deriving DecidableEq, Repr

open SupportedCodecs

/-- The enumeration `IRTPTypes::CodecKinds`. Modelled from the spec: the
enumeration is declared outside the sources; the source names the unknown,
the audio and the video kind, and every other kind is kept by its code. -/
inductive CodecKinds
  | CodecKind_Unknown
  | CodecKind_Audio
  | CodecKind_Video
  | CodecKind_Other (code : Nat)
  deriving DecidableEq, Repr

open CodecKinds

/-- The helpers of `IRTPTypes` that `fillCapabilities` and
`fillCodecFormatSpecific` call and that are not among the sources (section
6.3), taken as parameters: the conversions between media names, codec names,
reserved payload types, supported codecs and codec kinds, the default clock
rates, the names of the FEC mechanisms, and the widths of the numeric fields
of the capability types, by the name of the field. -/
structure RTPTypes where
  toCodecKind : List Char → CodecKinds
  codecKindToString : CodecKinds → List Char
  toReservedCodec : Nat → Nat
  reservedToSupportedCodec : Nat → SupportedCodecs
  toSupportedCodec : List Char → SupportedCodecs
  supportedCodecToString : SupportedCodecs → List Char
  getDefaultClockRate : Nat → Nat
  getCodecKind : SupportedCodecs → CodecKinds
  requiresCapabilityParameters : SupportedCodecs → Bool
  mechanismREDULPFEC : List Char
  mechanismRED : List Char
  mechanismFlexFEC : List Char
  fieldBits : List Char → Nat

/-- The function `createTransportIDFromIndex`. -/
def createTransportIDFromIndex (hash : List Char → Nat → List Char) (index : Nat) : List Char :=
  hash "transport_index:".toList index

/-- The function `createMediaLineIDFromIndex`. -/
def createMediaLineIDFromIndex (hash : List Char → Nat → List Char) (index : Nat) : List Char :=
  hash "media_line_index:".toList index

/-- The function `createSenderIDFromIndex`. -/
def createSenderIDFromIndex (hash : List Char → Nat → List Char) (index : Nat) : List Char :=
  hash "sender_index:".toList index

/-- The conversion `SafeInt<T>(value)` to an unsigned type of `bits` bits. -/
def safeInt (bits : Nat) (value : Nat) : Except SDPError Nat :=
  if value < 2 ^ bits then .ok value else .error .SafeIntException

/-- The type `IICETypes::Candidate`. -/
structure ICECandidate where
  mFoundation : List Char := []
  mPriority : Nat := 0
  mProtocol : Nat := 0
  mIP : List Char := []
  mPort : Nat := 0
  mCandidateType : Nat := 0
  mRelatedAddress : List Char := []
  mRelatedPort : Option Nat := none
  mTCPType : Option Nat := none
  mUnfreezePriority : Option Nat := none
  mInterfaceType : List Char := []
  deriving DecidableEq, Repr

/-- The type `IICETypes::Parameters`. -/
structure ICEParameters where
  mUsernameFragment : List Char := []
  mPassword : List Char := []
  mICELite : Bool := false
  deriving DecidableEq, Repr

/-- The enumeration `IDTLSTransportTypes::Roles`, as far as the lowering uses it. -/
inductive DTLSRoles
  | Role_Auto
  | Role_Client
  | Role_Server
  deriving DecidableEq, Repr

open DTLSRoles

/-- The type `ICertificateTypes::Fingerprint`. -/
structure Fingerprint where
  mAlgorithm : List Char := []
  mValue : List Char := []
  deriving DecidableEq, Repr

/-- The type `IDTLSTransportTypes::Parameters`. -/
structure DTLSParameters where
  mRole : DTLSRoles := Role_Auto
  mFingerprints : List Fingerprint := []
  deriving DecidableEq, Repr

/-- The type `ISRTPSDESTransportTypes::KeyParameters`. -/
structure KeyParameters where
  mKeyMethod : List Char := []
  mKeySalt : List Char := []
  mLifetime : List Char := []
  mMKIValue : List Char := []
  mMKILength : Nat := 0
  deriving DecidableEq, Repr

/-- The type `ISRTPSDESTransportTypes::CryptoParameters`. -/
structure CryptoParameters where
  mTag : Nat := 0
  mCryptoSuite : List Char := []
  mKeyParams : List KeyParameters := []
  mSessionParams : List (List Char) := []
  deriving DecidableEq, Repr

/-- The type `ISRTPSDESTransportTypes::Parameters`. -/
structure SRTPSDESParameters where
  mCryptoParams : List CryptoParameters := []
  deriving DecidableEq, Repr

/-- The type `ISessionDescriptionTypes::Transport::Parameters`. -/
structure TransportParameters where
  mICEParameters : Option ICEParameters := none
  mICECandidates : List ICECandidate := []
  mDTLSParameters : Option DTLSParameters := none
  mSRTPSDESParameters : Option SRTPSDESParameters := none
  mEndOfCandidates : Bool := false
  deriving DecidableEq, Repr

/-- The type `ISessionDescriptionTypes::Transport`. -/
structure Transport where
  mID : List Char := []
  mRTP : Option TransportParameters := none
  mRTCP : Option TransportParameters := none
  deriving DecidableEq, Repr

/-- The type `ISessionDescriptionTypes::ConnectionData::Details`. -/
structure ConnectionDataDetails where
  mPort : Option Nat := none
  mNetType : List Char := []
  mAddrType : List Char := []
  mConnectionAddress : List Char := []
  deriving DecidableEq, Repr

/-- The type `ISessionDescriptionTypes::ConnectionData`. -/
structure ConnectionData where
  mRTP : Option ConnectionDataDetails := none
  mRTCP : Option ConnectionDataDetails := none
  deriving DecidableEq, Repr

/-- The enumeration `ISessionDescriptionTypes::MediaDirections`. -/
inductive MediaDirections
  | MediaDirection_SendReceive
  | MediaDirection_SendOnly
  | MediaDirection_ReceiveOnly
  | MediaDirection_Inactive
  deriving DecidableEq, Repr

open MediaDirections

/-- The type `ISessionDescriptionTypes::MediaLine::Details`; the direction is
`none` while the lowering has not assigned it. -/
structure MediaLineDetails where
  mInternalIndex : Nat := 0
  mPrivateTransportID : List Char := []
  mProtocol : List Char := []
  mConnectionData : Option ConnectionData := none
  mMediaDirection : Option MediaDirections := none
  deriving DecidableEq, Repr

/-- The type `ISessionDescriptionTypes::MediaLine`, the base of the RTP and
the SCTP media line. -/
structure MediaLine where
  mID : List Char := []
  mTransportID : List Char := []
  mMediaType : List Char := []
  mDetails : Option MediaLineDetails := none
  deriving DecidableEq, Repr

/-- The type `ISessionDescriptionTypes::RTPMediaLine`. -/
structure RTPMediaLine where
  toMediaLine : MediaLine := {}
  mSenderCapabilities : Option Capabilities := none
  mReceiverCapabilities : Option Capabilities := none
  deriving DecidableEq, Repr

/-- The type `ISCTPTransportTypes::Capabilities`. -/
structure SCTPCapabilities where
  mMaxMessageSize : Nat := 0
  deriving DecidableEq, Repr

/-- The type `ISessionDescriptionTypes::SCTPMediaLine`. -/
structure SCTPMediaLine where
  toMediaLine : MediaLine := {}
  mCapabilities : Option SCTPCapabilities := none
  mPort : Option Nat := none
  deriving DecidableEq, Repr

/-- The type `ISessionDescriptionTypes::RTPSender::Details`. -/
structure RTPSenderDetails where
  mInternalRTPMediaLineIndex : Nat := 0
  deriving DecidableEq, Repr

/-- The type `ISessionDescriptionTypes::RTPSender`; the set of media stream ids
is the list of its elements in the order of their first insertion. -/
structure RTPSender where
  mID : List Char := []
  mRTPMediaLineID : List Char := []
  mDetails : Option RTPSenderDetails := none
  mParameters : Option Parameters := none
  mMediaStreamTrackID : List Char := []
  mMediaStreamIDs : List (List Char) := []
  deriving DecidableEq, Repr

/-- The type `ISessionDescriptionTypes::Description::Details`. -/
structure DescriptionDetails where
  mUsername : List Char := []
  mSessionID : Nat := 0
  mSessionVersion : Nat := 0
  mSessionName : List Char := []
  mStartTime : Nat := 0
  mEndTime : Nat := 0
  mUnicaseAddress : Option ConnectionDataDetails := none
  mConnectionData : Option ConnectionData := none
  deriving DecidableEq, Repr

/-- The type `ISessionDescriptionTypes::Description`, as far as the lowering
fills it. -/
structure Description where
  mDetails : Option DescriptionDetails := none
  mTransports : List Transport := []
  mRTPMediaLines : List RTPMediaLine := []
  mSCTPMediaLines : List SCTPMediaLine := []
  mRTPSenders : List RTPSender := []
  deriving DecidableEq, Repr

/-! ## SDPParser: lowering of the transports -/

/-- The loop of `toDtlsRole` over the tables `checkSetup` and `resultRole`. Its
bound is `index <= sizeof(resultRole)/sizeof(resultRole[0])`, so that after
the four entries the loop reads `checkSetup[4]`, past the end of the table,
and compares the string with what it finds there. -/
def toDtlsRoleLoop (str : List Char) : List (List Char × DTLSRoles) → Except SDPError DTLSRoles
  | [] => .error .UndefinedBehaviour
  | (checkSetup, resultRole) :: rest =>
    if equalNoCase str checkSetup then .ok resultRole else toDtlsRoleLoop str rest

/-- The function `toDtlsRole`. -/
def toDtlsRole (setup : List Char) : Except SDPError DTLSRoles :=
  toDtlsRoleLoop setup
    [("active".toList, Role_Client), ("passive".toList, Role_Server),
     ("actpass".toList, Role_Auto), ("holdconn".toList, Role_Auto)]

/-- The body of the inner loop of `convertCrypto` on one key parameter. The key
information is split at the bar, and its third string, which holds no bar, is
split at the bar again and required to have two parts. -/
def convertKeyParam (akeyParam : List Char × List Char) : Except SDPError KeyParameters := do
  let keyInfoSplit := splitPruneEmpty (splitTrim (split akeyParam.2 '|'))
  throwInvalidParametersIf (keyInfoSplit.size < 1)
  let keyParams : KeyParameters :=
    { mKeyMethod := akeyParam.1, mKeySalt := keyInfoSplit.get 0,
      mLifetime := if keyInfoSplit.size > 1 then keyInfoSplit.get 1 else [] }
  if keyInfoSplit.size > 2 then do
    let mkiSplit := splitPruneEmpty (splitTrim (split (keyInfoSplit.get 2) '|'))
    throwInvalidParametersIf (mkiSplit.size < 2)
    let mMKILength ← numericField 16 (mkiSplit.get 1)
    pure { keyParams with mMKIValue := mkiSplit.get 0, mMKILength := mMKILength }
  else pure keyParams

/-- The inner loop of `convertCrypto` over the key parameters of a line. -/
def convertKeyParams : List (List Char × List Char) → Except SDPError (List KeyParameters)
  | [] => .ok []
  | akeyParam :: rest => do
    let keyParams ← convertKeyParam akeyParam
    let others ← convertKeyParams rest
    pure (keyParams :: others)

/-- The function `convertCrypto`, as the crypto parameters it appends; the tag
is a 16-bit field. -/
def convertCrypto : List ACryptoLine → Except SDPError (List CryptoParameters)
  | [] => .ok []
  | acrypto :: rest => do
    let mTag ← safeInt 16 acrypto.mTag
    let mKeyParams ← convertKeyParams acrypto.mKeyParams
    let others ← convertCrypto rest
    pure ({ mTag := mTag, mCryptoSuite := acrypto.mCryptoSuite, mKeyParams := mKeyParams,
            mSessionParams := acrypto.mSessionParams } :: others)

/-- The function `convertDTLSFingerprints`, as the fingerprints it appends. -/
def convertDTLSFingerprints (inFingerprintLines : List AFingerprintLine) : List Fingerprint :=
  inFingerprintLines.map (fun afingerprint =>
    { mAlgorithm := afingerprint.mHashFunc, mValue := afingerprint.mFingerprint })

/-- The loop of `convertCandidates` over the extension pairs of a candidate
line. -/
def convertCandidateExtensions (ext : External) :
    ICECandidate → List (List Char × List Char) → Except SDPError ICECandidate
  | candidate, [] => .ok candidate
  | candidate, (extName, extValue) :: rest =>
    if equalNoCase extName "tcptype".toList then do
      let tcpType ← ext.toTCPCandidateType extValue
      convertCandidateExtensions ext { candidate with mTCPType := some tcpType } rest
    else if equalNoCase extName "unfreezepriority".toList then do
      let priority ← numericField 32 extValue
      convertCandidateExtensions ext { candidate with mUnfreezePriority := some priority } rest
    else if equalNoCase extName "interfacetype".toList then
      convertCandidateExtensions ext { candidate with mInterfaceType := extValue } rest
    else convertCandidateExtensions ext candidate rest

/-- The candidate that `convertCandidates` builds from one candidate line. -/
def convertCandidate (ext : External) (acandidate : ACandidateLine) :
    Except SDPError ICECandidate := do
  let mProtocol ← ext.toProtocol acandidate.mTransport
  let mCandidateType ← ext.toCandidateType acandidate.mCandidateType
  convertCandidateExtensions ext
    { mFoundation := acandidate.mFoundation, mPriority := acandidate.mPriority,
      mProtocol := mProtocol, mIP := acandidate.mConnectionAddress, mPort := acandidate.mPort,
      mCandidateType := mCandidateType, mRelatedAddress := acandidate.mRelAddr,
      mRelatedPort := acandidate.mRelPort }
    acandidate.mExtensionPairs

/-- The function `convertCandidates`: the RTP candidate list and the RTCP
transport parameters after the candidate lines have been converted. A
candidate with component id 0 is appended to the RTP list, any other to the
RTCP parameters, which are created when they are absent. -/
def convertCandidates (ext : External) :
    List ACandidateLine → List ICECandidate → Option TransportParameters →
    Except SDPError (List ICECandidate × Option TransportParameters)
  | [], outRTPCandidates, ioRTCPTransport => .ok (outRTPCandidates, ioRTCPTransport)
  | acandidate :: rest, outRTPCandidates, ioRTCPTransport => do
    let candidate ← convertCandidate ext acandidate
    if 0 = acandidate.mComponentID then
      convertCandidates ext rest (outRTPCandidates ++ [candidate]) ioRTCPTransport
    else
      let rtcp : TransportParameters :=
        match ioRTCPTransport with
        | some rtcp => rtcp
        | none => {}
      convertCandidates ext rest outRTPCandidates
        (some { rtcp with mICECandidates := rtcp.mICECandidates ++ [candidate] })

/-- The body of the loop of `SDPParser::createTransports` for one media line:
the transport it builds, `none` when the media line has no `ice-ufrag` and
the loop continues. -/
def createTransport (ext : External) (sdp : SDP) (index : Nat) (mline : MLine) :
    Except SDPError (Option Transport) :=
  match mline.mAICEUFragLine with
  | none => .ok none
  | some aICEUFragLine => do
    let requireRTCP :=
      match mline.mRTCPMux with
      | some mux => !mux
      | none => true
    let mRTCP : Option TransportParameters := if requireRTCP then some {} else none
    let mICEParameters : ICEParameters :=
      { mUsernameFragment := aICEUFragLine.mICEUFrag,
        mPassword :=
          match mline.mAICEPwdLine with
          | some aICEPwdLine => aICEPwdLine.mICEPwd
          | none => [],
        mICELite :=
          match sdp.mICELite with
          | some lite => lite
          | none => false }
    let mDTLSParameters ←
      if mline.mAFingerprintLines.length > 0 then do
        let mRole ←
          match mline.mASetupLine with
          | some aSetupLine => toDtlsRole aSetupLine.mSetup
          | none => pure Role_Auto
        pure (some { mRole := mRole,
                     mFingerprints := convertDTLSFingerprints mline.mAFingerprintLines })
      else pure none
    let mSRTPSDESParameters ←
      if mline.mACryptoLines.length > 0 then do
        let mCryptoParams ← convertCrypto mline.mACryptoLines
        pure (some { mCryptoParams := mCryptoParams })
      else pure none
    let (mICECandidates, mRTCP) ← convertCandidates ext mline.mACandidateLines [] mRTCP
    let endOfCandidates :=
      match mline.mEndOfCandidates with
      | some value => value
      | none => false
    let mRTP : TransportParameters :=
      { mICEParameters := some mICEParameters, mICECandidates := mICECandidates,
        mDTLSParameters := mDTLSParameters, mSRTPSDESParameters := mSRTPSDESParameters,
        mEndOfCandidates := endOfCandidates }
    let mRTCP := mRTCP.map (fun rtcp =>
      if endOfCandidates then { rtcp with mEndOfCandidates := true } else rtcp)
    pure (some { mID :=
                   match mline.mAMIDLine with
                   | some aMIDLine => aMIDLine.mMID
                   | none => createTransportIDFromIndex ext.hash index,
                 mRTP := some mRTP, mRTCP := mRTCP })

/-- The loop of `SDPParser::createTransports` over the media lines from
`index` on. Every round builds its transport in a local variable and ends
without appending it to `ioDescription.mTransports`: the description is not
written. -/
def createTransportsFrom (ext : External) (sdp : SDP) (ioDescription : Description) :
    Nat → List Nat → Except SDPError Description
  | _, [] => .ok ioDescription
  | index, pointer :: rest => do
    let mline ← sdp.mline pointer
    let _transport ← createTransport ext sdp index mline
    createTransportsFrom ext sdp ioDescription (index + 1) rest

/-- The function `SDPParser::createTransports`. -/
def createTransports (ext : External) (sdp : SDP) (ioDescription : Description) :
    Except SDPError Description :=
  createTransportsFrom ext sdp ioDescription 0 sdp.mMLines

/-! ## SDPParser: lowering of the media lines and of the senders -/

/-- The static function `toDirection(ISDPTypes::Directions)` of the lowering. -/
def toMediaDirection : Directions → MediaDirections
  | Direction_None => MediaDirection_Inactive
  | Direction_Send => MediaDirection_SendOnly
  | Direction_Receive => MediaDirection_ReceiveOnly
  | Direction_SendReceive => MediaDirection_SendReceive

/-- The inner loop of the bundle search of `fillMediaLine` over the
identification tags of one group: the value `foundBundleID` has when the loop
ends, `firstBundleID` being the local of the source. -/
def findBundleInTags (mID : List Char) : List Char → List (List Char) → List Char
  | _, [] => []
  | firstBundleID, mid :: rest =>
    let firstBundleID := if firstBundleID = [] then mid else firstBundleID
    if mid ≠ mID then findBundleInTags mID firstBundleID rest else firstBundleID

/-- The outer loop of the bundle search of `fillMediaLine` over the group
lines: the value of `foundBundleID` after the loop. -/
def findBundleID (mID : List Char) : List AGroupLine → List Char
  | [] => []
  | group :: rest =>
    if !equalNoCase group.mSemantic "BUNDLE".toList then findBundleID mID rest
    else
      let foundBundleID := findBundleInTags mID [] group.mIdentificationTags
      if foundBundleID ≠ [] then foundBundleID else findBundleID mID rest

/-- The function `fillMediaLine`, as the media line it fills. The transports
of the description are read and nothing of the description is written. -/
def fillMediaLine (ext : External) (index : Nat) (sdp : SDP) (mline : MLine)
    (description : Description) : Except SDPError MediaLine := do
  let mPort ← safeInt 16 mline.mPort
  let mRTP : ConnectionDataDetails :=
    match mline.mCLine with
    | some cline =>
      { mPort := some mPort, mNetType := cline.mNetType, mAddrType := cline.mAddrType,
        mConnectionAddress := cline.mConnectionAddress }
    | none => { mPort := some mPort }
  let mRTCP : Option ConnectionDataDetails :=
    mline.mARTCPLine.map (fun artcp =>
      { mNetType := artcp.mNetType, mAddrType := artcp.mAddrType,
        mConnectionAddress := artcp.mConnectionAddress, mPort := some artcp.mPort })
  let mMediaDirection : Option MediaDirections :=
    match mline.mMediaDirection with
    | some direction => some (toMediaDirection direction)
    | none =>
      match sdp.mMediaDirection with
      | some direction => some (toMediaDirection direction)
      | none => none
  let mID :=
    match mline.mAMIDLine with
    | some aMIDLine => aMIDLine.mMID
    | none => createMediaLineIDFromIndex ext.hash index
  let searchForTransportID :=
    match mline.mAMIDLine with
    | some _ => mID
    | none => createTransportIDFromIndex ext.hash index
  let foundBundleID :=
    match mline.mAMIDLine with
    | some _ => findBundleID mID sdp.mAGroupLines
    | none => []
  let mPrivateTransportID :=
    if description.mTransports.any (fun transport => transport.mID = searchForTransportID)
    then searchForTransportID else []
  let found :=
    decide (foundBundleID ≠ []) &&
      description.mTransports.any (fun transport => transport.mID = foundBundleID)
  let foundBundleID := if foundBundleID ≠ [] ∧ !found then [] else foundBundleID
  let mTransportID := if foundBundleID = [] then mPrivateTransportID else foundBundleID
  let mPrivateTransportID := if mTransportID = mPrivateTransportID then [] else mPrivateTransportID
  pure { mID := mID, mTransportID := mTransportID, mMediaType := mline.mMedia,
         mDetails := some
           { mInternalIndex := index, mPrivateTransportID := mPrivateTransportID,
             mProtocol := mline.mProtoStr,
             mConnectionData := some { mRTP := some mRTP, mRTCP := mRTCP },
             mMediaDirection := mMediaDirection } }

/-- The loop of `SDPParser::createRTPMediaLines` over the media lines from
`index` on. The function `fillCapabilities` writes to the two capabilities it
is handed and to nothing else, and its result is not used: it is taken here
as the function that gives the two capabilities, or throws. -/
def createRTPMediaLinesFrom (ext : External)
    (fillCapabilities : Locations → SDP → MLine → Description → MediaLine →
      Except SDPError (Capabilities × Capabilities))
    (location : Locations) (sdp : SDP) :
    Description → Nat → List Nat → Except SDPError Description
  | ioDescription, _, [] => .ok ioDescription
  | ioDescription, index, pointer :: rest => do
    let mline ← sdp.mline pointer
    if ProtocolType_RTP ≠ mline.mProto then
      createRTPMediaLinesFrom ext fillCapabilities location sdp ioDescription (index + 1) rest
    else do
      let mediaLine ← fillMediaLine ext index sdp mline ioDescription
      if mediaLine.mTransportID = [] then
        createRTPMediaLinesFrom ext fillCapabilities location sdp ioDescription (index + 1) rest
      else do
        let (senderCapabilities, receiverCapabilities) ←
          fillCapabilities location sdp mline ioDescription mediaLine
        createRTPMediaLinesFrom ext fillCapabilities location sdp
          { ioDescription with mRTPMediaLines := ioDescription.mRTPMediaLines ++
              [{ toMediaLine := mediaLine, mSenderCapabilities := some senderCapabilities,
                 mReceiverCapabilities := some receiverCapabilities }] }
          (index + 1) rest

/-- The function `SDPParser::createRTPMediaLines`. -/
def createRTPMediaLines (ext : External)
    (fillCapabilities : Locations → SDP → MLine → Description → MediaLine →
      Except SDPError (Capabilities × Capabilities))
    (location : Locations) (sdp : SDP) (ioDescription : Description) :
    Except SDPError Description :=
  createRTPMediaLinesFrom ext fillCapabilities location sdp ioDescription 0 sdp.mMLines

/-- The loop of `SDPParser::createSCTPMediaLines` over the media lines from
`index` on. -/
def createSCTPMediaLinesFrom (ext : External) (sdp : SDP) :
    Description → Nat → List Nat → Except SDPError Description
  | ioDescription, _, [] => .ok ioDescription
  | ioDescription, index, pointer :: rest => do
    let mline ← sdp.mline pointer
    if ProtocolType_SCTP ≠ mline.mProto then
      createSCTPMediaLinesFrom ext sdp ioDescription (index + 1) rest
    else do
      let mediaLine ← fillMediaLine ext index sdp mline ioDescription
      if mediaLine.mTransportID = [] then
        createSCTPMediaLinesFrom ext sdp ioDescription (index + 1) rest
      else do
        let mPort ←
          match mline.mASCTPPortLine with
          | some aSCTPPortLine => (safeInt 16 aSCTPPortLine.mPort).map some
          | none => pure none
        let mMaxMessageSize ← safeInt 64
          (match mline.mAMaxMessageSize with
           | some aMaxMessageSize => aMaxMessageSize.mMaxMessageSize
           | none => 0xFFFF)
        createSCTPMediaLinesFrom ext sdp
          { ioDescription with mSCTPMediaLines := ioDescription.mSCTPMediaLines ++
              [{ toMediaLine := mediaLine,
                 mCapabilities := some { mMaxMessageSize := mMaxMessageSize },
                 mPort := mPort }] }
          (index + 1) rest

/-- The function `SDPParser::createSCTPMediaLines`; the location is not used. -/
def createSCTPMediaLines (ext : External) (_location : Locations) (sdp : SDP)
    (ioDescription : Description) : Except SDPError Description :=
  createSCTPMediaLinesFrom ext sdp ioDescription 0 sdp.mMLines

/-- The loop of `fillREDFormatParameters` over the strings of the RED format:
the payload types, in order. -/
def redPayloadTypes : List (List Char) → Except SDPError (List Nat)
  | [] => .ok []
  | redFormatPayloadTypeStr :: rest => do
    let redFormatPayloadType ← numericField 8 redFormatPayloadTypeStr
    let others ← redPayloadTypes rest
    pure (redFormatPayloadType :: others)

/-- The loop of `fillREDFormatParameters` over the `fmtp` lines of the media
line: the RED parameters built from the first line whose format is the RED
payload type, null when there is none or when it lists no payload type. -/
def redParametersOf (ext : External) (redPayloadType : Nat) :
    List AFMTPLine → Except SDPError (Option CodecParametersAny)
  | [] => .ok none
  | format :: rest =>
    if format.mFormat ≠ redPayloadType then redParametersOf ext redPayloadType rest
    else do
      let combinedREDFormat := ext.combine format.mFormatSpecific '/'
      let redSplit := splitPruneEmpty (splitTrim (split combinedREDFormat '/'))
      let payloadTypes ← redPayloadTypes redSplit.values
      pure (if payloadTypes = [] then none else some (.redCodecParameters payloadTypes))

/-- The function `fillREDFormatParameters`, as the codec list it leaves. -/
def fillREDFormatParameters (ext : External) (mline : MLine) :
    List CodecParameters → Except SDPError (List CodecParameters)
  | [] => .ok []
  | codec :: rest => do
    let codec ←
      if !equalNoCase codec.mName ext.redCodecName then pure codec
      else do
        let redParameters ← redParametersOf ext codec.mPayloadType mline.mAFMTPLines
        pure { codec with mParameters := redParameters }
    let others ← fillREDFormatParameters ext mline rest
    pure (codec :: others)

/-- The insertion of a string into a `std::set`. -/
def setInsert (set : List (List Char)) (value : List Char) : List (List Char) :=
  if value ∈ set then set else set ++ [value]

/-- The first loop of `fillStreamIDs`, over the `msid` lines. -/
def fillStreamIDsFromMSID : RTPSender → List AMSIDLine → RTPSender
  | sender, [] => sender
  | sender, msidLine :: rest =>
    let sender :=
      if sender.mMediaStreamTrackID = [] then
        { sender with mMediaStreamTrackID := msidLine.mAppData }
      else sender
    let sender :=
      if msidLine.mID ≠ [] then
        { sender with mMediaStreamIDs := setInsert sender.mMediaStreamIDs msidLine.mID }
      else sender
    fillStreamIDsFromMSID sender rest

/-- The second loop of `fillStreamIDs`, over the `ssrc` lines. A line is used
when its attribute is `msid` and its list of `fmtp` lines, which is the list
the source tests, has two elements or more; the first two attribute values
are then read without a test of their presence. -/
def fillStreamIDsFromSSRC (sdp : SDP) : RTPSender → List Nat → Except SDPError RTPSender
  | sender, [] => .ok sender
  | sender, pointer :: rest => do
    let ssrcLine ← sdp.assrcLine pointer
    if !equalNoCase ssrcLine.mAttribute "msid".toList then fillStreamIDsFromSSRC sdp sender rest
    else if ssrcLine.mAFMTPLines.length < 2 then fillStreamIDsFromSSRC sdp sender rest
    else
      match ssrcLine.mAttributeValues with
      | id :: appData :: _ =>
        let sender :=
          if sender.mMediaStreamTrackID = [] then { sender with mMediaStreamTrackID := appData }
          else sender
        let sender :=
          if id ≠ [] then { sender with mMediaStreamIDs := setInsert sender.mMediaStreamIDs id }
          else sender
        fillStreamIDsFromSSRC sdp sender rest
      | _ => .error .UndefinedBehaviour

/-- The function `fillStreamIDs`. -/
def fillStreamIDs (sdp : SDP) (mline : MLine) (sender : RTPSender) : Except SDPError RTPSender :=
  let sender := fillStreamIDsFromMSID sender mline.mAMSIDLines
  if sender.mMediaStreamIDs.length > 0 then .ok sender
  else fillStreamIDsFromSSRC sdp sender mline.mASSRCLines

/-- The loop of `createRTPSenderLines` that looks for the media line of a
sender: it skips a media line when `mediaLine->mID == sender->mRTPMediaLineID`
and takes the first media line it does not skip. -/
def findMediaLine (mRTPMediaLineID : List Char) : List RTPMediaLine → Option RTPMediaLine
  | [] => none
  | mediaLine :: rest =>
    if mediaLine.toMediaLine.mID = mRTPMediaLineID then findMediaLine mRTPMediaLineID rest
    else some mediaLine

/-- The loop of `createRTPSenderLines` over the `ssrc` lines: the canonical
name and the SSRC of the first line whose attribute is `cname`. -/
def findCName (sdp : SDP) : List Nat → Except SDPError (Option (List Char × Nat))
  | [] => .ok none
  | pointer :: rest => do
    let ssrc ← sdp.assrcLine pointer
    if !equalNoCase ssrc.mAttribute "cname".toList then findCName sdp rest
    else
      match ssrc.mAttributeValues with
      | [] => .error .InvalidParameters
      | front :: _ => pure (some (front, ssrc.mSSRC))

/-- The loops of `createRTPSenderLines` over the `ssrc-group` lines: the first
two SSRCs of the first group with the given semantics. -/
def findSSRCGroup (semantics : List Char) : List ASSRCGroupLine → Except SDPError (Option (Nat × Nat))
  | [] => .ok none
  | ssrc :: rest =>
    if !equalNoCase ssrc.mSemantics semantics then findSSRCGroup semantics rest
    else
      match ssrc.mSSRCs with
      | front :: second :: _ => .ok (some (front, second))
      | _ => .error .InvalidParameters

/-- The body of the loop of `SDPParser::createRTPSenderLines` for one media
line: the sender it appends, `none` when the loop continues without one. -/
def createRTPSender (ext : External) (sdp : SDP) (ioDescription : Description)
    (index : Nat) (mline : MLine) : Except SDPError (Option RTPSender) :=
  if ProtocolType_RTP ≠ mline.mProto then .ok none
  else if (match mline.mMediaDirection with
           | some direction => !isApplicable ActorRole_Sender Location_Local direction
           | none => false) then .ok none
  else
    let mid :=
      match mline.mAMIDLine with
      | some aMIDLine => aMIDLine.mMID
      | none => []
    let sender : RTPSender :=
      { mDetails := some { mInternalRTPMediaLineIndex := index },
        mID := if mid = [] then createSenderIDFromIndex ext.hash index else mid,
        mRTPMediaLineID := if mid = [] then createMediaLineIDFromIndex ext.hash index else mid }
    match findMediaLine sender.mRTPMediaLineID ioDescription.mRTPMediaLines with
    | none => .ok none
    | some foundMediaLine => do
      let senderCapabilities ←
        match foundMediaLine.mSenderCapabilities with
        | some capabilities => pure capabilities
        | none => .error .UndefinedBehaviour
      let parameters ← ext.capabilitiesToParameters senderCapabilities
      let parameters :=
        { parameters with
          mMuxID := mid,
          mRTCP := { parameters.mRTCP with
            mMux := (match mline.mRTCPMux with
                     | some value => value
                     | none => false),
            mReducedSize := (match mline.mRTCPRSize with
                             | some value => value
                             | none => false) } }
      let mCodecs ← fillREDFormatParameters ext mline parameters.mCodecs
      let parameters := { parameters with mCodecs := mCodecs }
      let sender ← fillStreamIDs sdp mline sender
      let cname ← findCName sdp mline.mASSRCLines
      let parameters :=
        match cname with
        | some (front, _) => { parameters with mRTCP := { parameters.mRTCP with mCName := front } }
        | none => parameters
      let encoding : EncodingParameters :=
        match cname with
        | some (_, ssrc) => { mSSRC := some ssrc }
        | none => {}
      let fid ← findSSRCGroup "FID".toList mline.mASSRCGroupLines
      let encoding :=
        match fid with
        | some (front, second) =>
          { encoding with
            mSSRC := if encoding.mSSRC.isSome then encoding.mSSRC else some front,
            mRTX := some { mSSRC := some second } }
        | none => encoding
      let fec ← findSSRCGroup "FEC-FR".toList mline.mASSRCGroupLines
      let encoding :=
        match fec with
        | some (front, second) =>
          { encoding with
            mSSRC := if encoding.mSSRC.isSome then encoding.mSSRC else some front,
            mFEC := some
              { mSSRC := some second,
                mMechanism :=
                  match senderCapabilities.mFECMechanisms with
                  | mechanism :: _ => mechanism
                  | [] => [] } }
        | none => encoding
      let parameters := { parameters with mEncodings := parameters.mEncodings ++ [encoding] }
      pure (some { sender with mParameters := some parameters })

/-- The loop of `SDPParser::createRTPSenderLines` over the media lines from
`index` on. -/
def createRTPSenderLinesFrom (ext : External) (sdp : SDP) :
    Description → Nat → List Nat → Except SDPError Description
  | ioDescription, _, [] => .ok ioDescription
  | ioDescription, index, pointer :: rest => do
    let mline ← sdp.mline pointer
    let sender ← createRTPSender ext sdp ioDescription index mline
    match sender with
    | none => createRTPSenderLinesFrom ext sdp ioDescription (index + 1) rest
    | some sender =>
      createRTPSenderLinesFrom ext sdp
        { ioDescription with mRTPSenders := ioDescription.mRTPSenders ++ [sender] }
        (index + 1) rest

/-- The function `SDPParser::createRTPSenderLines`; the location is not used. -/
def createRTPSenderLines (ext : External) (_location : Locations) (sdp : SDP)
    (ioDescription : Description) : Except SDPError Description :=
  createRTPSenderLinesFrom ext sdp ioDescription 0 sdp.mMLines

/-! ## SDPParser: lowering of the capabilities -/

/-- The value of a hexadecimal digit. -/
def hexDigitValue (c : Char) : Nat :=
  if c.isDigit then c.toNat - '0'.toNat
  else if 'a'.toNat ≤ c.toNat ∧ c.toNat ≤ 'f'.toNat then c.toNat - 'a'.toNat + 10
  else c.toNat - 'A'.toNat + 10

/-- The test of the C library `isxdigit`. -/
def isxdigit (c : Char) : Bool :=
  c.isDigit || ('a'.toNat ≤ c.toNat && c.toNat ≤ 'f'.toNat) ||
    ('A'.toNat ≤ c.toNat && c.toNat ≤ 'F'.toNat)

/-- The pattern `try { field = Numeric<T>(str, true, 16); } catch (...) {
ORTC_THROW_INVALID_PARAMETERS(...) }`. Modelled from the spec:
`zsLib::Numeric<T>` is not among the sources; section 4.7.3.1 has the value
read as a hexadecimal number, the parse failing when it is out of range. -/
def numericFieldHex (bits : Nat) (str : List Char) : Except SDPError Nat :=
  let digits := trim str
  let value := digits.foldl (fun acc c => acc * 16 + hexDigitValue c) 0
  if digits ≠ [] ∧ digits.all isxdigit ∧ value < 2 ^ bits then .ok value
  else .error .InvalidParameters

/-- The loop of `fixIntoCodecSpecificList` over the strings between the
semicolons. Every round splits `params`, the whole combined string, at `=`,
and not the string `keyValue` of the round. -/
def fixIntoCodecSpecificListLoop (params : List Char) :
    List (List Char) → Except SDPError (List (List Char × List Char))
  | [] => .ok []
  | _keyValue :: rest => do
    let keyValueSplit := splitPruneEmpty (splitTrim (split params '='))
    throwInvalidParametersIf (keyValueSplit.size < 1)
    let key := keyValueSplit.get 0
    let value := if keyValueSplit.size > 1 then keyValueSplit.get 1 else []
    let others ← fixIntoCodecSpecificListLoop params rest
    pure ((key, value) :: others)

/-- The function `fixIntoCodecSpecificList`, as the key and value pairs it
appends. -/
def fixIntoCodecSpecificList (ext : External) (formatSpecificList : List (List Char)) :
    Except SDPError (List (List Char × List Char)) :=
  let params := ext.combine formatSpecificList ';'
  let formatSplit := splitPruneEmpty (splitTrim (split params ';'))
  fixIntoCodecSpecificListLoop params formatSplit.values

/-- A loop `for (auto iter = keyValues.begin(); iter != keyValues.end();
++iter)` of `fillCodecFormatSpecific`, with the body as a step on the values
the loop writes to. -/
def forKeyValues {σ : Type} (step : σ → List Char × List Char → Except SDPError σ) :
    σ → List (List Char × List Char) → Except SDPError σ
  | state, [] => .ok state
  | state, keyValue :: rest => do
    let state ← step state keyValue
    forKeyValues step state rest

/-- The body of the loop of the Opus case of `fillCodecFormatSpecific`. -/
def opusKeyValue (rtp : RTPTypes)
    (state : OpusCodecCapabilityParameters × CodecCapability)
    (keyValue : List Char × List Char) :
    Except SDPError (OpusCodecCapabilityParameters × CodecCapability) :=
  let (opusParams, codecCapability) := state
  let (key, value) := keyValue
  if equalNoCase key "maxplaybackrate".toList then do
    let converted ← numericField (rtp.fieldBits "mMaxPlaybackRate".toList) value
    pure ({ opusParams with mMaxPlaybackRate := some converted }, codecCapability)
  else if equalNoCase key "sprop-maxcapturerate".toList then do
    let converted ← numericField (rtp.fieldBits "mSPropMaxCaptureRate".toList) value
    pure ({ opusParams with mSPropMaxCaptureRate := some converted }, codecCapability)
  else if equalNoCase key "maxptime".toList then do
    let converted ← numericField 64 value
    pure (opusParams, { codecCapability with mMaxPTime := converted })
  else if equalNoCase key "ptime".toList then do
    let converted ← numericField 64 value
    pure (opusParams, { codecCapability with mPTime := converted })
  else if equalNoCase key "maxaveragebitrate".toList then do
    let converted ← numericField (rtp.fieldBits "mMaxAverageBitrate".toList) value
    pure ({ opusParams with mMaxAverageBitrate := some converted }, codecCapability)
  else if equalNoCase key "stereo".toList then do
    let converted ← numericField (rtp.fieldBits "mStereo".toList) value
    pure ({ opusParams with mStereo := some converted }, codecCapability)
  else if equalNoCase key "sprop-stereo".toList then do
    let converted ← numericField (rtp.fieldBits "mSPropStereo".toList) value
    pure ({ opusParams with mSPropStereo := some converted }, codecCapability)
  else if equalNoCase key "cbr".toList then do
    let converted ← numericField (rtp.fieldBits "mCBR".toList) value
    pure ({ opusParams with mCBR := some converted }, codecCapability)
  else if equalNoCase key "useinbandfec".toList then do
    let converted ← numericField (rtp.fieldBits "mUseInbandFEC".toList) value
    pure ({ opusParams with mUseInbandFEC := some converted }, codecCapability)
  else if equalNoCase key "usedtx".toList then do
    let converted ← numericField (rtp.fieldBits "mUseDTX".toList) value
    pure ({ opusParams with mUseDTX := some converted }, codecCapability)
  else pure (opusParams, codecCapability)

/-- The body of the loop of the VP8 case of `fillCodecFormatSpecific`. -/
def vp8KeyValue (rtp : RTPTypes) (vp8Params : VP8CodecCapabilityParameters)
    (keyValue : List Char × List Char) : Except SDPError VP8CodecCapabilityParameters :=
  let (key, value) := keyValue
  if equalNoCase key "max-fr".toList then do
    let converted ← numericField (rtp.fieldBits "mMaxFR".toList) value
    pure { vp8Params with mMaxFR := some converted }
  else if equalNoCase key "max-fs".toList then do
    let converted ← numericField (rtp.fieldBits "mMaxFS".toList) value
    pure { vp8Params with mMaxFS := some converted }
  else pure vp8Params

/-- The body of the loop of the H264 case of `fillCodecFormatSpecific`. -/
def h264KeyValue (rtp : RTPTypes) (h264Params : H264CodecCapabilityParameters)
    (keyValue : List Char × List Char) : Except SDPError H264CodecCapabilityParameters :=
  let (key, value) := keyValue
  if equalNoCase key "packetization-mode".toList then do
    let converted ← numericField (rtp.fieldBits "mPacketizationModes".toList) value
    pure { h264Params with mPacketizationModes := h264Params.mPacketizationModes ++ [converted] }
  else if equalNoCase key "profile-level-id".toList then do
    let converted ← numericFieldHex (rtp.fieldBits "mProfileLevelID".toList) value
    pure { h264Params with mProfileLevelID := some converted }
  else if equalNoCase key "max-mbps".toList then do
    let converted ← numericField (rtp.fieldBits "mMaxMBPS".toList) value
    pure { h264Params with mMaxMBPS := some converted }
  else if equalNoCase key "max-smbps".toList then do
    let converted ← numericField (rtp.fieldBits "mMaxSMBPS".toList) value
    pure { h264Params with mMaxSMBPS := some converted }
  else if equalNoCase key "max-fs".toList then do
    let converted ← numericField (rtp.fieldBits "mMaxFS".toList) value
    pure { h264Params with mMaxFS := some converted }
  else if equalNoCase key "max-cpb".toList then do
    let converted ← numericField (rtp.fieldBits "mMaxCPB".toList) value
    pure { h264Params with mMaxCPB := some converted }
  else if equalNoCase key "max-dpb".toList then do
    let converted ← numericField (rtp.fieldBits "mMaxDPB".toList) value
    pure { h264Params with mMaxDPB := some converted }
  else if equalNoCase key "max-br".toList then do
    let converted ← numericField (rtp.fieldBits "mMaxBR".toList) value
    pure { h264Params with mMaxBR := some converted }
  else pure h264Params

/-- The body of the loop of the RTX case of `fillCodecFormatSpecific`, on the
parameters and the flag `foundApt`. -/
def rtxKeyValue (rtp : RTPTypes) (state : RTXCodecCapabilityParameters × Bool)
    (keyValue : List Char × List Char) : Except SDPError (RTXCodecCapabilityParameters × Bool) :=
  let (rtxParams, foundApt) := state
  let (key, value) := keyValue
  if equalNoCase key "apt".toList then do
    let converted ← numericField (rtp.fieldBits "mApt".toList) value
    pure ({ rtxParams with mApt := converted }, true)
  else if equalNoCase key "rtx-time".toList then do
    let converted ← numericField 64 value
    pure ({ rtxParams with mRTXTime := converted }, foundApt)
  else pure (rtxParams, foundApt)

/-- The body of the loop of the FlexFEC case of `fillCodecFormatSpecific`, on
the parameters and the flag `foundRepairWindow`. -/
def flexFECKeyValue (rtp : RTPTypes) (state : FlexFECCodecCapabilityParameters × Bool)
    (keyValue : List Char × List Char) :
    Except SDPError (FlexFECCodecCapabilityParameters × Bool) :=
  let (flexFECParams, foundRepairWindow) := state
  let (key, value) := keyValue
  if equalNoCase key "ToP".toList then do
    let top ← numericField 32 value
    pure ({ flexFECParams with mToP := some top }, foundRepairWindow)
  else if equalNoCase key "L".toList then do
    let converted ← numericField (rtp.fieldBits "mL".toList) value
    pure ({ flexFECParams with mL := some converted }, foundRepairWindow)
  else if equalNoCase key "D".toList then do
    let converted ← numericField (rtp.fieldBits "mD".toList) value
    pure ({ flexFECParams with mD := some converted }, foundRepairWindow)
  else if equalNoCase key "repair-window".toList then do
    let converted ← numericField 64 value
    pure ({ flexFECParams with mRepairWindow := converted }, true)
  else pure (flexFECParams, foundRepairWindow)

/-- The function `fillCodecFormatSpecific`, as the codec capability it leaves. -/
def fillCodecFormatSpecific (ext : External) (rtp : RTPTypes) (supportedCodec : SupportedCodecs)
    (codecCapability : CodecCapability) (format : AFMTPLine) :
    Except SDPError CodecCapability :=
  match supportedCodec with
  | SupportedCodec_Unknown => .ok codecCapability
  | SupportedCodec_Opus => do
    let keyValues ← fixIntoCodecSpecificList ext format.mFormatSpecific
    let (opusParams, codecCapability) ←
      forKeyValues (opusKeyValue rtp) ({}, codecCapability) keyValues
    pure { codecCapability with mParameters := some (.opus opusParams) }
  | SupportedCodec_Isac => .ok codecCapability
  | SupportedCodec_G722 => .ok codecCapability
  | SupportedCodec_ILBC => .ok codecCapability
  | SupportedCodec_PCMU => .ok codecCapability
  | SupportedCodec_PCMA => .ok codecCapability
  | SupportedCodec_VP8 => do
    let keyValues ← fixIntoCodecSpecificList ext format.mFormatSpecific
    let vp8Params ← forKeyValues (vp8KeyValue rtp) {} keyValues
    pure { codecCapability with mParameters := some (.vp8 vp8Params) }
  | SupportedCodec_VP9 => .ok codecCapability
  | SupportedCodec_H264 => do
    let keyValues ← fixIntoCodecSpecificList ext format.mFormatSpecific
    let h264Params ← forKeyValues (h264KeyValue rtp) {} keyValues
    pure { codecCapability with mParameters := some (.h264 h264Params) }
  | SupportedCodec_RTX => do
    let keyValues ← fixIntoCodecSpecificList ext format.mFormatSpecific
    let (rtxParams, foundApt) ← forKeyValues (rtxKeyValue rtp) ({}, false) keyValues
    throwInvalidParametersIf (!foundApt)
    pure { codecCapability with mParameters := some (.rtx rtxParams) }
  | SupportedCodec_RED => .ok codecCapability
  | SupportedCodec_ULPFEC => .ok codecCapability
  | SupportedCodec_FlexFEC => do
    let keyValues ← fixIntoCodecSpecificList ext format.mFormatSpecific
    let (flexFECParams, foundRepairWindow) ←
      forKeyValues (flexFECKeyValue rtp) ({}, false) keyValues
    throwInvalidParametersIf (!foundRepairWindow)
    pure { codecCapability with mParameters := some (.flexFEC flexFECParams) }
  | SupportedCodec_CN => .ok codecCapability
  | SupportedCodec_TelephoneEvent => .ok codecCapability

/-- The values the payload type loop of `fillCapabilities` writes to: the
codecs pushed to both capabilities, and the three flags. -/
structure CodecLoopState where
  codecs : List CodecCapability := []
  foundULPFEC : Bool := false
  foundRED : Bool := false
  foundFlexFEC : Bool := false
  deriving DecidableEq, Repr

/-- The loop of `fillCapabilities` over the `rtcp-fb` lines for one codec: the
feedback of the lines without a payload type and of those with the payload
type of the codec. -/
def codecFeedback (preferredPayloadType : Nat) : List ARTCPFBLine → List RTCPFeedback
  | [] => []
  | fb :: rest =>
    if (match fb.mPayloadType with
        | some payloadType => decide (payloadType ≠ preferredPayloadType)
        | none => false) then codecFeedback preferredPayloadType rest
    else { mType := fb.mID, mParameter := fb.mParam1 } :: codecFeedback preferredPayloadType rest

/-- The body of the payload type loop of `fillCapabilities` for one format of
the media line. -/
def fillCodecCapability (ext : External) (rtp : RTPTypes) (mline : MLine)
    (matchCodecKind : CodecKinds) (ptime : Nat) (state : CodecLoopState)
    (payloadTypeStr : List Char) : Except SDPError CodecLoopState := do
  let pt ← numericField 8 payloadTypeStr
  let rtpMap := mline.mARTPMapLines.find? (fun checkRTPMap => checkRTPMap.mPayloadType = pt)
  let format := mline.mAFMTPLines.find? (fun checkFMTP => checkFMTP.mFormat = pt)
  let rtpMap : Option ARTPMapLine :=
    match rtpMap with
    | some rtpMap => some rtpMap
    | none =>
      let reservedType := rtp.toReservedCodec pt
      let supportedType := rtp.reservedToSupportedCodec reservedType
      if SupportedCodec_Unknown = supportedType then none
      else some { mPayloadType := pt, mEncodingName := rtp.supportedCodecToString supportedType,
                  mClockRate := rtp.getDefaultClockRate reservedType }
  match rtpMap with
  | none => pure state
  | some rtpMap =>
    let supportedType := rtp.toSupportedCodec rtpMap.mEncodingName
    if SupportedCodec_Unknown = supportedType then pure state
    else do
      let codecKind := rtp.getCodecKind supportedType
      throwInvalidParametersIf
        (decide (CodecKind_Audio = codecKind ∧ CodecKind_Video = matchCodecKind))
      throwInvalidParametersIf
        (decide (CodecKind_Audio ≠ codecKind ∧ CodecKind_Video = codecKind ∧
          CodecKind_Audio = matchCodecKind))
      let fillKind := decide (CodecKind_Audio = codecKind ∨ CodecKind_Video = codecKind)
      let codecCapability : CodecCapability :=
        { mName := rtpMap.mEncodingName,
          mKind := if fillKind then rtp.codecKindToString codecKind else [],
          mClockRate := rtpMap.mClockRate,
          mPreferredPayloadType := pt,
          mPTime := ptime,
          mNumChannels :=
            if CodecKind_Audio = codecKind then rtpMap.mEncodingParameters else none }
      let codecCapability ←
        match format with
        | some format => fillCodecFormatSpecific ext rtp supportedType codecCapability format
        | none => pure codecCapability
      throwInvalidParametersIf
        (rtp.requiresCapabilityParameters supportedType && codecCapability.mParameters.isNone)
      let state :=
        match supportedType with
        | SupportedCodec_RED => { state with foundRED := true }
        | SupportedCodec_ULPFEC => { state with foundULPFEC := true }
        | SupportedCodec_FlexFEC => { state with foundFlexFEC := true }
        | _ => state
      let codecCapability :=
        { codecCapability with
          mRTCPFeedback := codecCapability.mRTCPFeedback ++
            codecFeedback codecCapability.mPreferredPayloadType mline.mARTCPFBLines }
      pure { state with codecs := state.codecs ++ [codecCapability] }

/-- The payload type loop of `fillCapabilities` over the formats of the media
line. -/
def fillCodecCapabilities (ext : External) (rtp : RTPTypes) (mline : MLine)
    (matchCodecKind : CodecKinds) (ptime : Nat) :
    CodecLoopState → List (List Char) → Except SDPError CodecLoopState
  | state, [] => .ok state
  | state, payloadTypeStr :: rest => do
    let state ← fillCodecCapability ext rtp mline matchCodecKind ptime state payloadTypeStr
    fillCodecCapabilities ext rtp mline matchCodecKind ptime state rest

/-- The loop of `fillCapabilities` over the `extmap` lines: the header
extensions pushed to the sender and to the receiver capabilities. The two
tests are made with `Location_Local`; the parameter `location` of
`fillCapabilities` is not read. -/
def fillHeaderExtensions (rtp : RTPTypes) (matchCodecKind : CodecKinds) :
    List AExtmapLine → Except SDPError (List HeaderExtension × List HeaderExtension)
  | [] => .ok ([], [])
  | extmap :: rest => do
    let mPreferredID ← safeInt (rtp.fieldBits "mPreferredID".toList) extmap.mID
    let ext : HeaderExtension :=
      { mKind := rtp.codecKindToString matchCodecKind, mPreferredEncrypt := false,
        mPreferredID := mPreferredID, mURI := extmap.mURI }
    let (senderExtensions, receiverExtensions) ← fillHeaderExtensions rtp matchCodecKind rest
    pure (if isApplicable ActorRole_Sender Location_Local extmap.mDirection
            then ext :: senderExtensions else senderExtensions,
          if isApplicable ActorRole_Receiver Location_Local extmap.mDirection
            then ext :: receiverExtensions else receiverExtensions)

/-- The function `fillCapabilities`, as the sender and the receiver
capabilities it leaves, both empty before the call. It writes to nothing
else, and its result, `false` when the media kind is neither audio nor video,
is not used by its caller. -/
def fillCapabilities (ext : External) (rtp : RTPTypes) (_location : Locations) (_sdp : SDP)
    (mline : MLine) (_description : Description) (_mediaLine : MediaLine) :
    Except SDPError (Capabilities × Capabilities) :=
  let matchCodecKind := rtp.toCodecKind mline.mMedia
  if CodecKind_Audio ≠ matchCodecKind ∧ CodecKind_Video ≠ matchCodecKind then .ok ({}, {})
  else do
    let ptime :=
      match mline.mAPTimeLine with
      | some aPTimeLine => aPTimeLine.mPTime
      | none => 0
    let state ← fillCodecCapabilities ext rtp mline matchCodecKind ptime {} mline.mFmts
    let mechanisms : List (List Char) :=
      (if state.foundRED then
        (if state.foundULPFEC then [rtp.mechanismREDULPFEC] else [rtp.mechanismRED])
       else []) ++
      (if state.foundFlexFEC then [rtp.mechanismFlexFEC] else [])
    let (senderExtensions, receiverExtensions) ←
      fillHeaderExtensions rtp matchCodecKind mline.mAExtmapLines
    pure ({ mCodecs := state.codecs, mFECMechanisms := mechanisms,
            mHeaderExtensions := senderExtensions },
          { mCodecs := state.codecs, mFECMechanisms := mechanisms,
            mHeaderExtensions := receiverExtensions })

/-! ## SDPParser: the description -/

/-- The SDP text of the scenario "Minimal audio BUNDLE" of section 8. -/
def minimalAudioBundle : List Char :=
  ("v=0\n" ++
   "o=- 1 2 IN IP4 0.0.0.0\n" ++
   "s=-\n" ++
   "t=0 0\n" ++
   "a=group:BUNDLE a1\n" ++
   "m=audio 9 UDP/TLS/RTP/SAVPF 111\n" ++
   "c=IN IP4 0.0.0.0\n" ++
   "a=mid:a1\n" ++
   "a=ice-ufrag:xy\n" ++
   "a=ice-pwd:0123456789abcdef\n" ++
   "a=fingerprint:sha-256 AA:BB\n" ++
   "a=setup:actpass\n" ++
   "a=rtcp-mux\n" ++
   "a=sendrecv\n" ++
   "a=rtpmap:111 opus/48000/2\n").toList

/-- The line list that the tokenizer, the attribute splitter and the scope
validator leave for the text `minimalAudioBundle` followed by a NUL. -/
def minimalAudioBundleRecords : List LineTypeInfo :=
  [{ mLineType := LineType_v_Version, mAttributeLevel := AttributeLevel_Session,
     mValue := "v=0".toList },
   { mLineType := LineType_o_Origin, mAttributeLevel := AttributeLevel_Session,
     mValue := "o=- 1 2 IN IP4 0.0.0.0".toList },
   { mLineType := LineType_s_SessionName, mAttributeLevel := AttributeLevel_Session,
     mValue := "s=-".toList },
   { mLineType := LineType_t_Timing, mAttributeLevel := AttributeLevel_Session,
     mValue := "t=0 0".toList },
   { mLineType := LineType_a_Attributes, mValue := "a=group".toList },
   { mLineType := LineType_m_MediaLine, mAttributeLevel := AttributeLevel_Session,
     mValue := "m=audio 9 UDP/TLS/RTP/SAVPF 111".toList },
   { mLineType := LineType_c_ConnectionDataLine, mAttributeLevel := AttributeLevel_Media,
     mValue := "c=IN IP4 0.0.0.0".toList },
   { mLineType := LineType_a_Attributes, mValue := "a=mid".toList },
   { mLineType := LineType_a_Attributes, mValue := "a=ice-ufrag".toList },
   { mLineType := LineType_a_Attributes, mValue := "a=ice-pwd".toList },
   { mLineType := LineType_a_Attributes, mValue := "a=fingerprint".toList },
   { mLineType := LineType_a_Attributes, mValue := "a=setup".toList },
   { mLineType := LineType_a_Attributes, mValue := "a=rtcp-mux".toList },
   { mLineType := LineType_a_Attributes, mValue := "a=sendrecv".toList },
   { mLineType := LineType_a_Attributes, mValue := "a=rtpmap".toList }]

/-- A record list at the input type of `validateAttributeLevels` with
recognized attributes: a session part, a media section whose `ssrc` record is
followed by an `fmtp` record and then a `rtpmap` record, and a second media
section. -/
def scopedRecords : List LineTypeInfo :=
  [{ mLineType := LineType_v_Version, mValue := "0".toList },
   { mLineType := LineType_m_MediaLine, mValue := "audio 9 RTP/AVP 0".toList },
   { mLineType := LineType_a_Attributes, mAttribute := Attribute_MID, mValue := "mid".toList },
   { mLineType := LineType_a_Attributes, mAttribute := Attribute_SSRC, mValue := "ssrc".toList },
   { mLineType := LineType_a_Attributes, mAttribute := Attirbute_FMTP, mValue := "fmtp".toList },
   { mLineType := LineType_a_Attributes, mAttribute := Attribute_RTPMap,
     mValue := "rtpmap".toList },
   { mLineType := LineType_a_Attributes, mAttribute := Attribute_Unknown,
     mValue := "x-other".toList },
   { mLineType := LineType_m_MediaLine, mValue := "video 9 RTP/AVP 96".toList },
   { mLineType := LineType_c_ConnectionDataLine, mValue := "IN IP4 0.0.0.0".toList }]

/-- The records of `scopedRecords` with the levels the validator records. -/
def scopedRecordsValidated : List LineTypeInfo :=
  [{ mLineType := LineType_v_Version, mAttributeLevel := AttributeLevel_Session,
     mValue := "0".toList },
   { mLineType := LineType_m_MediaLine, mAttributeLevel := AttributeLevel_Session,
     mValue := "audio 9 RTP/AVP 0".toList },
   { mLineType := LineType_a_Attributes, mAttribute := Attribute_MID,
     mAttributeLevel := AttributeLevel_Media, mValue := "mid".toList },
   { mLineType := LineType_a_Attributes, mAttribute := Attribute_SSRC,
     mAttributeLevel := AttributeLevel_Media, mValue := "ssrc".toList },
   { mLineType := LineType_a_Attributes, mAttribute := Attirbute_FMTP,
     mAttributeLevel := AttributeLevel_Source, mValue := "fmtp".toList },
   { mLineType := LineType_a_Attributes, mAttribute := Attribute_RTPMap,
     mAttributeLevel := AttributeLevel_Media, mValue := "rtpmap".toList },
   { mLineType := LineType_a_Attributes, mAttribute := Attribute_Unknown,
     mValue := "x-other".toList },
   { mLineType := LineType_m_MediaLine, mAttributeLevel := AttributeLevel_Session,
     mValue := "video 9 RTP/AVP 96".toList },
   { mLineType := LineType_c_ConnectionDataLine, mAttributeLevel := AttributeLevel_Media,
     mValue := "IN IP4 0.0.0.0".toList }]

/-- An `m=` record at the input type of the scope validator. -/
def mediaRecord : LineTypeInfo :=
  { mLineType := LineType_m_MediaLine, mValue := "video 9 RTP/AVP 96".toList }

/-- An `a=` record whose attribute is not recognized. -/
def unknownAttributeRecord : LineTypeInfo :=
  { mLineType := LineType_a_Attributes, mAttribute := Attribute_Unknown,
    mValue := "x-other".toList }

/-- A `c=` record at the input type of the scope validator. -/
def connectionRecord : LineTypeInfo :=
  { mLineType := LineType_c_ConnectionDataLine, mValue := "IN IP4 0.0.0.0".toList }

/-- A validated record list with an `a=fmtp` record at source level: an `m=`
record, an `a=ssrc` record of its media section, and the `a=fmtp` record that
follows it. The values are the texts after the `=` and after the attribute
name. -/
def sourceFmtpRecords : List LineTypeInfo :=
  [{ mLineType := LineType_m_MediaLine, mAttributeLevel := AttributeLevel_Session,
     mValue := "audio 9 RTP/AVP 96 97".toList },
   { mLineType := LineType_a_Attributes, mAttribute := Attribute_SSRC,
     mAttributeLevel := AttributeLevel_Media, mValue := "1 cname:x".toList },
   { mLineType := LineType_a_Attributes, mAttribute := Attirbute_FMTP,
     mAttributeLevel := AttributeLevel_Source, mValue := "96 apt=100".toList }]

/-- A validated record list with flag attributes: `a=ice-lite` at session
level, an `m=` record, and `a=rtcp-mux`, `a=rtcp-rsize` and `a=bundle-only` in
its media section. The values are the texts after the `=` and the attribute
names. -/
def flagRecords : List LineTypeInfo :=
  [{ mLineType := LineType_a_Attributes, mAttribute := Attribute_ICELite,
     mAttributeLevel := AttributeLevel_Session, mValue := "ice-lite".toList },
   { mLineType := LineType_m_MediaLine, mAttributeLevel := AttributeLevel_Session,
     mValue := "audio 9 RTP/AVP 0".toList },
   { mLineType := LineType_a_Attributes, mAttribute := Attribute_RTCPMux,
     mAttributeLevel := AttributeLevel_Media, mValue := "rtcp-mux".toList },
   { mLineType := LineType_a_Attributes, mAttribute := Attribute_RTCPRSize,
     mAttributeLevel := AttributeLevel_Media, mValue := "rtcp-rsize".toList },
   { mLineType := LineType_a_Attributes, mAttribute := Attribute_BundleOnly,
     mAttributeLevel := AttributeLevel_Media, mValue := "bundle-only".toList }]

/-- The `SDP` that typed parsing and the four folders leave for `flagRecords`
(the empty `SDP` if they were to fail). -/
def flagRecordsFolded : SDP :=
  match parseValidated flagRecords with
  | .ok sdp => sdp
  | .error _ => {}

/-- A typed `s=` record at session level. -/
def sessionNameRecord : LineTypeInfo :=
  { mLineType := LineType_s_SessionName, mAttributeLevel := AttributeLevel_Session,
    mValue := "s=-".toList, mLineValue := some (.sLine { mSessionName := "s=-".toList }) }

/-- A typed `a=mid` record of the media line at position 0. -/
def midRecord : LineTypeInfo :=
  { mLineType := LineType_a_Attributes, mAttribute := Attribute_MID,
    mAttributeLevel := AttributeLevel_Media, mValue := "mid".toList,
    mLineValue := some (.aMIDLine { mMLine := some 0, mMID := "mid".toList }) }

/-- An `SDP` whose memory holds one media line, every slot being empty. -/
def oneMediaLineSDP : SDP := { mlineObjects := [{}] }

/-- A validated record list with an `a=sendonly` record in a media section. -/
def sendOnlyRecords : List LineTypeInfo :=
  [{ mLineType := LineType_m_MediaLine, mAttributeLevel := AttributeLevel_Session,
     mValue := "audio 9 RTP/AVP 0".toList },
   { mLineType := LineType_a_Attributes, mAttribute := Attribute_SendOnly,
     mAttributeLevel := AttributeLevel_Media, mValue := "sendonly".toList }]

/-- A validated record list with an `a=sendrecv` record in a media section. -/
def sendRecvRecords : List LineTypeInfo :=
  [{ mLineType := LineType_m_MediaLine, mAttributeLevel := AttributeLevel_Session,
     mValue := "audio 9 RTP/AVP 0".toList },
   { mLineType := LineType_a_Attributes, mAttribute := Attribute_SendRecv,
     mAttributeLevel := AttributeLevel_Media, mValue := "sendrecv".toList }]

/-- A validated `v=` record whose value is the text after the `=`. -/
def versionRecord : LineTypeInfo :=
  { mLineType := LineType_v_Version, mAttributeLevel := AttributeLevel_Session,
    mValue := "0".toList }

/-- A validated `b=` record at session level whose value is not of the form
`bwtype:bandwidth`. -/
def malformedBandwidthRecord : LineTypeInfo :=
  { mLineType := LineType_b_Bandwidth, mAttributeLevel := AttributeLevel_Session,
    mValue := "garbage".toList }

/-- A validated `m=` record whose value is the text after the `=`. -/
def audioRecord : LineTypeInfo :=
  { mLineType := LineType_m_MediaLine, mAttributeLevel := AttributeLevel_Session,
    mValue := "audio 9 RTP/AVP 0".toList }

/-- An instance of the helpers outside the sources, for the examples: the
digest appends the index to its text as a run of `i`, every conversion of
`IICETypes` gives 0, `capabilitiesToParameters` gives empty parameters, and
`combine` joins the strings with the separator. -/
def modelExternal : External :=
  { hash := fun str index => str ++ List.replicate index 'i'
    toProtocol := fun _ => .ok 0
    toCandidateType := fun _ => .ok 0
    toTCPCandidateType := fun _ => .ok 0
    capabilitiesToParameters := fun _ => .ok {}
    redCodecName := "red".toList
    combine := fun strs sep => List.intercalate [sep] strs }

/-- A folded RTP media line with `a=mid:a1`, `a=ice-ufrag:xy`, an `a=ice-pwd`,
`a=rtcp-mux` and one candidate line with component id 1. -/
def iceMLine : MLine :=
  { mMedia := "audio".toList, mPort := 9, mProtoStr := "RTP/AVP".toList,
    mProto := ProtocolType_RTP, mRTCPMux := some true,
    mAMIDLine := some { mMID := "a1".toList },
    mAICEUFragLine := some { mICEUFrag := "xy".toList },
    mAICEPwdLine := some { mICEPwd := "0123456789abcdef".toList },
    mACandidateLines :=
      [{ mFoundation := "1".toList, mComponentID := 1, mTransport := "udp".toList,
         mPriority := 2130706431, mConnectionAddress := "192.0.2.1".toList, mPort := 9,
         mTyp := "typ".toList, mCandidateType := "host".toList }] }

/-- A folded `SDP` whose only media line is `iceMLine`. -/
def iceSDP : SDP := { mlineObjects := [iceMLine], mMLines := [0] }

/-- A description whose only transport has the id `a1`. -/
def transportDescription : Description := { mTransports := [{ mID := "a1".toList }] }

/-- An instance of `fillCapabilities` for the examples: it gives empty
capabilities. -/
def modelFillCapabilities (_location : Locations) (_sdp : SDP) (_mline : MLine)
    (_description : Description) (_mediaLine : MediaLine) :
    Except SDPError (Capabilities × Capabilities) :=
  .ok ({}, {})

/-- The description that `createRTPMediaLines` leaves for `iceSDP` and
`transportDescription` (the empty description if it were to fail). -/
def transportDescriptionWithMediaLines : Description :=
  match createRTPMediaLines modelExternal modelFillCapabilities Location_Local iceSDP
      transportDescription with
  | .ok description => description
  | .error _ => {}

/-- A description whose only RTP media line has the id `v1`. -/
def otherMediaLineDescription : Description :=
  { mRTPMediaLines :=
      [{ toMediaLine := { mID := "v1".toList, mTransportID := "v1".toList },
         mSenderCapabilities := some {}, mReceiverCapabilities := some {} }] }

/-- A description whose only RTP media line has the id `a1`. -/
def ownMediaLineDescription : Description :=
  { mRTPMediaLines :=
      [{ toMediaLine := { mID := "a1".toList, mTransportID := "a1".toList },
         mSenderCapabilities := some {}, mReceiverCapabilities := some {} }] }

/-- A folded RTP media line with `a=mid:a1`, `a=ice-ufrag:xy`, an `a=ice-pwd`,
`a=rtcp-mux` and one candidate line with component id 2. -/
def muxComponentTwoMLine : MLine :=
  { mMedia := "audio".toList, mPort := 9, mProtoStr := "RTP/AVP".toList,
    mProto := ProtocolType_RTP, mRTCPMux := some true,
    mAMIDLine := some { mMID := "a1".toList },
    mAICEUFragLine := some { mICEUFrag := "xy".toList },
    mAICEPwdLine := some { mICEPwd := "0123456789abcdef".toList },
    mACandidateLines :=
      [{ mFoundation := "1".toList, mComponentID := 2, mTransport := "udp".toList,
         mPriority := 2130706430, mConnectionAddress := "192.0.2.1".toList, mPort := 10,
         mTyp := "typ".toList, mCandidateType := "host".toList }] }

/-- A folded `SDP` whose only media line is `muxComponentTwoMLine`. -/
def muxComponentTwoSDP : SDP := { mlineObjects := [muxComponentTwoMLine], mMLines := [0] }

/-- The transport that the loop body of `createTransports` builds for
`muxComponentTwoMLine` (the empty transport if it were to build none). -/
def muxComponentTwoTransport : Transport :=
  match createTransport modelExternal muxComponentTwoSDP 0 muxComponentTwoMLine with
  | .ok (some transport) => transport
  | _ => {}

/-- A candidate value with twelve fields. -/
def candidateValueTwelve : List Char :=
  "f 1 udp 5 10.0.0.1 9 typ relay 10.0.0.2 7 generation 0".toList

/-- A candidate value with component id 1. -/
def rtpCandidateValue : List Char := "1 1 udp 2130706431 192.0.2.1 9 typ host".toList

/-- A candidate value with component id 2. -/
def rtcpCandidateValue : List Char := "1 2 udp 2130706430 192.0.2.1 10 typ host".toList

/-- The candidate line of `rtpCandidateValue` for the media line 0. -/
def rtpCandidateLine : ACandidateLine :=
  { mMLine := some 0, mFoundation := "1".toList, mComponentID := 1, mTransport := "udp".toList,
    mPriority := 2130706431, mConnectionAddress := "192.0.2.1".toList, mPort := 9,
    mTyp := "typ".toList, mCandidateType := "host".toList }

/-- The candidate line of `rtcpCandidateValue` for the media line 0. -/
def rtcpCandidateLine : ACandidateLine :=
  { mMLine := some 0, mFoundation := "1".toList, mComponentID := 2, mTransport := "udp".toList,
    mPriority := 2130706430, mConnectionAddress := "192.0.2.1".toList, mPort := 10,
    mTyp := "typ".toList, mCandidateType := "host".toList }

/-- A folded RTP media line with `a=mid:a1`, `a=ice-ufrag:xy`, an `a=ice-pwd`
and the two candidate lines with the component ids 1 and 2. -/
def twoCandidateMLine : MLine :=
  { mMedia := "audio".toList, mPort := 9, mProtoStr := "RTP/AVP".toList,
    mProto := ProtocolType_RTP,
    mAMIDLine := some { mMID := "a1".toList },
    mAICEUFragLine := some { mICEUFrag := "xy".toList },
    mAICEPwdLine := some { mICEPwd := "0123456789abcdef".toList },
    mACandidateLines := [rtpCandidateLine, rtcpCandidateLine] }

/-- A folded `SDP` whose only media line is `twoCandidateMLine`. -/
def twoCandidateSDP : SDP := { mlineObjects := [twoCandidateMLine], mMLines := [0] }

/-- The transport that the loop body of `createTransports` builds for
`twoCandidateMLine` (the empty transport if it were to build none). -/
def twoCandidateTransport : Transport :=
  match createTransport modelExternal twoCandidateSDP 0 twoCandidateMLine with
  | .ok (some transport) => transport
  | _ => {}

/-- A folded media line with an `a=fingerprint` line and the given `a=setup`
value, or no `a=setup` line. -/
def setupMLine (setup : Option (List Char)) : MLine :=
  { mMedia := "audio".toList, mPort := 9, mProtoStr := "RTP/AVP".toList,
    mProto := ProtocolType_RTP, mRTCPMux := some true,
    mAMIDLine := some { mMID := "a1".toList },
    mAICEUFragLine := some { mICEUFrag := "xy".toList },
    mAICEPwdLine := some { mICEPwd := "0123456789abcdef".toList },
    mAFingerprintLines := [{ mHashFunc := "sha-256".toList, mFingerprint := "AA:BB".toList }],
    mASetupLine := setup.map (fun value => { mSetup := value }) }

/-- The group line of `a=group:BUNDLE v0 a0`. -/
def bundleGroupLine : AGroupLine :=
  { mSemantic := "BUNDLE".toList, mIdentificationTags := ["v0".toList, "a0".toList] }

/-- A folded RTP media line with `a=mid:v0`. -/
def bundleVideoMLine : MLine :=
  { mMedia := "video".toList, mPort := 9, mProtoStr := "RTP/AVP".toList,
    mProto := ProtocolType_RTP, mAMIDLine := some { mMID := "v0".toList } }

/-- A folded RTP media line with `a=mid:a0`. -/
def bundleAudioMLine : MLine :=
  { mMedia := "audio".toList, mPort := 9, mProtoStr := "RTP/AVP".toList,
    mProto := ProtocolType_RTP, mAMIDLine := some { mMID := "a0".toList } }

/-- A folded `SDP` with the media lines `v0` and `a0` and the group line
`a=group:BUNDLE v0 a0`. -/
def bundleSDP : SDP :=
  { mlineObjects := [bundleVideoMLine, bundleAudioMLine], mMLines := [0, 1],
    mAGroupLines := [bundleGroupLine] }

/-- The `SDP` of `bundleSDP` with a second group line `a=group:BUNDLE x0 a0`. -/
def twoBundlesSDP : SDP :=
  { bundleSDP with
    mAGroupLines :=
      [bundleGroupLine,
       { mSemantic := "BUNDLE".toList, mIdentificationTags := ["x0".toList, "a0".toList] }] }

/-- A description with the transports `v0` and `a0`. -/
def bundleDescription : Description :=
  { mTransports := [{ mID := "v0".toList }, { mID := "a0".toList }] }

/-- A description whose only transport has the id `a0`. -/
def audioTransportDescription : Description := { mTransports := [{ mID := "a0".toList }] }

/-- A description with the transports `v0`, `x0` and `a0`. -/
def threeTransportDescription : Description :=
  { mTransports := [{ mID := "v0".toList }, { mID := "x0".toList }, { mID := "a0".toList }] }

/-- An instance of the helpers of `IRTPTypes` for the examples: the media
names `audio` and `video` are the two codec kinds, the codec names `opus` and
`rtx` are known, no payload type is reserved, no codec requires parameters,
the header extension id has 16 bits, the payload type of `apt` has 8 bits and
every other numeric field has 32 bits. -/
def modelRTPTypes : RTPTypes :=
  { toCodecKind := fun media =>
      if equalNoCase media "audio".toList then CodecKind_Audio
      else if equalNoCase media "video".toList then CodecKind_Video
      else CodecKind_Unknown
    codecKindToString := fun kind =>
      match kind with
      | CodecKind_Audio => "audio".toList
      | CodecKind_Video => "video".toList
      | _ => []
    toReservedCodec := fun payloadType => payloadType
    reservedToSupportedCodec := fun _ => SupportedCodec_Unknown
    toSupportedCodec := fun name =>
      if equalNoCase name "opus".toList then SupportedCodec_Opus
      else if equalNoCase name "rtx".toList then SupportedCodec_RTX
      else SupportedCodec_Unknown
    supportedCodecToString := fun _ => []
    getDefaultClockRate := fun _ => 0
    getCodecKind := fun codec =>
      match codec with
      | SupportedCodec_Opus => CodecKind_Audio
      | _ => CodecKind_Unknown
    requiresCapabilityParameters := fun _ => false
    mechanismREDULPFEC := "red+ulpfec".toList
    mechanismRED := "red".toList
    mechanismFlexFEC := "flexfec".toList
    fieldBits := fun field =>
      if field = "mPreferredID".toList then 16
      else if field = "mApt".toList then 8
      else 32 }

/-- A folded audio media line with one `extmap` line of direction send. -/
def extmapMLine : MLine :=
  { mMedia := "audio".toList, mPort := 9, mProtoStr := "RTP/AVP".toList,
    mProto := ProtocolType_RTP, mAMIDLine := some { mMID := "a1".toList },
    mAExtmapLines :=
      [{ mMLine := some 0, mID := 1, mDirection := Direction_Send,
         mURI := "urn:ietf:params:rtp-hdrext:ssrc-audio-level".toList }] }

/-- A folded `SDP` whose only media line is `extmapMLine`. -/
def extmapSDP : SDP := { mlineObjects := [extmapMLine], mMLines := [0] }

/-- The capabilities that `fillCapabilities` leaves for `extmapMLine` at the
remote location (empty capabilities if it were to fail). -/
def extmapCapabilities : Capabilities × Capabilities :=
  match fillCapabilities modelExternal modelRTPTypes Location_Remote extmapSDP extmapMLine {} {} with
  | .ok capabilities => capabilities
  | .error _ => ({}, {})

/-- The `fmtp` line of the value `96 apt=100;rtx-time=200` of the media line 0. -/
def rtxFmtpLine : AFMTPLine :=
  { mMLine := some 0, mFormat := 96,
    mFormatSpecific := ["96".toList, "apt=100;rtx-time=200".toList] }

/-- The `fmtp` line of the value `96 rtx-time=200` of the media line 0. -/
def rtxTimeFmtpLine : AFMTPLine :=
  { mMLine := some 0, mFormat := 96, mFormatSpecific := ["96".toList, "rtx-time=200".toList] }

/-- The `fmtp` line of the value `96 apt=100` of the media line 0. -/
def aptFmtpLine : AFMTPLine :=
  { mMLine := some 0, mFormat := 96, mFormatSpecific := ["96".toList, "apt=100".toList] }

/-- The `fmtp` line of the value `116 111/112` of the media line 0. -/
def redFmtpLine : AFMTPLine :=
  { mMLine := some 0, mFormat := 116, mFormatSpecific := ["116".toList, "111/112".toList] }

/-- The `ssrc` line of the value `1 msid s1 t1` of the media line 0: its
attribute is `msid` and its attribute values are `s1` and `t1`. -/
def msidSSRCLine : ASSRCLine :=
  { mMLine := some 0, mSSRC := 1, mAttribute := "msid".toList,
    mAttributeValues := ["s1".toList, "t1".toList] }

/-- A folded RTP media line without `msid` line and with one `ssrc` line. -/
def msidSSRCMLine : MLine :=
  { mMedia := "audio".toList, mPort := 9, mProtoStr := "RTP/AVP".toList,
    mProto := ProtocolType_RTP, mAMIDLine := some { mMID := "a1".toList },
    mASSRCLines := [0] }

/-- A folded `SDP` whose only media line is `msidSSRCMLine` and whose only
`ssrc` line is `msidSSRCLine`. -/
def msidSSRCSDP : SDP :=
  { mlineObjects := [msidSSRCMLine], assrcLineObjects := [msidSSRCLine], mMLines := [0] }

/-- The `SDP` of `msidSSRCSDP` with two `fmtp` lines under the `ssrc` line. -/
def msidSSRCWithFmtpSDP : SDP :=
  { mlineObjects := [msidSSRCMLine],
    assrcLineObjects :=
      [{ msidSSRCLine with
         mAFMTPLines := [{ mMLine := some 0, mSourceLine := some 0, mFormat := 96 },
                         { mMLine := some 0, mSourceLine := some 0, mFormat := 97 }] }],
    mMLines := [0] }

/-! ## Vocabulary of the statements -/

/-- The letters of the eight line types. -/
def lineLetters : List Char := ['v', 'o', 's', 'b', 't', 'a', 'm', 'c']

/-- The record that a line of the text gives rise to: none for an empty line
and for a line whose first character is not one of the eight letters;
otherwise the record of that letter, its value being the whole line. -/
def recordOfLine : List Char → Option LineTypeInfo
  | [] => none
  | c :: rest =>
    if c ∈ lineLetters then some { mLineType := toLineType c, mValue := c :: rest } else none

/-- A level that is exactly one of session, media and source. -/
def AttributeLevels.isScope (level : AttributeLevels) : Prop :=
  level = AttributeLevel_Session ∨ level = AttributeLevel_Media ∨ level = AttributeLevel_Source

/-- A record the validator does not skip: its line type is known and, when it
is an `a=` record, its attribute is recognized. -/
def LineTypeInfo.isKnown (info : LineTypeInfo) : Prop :=
  info.mLineType ≠ LineType_Unknown ∧
  (info.mLineType = LineType_a_Attributes → info.mAttribute ≠ Attribute_Unknown)

/-- The recorded level of a record is one scope, it belongs to the allowed
levels of the line type of the record and, for an `a=` record, to the allowed
levels of its attribute. -/
def LineTypeInfo.levelAllowed (info : LineTypeInfo) : Prop :=
  info.mAttributeLevel.isScope ∧
  (∃ allowedLevels, info.mLineType.getAttributeLevel = .ok allowedLevels ∧
    allowedLevels.and info.mAttributeLevel ≠ 0) ∧
  (info.mLineType = LineType_a_Attributes →
    ∃ allowedLevels, info.mAttribute.getAttributeLevel = .ok allowedLevels ∧
      allowedLevels.and info.mAttributeLevel ≠ 0)

/-- Two records that agree on everything but the recorded level. -/
def LineTypeInfo.sameLine (a b : LineTypeInfo) : Prop :=
  a.mLineType = b.mLineType ∧ a.mAttribute = b.mAttribute ∧ a.mValue = b.mValue

/-- An `a=fmtp` record at source level. -/
def LineTypeInfo.isSourceFmtp (info : LineTypeInfo) : Prop :=
  info.mLineType = LineType_a_Attributes ∧ info.mAttribute = Attirbute_FMTP ∧
    info.mAttributeLevel = AttributeLevel_Source

/-- The record carries a typed `fmtp` value whose source line pointer is
null. -/
def LineTypeInfo.hasNullSourceLine (info : LineTypeInfo) : Prop :=
  ∃ line, info.mLineValue = some (.aFMTPLine line) ∧ line.mSourceLine = none

/-- An `a=ice-lite` record at session level, or an `a=rtcp-mux` or
`a=rtcp-rsize` record at media level. -/
def LineTypeInfo.isLeftFlag (info : LineTypeInfo) : Prop :=
  info.mLineType = LineType_a_Attributes ∧
    ((info.mAttribute = Attribute_ICELite ∧ info.mAttributeLevel = AttributeLevel_Session) ∨
     ((info.mAttribute = Attribute_RTCPMux ∨ info.mAttribute = Attribute_RTCPRSize) ∧
        info.mAttributeLevel = AttributeLevel_Media))

/-- The single-valued lines of the session: `v=`, `o=`, `s=`, `t=`, `c=`,
`a=ice-ufrag`, `a=ice-pwd`, `a=ice-options` and `a=setup`. -/
inductive SessionSlot where
  | version
  | origin
  | sessionName
  | timing
  | connection
  | iceUFrag
  | icePwd
  | iceOptions
  | setup
  deriving DecidableEq, Repr

/-- The single-valued line of the session a record stands for, by its line
type and attribute. -/
def SessionSlot.ofRecord (info : LineTypeInfo) : Option SessionSlot :=
  match info.mLineType with
  | LineType_v_Version => some .version
  | LineType_o_Origin => some .origin
  | LineType_s_SessionName => some .sessionName
  | LineType_t_Timing => some .timing
  | LineType_c_ConnectionDataLine => some .connection
  | LineType_a_Attributes =>
    match info.mAttribute with
    | Attribute_ICEUFrag => some .iceUFrag
    | Attribute_ICEPwd => some .icePwd
    | Attribute_ICEOptions => some .iceOptions
    | Attribute_Setup => some .setup
    | _ => none
  | _ => none

/-- The single-valued line of the session a typed value is an object of. -/
def SessionSlot.ofValue : LineValue → Option SessionSlot
  | .vLine _ => some .version
  | .oLine _ => some .origin
  | .sLine _ => some .sessionName
  | .tLine _ => some .timing
  | .cLine _ => some .connection
  | .aICEUFragLine _ => some .iceUFrag
  | .aICEPwdLine _ => some .icePwd
  | .aICEOptionsLine _ => some .iceOptions
  | .aSetupLine _ => some .setup
  | _ => none

/-- The slot of the `SDP` for a single-valued line holds a line. -/
def SDP.holds (sdp : SDP) : SessionSlot → Bool
  | .version => sdp.mVLine.isSome
  | .origin => sdp.mOLine.isSome
  | .sessionName => sdp.mSLine.isSome
  | .timing => sdp.mTLine.isSome
  | .connection => sdp.mCLine.isSome
  | .iceUFrag => sdp.mAICEUFragLine.isSome
  | .icePwd => sdp.mAICEPwdLine.isSome
  | .iceOptions => sdp.mAICEOptionsLine.isSome
  | .setup => sdp.mASetupLine.isSome

/-- An occurrence of a single-valued line at session level, as typed parsing
leaves it: the record is at session level, it stands for the line by its line
type and attribute, and its typed value is an object of the line. -/
def LineTypeInfo.isSessionOccurrence (info : LineTypeInfo) (slot : SessionSlot) : Prop :=
  info.mAttributeLevel = AttributeLevel_Session ∧ SessionSlot.ofRecord info = some slot ∧
    info.mLineValue.bind SessionSlot.ofValue = some slot

/-- The single-valued lines of a media line: `a=ice-ufrag`, `a=ice-pwd`,
`a=setup`, `a=mid`, `a=rtcp`, `a=ptime`, `a=maxptime`, `a=simulcast`,
`a=sctp-port`, `a=max-message-size` and `c=`. -/
inductive MediaSlot where
  | iceUFrag
  | icePwd
  | setup
  | mid
  | rtcp
  | ptime
  | maxptime
  | simulcast
  | sctpPort
  | maxMessageSize
  | connection
  deriving DecidableEq, Repr

/-- The single-valued line of a media line a record stands for, by its line
type and attribute. -/
def MediaSlot.ofRecord (info : LineTypeInfo) : Option MediaSlot :=
  match info.mLineType with
  | LineType_c_ConnectionDataLine => some .connection
  | LineType_a_Attributes =>
    match info.mAttribute with
    | Attribute_ICEUFrag => some .iceUFrag
    | Attribute_ICEPwd => some .icePwd
    | Attribute_Setup => some .setup
    | Attribute_MID => some .mid
    | Attribute_RTCP => some .rtcp
    | Attribute_PTime => some .ptime
    | Attribute_MaxPTime => some .maxptime
    | Attribute_Simulcast => some .simulcast
    | Attribute_SCTPPort => some .sctpPort
    | Attribute_MaxMessageSize => some .maxMessageSize
    | _ => none
  | _ => none

/-- The single-valued line of a media line a typed value is an object of, with
the media line the value points to. -/
def MediaSlot.ofValue : LineValue → Option (MediaSlot × MLinePtr)
  | .aICEUFragLine line => some (.iceUFrag, line.mMLine)
  | .aICEPwdLine line => some (.icePwd, line.mMLine)
  | .aSetupLine line => some (.setup, line.mMLine)
  | .aMIDLine line => some (.mid, line.mMLine)
  | .aRTCPLine line => some (.rtcp, line.mMLine)
  | .aPTimeLine line => some (.ptime, line.mMLine)
  | .aMaxPTimeLine line => some (.maxptime, line.mMLine)
  | .aSimulcastLine line => some (.simulcast, line.mMLine)
  | .aSCTPPortLine line => some (.sctpPort, line.mMLine)
  | .aMaxMessageSizeLine line => some (.maxMessageSize, line.mMLine)
  | .cLine line => some (.connection, line.mMLine)
  | _ => none

/-- The slot of a media line for a single-valued line holds a line. -/
def MLine.holds (mline : OrtcSDP.MLine) : MediaSlot → Bool
  | .iceUFrag => mline.mAICEUFragLine.isSome
  | .icePwd => mline.mAICEPwdLine.isSome
  | .setup => mline.mASetupLine.isSome
  | .mid => mline.mAMIDLine.isSome
  | .rtcp => mline.mARTCPLine.isSome
  | .ptime => mline.mAPTimeLine.isSome
  | .maxptime => mline.mAMaxPTimeLine.isSome
  | .simulcast => mline.mASimulcastLine.isSome
  | .sctpPort => mline.mASCTPPortLine.isSome
  | .maxMessageSize => mline.mAMaxMessageSize.isSome
  | .connection => mline.mCLine.isSome

/-- An occurrence of a single-valued line within the media line at `pointer`,
as typed parsing leaves it: the record is at media level, it stands for the
line by its line type and attribute, and its typed value is an object of the
line that points to the media line. -/
def LineTypeInfo.isMediaOccurrence (info : LineTypeInfo) (slot : MediaSlot) (pointer : Nat) :
    Prop :=
  info.mAttributeLevel = AttributeLevel_Media ∧ MediaSlot.ofRecord info = some slot ∧
    info.mLineValue.bind MediaSlot.ofValue = some (slot, some pointer)

/-- The media line at `pointer` exists and its slot for a single-valued line
holds a line. -/
def SDP.mlineHolds (sdp : SDP) (pointer : Nat) (slot : MediaSlot) : Prop :=
  ∃ mline, sdp.mline pointer = .ok mline ∧ mline.holds slot = true

/-- An `a=sendrecv`, `a=sendonly`, `a=recvonly` or `a=inactive` record. -/
def LineTypeInfo.isDirectionFlag (info : LineTypeInfo) : Prop :=
  info.mLineType = LineType_a_Attributes ∧
    (info.mAttribute = Attribute_SendRecv ∨ info.mAttribute = Attribute_SendOnly ∨
     info.mAttribute = Attribute_RecvOnly ∨ info.mAttribute = Attribute_Inactive)

/-- The transport id of a media line is not empty and is the id of one of the
transports. -/
def MediaLine.referencesTransport (mediaLine : MediaLine) (transports : List Transport) :
    Prop :=
  mediaLine.mTransportID ≠ [] ∧ ∃ transport ∈ transports, transport.mID = mediaLine.mTransportID

/-- The fields of a candidate value: the strings that the constructor's
`split(value, " ")`, `splitTrim` and `splitPruneEmpty` leave, in order. -/
def candidateFields (value : List Char) : List (List Char) :=
  (splitPruneEmpty (splitTrim (split value ' '))).values

/-- The candidate lines paired with the candidates that `convertCandidates`
builds from them, one by one in the order of the lines; the error of the first
line that does not convert. -/
def convertEach (ext : External) :
    List ACandidateLine → Except SDPError (List (ACandidateLine × ICECandidate))
  | [] => .ok []
  | acandidate :: rest =>
    match convertCandidate ext acandidate with
    | .error e => .error e
    | .ok candidate =>
      match convertEach ext rest with
      | .error e => .error e
      | .ok others => .ok ((acandidate, candidate) :: others)

/-- The candidates of the lines whose component id is 0, in the order of the
lines. -/
def componentZeroCandidates (pairs : List (ACandidateLine × ICECandidate)) : List ICECandidate :=
  (pairs.filter (fun pair => pair.1.mComponentID = 0)).map Prod.snd

/-- The candidates of the lines whose component id is not 0, in the order of
the lines. -/
def componentNonzeroCandidates (pairs : List (ACandidateLine × ICECandidate)) :
    List ICECandidate :=
  (pairs.filter (fun pair => pair.1.mComponentID ≠ 0)).map Prod.snd

/-- The RTCP parameters with further candidates appended, allocated when they
are absent; they are left as they are when there is no candidate to append. -/
def appendToRTCP (ioRTCPTransport : Option TransportParameters)
    (candidates : List ICECandidate) : Option TransportParameters :=
  match candidates with
  | [] => ioRTCPTransport
  | _ =>
    match ioRTCPTransport with
    | some rtcp => some { rtcp with mICECandidates := rtcp.mICECandidates ++ candidates }
    | none => some { mICECandidates := candidates }

/-- The DTLS role of the transport that the loop body of `createTransports`
builds for a media line, when it builds one that has DTLS parameters. -/
def transportRole (ext : External) (sdp : SDP) (index : Nat) (mline : MLine) :
    Except SDPError (Option DTLSRoles) :=
  (createTransport ext sdp index mline).map (fun transport =>
    match transport with
    | some { mRTP := some { mDTLSParameters := some dtls, .. }, .. } => some dtls.mRole
    | _ => none)

/-- The first group line with the semantic `BUNDLE`, compared without regard to
case, that has the mid among its identification tags. -/
def bundleGroupOf (mid : List Char) (groups : List AGroupLine) : Option AGroupLine :=
  groups.find? (fun group =>
    equalNoCase group.mSemantic "BUNDLE".toList && decide (mid ∈ group.mIdentificationTags))

/-- The first identification tag of the first `BUNDLE` group that has the mid
of the media line among its tags; `none` when the media line has no mid or its
mid is in no such group. -/
def bundleTransportID (sdp : SDP) (mline : MLine) : Option (List Char) :=
  match mline.mAMIDLine with
  | some aMIDLine =>
    (bundleGroupOf aMIDLine.mMID sdp.mAGroupLines).map
      (fun group => group.mIdentificationTags.headD [])
  | none => none

/-- A transport with the id is among the transports of the description. -/
def Description.hasTransport (description : Description) (id : List Char) : Bool :=
  description.mTransports.any (fun transport => transport.mID = id)

/-- The private transport id of a media line: its mid, or the transport id
made from its index when it has no mid, when the description has a transport
with that id, and the empty string otherwise. -/
def privateTransportID (ext : External) (index : Nat) (mline : MLine)
    (description : Description) : List Char :=
  let id :=
    match mline.mAMIDLine with
    | some aMIDLine => aMIDLine.mMID
    | none => createTransportIDFromIndex ext.hash index
  if description.hasTransport id then id else []

/-- The header extension that `fillCapabilities` builds from an `extmap` line
of a media line. -/
def headerExtensionOf (rtp : RTPTypes) (mline : MLine) (extmap : AExtmapLine) : HeaderExtension :=
  { mKind := rtp.codecKindToString (rtp.toCodecKind mline.mMedia), mPreferredEncrypt := false,
    mPreferredID := extmap.mID, mURI := extmap.mURI }

/-- The fields of a value: the strings that `split(value, " ")`, `splitTrim`
and `splitPruneEmpty` leave, in order. -/
def spaceFields (value : List Char) : List (List Char) :=
  (splitPruneEmpty (splitTrim (split value ' '))).values

/-- The number of candidates of transport parameters that may be absent. -/
def candidateCount (parameters : Option TransportParameters) : Nat :=
  match parameters with
  | some parameters => parameters.mICECandidates.length
  | none => 0

/-- The characters `toLineType` does not recognize are those that are none of the
eight letters. -/
theorem toLineType_eq_unknown_iff (c : Char) :
    toLineType c = LineType_Unknown ↔ c ∉ lineLetters := by
  unfold toLineType
  simp only [LineTypes.toChar]
  split_ifs with h0 h1 h2 h3 h4 h5 h6 h7 h8
  · subst h0; simp [lineLetters, NUL]
  all_goals simp_all [lineLetters]

/-- The line type of a letter has that letter as its value. -/
theorem toLineType_letter (c : Char) (h : c ∈ lineLetters) :
    (toLineType c).toChar = c := by
  simp only [lineLetters, List.mem_cons, List.mem_singleton, List.not_mem_nil, or_false] at h
  rcases h with h | h | h | h | h | h | h | h <;> subst h <;> rfl

/-- The first piece of the text cut at the end-of-line characters is the C string
found at the start of the buffer after `parseLines`. -/
theorem splitOnP_cString_head (rest : List Char) :
    ∃ T, (cString rest).splitOnP isEOL = lineAt rest :: T := by
  induction rest with
  | nil => exact ⟨[], by simp [cString, lineAt]⟩
  | cons c rest ih =>
    obtain ⟨T, hT⟩ := ih
    by_cases h0 : c = NUL
    · subst h0
      exact ⟨[], by simp [cString, lineAt]⟩
    · by_cases he : isEOL c = true
      · refine ⟨(cString rest).splitOnP isEOL, ?_⟩
        have : cString (c :: rest) = c :: cString rest := by simp [cString, h0]
        rw [this, List.splitOnP_cons]
        simp [he, lineAt, h0]
      · refine ⟨T, ?_⟩
        have : cString (c :: rest) = c :: cString rest := by simp [cString, h0]
        rw [this, List.splitOnP_cons, hT]
        simp [he, lineAt, h0]

/-- The loop of `parseLines` on an allocation that holds no NUL: it reads past
the last byte, whatever the flag. -/
theorem parseLinesFrom_unterminated (lastWasEOL : Bool) (buffer : List Char)
    (h : NUL ∉ buffer) : parseLinesFrom lastWasEOL buffer = .error .UndefinedBehaviour := by
  induction buffer generalizing lastWasEOL with
  | nil => rfl
  | cons c rest ih =>
    have hc : c ≠ NUL := fun e => h (by rw [e]; exact List.mem_cons_self _ _)
    have hrest : NUL ∉ rest := fun hm => h (List.mem_cons_of_mem _ hm)
    simp only [parseLinesFrom, hc, if_false, ih _ hrest]
    split_ifs <;> rfl

/-- The loop of `parseLines` on an allocation that holds a NUL, for both values
of `lastWasEOL`: at the start of a line it emits the records of all the lines
of the text before the NUL, inside a line the records of the lines after the
current one. -/
theorem parseLinesFrom_spec (buffer : List Char) (h : NUL ∈ buffer) :
    parseLinesFrom true buffer =
      .ok (((cString buffer).splitOnP isEOL).filterMap recordOfLine) ∧
    parseLinesFrom false buffer =
      .ok (((cString buffer).splitOnP isEOL).tail.filterMap recordOfLine) := by
  induction buffer with
  | nil => simp at h
  | cons c rest ih =>
    by_cases h0 : c = NUL
    · subst h0
      simp [cString, parseLinesFrom, recordOfLine]
    · have hmem : NUL ∈ rest := by
        rcases List.mem_cons.mp h with e | hm
        · exact absurd e.symm h0
        · exact hm
      have ih := ih hmem
      have hc : cString (c :: rest) = c :: cString rest := by simp [cString, h0]
      by_cases he : isEOL c = true
      · rw [hc, List.splitOnP_cons]
        simp [parseLinesFrom, h0, he, recordOfLine, ih.1]
      · obtain ⟨T, hT⟩ := splitOnP_cString_head rest
        rw [hc, List.splitOnP_cons]
        rw [hT] at ih
        have ih2 := ih.2
        simp only [List.tail_cons] at ih2
        by_cases hu : toLineType c = LineType_Unknown
        · have hm := (toLineType_eq_unknown_iff c).1 hu
          simp [parseLinesFrom, h0, he, hT, recordOfLine, ih2, hu, hm]
        · have hm : c ∈ lineLetters := by
            by_contra hm
            exact hu ((toLineType_eq_unknown_iff c).2 hm)
          simp [parseLinesFrom, h0, he, hT, recordOfLine, ih2, hu, hm, lineAt]

/-- The tokenizer returns exactly on the allocations that hold a NUL. -/
theorem parseLines_ok (buffer : List Char) (infos : List LineTypeInfo)
    (h : parseLines buffer = .ok infos) :
    NUL ∈ buffer ∧ infos = ((cString buffer).splitOnP isEOL).filterMap recordOfLine := by
  by_cases hm : NUL ∈ buffer
  · rw [parseLines, (parseLinesFrom_spec buffer hm).1] at h
    simp only [Except.ok.injEq] at h
    exact ⟨hm, h.symm⟩
  · rw [parseLines, parseLinesFrom_unterminated true buffer hm] at h
    simp at h

/-- Every record of the tokenizer is the record of a letter and holds a line that
starts with this letter. -/
theorem parseLines_mem (buffer : List Char) (infos : List LineTypeInfo) (r : LineTypeInfo)
    (hok : parseLines buffer = .ok infos) (h : r ∈ infos) :
    ∃ c rest, c ∈ lineLetters ∧ r = { mLineType := toLineType c, mValue := c :: rest } := by
  rw [(parseLines_ok buffer infos hok).2, List.mem_filterMap] at h
  obtain ⟨line, -, hline⟩ := h
  cases line with
  | nil => simp [recordOfLine] at hline
  | cons c rest =>
    by_cases hm : c ∈ lineLetters
    · simp [recordOfLine, hm] at hline
      exact ⟨c, rest, hm, hline.symm⟩
    · simp [recordOfLine, hm] at hline

/-- The C string at the head of a buffer holds no NUL. -/
theorem cString_no_NUL (buffer : List Char) : NUL ∉ cString buffer := by
  intro h
  have := List.mem_takeWhile_imp h
  simp at this

/-- The line found at a position is inside the part of the buffer that holds an
end-of-line character, whatever follows that part. -/
theorem lineAt_append (l beyond : List Char) (h : ∃ e ∈ l, isEOL e = true) :
    lineAt (l ++ beyond) = lineAt l := by
  induction l with
  | nil => simp at h
  | cons c rest ih =>
    obtain ⟨e, he, hEOL⟩ := h
    by_cases hc : (c != NUL && !isEOL c) = true
    · rcases List.mem_cons.mp he with heq | hmem
      · subst heq
        simp [hEOL] at hc
      · have := ih ⟨e, hmem, hEOL⟩
        simp only [lineAt] at this ⊢
        simp only [List.cons_append, List.takeWhile_cons, hc, if_true, this]
    · simp only [lineAt, List.cons_append, List.takeWhile_cons, hc]
      simp

/-- The loop of `parseLines` on a text without NUL that ends with an end-of-line
character, followed by any characters: when the scan of the text followed by
a NUL returns the records `infos`, the scan of the text followed by `beyond`
goes on at the start of a line of `beyond` and returns `infos` followed by
the records found there. -/
theorem parseLinesFrom_leading (body : List Char) (e : Char) (he : isEOL e = true)
    (hNUL : NUL ∉ body) (lastWasEOL : Bool) (infos : List LineTypeInfo)
    (h : parseLinesFrom lastWasEOL (body ++ e :: [NUL]) = .ok infos) (beyond : List Char) :
    parseLinesFrom lastWasEOL (body ++ e :: beyond) =
      (parseLinesFrom true beyond).map (fun more => infos ++ more) := by
  have heN : e ≠ NUL := by
    intro h0
    subst h0
    simp [isEOL, NUL] at he
  induction body generalizing lastWasEOL infos with
  | nil =>
    simp only [List.nil_append, parseLinesFrom, heN, he, if_true, if_false] at h ⊢
    simp only [Except.ok.injEq] at h
    subst h
    cases parseLinesFrom true beyond <;> rfl
  | cons c rest ih =>
    have hc : c ≠ NUL := fun h0 => hNUL (by rw [h0]; exact List.mem_cons_self _ _)
    have hrest : NUL ∉ rest := fun hm => hNUL (List.mem_cons_of_mem _ hm)
    simp only [List.cons_append, parseLinesFrom, hc, if_false, List.append_eq] at h ⊢
    by_cases hEOL : isEOL c = true
    · simp only [hEOL, if_true] at h ⊢
      exact ih hrest true infos h
    · simp only [hEOL, if_false, Bool.false_eq_true] at h ⊢
      by_cases hl : lastWasEOL = true
      · subst hl
        simp only [Bool.not_true, Bool.false_eq_true, if_false] at h ⊢
        by_cases hu : toLineType c = LineType_Unknown
        · simp only [hu, if_true] at h ⊢
          exact ih hrest false infos h
        · simp only [hu, if_false] at h ⊢
          cases hr : parseLinesFrom false (rest ++ e :: [NUL]) with
          | error err => rw [hr] at h; simp at h
          | ok others =>
            rw [hr] at h
            simp only [Except.ok.injEq] at h
            subst h
            rw [ih hrest false others hr]
            have hline : lineAt (c :: (rest ++ e :: beyond)) = lineAt (c :: (rest ++ e :: [NUL])) := by
              have h1 := lineAt_append (c :: (rest ++ [e])) beyond
                ⟨e, by simp, he⟩
              have h2 := lineAt_append (c :: (rest ++ [e])) [NUL]
                ⟨e, by simp, he⟩
              simp only [List.cons_append, List.append_assoc, List.singleton_append,
                List.nil_append] at h1 h2
              rw [h1, h2]
            rw [hline]
            cases parseLinesFrom true beyond <;> rfl
      · have hl2 : lastWasEOL = false := by simpa using hl
        subst hl2
        simp only [Bool.not_false, if_true] at h ⊢
        exact ih hrest false infos h

/-- The tokenizer on a text without NUL that ends with an end-of-line
character, followed by any characters: the records of the text, as the scan
returns them when a NUL follows the text, come first in what the scan
returns. -/
theorem parseLines_leading (text beyond : List Char) (infos : List LineTypeInfo)
    (hend : text.getLast?.map isEOL = some true)
    (hNUL : text.all (fun c => c != NUL) = true)
    (h : parseLines (text ++ [NUL]) = .ok infos) :
    parseLines (text ++ beyond) = (parseLines beyond).map (fun more => infos ++ more) := by
  have hn : NUL ∉ text := by
    intro hm
    have := List.all_eq_true.mp hNUL NUL hm
    simp at this
  rcases List.eq_nil_or_concat text with hnil | ⟨body, e, hbody⟩
  · subst hnil
    simp at hend
  · subst hbody
    have he : isEOL e = true := by simpa using hend
    have hb : NUL ∉ body := fun hm => hn (by simp [hm])
    have h1 : parseLinesFrom true (body ++ e :: [NUL]) = .ok infos := by
      simpa [parseLines] using h
    have := parseLinesFrom_leading body e he hb true infos h1 beyond
    simpa [parseLines] using this

/-- The function `parse` reads past the end of the raw buffer, whatever the
blob: the buffer holds the characters of the blob before its NUL, and the loop
of the tokenizer ends at a NUL only. -/
theorem parse_reads_past_buffer (blob : List Char) :
    parse blob = .error .UndefinedBehaviour := by
  unfold parse
  simp only [parseLines, parseLinesFrom_unterminated true _ (cString_no_NUL blob)]
  rfl

/-! ## Lemmas on the attribute splitter -/

/-- The loop of `toAttribute` ends in `Attribute_Unknown` when no name of the range
equals the string. -/
theorem toAttributeLoop_unknown (str : List Char) (range : List Attributes)
    (h : ∀ index ∈ range, str ≠ index.toString) :
    toAttributeLoop str range = Attribute_Unknown := by
  induction range with
  | nil => rfl
  | cons index rest ih =>
    have h1 : str ≠ index.toString := h index (List.mem_cons_self _ _)
    have h2 : ∀ i ∈ rest, str ≠ i.toString := fun i hi => h i (List.mem_cons_of_mem _ hi)
    simp [toAttributeLoop, h1, ih h2]

/-- No recognized attribute name starts with the letter `a`. -/
theorem attribute_names_head :
    ∀ index ∈ attributeRange, index.toString.head? ≠ some 'a' := by decide

/-- A string that starts with the letter `a` names no attribute. -/
theorem toAttribute_a_cons (name : List Char) :
    toAttribute ('a' :: name) = Attribute_Unknown := by
  apply toAttributeLoop_unknown
  intro index hindex heq
  have := attribute_names_head index hindex
  rw [← heq] at this
  simp at this

/-- The attribute name cut out of a value that starts with the letter `a` starts
with that letter. -/
theorem parseAttributeScan_a_cons (rest name : List Char) (value : Option (List Char))
    (h : parseAttributeScan ('a' :: rest) = .ok (name, value)) :
    ∃ name', name = 'a' :: name' := by
  have h1 : ('a' ≠ ':') = True := by decide
  have h2 : isspace 'a' = false := by decide
  simp only [parseAttributeScan, h1, h2, if_true, Bool.not_false] at h
  rcases hs : parseAttributeScan rest with e | ⟨n, v⟩
  · simp [hs] at h
  · simp [hs] at h
    exact ⟨n, h.1.symm⟩

/-- Every record that `parseAttributes` returns is what `parseAttribute` makes of a
record of the input. -/
theorem parseAttributes_mem (infos out : List LineTypeInfo)
    (h : parseAttributes infos = .ok out) :
    ∀ r' ∈ out, ∃ r ∈ infos, parseAttribute r = .ok r' := by
  induction infos generalizing out with
  | nil =>
    simp [parseAttributes] at h
    subst h
    simp
  | cons info rest ih =>
    rcases h1 : parseAttribute info with e | info'
    · simp [parseAttributes, h1] at h
    · rcases h2 : parseAttributes rest with e | rest'
      · simp [parseAttributes, h1, h2] at h
      · simp [parseAttributes, h1, h2] at h
        subst h
        intro r' hr'
        rcases List.mem_cons.1 hr' with hr' | hr'
        · subst hr'
          exact ⟨info, List.mem_cons_self _ _, h1⟩
        · obtain ⟨r, hr, hp⟩ := ih rest' h2 r' hr'
          exact ⟨r, List.mem_cons_of_mem _ hr, hp⟩

/-- The attribute of a record of the tokenizer stays unknown in `parseAttribute`. -/
theorem parseAttribute_tokenized (c : Char) (rest : List Char) (r' : LineTypeInfo)
    (h : parseAttribute { mLineType := toLineType c, mValue := c :: rest } = .ok r') :
    r'.mAttribute = Attribute_Unknown := by
  by_cases ha : LineType_a_Attributes = toLineType c
  · have hc : c = 'a' := by
      have hl : c ∈ lineLetters := by
        by_contra hm
        have := (toLineType_eq_unknown_iff c).2 hm
        rw [this] at ha
        exact absurd ha (by decide)
      have := toLineType_letter c hl
      rw [← ha] at this
      exact this.symm
    subst hc
    have hta : toLineType 'a' = LineType_a_Attributes := rfl
    rcases hs : parseAttributeScan ('a' :: rest) with e | ⟨name, value⟩
    · simp [parseAttribute, hs, hta] at h
    · obtain ⟨name', hname⟩ := parseAttributeScan_a_cons rest name value hs
      subst hname
      simp [parseAttribute, hs, toAttribute_a_cons, hta] at h
      rw [← h]
  · simp [parseAttribute, ha] at h
    rw [← h]

/-! ## Lemmas on the scope validator -/

/-- Leaving the source level keeps the current level one of the three scopes. -/
theorem leaveSourceLevel_isScope (currentLevel level : AttributeLevels) (info : LineTypeInfo)
    (hc : currentLevel.isScope) (h : leaveSourceLevel currentLevel info = .ok level) :
    level.isScope := by
  unfold leaveSourceLevel at h
  split at h
  · split at h
    · simp at h
    · split at h
      · split at h
        · simp at h; subst h; exact Or.inr (Or.inl rfl)
        · simp at h; subst h; exact hc
      · simp at h; subst h; exact hc
  · simp at h; subst h; exact hc

/-- The level switch keeps the current level one of the three scopes. -/
theorem switchLevel_isScope (currentLevel : AttributeLevels) (info : LineTypeInfo)
    (hc : currentLevel.isScope) : (switchLevel currentLevel info).isScope := by
  unfold switchLevel
  split
  all_goals first
    | exact hc
    | exact Or.inr (Or.inl rfl)
    | (split
       · exact Or.inr (Or.inr rfl)
       · exact hc)

/-- A line type supported at a level has that level among its allowed levels. -/
theorem supportedAtLevel_lineType_true (currentLevel : AttributeLevels) (lineType : LineTypes)
    (h : lineType.supportedAtLevel currentLevel = .ok true) :
    ∃ allowedLevels, lineType.getAttributeLevel = .ok allowedLevels ∧
      allowedLevels.and currentLevel ≠ 0 := by
  unfold LineTypes.supportedAtLevel at h
  rcases hg : lineType.getAttributeLevel with e | allowed
  · simp [hg] at h
  · simp [hg] at h
    exact ⟨allowed, rfl, h⟩

/-- An attribute supported at a level has that level among its allowed levels. -/
theorem supportedAtLevel_attribute_true (currentLevel : AttributeLevels) (attr : Attributes)
    (h : attr.supportedAtLevel currentLevel = .ok true) :
    ∃ allowedLevels, attr.getAttributeLevel = .ok allowedLevels ∧
      allowedLevels.and currentLevel ≠ 0 := by
  unfold Attributes.supportedAtLevel at h
  rcases hg : attr.getAttributeLevel with e | allowed
  · simp [hg] at h
  · simp [hg] at h
    exact ⟨allowed, rfl, h⟩

/-- One step of the validator: the next level is a scope, the record keeps its
line, and a record that is not skipped is recorded at an allowed scope. -/
theorem validateAttributeLevel_spec (currentLevel next : AttributeLevels)
    (info out : LineTypeInfo) (hc : currentLevel.isScope)
    (h : validateAttributeLevel currentLevel info = .ok (next, out)) :
    next.isScope ∧ info.sameLine out ∧ (out.isKnown → out.levelAllowed) := by
  unfold validateAttributeLevel at h
  split at h
  · rename_i hu
    simp at h
    obtain ⟨h1, h2⟩ := h
    subst h1; subst h2
    exact ⟨hc, ⟨rfl, rfl, rfl⟩, fun hk => absurd hu.symm hk.1⟩
  · have hc2 : (if LineType_m_MediaLine = info.mLineType then AttributeLevel_Session
        else currentLevel).isScope := by
      split
      · exact Or.inl rfl
      · exact hc
    simp only at h
    split at h
    · rename_i hu
      simp at h
      obtain ⟨h1, h2⟩ := h
      subst h1; subst h2
      exact ⟨hc2, ⟨rfl, rfl, rfl⟩, fun hk => absurd hu.2.symm (hk.2 hu.1.symm)⟩
    · split at h
      · simp at h
      · rename_i level hl
        have hls := leaveSourceLevel_isScope _ _ _ hc2 hl
        split at h
        · simp at h
        · simp at h
        · rename_i hsl
          split at h
          · simp at h
          · simp at h
          · rename_i hsa
            simp at h
            obtain ⟨h1, h2⟩ := h
            subst h1; subst h2
            refine ⟨switchLevel_isScope _ _ hls, ⟨rfl, rfl, rfl⟩, fun _ => ⟨hls, ?_, ?_⟩⟩
            · exact supportedAtLevel_lineType_true _ _ hsl
            · intro ha
              have ha2 : LineType_a_Attributes = info.mLineType := ha.symm
              simp only [ha2, if_true] at hsa
              exact supportedAtLevel_attribute_true _ _ hsa

/-- The loop of the validator from any scope: the records keep their lines and
every record that is not skipped is recorded at an allowed scope. -/
theorem validateAttributeLevelsFrom_spec (currentLevel : AttributeLevels)
    (infos out : List LineTypeInfo) (hc : currentLevel.isScope)
    (h : validateAttributeLevelsFrom currentLevel infos = .ok out) :
    List.Forall₂ LineTypeInfo.sameLine infos out ∧
    ∀ r ∈ out, r.isKnown → r.levelAllowed := by
  induction infos generalizing currentLevel out with
  | nil =>
    simp [validateAttributeLevelsFrom] at h
    subst h
    simp
  | cons info rest ih =>
    rcases h1 : validateAttributeLevel currentLevel info with e | ⟨next, info'⟩
    · simp [validateAttributeLevelsFrom, h1] at h
    · rcases h2 : validateAttributeLevelsFrom next rest with e | rest'
      · simp [validateAttributeLevelsFrom, h1, h2] at h
      · simp [validateAttributeLevelsFrom, h1, h2] at h
        subst h
        obtain ⟨hn, hs, hk⟩ := validateAttributeLevel_spec _ _ _ _ hc h1
        obtain ⟨hf, hall⟩ := ih next rest' hn h2
        refine ⟨List.Forall₂.cons hs hf, ?_⟩
        intro r hr
        rcases List.mem_cons.1 hr with hr | hr
        · subst hr; exact hk
        · exact hall r hr

/-! ## Lemmas on the loops of the folders -/

/-- The loop of a folder over two lists in a row. -/
theorem foldLines_append
    (step : SDP → LineTypeInfo → Except SDPError (SDP × Option LineTypeInfo))
    (sdp : SDP) (l1 l2 : List LineTypeInfo) :
    foldLines step sdp (l1 ++ l2) =
      match foldLines step sdp l1 with
      | .error e => .error e
      | .ok (sdp1, k1) =>
        match foldLines step sdp1 l2 with
        | .error e => .error e
        | .ok (sdp2, k2) => .ok (sdp2, k1 ++ k2) := by
  induction l1 generalizing sdp with
  | nil =>
    simp only [List.nil_append, foldLines]
    rcases h2 : foldLines step sdp l2 with e | ⟨sdp2, k2⟩ <;> simp
  | cons r l1 ih =>
    simp only [List.cons_append, foldLines]
    rcases hs : step sdp r with e | ⟨sdp1, left⟩
    · simp
    · simp only []
      have ih1 : foldLines step sdp1 (l1.append l2) = _ := ih sdp1
      rw [ih1]
      rcases h1 : foldLines step sdp1 l1 with e | ⟨sdp2, k1⟩
      · simp
      · simp only []
        rcases h2 : foldLines step sdp2 l2 with e | ⟨sdp3, k2⟩
        · simp
        · cases left <;> simp

/-- A record that a folder erases without writing to the `SDP` can be left
out of the list. -/
theorem foldLines_erased
    (step : SDP → LineTypeInfo → Except SDPError (SDP × Option LineTypeInfo))
    (r : LineTypeInfo) (h : ∀ sdp, step sdp r = .ok (sdp, none))
    (sdp : SDP) (l1 l2 : List LineTypeInfo) :
    foldLines step sdp (l1 ++ r :: l2) = foldLines step sdp (l1 ++ l2) := by
  rw [foldLines_append, foldLines_append]
  rcases h1 : foldLines step sdp l1 with e | ⟨sdp1, k1⟩
  · simp
  · simp only [foldLines, h sdp1]
    rcases h2 : foldLines step sdp1 l2 with e | ⟨sdp2, k2⟩ <;> simp

/-- A record that a folder keeps without writing to the `SDP` stays where it
is and leaves the pass over the other records as it is. -/
theorem foldLines_kept
    (step : SDP → LineTypeInfo → Except SDPError (SDP × Option LineTypeInfo))
    (r : LineTypeInfo) (h : ∀ sdp, step sdp r = .ok (sdp, some r))
    (sdp : SDP) (l1 l2 : List LineTypeInfo) :
    (∃ e, foldLines step sdp (l1 ++ r :: l2) = .error e ∧
        foldLines step sdp (l1 ++ l2) = .error e) ∨
    (∃ sdp' k1 k2, foldLines step sdp (l1 ++ r :: l2) = .ok (sdp', k1 ++ r :: k2) ∧
        foldLines step sdp (l1 ++ l2) = .ok (sdp', k1 ++ k2)) := by
  rw [foldLines_append, foldLines_append]
  rcases h1 : foldLines step sdp l1 with e | ⟨sdp1, k1⟩
  · exact Or.inl ⟨e, by simp⟩
  · simp only [foldLines, h sdp1]
    rcases h2 : foldLines step sdp1 l2 with e | ⟨sdp2, k2⟩
    · exact Or.inl ⟨e, by simp⟩
    · exact Or.inr ⟨sdp2, k1, k2, by simp⟩

/-- The resets of typed parsing leave a cursor with no current line as it is. -/
theorem DetailsCursor.reset_empty (level : AttributeLevels) :
    ({} : DetailsCursor).reset level = {} := by
  unfold DetailsCursor.reset
  split <;> split <;> rfl

/-- Typed parsing of a record that is not an `m=` record leaves a cursor with
no current line as it is. -/
theorem parseLineDetails_cursor (sdp sdp1 : SDP) (cursor1 : DetailsCursor)
    (info info1 : LineTypeInfo) (hm : info.mLineType ≠ LineType_m_MediaLine)
    (h : parseLineDetails sdp {} info = .ok (sdp1, cursor1, info1)) : cursor1 = {} := by
  unfold parseLineDetails at h
  simp only [DetailsCursor.reset_empty] at h
  split at h
  · simp at h; exact h.2.1.symm
  · cases hx : VLine.VLine info.mValue <;> simp [hx, bind, Except.bind, pure, Except.pure] at h
    exact h.2.1.symm
  · cases hx : OLine.OLine info.mValue <;> simp [hx, bind, Except.bind, pure, Except.pure] at h
    exact h.2.1.symm
  · cases hx : SLine.SLine info.mValue <;> simp [hx, bind, Except.bind, pure, Except.pure] at h
    exact h.2.1.symm
  · split at h
    · simp at h; exact h.2.1.symm
    · cases hx : BLine.BLine none info.mValue <;>
        simp [hx, bind, Except.bind, pure, Except.pure] at h
      exact h.2.1.symm
  · cases hx : TLine.TLine info.mValue <;> simp [hx, bind, Except.bind, pure, Except.pure] at h
    exact h.2.1.symm
  · cases hx : parseAttributeDetails sdp none none info <;>
      simp [hx, bind, Except.bind, pure, Except.pure] at h
    exact h.2.1.symm
  · rename_i hmm
    exact absurd hmm hm
  · cases hx : CLine.CLine none info.mValue <;>
      simp [hx, bind, Except.bind, pure, Except.pure] at h
    exact h.2.1.symm

/-- Typed parsing of a `b=` record at session level: whatever its value, the
record is given the unknown line type and nothing else is written. -/
theorem parseLineDetails_session_bandwidth (sdp : SDP) (cursor : DetailsCursor)
    (info : LineTypeInfo) (hb : info.mLineType = LineType_b_Bandwidth)
    (hl : info.mAttributeLevel = AttributeLevel_Session) :
    parseLineDetails sdp cursor info =
      .ok (sdp, cursor.reset AttributeLevel_Session,
           { info with mLineType := LineType_Unknown }) := by
  unfold parseLineDetails
  simp [hb, hl]

/-- Typed parsing with and without a session level `b=` record that comes
before every `m=` record. -/
theorem parseLinesDetailsFrom_session_bandwidth (l1 l2 : List LineTypeInfo)
    (info : LineTypeInfo) (hb : info.mLineType = LineType_b_Bandwidth)
    (hl : info.mAttributeLevel = AttributeLevel_Session)
    (h1 : ∀ r ∈ l1, r.mLineType ≠ LineType_m_MediaLine) (sdp : SDP) :
    (∃ e, parseLinesDetailsFrom sdp {} (l1 ++ info :: l2) = .error e ∧
        parseLinesDetailsFrom sdp {} (l1 ++ l2) = .error e) ∨
    (∃ sdp' k1 k2,
        parseLinesDetailsFrom sdp {} (l1 ++ info :: l2) =
          .ok (sdp', k1 ++ { info with mLineType := LineType_Unknown } :: k2) ∧
        parseLinesDetailsFrom sdp {} (l1 ++ l2) = .ok (sdp', k1 ++ k2)) := by
  induction l1 generalizing sdp with
  | nil =>
    simp only [List.nil_append, parseLinesDetailsFrom,
      parseLineDetails_session_bandwidth sdp {} info hb hl, DetailsCursor.reset_empty]
    rcases h2 : parseLinesDetailsFrom sdp {} l2 with e | ⟨sdp2, k2⟩
    · exact Or.inl ⟨e, by simp⟩
    · exact Or.inr ⟨sdp2, [], k2, by simp⟩
  | cons r l1 ih =>
    have hr : r.mLineType ≠ LineType_m_MediaLine := h1 r (List.mem_cons_self _ _)
    have hrest : ∀ x ∈ l1, x.mLineType ≠ LineType_m_MediaLine :=
      fun x hx => h1 x (List.mem_cons_of_mem _ hx)
    simp only [List.cons_append, parseLinesDetailsFrom]
    rcases hs : parseLineDetails sdp {} r with e | ⟨sdp1, cursor1, r1⟩
    · exact Or.inl ⟨e, by simp⟩
    · have hc := parseLineDetails_cursor sdp sdp1 cursor1 r r1 hr hs
      subst hc
      rcases ih hrest sdp1 with ⟨e, he1, he2⟩ | ⟨sdp', k1, k2, hk1, hk2⟩
      · exact Or.inl ⟨e, by simp [he1, he2]⟩
      · exact Or.inr ⟨sdp', r1 :: k1, k2, by simp [hk1, hk2]⟩

/-! ## Lemmas on the scope validator: the media line record -/

/-- A record the validator skips is left as it is and the level stays. -/
theorem validateAttributeLevel_skipped (currentLevel : AttributeLevels) (info : LineTypeInfo)
    (h : ¬ info.isKnown) : validateAttributeLevel currentLevel info = .ok (currentLevel, info) := by
  unfold LineTypeInfo.isKnown at h
  by_cases hu : LineType_Unknown = info.mLineType
  · simp [validateAttributeLevel, hu]
  · have hu' : info.mLineType ≠ LineType_Unknown := fun h' => hu h'.symm
    have ha : info.mLineType = LineType_a_Attributes ∧ info.mAttribute = Attribute_Unknown := by
      by_contra hc
      apply h
      refine ⟨hu', fun hx hy => hc ⟨hx, hy⟩⟩
    have hm : ¬ LineType_m_MediaLine = info.mLineType := by
      rw [ha.1]; decide
    simp [validateAttributeLevel, hu, hm, ha.1, ha.2]

/-- The step of the validator on an `m=` record, from any level. -/
theorem validateAttributeLevel_mediaLine (currentLevel : AttributeLevels) (info : LineTypeInfo)
    (h : info.mLineType = LineType_m_MediaLine) :
    validateAttributeLevel currentLevel info =
      .ok (AttributeLevel_Media, { info with mAttributeLevel := AttributeLevel_Session }) := by
  have e1 : ¬ LineType_Unknown = info.mLineType := by rw [h]; decide
  have e2 : ¬ LineType_a_Attributes = info.mLineType := by rw [h]; decide
  have e3 : LineType_m_MediaLine = info.mLineType := h.symm
  have e4 : ¬ AttributeLevel_Source = AttributeLevel_Session := by decide
  have e5 : LineType_m_MediaLine.supportedAtLevel AttributeLevel_Session = .ok true := by rfl
  simp only [validateAttributeLevel, e1, e2, e3, if_true, if_false, false_and, leaveSourceLevel,
    e4]
  rw [h, e5]
  simp [switchLevel, h]

/-- The loop of the validator over records it skips. -/
theorem validateAttributeLevelsFrom_skipped (currentLevel : AttributeLevels)
    (skipped rest : List LineTypeInfo) (h : ∀ r ∈ skipped, ¬ r.isKnown) :
    validateAttributeLevelsFrom currentLevel (skipped ++ rest) =
      (validateAttributeLevelsFrom currentLevel rest).map (fun out => skipped ++ out) := by
  induction skipped with
  | nil =>
    cases hv : validateAttributeLevelsFrom currentLevel rest <;> simp [hv, Except.map]
  | cons r skipped ih =>
    have hr := validateAttributeLevel_skipped currentLevel r (h r (List.mem_cons_self _ _))
    have ih' := ih (fun x hx => h x (List.mem_cons_of_mem _ hx))
    simp only [List.cons_append, validateAttributeLevelsFrom, hr]
    cases hv : validateAttributeLevelsFrom currentLevel rest <;> simp [ih', hv, Except.map]

/-- One step of the validator from the level media or source: a record that is
not an `m=` record leaves the level at media or source, and a `b=` record is
not recorded at the level session. -/
theorem validateAttributeLevel_pastSession (currentLevel next : AttributeLevels)
    (info out : LineTypeInfo)
    (hc : currentLevel = AttributeLevel_Media ∨ currentLevel = AttributeLevel_Source)
    (h : validateAttributeLevel currentLevel info = .ok (next, out)) :
    out.mLineType = info.mLineType ∧
    (next = AttributeLevel_Media ∨ next = AttributeLevel_Source) ∧
    (out.mLineType = LineType_b_Bandwidth → out.mAttributeLevel ≠ AttributeLevel_Session) := by
  by_cases hm : info.mLineType = LineType_m_MediaLine
  · rw [validateAttributeLevel_mediaLine currentLevel info hm] at h
    simp at h
    obtain ⟨h1, h2⟩ := h
    subst h1 h2
    exact ⟨rfl, Or.inl rfl, fun hb => by simp [hm] at hb⟩
  · have hm' : ¬ LineType_m_MediaLine = info.mLineType := fun h' => hm h'.symm
    unfold validateAttributeLevel at h
    split at h
    · rename_i hu
      simp at h
      obtain ⟨h1, h2⟩ := h
      subst h1 h2
      exact ⟨rfl, hc, fun hb => by rw [hb] at hu; cases hu⟩
    · simp only [hm', if_false] at h
      split at h
      · rename_i ha
        simp at h
        obtain ⟨h1, h2⟩ := h
        subst h1 h2
        exact ⟨rfl, hc, fun hb => by rw [hb] at ha; cases ha.1⟩
      · split at h
        · simp at h
        · rename_i level hl
          have hlevel : level = AttributeLevel_Media ∨ level = AttributeLevel_Source := by
            unfold leaveSourceLevel at hl
            split at hl
            · split at hl
              · simp at hl
              · split at hl
                · split at hl
                  · simp at hl
                    exact Or.inl hl.symm
                  · simp at hl
                    rw [← hl]
                    exact hc
                · simp at hl
                  rw [← hl]
                  exact hc
            · simp at hl
              rw [← hl]
              exact hc
          split at h
          · simp at h
          · simp at h
          · split at h
            · simp at h
            · simp at h
            · simp at h
              obtain ⟨h1, h2⟩ := h
              subst h1 h2
              refine ⟨rfl, ?_, fun _ => ?_⟩
              · unfold switchLevel
                simp only []
                split <;> first | exact hlevel | exact Or.inl rfl | skip
                split
                · exact Or.inr rfl
                · exact hlevel
              · simp only []
                rcases hlevel with hx | hx <;> rw [hx] <;> decide

/-- The loop of the validator from the level media or source records no `b=`
record at the level session. -/
theorem validateAttributeLevelsFrom_pastSession (infos : List LineTypeInfo)
    (currentLevel : AttributeLevels) (out : List LineTypeInfo)
    (hc : currentLevel = AttributeLevel_Media ∨ currentLevel = AttributeLevel_Source)
    (h : validateAttributeLevelsFrom currentLevel infos = .ok out) :
    ∀ r ∈ out, r.mLineType = LineType_b_Bandwidth →
      r.mAttributeLevel ≠ AttributeLevel_Session := by
  induction infos generalizing currentLevel out with
  | nil =>
    simp [validateAttributeLevelsFrom] at h
    subst h
    simp
  | cons info rest ih =>
    rcases h1 : validateAttributeLevel currentLevel info with e | ⟨next, info1⟩
    · simp [validateAttributeLevelsFrom, h1] at h
    · rcases h2 : validateAttributeLevelsFrom next rest with e | rest1
      · simp [validateAttributeLevelsFrom, h1, h2] at h
      · simp [validateAttributeLevelsFrom, h1, h2] at h
        subst h
        obtain ⟨_, hn, hb⟩ := validateAttributeLevel_pastSession _ _ _ _ hc h1
        intro r hr
        rcases List.mem_cons.1 hr with hr | hr
        · subst hr
          exact hb
        · exact ih next rest1 hn h2 r hr

/-- In a line list that the validator leaves, no `m=` record stands before a
`b=` record of the level session. -/
theorem validateAttributeLevelsFrom_session_bandwidth (infos : List LineTypeInfo)
    (currentLevel : AttributeLevels) (l1 l2 : List LineTypeInfo) (info : LineTypeInfo)
    (hb : info.mLineType = LineType_b_Bandwidth)
    (hl : info.mAttributeLevel = AttributeLevel_Session)
    (h : validateAttributeLevelsFrom currentLevel infos = .ok (l1 ++ info :: l2)) :
    ∀ r ∈ l1, r.mLineType ≠ LineType_m_MediaLine := by
  induction infos generalizing currentLevel l1 with
  | nil =>
    simp [validateAttributeLevelsFrom] at h
  | cons x rest ih =>
    rcases h1 : validateAttributeLevel currentLevel x with e | ⟨next, x1⟩
    · simp [validateAttributeLevelsFrom, h1] at h
    · rcases h2 : validateAttributeLevelsFrom next rest with e | rest1
      · simp [validateAttributeLevelsFrom, h1, h2] at h
      · simp [validateAttributeLevelsFrom, h1, h2] at h
        cases l1 with
        | nil => simp
        | cons y l1 =>
          simp at h
          obtain ⟨hy, hrest⟩ := h
          subst hy
          intro r hr
          by_cases hm : x.mLineType = LineType_m_MediaLine
          · exfalso
            rw [validateAttributeLevel_mediaLine currentLevel x hm] at h1
            simp at h1
            have hnext : next = AttributeLevel_Media := h1.1.symm
            subst hnext
            rw [hrest] at h2
            exact validateAttributeLevelsFrom_pastSession rest AttributeLevel_Media _
              (Or.inl rfl) h2 info (by simp) hb hl
          · rcases List.mem_cons.1 hr with hr | hr
            · subst hr
              have hsame : r.mLineType = x.mLineType := by
                unfold validateAttributeLevel at h1
                split at h1
                · simp at h1
                  rw [← h1.2]
                · simp only [] at h1
                  split at h1
                  · simp at h1
                    rw [← h1.2]
                  · split at h1
                    · simp at h1
                    · split at h1
                      · simp at h1
                      · simp at h1
                      · split at h1
                        · simp at h1
                        · simp at h1
                        · simp at h1
                          rw [← h1.2]
              rw [hsame]
              exact hm
            · rw [hrest] at h2
              exact ih next l1 h2 r hr

/-! ## Lemmas on the single-valued lines -/

/-- A property of the `SDP` that every step of a folder keeps holds after the
loop. -/
theorem foldLines_invariant
    (step : SDP → LineTypeInfo → Except SDPError (SDP × Option LineTypeInfo))
    (P : SDP → Prop)
    (hP : ∀ sdp info sdp1 left, step sdp info = .ok (sdp1, left) → P sdp → P sdp1)
    (l : List LineTypeInfo) (sdp sdp1 : SDP) (out : List LineTypeInfo)
    (h : foldLines step sdp l = .ok (sdp1, out)) (h0 : P sdp) : P sdp1 := by
  induction l generalizing sdp out with
  | nil =>
    simp [foldLines] at h
    obtain ⟨h1, _⟩ := h
    subst h1
    exact h0
  | cons r l ih =>
    simp only [foldLines] at h
    rcases hs : step sdp r with e | ⟨sdp2, left⟩
    · simp [hs] at h
    · simp only [hs] at h
      rcases hf : foldLines step sdp2 l with e | ⟨sdp3, out3⟩
      · simp [hf] at h
      · simp only [hf] at h
        simp at h
        obtain ⟨h1, _⟩ := h
        subst h1
        exact ih sdp2 out3 hf (hP sdp r sdp2 left hs h0)

/-- A folder fails on a list with two records of which the first establishes a
property that every step keeps and the second fails under. -/
theorem foldLines_fails
    (step : SDP → LineTypeInfo → Except SDPError (SDP × Option LineTypeInfo))
    (P : SDP → Prop)
    (hP : ∀ sdp info sdp1 left, step sdp info = .ok (sdp1, left) → P sdp → P sdp1)
    (a b : LineTypeInfo)
    (ha : ∀ sdp sdp1 left, step sdp a = .ok (sdp1, left) → P sdp1)
    (hb : ∀ sdp, P sdp → ∃ e, step sdp b = .error e)
    (sdp : SDP) (l1 l2 l3 : List LineTypeInfo) :
    ∃ e, foldLines step sdp (l1 ++ a :: (l2 ++ b :: l3)) = .error e := by
  rw [foldLines_append]
  rcases h1 : foldLines step sdp l1 with e | ⟨sdp1, k1⟩
  · exact ⟨e, rfl⟩
  · simp only [foldLines]
    rcases hsa : step sdp1 a with e | ⟨sdp2, left⟩
    · exact ⟨e, rfl⟩
    · simp only []
      rw [foldLines_append]
      rcases h2 : foldLines step sdp2 l2 with e | ⟨sdp3, k2⟩
      · exact ⟨e, rfl⟩
      · have hP3 : P sdp3 :=
          foldLines_invariant step P hP l2 sdp2 sdp3 k2 h2 (ha sdp1 sdp2 left hsa)
        obtain ⟨e, he⟩ := hb sdp3 hP3
        simp only [foldLines, he]
        exact ⟨e, rfl⟩

/-- The line type and attribute of a record that stands for a single-valued
line of the session. -/
theorem sessionSlot_ofRecord_eq (info : LineTypeInfo) (slot : SessionSlot)
    (h : SessionSlot.ofRecord info = some slot) :
    match slot with
    | .version => info.mLineType = LineType_v_Version
    | .origin => info.mLineType = LineType_o_Origin
    | .sessionName => info.mLineType = LineType_s_SessionName
    | .timing => info.mLineType = LineType_t_Timing
    | .connection => info.mLineType = LineType_c_ConnectionDataLine
    | .iceUFrag => info.mLineType = LineType_a_Attributes ∧ info.mAttribute = Attribute_ICEUFrag
    | .icePwd => info.mLineType = LineType_a_Attributes ∧ info.mAttribute = Attribute_ICEPwd
    | .iceOptions =>
      info.mLineType = LineType_a_Attributes ∧ info.mAttribute = Attribute_ICEOptions
    | .setup => info.mLineType = LineType_a_Attributes ∧ info.mAttribute = Attribute_Setup := by
  unfold SessionSlot.ofRecord at h
  split at h
  · simp at h; subst h; assumption
  · simp at h; subst h; assumption
  · simp at h; subst h; assumption
  · simp at h; subst h; assumption
  · simp at h; subst h; assumption
  · rename_i ht
    split at h
    · simp at h; subst h; exact ⟨ht, by assumption⟩
    · simp at h; subst h; exact ⟨ht, by assumption⟩
    · simp at h; subst h; exact ⟨ht, by assumption⟩
    · simp at h; subst h; exact ⟨ht, by assumption⟩
    · simp at h
  · simp at h

/-- A step of the session folder on an occurrence of a single-valued line:
it fails when the slot holds a line, and fills the slot and erases the record
when it does not. -/
theorem processSessionLevelValue_occurrence (sdp : SDP) (info : LineTypeInfo)
    (slot : SessionSlot) (h : info.isSessionOccurrence slot) :
    (sdp.holds slot = true → processSessionLevelValue sdp info = .error .InvalidParameters) ∧
    (sdp.holds slot = false →
      ∃ sdp1, processSessionLevelValue sdp info = .ok (sdp1, none) ∧ sdp1.holds slot = true) := by
  obtain ⟨hl, hr, hv⟩ := h
  have ht := sessionSlot_ofRecord_eq info slot hr
  rcases hvalue : info.mLineValue with _ | value
  · simp [hvalue] at hv
  · simp only [hvalue, Option.some_bind] at hv
    cases value <;> simp [SessionSlot.ofValue] at hv <;> subst hv <;>
      simp only [] at ht <;>
      refine ⟨fun hh => ?_, fun hh => ?_⟩ <;>
      simp [SDP.holds] at hh <;>
      simp [processSessionLevelValue, processSessionLevelAttribute, hl, ht, hvalue, hh,
        SDP.holds]

/-- A step of the session folder leaves a slot that holds a line holding one. -/
theorem processSessionLevelValue_keeps (sdp sdp1 : SDP) (info : LineTypeInfo)
    (left : Option LineTypeInfo) (slot : SessionSlot)
    (h : processSessionLevelValue sdp info = .ok (sdp1, left)) (h0 : sdp.holds slot = true) :
    sdp1.holds slot = true := by
  unfold processSessionLevelValue at h
  split at h
  · simp at h
    obtain ⟨h1, _⟩ := h
    subst h1
    exact h0
  · split at h <;> (try unfold processSessionLevelAttribute at h) <;> (try split at h) <;>
      (try split at h) <;> (try simp at h) <;>
      (try (obtain ⟨h1, _⟩ := h; subst h1; cases slot <;> simp_all [SDP.holds]))

/-- A read of the media line just written. -/
theorem SDP.mline_setMLine_same (sdp : SDP) (pointer : Nat) (mline mline1 : MLine)
    (h : sdp.mline pointer = .ok mline) : (sdp.setMLine pointer mline1).mline pointer = .ok mline1 := by
  unfold SDP.mline at h
  unfold SDP.mline SDP.setMLine
  rcases hg : sdp.mlineObjects[pointer]? with _ | m
  · simp [hg] at h
  · have hlt : pointer < sdp.mlineObjects.length := by
      rcases Nat.lt_or_ge pointer sdp.mlineObjects.length with hlt | hge
      · exact hlt
      · rw [List.getElem?_eq_none hge] at hg
        cases hg
    simp [List.getElem?_set, hlt]

/-- A read of a media line other than the one just written. -/
theorem SDP.mline_setMLine_other (sdp : SDP) (pointer other : Nat) (mline1 : MLine)
    (h : other ≠ pointer) : (sdp.setMLine pointer mline1).mline other = sdp.mline other := by
  unfold SDP.mline SDP.setMLine
  simp [List.getElem?_set, Ne.symm h]

/-- A write to a media line that keeps its filled slots filled keeps the
filled slots of every media line filled. -/
theorem SDP.mlineHolds_setMLine (sdp : SDP) (pointer other : Nat) (mline mline1 : MLine)
    (slot : MediaSlot) (h : sdp.mline pointer = .ok mline)
    (hm : mline.holds slot = true → mline1.holds slot = true)
    (h0 : sdp.mlineHolds other slot) : (sdp.setMLine pointer mline1).mlineHolds other slot := by
  obtain ⟨m, hm1, hm2⟩ := h0
  by_cases hp : other = pointer
  · subst hp
    rw [h] at hm1
    cases hm1
    exact ⟨mline1, SDP.mline_setMLine_same sdp other mline mline1 h, hm hm2⟩
  · exact ⟨m, by rw [SDP.mline_setMLine_other sdp pointer other mline1 hp]; exact hm1, hm2⟩

/-- The reset of the media line pointer of a typed value does not write to the
media lines. -/
theorem takeAMediaLine_mline (sdp sdp1 : SDP) (value : Option LineValue) (pointer : MLinePtr)
    (value1 : LineValue) (h : takeAMediaLine sdp value = .ok (pointer, sdp1, value1)) :
    sdp1.mlineObjects = sdp.mlineObjects := by
  unfold takeAMediaLine at h
  split at h <;> (try simp at h) <;> (try (obtain ⟨_, h1, _⟩ := h; subst h1; rfl))
  rename_i p
  cases hx : sdp.assrcLine p <;> simp [hx, bind, Except.bind, pure, Except.pure] at h
  obtain ⟨_, h1, _⟩ := h
  subst h1
  rfl

/-- A step of the second switch of the media folder leaves a slot that holds a
line holding one. -/
theorem processMediaLevelAttribute_keeps (sdp sdp1 : SDP) (pointer other : Nat) (mline : MLine)
    (info : LineTypeInfo) (value : LineValue) (left : Option LineTypeInfo) (slot : MediaSlot)
    (hq : sdp.mline pointer = .ok mline)
    (h : processMediaLevelAttribute sdp pointer mline info value = .ok (sdp1, left))
    (h0 : sdp.mlineHolds other slot) : sdp1.mlineHolds other slot := by
  unfold processMediaLevelAttribute at h
  split at h <;> (try split at h) <;> (try simp at h) <;>
    (try (obtain ⟨h1, _⟩ := h; subst h1)) <;>
    (try exact h0) <;>
    (try (apply SDP.mlineHolds_setMLine sdp pointer other mline _ slot hq _ h0
          cases slot <;> simp_all [MLine.holds]))

/-- A step of the media folder leaves a slot that holds a line holding one. -/
theorem processMediaLevelValue_keeps (sdp sdp1 : SDP) (other : Nat) (info : LineTypeInfo)
    (left : Option LineTypeInfo) (slot : MediaSlot)
    (h : processMediaLevelValue sdp info = .ok (sdp1, left))
    (h0 : sdp.mlineHolds other slot) : sdp1.mlineHolds other slot := by
  unfold processMediaLevelValue at h
  split at h
  · simp at h
    obtain ⟨h1, _⟩ := h
    subst h1
    exact h0
  · split at h
    · simp at h; obtain ⟨h1, _⟩ := h; subst h1; exact h0
    · simp at h; obtain ⟨h1, _⟩ := h; subst h1; exact h0
    · simp at h; obtain ⟨h1, _⟩ := h; subst h1; exact h0
    · simp at h; obtain ⟨h1, _⟩ := h; subst h1; exact h0
    · split at h
      · rename_i bline hv
        split at h
        · simp at h
        · rename_i pointer hp
          rcases hq : sdp.mline pointer with e | mline
          · simp [hq, bind, Except.bind] at h
          · simp [hq, bind, Except.bind, pure, Except.pure] at h
            obtain ⟨h1, _⟩ := h
            subst h1
            apply SDP.mlineHolds_setMLine sdp pointer other mline _ slot hq _ h0
            cases slot <;> simp [MLine.holds]
      · simp at h
    · simp at h; obtain ⟨h1, _⟩ := h; subst h1; exact h0
    · rcases ht : takeAMediaLine sdp info.mLineValue with e | ⟨mlinePointer, sdp2, value⟩
      · simp [ht, bind, Except.bind] at h
      · have hobj := takeAMediaLine_mline sdp sdp2 info.mLineValue mlinePointer value ht
        have h2 : sdp2.mlineHolds other slot := by
          obtain ⟨m, hm1, hm2⟩ := h0
          exact ⟨m, by unfold SDP.mline at hm1 ⊢; rw [hobj]; exact hm1, hm2⟩
        simp only [ht, bind, Except.bind] at h
        split at h
        · simp at h
        · rename_i pointer
          rcases hq : sdp2.mline pointer with e | mline
          · simp [hq] at h
          · simp only [hq] at h
            exact processMediaLevelAttribute_keeps sdp2 sdp1 pointer other mline info value left
              slot hq h h2
    · simp at h; obtain ⟨h1, _⟩ := h; subst h1; exact h0
    · split at h
      · rename_i cline hv
        split at h
        · simp at h
        · rename_i pointer hp
          rcases hq : sdp.mline pointer with e | mline
          · simp [hq, bind, Except.bind] at h
          · by_cases hc : mline.mCLine.isSome = true
            · simp [hq, bind, Except.bind, throwInvalidParametersIf, hc] at h
            · simp [hq, bind, Except.bind, pure, Except.pure, throwInvalidParametersIf, hc] at h
              obtain ⟨h1, _⟩ := h
              subst h1
              apply SDP.mlineHolds_setMLine sdp pointer other mline _ slot hq _ h0
              cases slot <;> simp_all [MLine.holds]
      · simp at h

/-- The line type and attribute of a record that stands for a single-valued
line of a media line. -/
theorem mediaSlot_ofRecord_eq (info : LineTypeInfo) (slot : MediaSlot)
    (h : MediaSlot.ofRecord info = some slot) :
    match slot with
    | .connection => info.mLineType = LineType_c_ConnectionDataLine
    | .iceUFrag => info.mLineType = LineType_a_Attributes ∧ info.mAttribute = Attribute_ICEUFrag
    | .icePwd => info.mLineType = LineType_a_Attributes ∧ info.mAttribute = Attribute_ICEPwd
    | .setup => info.mLineType = LineType_a_Attributes ∧ info.mAttribute = Attribute_Setup
    | .mid => info.mLineType = LineType_a_Attributes ∧ info.mAttribute = Attribute_MID
    | .rtcp => info.mLineType = LineType_a_Attributes ∧ info.mAttribute = Attribute_RTCP
    | .ptime => info.mLineType = LineType_a_Attributes ∧ info.mAttribute = Attribute_PTime
    | .maxptime => info.mLineType = LineType_a_Attributes ∧ info.mAttribute = Attribute_MaxPTime
    | .simulcast =>
      info.mLineType = LineType_a_Attributes ∧ info.mAttribute = Attribute_Simulcast
    | .sctpPort => info.mLineType = LineType_a_Attributes ∧ info.mAttribute = Attribute_SCTPPort
    | .maxMessageSize =>
      info.mLineType = LineType_a_Attributes ∧ info.mAttribute = Attribute_MaxMessageSize := by
  unfold MediaSlot.ofRecord at h
  split at h
  · simp at h; subst h; assumption
  · rename_i ht
    split at h <;> simp at h <;> subst h <;> exact ⟨ht, by assumption⟩
  · simp at h

/-- A step of the media folder on an occurrence of a single-valued line
within the media line at `pointer`: it fails when the slot of the media line
holds a line, it fills the slot and erases the record when the media line
exists and its slot holds none, and in no other way does it return. -/
theorem processMediaLevelValue_occurrence (sdp : SDP) (info : LineTypeInfo)
    (slot : MediaSlot) (pointer : Nat) (h : info.isMediaOccurrence slot pointer) :
    (sdp.mlineHolds pointer slot →
      processMediaLevelValue sdp info = .error .InvalidParameters) ∧
    (∀ mline, sdp.mline pointer = .ok mline → mline.holds slot = false →
      ∃ sdp1, processMediaLevelValue sdp info = .ok (sdp1, none) ∧
        sdp1.mlineHolds pointer slot) ∧
    (∀ sdp1 left, processMediaLevelValue sdp info = .ok (sdp1, left) →
      sdp1.mlineHolds pointer slot) := by
  obtain ⟨hl, hr, hv⟩ := h
  have ht := mediaSlot_ofRecord_eq info slot hr
  rcases hvalue : info.mLineValue with _ | value
  · simp [hvalue] at hv
  · simp only [hvalue, Option.some_bind] at hv
    rcases hq : sdp.mline pointer with e | mline
    · refine ⟨fun hh => ?_, fun m hm => ?_, fun sdp1 left hs => ?_⟩
      · obtain ⟨m, hm1, _⟩ := hh
        rw [hq] at hm1
        cases hm1
      · cases hm
      · exfalso
        cases value <;> simp [MediaSlot.ofValue] at hv <;> obtain ⟨hv1, hv2⟩ := hv <;>
          subst hv1 <;> simp only [] at ht <;>
          simp [processMediaLevelValue, takeAMediaLine, hl, ht, hvalue, hv2, hq, bind,
            Except.bind] at hs
    · have hset : ∀ mline1 : MLine, mline1.holds slot = true →
          (sdp.setMLine pointer mline1).mlineHolds pointer slot :=
        fun mline1 h1 => ⟨mline1, SDP.mline_setMLine_same sdp pointer mline mline1 hq, h1⟩
      have key : (mline.holds slot = true →
            processMediaLevelValue sdp info = .error .InvalidParameters) ∧
          (mline.holds slot = false →
            ∃ sdp1, processMediaLevelValue sdp info = .ok (sdp1, none) ∧
              sdp1.mlineHolds pointer slot) := by
        cases value <;> simp [MediaSlot.ofValue] at hv <;> obtain ⟨hv1, hv2⟩ := hv <;>
          subst hv1 <;> simp only [] at ht <;>
          refine ⟨fun hh => ?_, fun hh => ?_⟩ <;>
          simp [MLine.holds] at hh <;>
          simp [processMediaLevelValue, processMediaLevelAttribute, takeAMediaLine, hl, ht,
            hvalue, hv2, hq, hh, bind, Except.bind, pure, Except.pure,
            throwInvalidParametersIf] <;>
          exact hset _ (by simp [MLine.holds])
      refine ⟨fun hh => ?_, fun m hm hh => ?_, fun sdp1 left hs => ?_⟩
      · obtain ⟨m, hm1, hm2⟩ := hh
        rw [hq] at hm1
        cases hm1
        exact key.1 hm2
      · cases hm
        exact key.2 hh
      · rcases hb : mline.holds slot with _ | _
        · obtain ⟨sdp2, h2, h3⟩ := key.2 hb
          rw [h2] at hs
          cases hs
          exact h3
        · rw [key.1 hb] at hs
          cases hs

/-- The constructor of the `c=` line stores the media line pointer it is
given. -/
theorem cLine_mMLine (mline : MLinePtr) (value : List Char) (line : CLine)
    (h : CLine.CLine mline value = .ok line) : line.mMLine = mline := by
  unfold CLine.CLine at h
  simp only [bind, Except.bind, pure, Except.pure] at h
  repeat
    (any_goals (split at h)
     all_goals try (simp only [reduceCtorEq] at h)
     all_goals try (simp only [Except.ok.injEq] at h; subst h))
  all_goals rfl

/-- The constructor of the `rtcp` line stores the media line pointer it is
given. -/
theorem rtcpLine_mMLine (mline : MLinePtr) (value : List Char) (line : ARTCPLine)
    (h : ARTCPLine.ARTCPLine mline value = .ok line) : line.mMLine = mline := by
  unfold ARTCPLine.ARTCPLine at h
  simp only [bind, Except.bind, pure, Except.pure] at h
  repeat
    (any_goals (split at h)
     all_goals try (simp only [reduceCtorEq] at h)
     all_goals try (simp only [Except.ok.injEq] at h; subst h))
  all_goals rfl

/-- The constructor of the `ptime` line stores the media line pointer it is
given. -/
theorem ptimeLine_mMLine (mline : MLinePtr) (value : List Char) (line : APTimeLine)
    (h : APTimeLine.APTimeLine mline value = .ok line) : line.mMLine = mline := by
  unfold APTimeLine.APTimeLine at h
  simp only [bind, Except.bind, pure, Except.pure] at h
  repeat
    (any_goals (split at h)
     all_goals try (simp only [reduceCtorEq] at h)
     all_goals try (simp only [Except.ok.injEq] at h; subst h))
  all_goals rfl

/-- The constructor of the `maxptime` line stores the media line pointer it is
given. -/
theorem maxPTimeLine_mMLine (mline : MLinePtr) (value : List Char) (line : AMaxPTimeLine)
    (h : AMaxPTimeLine.AMaxPTimeLine mline value = .ok line) : line.mMLine = mline := by
  unfold AMaxPTimeLine.AMaxPTimeLine at h
  simp only [bind, Except.bind, pure, Except.pure] at h
  repeat
    (any_goals (split at h)
     all_goals try (simp only [reduceCtorEq] at h)
     all_goals try (simp only [Except.ok.injEq] at h; subst h))
  all_goals rfl

/-- The constructor of the `simulcast` line stores the media line pointer it
is given. -/
theorem simulcastLine_mMLine (mline : MLinePtr) (value : List Char) (line : ASimulcastLine)
    (h : ASimulcastLine.ASimulcastLine mline value = .ok line) : line.mMLine = mline := by
  unfold ASimulcastLine.ASimulcastLine at h
  simp only [bind, Except.bind, pure, Except.pure] at h
  repeat
    (any_goals (split at h)
     all_goals try (simp only [reduceCtorEq] at h)
     all_goals try (simp only [Except.ok.injEq] at h; subst h))
  all_goals rfl

/-- The constructor of the `sctp-port` line stores the media line pointer it
is given. -/
theorem sctpPortLine_mMLine (mline : MLinePtr) (value : List Char) (line : ASCTPPortLine)
    (h : ASCTPPortLine.ASCTPPortLine mline value = .ok line) : line.mMLine = mline := by
  unfold ASCTPPortLine.ASCTPPortLine at h
  simp only [bind, Except.bind, pure, Except.pure] at h
  repeat
    (any_goals (split at h)
     all_goals try (simp only [reduceCtorEq] at h)
     all_goals try (simp only [Except.ok.injEq] at h; subst h))
  all_goals rfl

/-- The constructor of the `max-message-size` line stores the media line
pointer it is given. -/
theorem maxMessageSizeLine_mMLine (mline : MLinePtr) (value : List Char)
    (line : AMaxMessageSizeLine)
    (h : AMaxMessageSizeLine.AMaxMessageSizeLine mline value = .ok line) :
    line.mMLine = mline := by
  unfold AMaxMessageSizeLine.AMaxMessageSizeLine at h
  simp only [bind, Except.bind, pure, Except.pure] at h
  repeat
    (any_goals (split at h)
     all_goals try (simp only [reduceCtorEq] at h)
     all_goals try (simp only [Except.ok.injEq] at h; subst h))
  all_goals rfl

/-- The current media line survives the reset at the head of the loop body of
typed parsing for a record at media level. -/
theorem DetailsCursor.reset_media (cursor : DetailsCursor) :
    (cursor.reset AttributeLevel_Media).currentMLine = cursor.currentMLine := by
  unfold DetailsCursor.reset
  simp

/-- The typed value that typed parsing attaches to an `a=` record that stands
for a single-valued line of the session is an object of that line. -/
theorem parseAttributeDetails_sessionSlot (sdp sdp1 : SDP) (currentMLine : MLinePtr)
    (currentSourceLine : ASSRCLinePtr) (info : LineTypeInfo) (value : Option LineValue)
    (slot : SessionSlot) (ht : info.mLineType = LineType_a_Attributes)
    (hr : SessionSlot.ofRecord info = some slot)
    (h : parseAttributeDetails sdp currentMLine currentSourceLine info = .ok (sdp1, value)) :
    value.bind SessionSlot.ofValue = some slot := by
  have ha := sessionSlot_ofRecord_eq info slot hr
  unfold parseAttributeDetails at h
  cases slot <;> simp only [] at ha <;> (try (rw [ht] at ha; cases ha; done)) <;>
    simp only [ha.2, bind, Except.bind, pure, Except.pure] at h <;>
    (try split at h) <;> simp at h <;> obtain ⟨_, h2⟩ := h <;> subst h2 <;>
    simp [SessionSlot.ofValue]

/-- Typed parsing leaves a record that stands for a single-valued line of the
session, at session level, as an occurrence of that line. -/
theorem parseLineDetails_sessionOccurrence (sdp sdp1 : SDP) (cursor cursor1 : DetailsCursor)
    (info info1 : LineTypeInfo) (slot : SessionSlot)
    (hl : info.mAttributeLevel = AttributeLevel_Session)
    (hr : SessionSlot.ofRecord info = some slot)
    (h : parseLineDetails sdp cursor info = .ok (sdp1, cursor1, info1)) :
    info1.isSessionOccurrence slot := by
  by_cases ht : info.mLineType = LineType_a_Attributes
  · unfold parseLineDetails at h
    simp only [ht] at h
    rcases hx : parseAttributeDetails sdp (cursor.reset info.mAttributeLevel).currentMLine
        (cursor.reset info.mAttributeLevel).currentSourceLine info with e | ⟨sdp2, value⟩
    · simp [hx, bind, Except.bind] at h
    · simp [hx, bind, Except.bind, pure, Except.pure] at h
      obtain ⟨_, _, h3⟩ := h
      subst h3
      refine ⟨hl, ?_, parseAttributeDetails_sessionSlot _ _ _ _ _ _ slot ht hr hx⟩
      rw [← hr]
      simp [SessionSlot.ofRecord, ht]
  · have ha := sessionSlot_ofRecord_eq info slot hr
    unfold parseLineDetails at h
    cases slot <;> simp only [] at ha <;> (try (exact absurd ha.1 ht)) <;>
      simp only [ha, bind, Except.bind, pure, Except.pure] at h <;>
      (try split at h) <;> simp at h <;> obtain ⟨_, _, h3⟩ := h <;> subst h3 <;>
      simp [LineTypeInfo.isSessionOccurrence, SessionSlot.ofRecord, SessionSlot.ofValue, hl, ha]

/-- The typed value that typed parsing attaches to an `a=` record that stands
for a single-valued line of a media line is an object of that line and points
to the current media line. -/
theorem parseAttributeDetails_mediaSlot (sdp sdp1 : SDP) (currentMLine : MLinePtr)
    (currentSourceLine : ASSRCLinePtr) (info : LineTypeInfo) (value : Option LineValue)
    (slot : MediaSlot) (ht : info.mLineType = LineType_a_Attributes)
    (hr : MediaSlot.ofRecord info = some slot)
    (h : parseAttributeDetails sdp currentMLine currentSourceLine info = .ok (sdp1, value)) :
    value.bind MediaSlot.ofValue = some (slot, currentMLine) := by
  have ha := mediaSlot_ofRecord_eq info slot hr
  unfold parseAttributeDetails at h
  cases slot <;> simp only [] at ha <;> (try (rw [ht] at ha; cases ha; done)) <;>
    simp only [ha.2, bind, Except.bind, pure, Except.pure] at h <;>
    (try split at h) <;> simp at h <;> obtain ⟨_, h2⟩ := h <;> subst h2 <;>
    simp [MediaSlot.ofValue, AICEUFragLine.AICEUFragLine, AICEPwdLine.AICEPwdLine,
      ASetupLine.ASetupLine, AMIDLine.AMIDLine] <;>
    first
      | exact rtcpLine_mMLine _ _ _ (by assumption)
      | exact ptimeLine_mMLine _ _ _ (by assumption)
      | exact maxPTimeLine_mMLine _ _ _ (by assumption)
      | exact simulcastLine_mMLine _ _ _ (by assumption)
      | exact sctpPortLine_mMLine _ _ _ (by assumption)
      | exact maxMessageSizeLine_mMLine _ _ _ (by assumption)

/-- Typed parsing leaves a record that stands for a single-valued line of a
media line, at media level, as an occurrence of that line within the current
media line. -/
theorem parseLineDetails_mediaOccurrence (sdp sdp1 : SDP) (cursor cursor1 : DetailsCursor)
    (info info1 : LineTypeInfo) (slot : MediaSlot) (pointer : Nat)
    (hl : info.mAttributeLevel = AttributeLevel_Media)
    (hr : MediaSlot.ofRecord info = some slot)
    (hc : cursor.currentMLine = some pointer)
    (h : parseLineDetails sdp cursor info = .ok (sdp1, cursor1, info1)) :
    info1.isMediaOccurrence slot pointer := by
  have hreset : (cursor.reset info.mAttributeLevel).currentMLine = some pointer := by
    rw [hl, DetailsCursor.reset_media, hc]
  by_cases ht : info.mLineType = LineType_a_Attributes
  · unfold parseLineDetails at h
    simp only [ht] at h
    rcases hx : parseAttributeDetails sdp (cursor.reset info.mAttributeLevel).currentMLine
        (cursor.reset info.mAttributeLevel).currentSourceLine info with e | ⟨sdp2, value⟩
    · simp [hx, bind, Except.bind] at h
    · simp [hx, bind, Except.bind, pure, Except.pure] at h
      obtain ⟨_, _, h3⟩ := h
      subst h3
      refine ⟨hl, ?_, ?_⟩
      · rw [← hr]
        simp [MediaSlot.ofRecord, ht]
      · rw [← hreset]
        exact parseAttributeDetails_mediaSlot _ _ _ _ _ _ slot ht hr hx
  · have ha := mediaSlot_ofRecord_eq info slot hr
    unfold parseLineDetails at h
    cases slot <;> simp only [] at ha <;> (try (exact absurd ha.1 ht))
    simp only [ha, bind, Except.bind, pure, Except.pure] at h
    split at h
    · simp at h
    · rename_i line hline
      simp at h
      obtain ⟨_, _, h3⟩ := h
      subst h3
      simp only [LineTypeInfo.isMediaOccurrence, MediaSlot.ofRecord, MediaSlot.ofValue, hl, ha,
        Option.some_bind, true_and]
      rw [cLine_mMLine _ _ _ hline, hreset]

/-! ## Lemmas on the records the folders keep -/

/-- A record that a folder keeps as it is, without writing to the `SDP`, is in
the list the folder leaves. -/
theorem foldLines_mem_kept
    (step : SDP → LineTypeInfo → Except SDPError (SDP × Option LineTypeInfo))
    (r : LineTypeInfo) (hr : ∀ sdp, step sdp r = .ok (sdp, some r))
    (l : List LineTypeInfo) (sdp sdp1 : SDP) (out : List LineTypeInfo)
    (h : foldLines step sdp l = .ok (sdp1, out)) (hm : r ∈ l) : r ∈ out := by
  induction l generalizing sdp out with
  | nil => cases hm
  | cons x l ih =>
    simp only [foldLines] at h
    rcases hs : step sdp x with e | ⟨sdp2, left⟩
    · simp [hs] at h
    · simp only [hs] at h
      rcases hf : foldLines step sdp2 l with e | ⟨sdp3, out3⟩
      · simp [hf] at h
      · simp only [hf] at h
        simp at h
        obtain ⟨h1, h2⟩ := h
        subst h1 h2
        rcases List.mem_cons.mp hm with hx | hx
        · subst hx
          rw [hr sdp] at hs
          simp at hs
          obtain ⟨_, h3⟩ := hs
          subst h3
          simp
        · have := ih sdp2 out3 hf hx
          cases left <;> simp [this]

/-- A folder fails on a list that holds a record on which its step fails. -/
theorem foldLines_error_mem
    (step : SDP → LineTypeInfo → Except SDPError (SDP × Option LineTypeInfo))
    (r : LineTypeInfo) (hr : ∀ sdp, ∃ e, step sdp r = .error e)
    (l : List LineTypeInfo) (sdp : SDP) (hm : r ∈ l) :
    ∃ e, foldLines step sdp l = .error e := by
  induction l generalizing sdp with
  | nil => cases hm
  | cons x l ih =>
    simp only [foldLines]
    rcases hs : step sdp x with e | ⟨sdp2, left⟩
    · exact ⟨e, rfl⟩
    · rcases List.mem_cons.mp hm with hx | hx
      · subst hx
        obtain ⟨e, he⟩ := hr sdp
        rw [he] at hs
        cases hs
      · obtain ⟨e, he⟩ := ih sdp2 hx
        exact ⟨e, by simp [he]⟩

/-- The constructor of the `fmtp` line stores the source line pointer it is
given. -/
theorem fmtpLine_mSourceLine (mline : MLinePtr) (sourceLine : ASSRCLinePtr)
    (value : List Char) (line : AFMTPLine)
    (h : AFMTPLine.AFMTPLine mline sourceLine value = .ok line) :
    line.mSourceLine = sourceLine := by
  unfold AFMTPLine.AFMTPLine at h
  simp only [bind, Except.bind, pure, Except.pure] at h
  split at h
  · simp at h
  · split at h
    · simp at h
    · simp at h
      rw [← h]

/-- Typed parsing of one record from a cursor whose current source line is
null: the current source line stays null, and an `a=fmtp` record at source
level is left with a typed value whose source line pointer is null. -/
theorem parseLineDetails_source (sdp sdp1 : SDP) (cursor cursor1 : DetailsCursor)
    (info info1 : LineTypeInfo) (hc : cursor.currentSourceLine = none)
    (h : parseLineDetails sdp cursor info = .ok (sdp1, cursor1, info1)) :
    cursor1.currentSourceLine = none ∧
      (info.isSourceFmtp → info1.isSourceFmtp ∧ info1.hasNullSourceLine) := by
  have hreset : (cursor.reset info.mAttributeLevel).currentSourceLine = none := by
    unfold DetailsCursor.reset
    split <;> split <;> simp [hc]
  unfold parseLineDetails at h
  simp only [] at h
  split at h
  · simp at h
    obtain ⟨_, h2, h3⟩ := h
    subst h2 h3
    refine ⟨hreset, fun hf => ?_⟩
    obtain ⟨ht, _, _⟩ := hf
    simp_all
  · rename_i ht
    cases hx : VLine.VLine info.mValue <;> simp [hx, bind, Except.bind, pure, Except.pure] at h
    obtain ⟨_, h2, h3⟩ := h
    subst h2 h3
    exact ⟨hreset, fun hf => by simp [hf.1] at ht⟩
  · rename_i ht
    cases hx : OLine.OLine info.mValue <;> simp [hx, bind, Except.bind, pure, Except.pure] at h
    obtain ⟨_, h2, h3⟩ := h
    subst h2 h3
    exact ⟨hreset, fun hf => by simp [hf.1] at ht⟩
  · rename_i ht
    cases hx : SLine.SLine info.mValue <;> simp [hx, bind, Except.bind, pure, Except.pure] at h
    obtain ⟨_, h2, h3⟩ := h
    subst h2 h3
    exact ⟨hreset, fun hf => by simp [hf.1] at ht⟩
  · rename_i ht
    split at h
    · simp at h
      obtain ⟨_, h2, h3⟩ := h
      subst h2 h3
      exact ⟨hreset, fun hf => by simp [hf.1] at ht⟩
    · cases hx : BLine.BLine (cursor.reset info.mAttributeLevel).currentMLine info.mValue <;>
        simp [hx, bind, Except.bind, pure, Except.pure] at h
      obtain ⟨_, h2, h3⟩ := h
      subst h2 h3
      exact ⟨hreset, fun hf => by simp [hf.1] at ht⟩
  · rename_i ht
    cases hx : TLine.TLine info.mValue <;> simp [hx, bind, Except.bind, pure, Except.pure] at h
    obtain ⟨_, h2, h3⟩ := h
    subst h2 h3
    exact ⟨hreset, fun hf => by simp [hf.1] at ht⟩
  · rename_i ht
    rcases hx : parseAttributeDetails sdp (cursor.reset info.mAttributeLevel).currentMLine
        (cursor.reset info.mAttributeLevel).currentSourceLine info with e | ⟨sdp2, value⟩
    · simp [hx, bind, Except.bind] at h
    · simp [hx, bind, Except.bind, pure, Except.pure] at h
      obtain ⟨_, h2, h3⟩ := h
      subst h2 h3
      refine ⟨hreset, fun hf => ⟨hf, ?_⟩⟩
      obtain ⟨_, ha, _⟩ := hf
      unfold parseAttributeDetails at hx
      simp only [ha] at hx
      rcases hl : AFMTPLine.AFMTPLine (cursor.reset info.mAttributeLevel).currentMLine
          (cursor.reset info.mAttributeLevel).currentSourceLine info.mValue with e | line
      · simp [hl, bind, Except.bind] at hx
      · simp [hl, bind, Except.bind, pure, Except.pure] at hx
        obtain ⟨_, hv⟩ := hx
        refine ⟨line, hv.symm, ?_⟩
        rw [fmtpLine_mSourceLine _ _ _ _ hl]
        exact hreset
  · rename_i ht
    cases hx : MLine.MLine info.mValue <;> simp [hx, bind, Except.bind, pure, Except.pure] at h
    obtain ⟨_, h2, h3⟩ := h
    subst h2 h3
    exact ⟨hreset, fun hf => by simp [hf.1] at ht⟩
  · rename_i ht
    cases hx : CLine.CLine (cursor.reset info.mAttributeLevel).currentMLine info.mValue <;>
      simp [hx, bind, Except.bind, pure, Except.pure] at h
    obtain ⟨_, h2, h3⟩ := h
    subst h2 h3
    exact ⟨hreset, fun hf => by simp [hf.1] at ht⟩

/-- Typed parsing from a cursor whose current source line is null leaves every
`a=fmtp` record at source level with a null source line pointer. -/
theorem parseLinesDetailsFrom_source (l : List LineTypeInfo) (sdp sdp1 : SDP)
    (cursor : DetailsCursor) (out : List LineTypeInfo) (r : LineTypeInfo)
    (hc : cursor.currentSourceLine = none)
    (h : parseLinesDetailsFrom sdp cursor l = .ok (sdp1, out))
    (hm : r ∈ l) (hr : r.isSourceFmtp) :
    ∃ r1 ∈ out, r1.isSourceFmtp ∧ r1.hasNullSourceLine := by
  induction l generalizing sdp cursor out with
  | nil => cases hm
  | cons x l ih =>
    simp only [parseLinesDetailsFrom] at h
    rcases hs : parseLineDetails sdp cursor x with e | ⟨sdp2, cursor2, x1⟩
    · simp [hs] at h
    · simp only [hs] at h
      rcases hf : parseLinesDetailsFrom sdp2 cursor2 l with e | ⟨sdp3, out3⟩
      · simp [hf] at h
      · simp only [hf] at h
        simp at h
        obtain ⟨h1, h2⟩ := h
        subst h1 h2
        obtain ⟨hc2, hx1⟩ := parseLineDetails_source sdp sdp2 cursor cursor2 x x1 hc hs
        rcases List.mem_cons.mp hm with hx | hx
        · subst hx
          exact ⟨x1, List.mem_cons_self _ _, hx1 hr⟩
        · obtain ⟨r1, hr1, hp⟩ := ih sdp2 cursor2 out3 hc2 hf hx
          exact ⟨r1, List.mem_cons_of_mem _ hr1, hp⟩

/-- A folder whose step, when it returns on a record with a property, keeps
the record with the property, leaves a record with the property in the list
when there was one. -/
theorem foldLines_mem_property
    (step : SDP → LineTypeInfo → Except SDPError (SDP × Option LineTypeInfo))
    (P : LineTypeInfo → Prop)
    (hP : ∀ sdp r sdp1 left, P r → step sdp r = .ok (sdp1, left) → ∃ r1, left = some r1 ∧ P r1)
    (l : List LineTypeInfo) (sdp sdp1 : SDP) (out : List LineTypeInfo)
    (h : foldLines step sdp l = .ok (sdp1, out)) (hm : ∃ r ∈ l, P r) : ∃ r1 ∈ out, P r1 := by
  induction l generalizing sdp out with
  | nil =>
    obtain ⟨r, hr, _⟩ := hm
    cases hr
  | cons x l ih =>
    simp only [foldLines] at h
    rcases hs : step sdp x with e | ⟨sdp2, left⟩
    · simp [hs] at h
    · simp only [hs] at h
      rcases hf : foldLines step sdp2 l with e | ⟨sdp3, out3⟩
      · simp [hf] at h
      · simp only [hf] at h
        simp at h
        obtain ⟨h1, h2⟩ := h
        subst h1 h2
        obtain ⟨r, hr, hpr⟩ := hm
        rcases List.mem_cons.mp hr with hx | hx
        · subst hx
          obtain ⟨r1, hl, hp1⟩ := hP sdp r sdp2 left hpr hs
          subst hl
          exact ⟨r1, by simp, hp1⟩
        · obtain ⟨r1, hr1, hp1⟩ := ih sdp2 out3 hf ⟨r, hx, hpr⟩
          exact ⟨r1, by cases left <;> simp [hr1], hp1⟩

/-- Typed parsing of an `a=` record leaves its line type, attribute and level
as they are. -/
theorem parseLineDetails_attribute (sdp sdp1 : SDP) (cursor cursor1 : DetailsCursor)
    (info info1 : LineTypeInfo) (ht : info.mLineType = LineType_a_Attributes)
    (h : parseLineDetails sdp cursor info = .ok (sdp1, cursor1, info1)) :
    info1.mLineType = LineType_a_Attributes ∧ info1.mAttribute = info.mAttribute ∧
      info1.mAttributeLevel = info.mAttributeLevel := by
  unfold parseLineDetails at h
  simp only [ht] at h
  rcases hx : parseAttributeDetails sdp (cursor.reset info.mAttributeLevel).currentMLine
      (cursor.reset info.mAttributeLevel).currentSourceLine info with e | ⟨sdp2, value⟩
  · simp [hx, bind, Except.bind] at h
  · simp [hx, bind, Except.bind, pure, Except.pure] at h
    obtain ⟨_, _, h3⟩ := h
    subst h3
    exact ⟨rfl, rfl, rfl⟩

/-- Typed parsing leaves a flag record of the three kinds in the list when
there was one. -/
theorem parseLinesDetailsFrom_leftFlag (l : List LineTypeInfo) (sdp sdp1 : SDP)
    (cursor : DetailsCursor) (out : List LineTypeInfo)
    (h : parseLinesDetailsFrom sdp cursor l = .ok (sdp1, out))
    (hm : ∃ r ∈ l, r.isLeftFlag) : ∃ r1 ∈ out, r1.isLeftFlag := by
  induction l generalizing sdp cursor out with
  | nil =>
    obtain ⟨r, hr, _⟩ := hm
    cases hr
  | cons x l ih =>
    simp only [parseLinesDetailsFrom] at h
    rcases hs : parseLineDetails sdp cursor x with e | ⟨sdp2, cursor2, x1⟩
    · simp [hs] at h
    · simp only [hs] at h
      rcases hf : parseLinesDetailsFrom sdp2 cursor2 l with e | ⟨sdp3, out3⟩
      · simp [hf] at h
      · simp only [hf] at h
        simp at h
        obtain ⟨h1, h2⟩ := h
        subst h1 h2
        obtain ⟨r, hr, hpr⟩ := hm
        rcases List.mem_cons.mp hr with hx | hx
        · subst hx
          obtain ⟨ht, ha, hl⟩ := parseLineDetails_attribute sdp sdp2 cursor cursor2 r x1 hpr.1 hs
          exact ⟨x1, List.mem_cons_self _ _, ht, by rw [ha, hl]; exact hpr.2⟩
        · obtain ⟨r1, hr1, hp1⟩ := ih sdp2 cursor2 out3 hf ⟨r, hx, hpr⟩
          exact ⟨r1, List.mem_cons_of_mem _ hr1, hp1⟩

/-- The flag folder, when it returns on a flag record of the three kinds,
keeps the record. -/
theorem processFlagAttribute_leftFlag (sdp : SDP) (r : LineTypeInfo) (sdp1 : SDP)
    (left : Option LineTypeInfo) (hr : r.isLeftFlag)
    (h : processFlagAttribute sdp r = .ok (sdp1, left)) : ∃ r1, left = some r1 ∧ r1.isLeftFlag := by
  obtain ⟨ht, ha⟩ := hr
  refine ⟨r, ?_, ht, ha⟩
  rcases ha with ⟨ha, _⟩ | ⟨ha | ha, _⟩
  · simp [processFlagAttribute, ht, ha, requiresEmptyValue] at h
    exact h.2.symm
  · simp only [processFlagAttribute, ht, ha, requiresEmptyValue, processMediaFlag] at h
    simp at h
    split at h
    · split at h
      · simp at h
      · rename_i pointer _
        cases hq : sdp.mline pointer <;> simp [hq, bind, Except.bind, pure, Except.pure, ha] at h
        exact h.2.symm
    · simp at h
  · simp only [processFlagAttribute, ht, ha, requiresEmptyValue, processMediaFlag] at h
    simp at h
    split at h
    · split at h
      · simp at h
      · rename_i pointer _
        cases hq : sdp.mline pointer <;> simp [hq, bind, Except.bind, pure, Except.pure, ha] at h
        exact h.2.symm
    · simp at h

/-- The session folder keeps a flag record of the three kinds. -/
theorem processSessionLevelValue_leftFlag (sdp : SDP) (r : LineTypeInfo) (sdp1 : SDP)
    (left : Option LineTypeInfo) (hr : r.isLeftFlag)
    (h : processSessionLevelValue sdp r = .ok (sdp1, left)) :
    ∃ r1, left = some r1 ∧ r1.isLeftFlag := by
  obtain ⟨ht, ha⟩ := hr
  refine ⟨r, ?_, ht, ha⟩
  rcases ha with ⟨ha, hl⟩ | ⟨_, hl⟩
  · simp [processSessionLevelValue, processSessionLevelAttribute, ht, ha, hl] at h
    exact h.2.symm
  · simp [processSessionLevelValue, hl] at h
    exact h.2.symm

/-- The media folder, when it returns on a flag record of the three kinds,
keeps a flag record of the three kinds. -/
theorem processMediaLevelValue_leftFlag (sdp : SDP) (r : LineTypeInfo) (sdp1 : SDP)
    (left : Option LineTypeInfo) (hr : r.isLeftFlag)
    (h : processMediaLevelValue sdp r = .ok (sdp1, left)) :
    ∃ r1, left = some r1 ∧ r1.isLeftFlag := by
  obtain ⟨ht, ha⟩ := hr
  rcases ha with ⟨ha, hl⟩ | ⟨ha, hl⟩
  · refine ⟨r, ?_, ht, Or.inl ⟨ha, hl⟩⟩
    simp [processMediaLevelValue, hl] at h
    exact h.2.symm
  · simp only [processMediaLevelValue, hl, ht] at h
    simp at h
    rcases hx : takeAMediaLine sdp r.mLineValue with e | ⟨mlinePointer, sdp2, value⟩
    · simp [hx, bind, Except.bind] at h
    · simp only [hx, bind, Except.bind] at h
      split at h
      · simp at h
      · rename_i pointer
        rcases hq : sdp2.mline pointer with e | mline
        · simp [hq] at h
        · refine ⟨{ r with mLineValue := some value }, ?_, ht, Or.inr ⟨ha, hl⟩⟩
          rcases ha with ha | ha <;>
            simp [hq, processMediaLevelAttribute, ha] at h <;> rw [← h.2, ha]

/-- The source folder keeps a flag record of the three kinds. -/
theorem processSourceLevelValue_leftFlag (sdp : SDP) (r : LineTypeInfo) (sdp1 : SDP)
    (left : Option LineTypeInfo) (hr : r.isLeftFlag)
    (h : processSourceLevelValue sdp r = .ok (sdp1, left)) :
    ∃ r1, left = some r1 ∧ r1.isLeftFlag := by
  obtain ⟨ht, ha⟩ := hr
  refine ⟨r, ?_, ht, ha⟩
  rcases ha with ⟨_, hl⟩ | ⟨_, hl⟩ <;>
    simp [processSourceLevelValue, hl] at h <;> exact h.2.symm

/-- Typed parsing fails on a list that holds a record on which its step
fails. -/
theorem parseLinesDetailsFrom_error_mem (r : LineTypeInfo)
    (hr : ∀ sdp cursor, ∃ e, parseLineDetails sdp cursor r = .error e)
    (l : List LineTypeInfo) (sdp : SDP) (cursor : DetailsCursor) (hm : r ∈ l) :
    ∃ e, parseLinesDetailsFrom sdp cursor l = .error e := by
  induction l generalizing sdp cursor with
  | nil => cases hm
  | cons x l ih =>
    simp only [parseLinesDetailsFrom]
    rcases hs : parseLineDetails sdp cursor x with e | ⟨sdp2, cursor2, x1⟩
    · exact ⟨e, rfl⟩
    · rcases List.mem_cons.mp hm with hx | hx
      · subst hx
        obtain ⟨e, he⟩ := hr sdp cursor
        rw [he] at hs
        cases hs
      · obtain ⟨e, he⟩ := ih sdp2 cursor2 hx
        exact ⟨e, by simp [he]⟩

/-- Typed parsing leaves a direction flag record in the list when there was
one. -/
theorem parseLinesDetailsFrom_directionFlag (l : List LineTypeInfo) (sdp sdp1 : SDP)
    (cursor : DetailsCursor) (out : List LineTypeInfo)
    (h : parseLinesDetailsFrom sdp cursor l = .ok (sdp1, out))
    (hm : ∃ r ∈ l, r.isDirectionFlag) : ∃ r1 ∈ out, r1.isDirectionFlag := by
  induction l generalizing sdp cursor out with
  | nil =>
    obtain ⟨r, hr, _⟩ := hm
    cases hr
  | cons x l ih =>
    simp only [parseLinesDetailsFrom] at h
    rcases hs : parseLineDetails sdp cursor x with e | ⟨sdp2, cursor2, x1⟩
    · simp [hs] at h
    · simp only [hs] at h
      rcases hf : parseLinesDetailsFrom sdp2 cursor2 l with e | ⟨sdp3, out3⟩
      · simp [hf] at h
      · simp only [hf] at h
        simp at h
        obtain ⟨h1, h2⟩ := h
        subst h1 h2
        obtain ⟨r, hr, hpr⟩ := hm
        rcases List.mem_cons.mp hr with hx | hx
        · subst hx
          obtain ⟨ht, ha, _⟩ := parseLineDetails_attribute sdp sdp2 cursor cursor2 r x1 hpr.1 hs
          exact ⟨x1, List.mem_cons_self _ _, ht, by rw [ha]; exact hpr.2⟩
        · obtain ⟨r1, hr1, hp1⟩ := ih sdp2 cursor2 out3 hf ⟨r, hx, hpr⟩
          exact ⟨r1, List.mem_cons_of_mem _ hr1, hp1⟩

/-- The direction case of the flag folder does not return. -/
theorem processDirectionFlag_fails (sdp : SDP) (info : LineTypeInfo) :
    ∃ e, processDirectionFlag sdp info = .error e := by
  unfold processDirectionFlag
  split
  · split
    · rename_i pointer _
      rcases hq : sdp.mline pointer with e | mline
      · exact ⟨e, by simp [bind, Except.bind]⟩
      · cases hd : mline.mMediaDirection.isSome
        · exact ⟨.UndefinedBehaviour, by simp [bind, Except.bind, throwInvalidParametersIf, hd]⟩
        · exact ⟨.InvalidParameters, by simp [bind, Except.bind, throwInvalidParametersIf, hd]⟩
    · cases hd : sdp.mMediaDirection.isSome
      · exact ⟨.UndefinedBehaviour, by simp [bind, Except.bind, throwInvalidParametersIf, hd]⟩
      · exact ⟨.InvalidParameters, by simp [bind, Except.bind, throwInvalidParametersIf, hd]⟩
  · exact ⟨.InvalidAssumption, rfl⟩

/-- The constructor of the direction line on the four attribute names, as
typed parsing calls it: `sendonly` and `recvonly` are not among the strings
that `toDirection` compares with. -/
theorem mediaDirectionLine_names (mline : MLinePtr) :
    (∃ e, AMediaDirectionLine.AMediaDirectionLine mline Attribute_SendOnly.toString =
        .error e) ∧
    (∃ e, AMediaDirectionLine.AMediaDirectionLine mline Attribute_RecvOnly.toString =
        .error e) ∧
    AMediaDirectionLine.AMediaDirectionLine mline Attribute_SendRecv.toString =
      .ok { mMLine := mline, mDirection := Direction_SendReceive } ∧
    AMediaDirectionLine.AMediaDirectionLine mline Attribute_Inactive.toString =
      .ok { mMLine := mline, mDirection := Direction_None } :=
  ⟨⟨.UndefinedBehaviour, by rfl⟩, ⟨.UndefinedBehaviour, by rfl⟩, by rfl, by rfl⟩

/-! ## Lemmas on the lowering -/

/-- A sequence of two steps returns when the first returns and the second
returns on its result. -/
theorem bind_eq_ok {ε α β : Type} (x : Except ε α) (f : α → Except ε β) (b : β) :
    (x >>= f) = .ok b ↔ ∃ a, x = .ok a ∧ f a = .ok b := by
  cases x <;> simp [bind, Except.bind]

/-- The RTCP parameters after `convertCandidates`: they are present when they
were present before or when some candidate line has a component id other
than 0. -/
theorem convertCandidates_rtcp (ext : External) (lines : List ACandidateLine)
    (outRTPCandidates candidates : List ICECandidate)
    (ioRTCPTransport rtcp : Option TransportParameters)
    (h : convertCandidates ext lines outRTPCandidates ioRTCPTransport = .ok (candidates, rtcp)) :
    rtcp.isSome = true ↔
      (ioRTCPTransport.isSome = true ∨ ∃ c ∈ lines, c.mComponentID ≠ 0) := by
  induction lines generalizing outRTPCandidates ioRTCPTransport with
  | nil =>
    simp [convertCandidates] at h
    simp [h.2]
  | cons acandidate rest ih =>
    simp only [convertCandidates, bind, Except.bind] at h
    split at h
    · simp at h
    · split at h
      · rename_i hz
        rw [ih _ _ h]
        simp [← hz]
      · rename_i hz
        rw [ih _ _ h]
        have hz1 : acandidate.mComponentID ≠ 0 := fun h0 => hz h0.symm
        simp [hz1]

/-- The candidates after `convertCandidates`: every candidate line has added
one candidate, to the RTP list or to the RTCP parameters; and RTCP parameters
that were absent before are present afterwards only with a candidate. -/
theorem convertCandidates_count (ext : External) (lines : List ACandidateLine)
    (outRTPCandidates candidates : List ICECandidate)
    (ioRTCPTransport rtcp : Option TransportParameters)
    (h : convertCandidates ext lines outRTPCandidates ioRTCPTransport = .ok (candidates, rtcp)) :
    candidates.length + candidateCount rtcp =
      outRTPCandidates.length + candidateCount ioRTCPTransport + lines.length ∧
    ((ioRTCPTransport.isSome = true → 0 < candidateCount ioRTCPTransport) →
      rtcp.isSome = true → 0 < candidateCount rtcp) := by
  induction lines generalizing outRTPCandidates ioRTCPTransport with
  | nil =>
    simp [convertCandidates] at h
    obtain ⟨h1, h2⟩ := h
    subst h1 h2
    exact ⟨by simp, fun hinv => hinv⟩
  | cons acandidate rest ih =>
    simp only [convertCandidates, bind, Except.bind] at h
    split at h
    · simp at h
    · split at h
      · obtain ⟨hlen, hinv⟩ := ih _ _ h
        refine ⟨?_, hinv⟩
        rw [hlen]
        simp only [List.length_append, List.length_cons, List.length_nil]
        omega
      · obtain ⟨hlen, hinv⟩ := ih _ _ h
        refine ⟨?_, fun _ => hinv (fun _ => ?_)⟩
        · rw [hlen]
          cases ioRTCPTransport <;>
            simp only [candidateCount, List.length_append, List.length_cons, List.length_nil] <;>
            omega
        · simp [candidateCount]

/-- The loop of `createTransports` returns the description it was given. -/
theorem createTransportsFrom_description (ext : External) (sdp : SDP)
    (ioDescription description : Description) (index : Nat) (pointers : List Nat)
    (h : createTransportsFrom ext sdp ioDescription index pointers = .ok description) :
    description = ioDescription := by
  induction pointers generalizing index with
  | nil =>
    simp [createTransportsFrom] at h
    exact h.symm
  | cons pointer rest ih =>
    simp only [createTransportsFrom, bind, Except.bind] at h
    split at h
    · simp at h
    · split at h
      · simp at h
      · exact ih _ h

/-- The choice of the transport id at the end of `fillMediaLine`, from the id
searched for and the bundle id found: the id chosen is empty or the id of one
of the transports. -/
theorem transportID_choice (transports : List Transport)
    (searchForTransportID foundBundleID : List Char)
    (hne : (if (if foundBundleID ≠ [] ∧
                  (!(decide (foundBundleID ≠ []) &&
                      transports.any (fun transport => transport.mID = foundBundleID))) = true
                then [] else foundBundleID) = []
            then (if transports.any (fun transport => transport.mID = searchForTransportID)
                  then searchForTransportID else [])
            else (if foundBundleID ≠ [] ∧
                  (!(decide (foundBundleID ≠ []) &&
                      transports.any (fun transport => transport.mID = foundBundleID))) = true
                then [] else foundBundleID)) ≠ []) :
    ∃ transport ∈ transports, transport.mID =
      (if (if foundBundleID ≠ [] ∧
                  (!(decide (foundBundleID ≠ []) &&
                      transports.any (fun transport => transport.mID = foundBundleID))) = true
                then [] else foundBundleID) = []
            then (if transports.any (fun transport => transport.mID = searchForTransportID)
                  then searchForTransportID else [])
            else (if foundBundleID ≠ [] ∧
                  (!(decide (foundBundleID ≠ []) &&
                      transports.any (fun transport => transport.mID = foundBundleID))) = true
                then [] else foundBundleID)) := by
  by_cases hb : foundBundleID = []
  · subst hb
    simp only [ne_eq, not_true_eq_false, false_and, if_false, if_true] at hne ⊢
    by_cases hany : transports.any (fun transport => transport.mID = searchForTransportID) = true
    · simp only [hany, if_true]
      rw [List.any_eq_true] at hany
      obtain ⟨t, ht, heq⟩ := hany
      exact ⟨t, ht, by simpa using heq⟩
    · simp [hany] at hne
  · by_cases hfound : transports.any (fun transport => transport.mID = foundBundleID) = true
    · simp only [ne_eq, hb, not_false_eq_true, decide_True, hfound, Bool.and_self, Bool.not_true,
        Bool.false_eq_true, and_false, if_false]
      rw [List.any_eq_true] at hfound
      obtain ⟨t, ht, heq⟩ := hfound
      exact ⟨t, ht, by simpa using heq⟩
    · simp only [ne_eq, hb, not_false_eq_true, decide_True, hfound, Bool.and_false,
        Bool.not_false, and_self, if_true] at hne ⊢
      by_cases hany : transports.any (fun transport => transport.mID = searchForTransportID) = true
      · simp only [hany, if_true]
        rw [List.any_eq_true] at hany
        obtain ⟨t, ht, heq⟩ := hany
        exact ⟨t, ht, by simpa using heq⟩
      · simp [hany] at hne

/-- The transport id that `fillMediaLine` assigns is empty or the id of a
transport of the description. -/
theorem fillMediaLine_transport (ext : External) (index : Nat) (sdp : SDP) (mline : MLine)
    (description : Description) (mediaLine : MediaLine)
    (h : fillMediaLine ext index sdp mline description = .ok mediaLine)
    (hne : mediaLine.mTransportID ≠ []) :
    mediaLine.referencesTransport description.mTransports := by
  refine ⟨hne, ?_⟩
  unfold fillMediaLine at h
  rw [bind_eq_ok] at h
  obtain ⟨mPort, _, h⟩ := h
  simp only [pure, Except.pure, Except.ok.injEq] at h
  subst h
  exact transportID_choice _ _ _ hne

/-- The loop of `createRTPMediaLines` keeps the transports and appends only
media lines whose transport id is the id of a transport. -/
theorem createRTPMediaLinesFrom_transport (ext : External)
    (fillCapabilities : Locations → SDP → MLine → Description → MediaLine →
      Except SDPError (Capabilities × Capabilities))
    (location : Locations) (sdp : SDP) (pointers : List Nat) (ioDescription : Description)
    (index : Nat) (description : Description)
    (h : createRTPMediaLinesFrom ext fillCapabilities location sdp ioDescription index pointers =
      .ok description) :
    description.mTransports = ioDescription.mTransports ∧
    ∃ added, description.mRTPMediaLines = ioDescription.mRTPMediaLines ++ added ∧
      ∀ line ∈ added, line.toMediaLine.referencesTransport description.mTransports := by
  induction pointers generalizing ioDescription index with
  | nil =>
    simp [createRTPMediaLinesFrom] at h
    subst h
    exact ⟨rfl, [], by simp, by simp⟩
  | cons pointer rest ih =>
    simp only [createRTPMediaLinesFrom] at h
    rw [bind_eq_ok] at h
    obtain ⟨mline, _, h⟩ := h
    split at h
    · exact ih _ _ h
    · rw [bind_eq_ok] at h
      obtain ⟨mediaLine, hfill, h⟩ := h
      split at h
      · exact ih _ _ h
      · rename_i hne
        rw [bind_eq_ok] at h
        obtain ⟨⟨senderCapabilities, receiverCapabilities⟩, _, h⟩ := h
        obtain ⟨ht, added, hadd, hall⟩ := ih _ _ h
        simp only [] at ht hadd
        refine ⟨ht, RTPMediaLine.mk mediaLine (some senderCapabilities)
          (some receiverCapabilities) :: added, by rw [hadd]; simp, ?_⟩
        intro line hline
        rcases List.mem_cons.mp hline with hl | hl
        · subst hl
          rw [ht]
          exact fillMediaLine_transport ext index sdp mline ioDescription mediaLine hfill hne
        · exact hall line hl

/-- The loop of `createSCTPMediaLines` keeps the transports and appends only
media lines whose transport id is the id of a transport. -/
theorem createSCTPMediaLinesFrom_transport (ext : External) (sdp : SDP) (pointers : List Nat)
    (ioDescription : Description) (index : Nat) (description : Description)
    (h : createSCTPMediaLinesFrom ext sdp ioDescription index pointers = .ok description) :
    description.mTransports = ioDescription.mTransports ∧
    ∃ added, description.mSCTPMediaLines = ioDescription.mSCTPMediaLines ++ added ∧
      ∀ line ∈ added, line.toMediaLine.referencesTransport description.mTransports := by
  induction pointers generalizing ioDescription index with
  | nil =>
    simp [createSCTPMediaLinesFrom] at h
    subst h
    exact ⟨rfl, [], by simp, by simp⟩
  | cons pointer rest ih =>
    simp only [createSCTPMediaLinesFrom] at h
    rw [bind_eq_ok] at h
    obtain ⟨mline, _, h⟩ := h
    split at h
    · exact ih _ _ h
    · rw [bind_eq_ok] at h
      obtain ⟨mediaLine, hfill, h⟩ := h
      split at h
      · exact ih _ _ h
      · rename_i hne
        have key : ∀ mPort mMaxMessageSize,
            createSCTPMediaLinesFrom ext sdp
              { ioDescription with mSCTPMediaLines := ioDescription.mSCTPMediaLines ++
                  [{ toMediaLine := mediaLine,
                     mCapabilities := some { mMaxMessageSize := mMaxMessageSize },
                     mPort := mPort }] }
              (index + 1) rest = .ok description →
            description.mTransports = ioDescription.mTransports ∧
            ∃ added, description.mSCTPMediaLines = ioDescription.mSCTPMediaLines ++ added ∧
              ∀ line ∈ added,
                line.toMediaLine.referencesTransport description.mTransports := by
          intro mPort mMaxMessageSize h
          obtain ⟨ht, added, hadd, hall⟩ := ih _ _ h
          simp only [] at ht hadd
          refine ⟨ht, SCTPMediaLine.mk mediaLine (some (SCTPCapabilities.mk mMaxMessageSize))
            mPort :: added, by rw [hadd]; simp, ?_⟩
          intro line hline
          rcases List.mem_cons.mp hline with hl | hl
          · subst hl
            rw [ht]
            exact fillMediaLine_transport ext index sdp mline ioDescription mediaLine hfill hne
          · exact hall line hl
        split at h
        · rw [bind_eq_ok] at h
          obtain ⟨mPort, _, h⟩ := h
          rw [bind_eq_ok] at h
          obtain ⟨mMaxMessageSize, _, h⟩ := h
          exact key _ _ h
        · rw [bind_eq_ok] at h
          obtain ⟨mPort, _, h⟩ := h
          rw [bind_eq_ok] at h
          obtain ⟨mMaxMessageSize, _, h⟩ := h
          exact key _ _ h

/-- The media line that the search of `createRTPSenderLines` takes is in the
list and its id is not the id searched for. -/
theorem findMediaLine_spec (mRTPMediaLineID : List Char) (lines : List RTPMediaLine)
    (found : RTPMediaLine) (h : findMediaLine mRTPMediaLineID lines = some found) :
    found ∈ lines ∧ found.toMediaLine.mID ≠ mRTPMediaLineID := by
  induction lines with
  | nil => simp [findMediaLine] at h
  | cons mediaLine rest ih =>
    simp only [findMediaLine] at h
    split at h
    · obtain ⟨hm, hne⟩ := ih h
      exact ⟨List.mem_cons_of_mem _ hm, hne⟩
    · rename_i hne
      simp at h
      subst h
      exact ⟨List.mem_cons_self _ _, hne⟩

/-! ## Lemmas on the typed values -/

/-- The constructor of the `rtpmap` line leaves the encoding name empty. -/
theorem rtpMapLine_mEncodingName (mline : MLinePtr) (value : List Char) (line : ARTPMapLine)
    (h : ARTPMapLine.ARTPMapLine mline value = .ok line) : line.mEncodingName = [] := by
  unfold ARTPMapLine.ARTPMapLine at h
  simp only [] at h
  rw [bind_eq_ok] at h
  obtain ⟨_, _, h⟩ := h
  rw [bind_eq_ok] at h
  obtain ⟨_, _, h⟩ := h
  rw [bind_eq_ok] at h
  obtain ⟨_, _, h⟩ := h
  rw [bind_eq_ok] at h
  obtain ⟨_, _, h⟩ := h
  split at h
  · rw [bind_eq_ok] at h
    obtain ⟨_, _, h⟩ := h
    simp only [pure, Except.pure, Except.ok.injEq] at h
    rw [← h]
  · rw [bind_eq_ok] at h
    obtain ⟨_, _, h⟩ := h
    simp only [pure, Except.pure, Except.ok.injEq] at h
    rw [← h]

/-- The values of an enumerated list are the list. -/
theorem enumFrom_values (n : Nat) (l : List (List Char)) :
    SplitMap.values (l.enumFrom n) = l := by
  induction l generalizing n with
  | nil => rfl
  | cons a l ih =>
    have h := ih (n + 1)
    unfold SplitMap.values at h ⊢
    simp only [List.enumFrom, List.map_cons, h]

/-- Reading a key that an enumerated list holds inserts nothing. -/
theorem touch_enumFrom (n index : Nat) (l : List (List Char)) (h1 : n ≤ index)
    (h2 : index < n + l.length) : SplitMap.touch (l.enumFrom n) index = l.enumFrom n := by
  induction l generalizing n with
  | nil => simp at h2; omega
  | cons a l ih =>
    simp only [List.enumFrom, SplitMap.touch]
    by_cases h : index = n
    · simp [h]
    · have h3 : ¬ index < n := by omega
      simp only [h, h3, if_false]
      rw [ih (n + 1) (by omega) (by simp at h2; omega)]

/-- Reading a key inserts at most one string. -/
theorem touch_length (m : SplitMap) (index : Nat) :
    (SplitMap.touch m index).length ≤ m.length + 1 := by
  induction m with
  | nil => simp [SplitMap.touch]
  | cons entry m ih =>
    obtain ⟨key, value⟩ := entry
    simp only [SplitMap.touch]
    split
    · simp
    · split
      · simp
      · simp only [List.length_cons]; omega

/-- The loop over the extension strings yields one pair for every two strings,
the pair at position `i` holding the strings at positions `2 * i` and
`2 * i + 1`. -/
theorem extensionPairs_spec : ∀ (xs : List (List Char)),
    (extensionPairs xs).length = (xs.length + 1) / 2 ∧
    ∀ i, i < (extensionPairs xs).length →
      (extensionPairs xs).get? i = some (xs.getD (2 * i) [], xs.getD (2 * i + 1) [])
  | [] => by simp [extensionPairs]
  | [name] => by
    refine ⟨by simp [extensionPairs], ?_⟩
    intro i hi
    simp only [extensionPairs, List.length_singleton, Nat.lt_one_iff] at hi
    subst hi
    simp [extensionPairs]
  | name :: value :: rest => by
    obtain ⟨ih1, ih2⟩ := extensionPairs_spec rest
    refine ⟨by simp only [extensionPairs, List.length_cons, ih1]; omega, ?_⟩
    intro i hi
    cases i with
    | zero => simp [extensionPairs]
    | succ i =>
      simp only [extensionPairs, List.length_cons, Nat.add_lt_add_iff_right] at hi
      have h := ih2 i hi
      simp only [extensionPairs, List.get?_cons_succ, h]
      have e1 : 2 * (i + 1) = (2 * i + 1) + 1 := by ring
      rw [e1]
      simp [List.getD_cons_succ]

/-- The number of strings of the split is the number of fields. -/
theorem candidateFields_length (value : List Char) :
    (candidateFields value).length = (splitPruneEmpty (splitTrim (split value ' '))).size := by
  simp [candidateFields, SplitMap.values, SplitMap.size]

/-- The split of a candidate value is the enumeration of its fields. -/
theorem candidateFields_enum (value : List Char) :
    splitPruneEmpty (splitTrim (split value ' ')) = (candidateFields value).enum := by
  simp only [candidateFields, splitPruneEmpty, List.enum]
  rw [enumFrom_values]

/-- The extension pairs of a candidate line that the constructor returns are
built from the fields from index 10 on, which are even in number. -/
theorem candidateLine_mExtensionPairs (mline : MLinePtr) (value : List Char)
    (line : ACandidateLine) (h : ACandidateLine.ACandidateLine mline value = .ok line) :
    line.mExtensionPairs = extensionPairs ((candidateFields value).drop 10) ∧
      ((candidateFields value).length - 10) % 2 = 0 := by
  unfold ACandidateLine.ACandidateLine at h
  simp only [] at h
  rw [candidateFields_enum] at h
  generalize candidateFields value = fields at h ⊢
  rw [bind_eq_ok] at h
  obtain ⟨_, h8, h⟩ := h
  rw [bind_eq_ok] at h
  obtain ⟨_, hodd, h⟩ := h
  rw [bind_eq_ok] at h
  obtain ⟨_, _, h⟩ := h
  rw [bind_eq_ok] at h
  obtain ⟨_, _, h⟩ := h
  rw [bind_eq_ok] at h
  obtain ⟨_, _, h⟩ := h
  rw [bind_eq_ok] at h
  obtain ⟨_, _, h⟩ := h
  have hsize : SplitMap.size (List.enum fields) = fields.length := by simp [SplitMap.size]
  simp only [hsize] at h hodd
  have hpairs : line.mExtensionPairs =
      if SplitMap.size
          (if fields.length > 8 then SplitMap.touch fields.enum 9 else fields.enum) > 10 then
        extensionPairs ((SplitMap.values
          (if fields.length > 8 then SplitMap.touch fields.enum 9 else fields.enum)).drop 10)
      else [] := by
    obtain ⟨m2, hm2⟩ : ∃ m2, m2 =
      (if fields.length > 8 then SplitMap.touch fields.enum 9 else fields.enum) := ⟨_, rfl⟩
    rw [← hm2] at h ⊢
    split at h
    · rw [bind_eq_ok] at h
      obtain ⟨_, _, h⟩ := h
      simp only [pure, Except.pure, Except.ok.injEq] at h
      rw [← h]
    · rw [bind_eq_ok] at h
      obtain ⟨_, _, h⟩ := h
      simp only [pure, Except.pure, Except.ok.injEq] at h
      rw [← h]
  have heven : ¬ (fields.length > 10 ∧ 0 ≠ fields.length % 2) := by
    intro hc
    simp [throwInvalidParametersIf, hc.1, hc.2] at hodd
  rw [hpairs]
  by_cases h10 : fields.length > 10
  · have ht : SplitMap.touch fields.enum 9 = fields.enum :=
      touch_enumFrom 0 9 fields (by omega) (by omega)
    have h8 : fields.length > 8 := by omega
    have hv : SplitMap.values fields.enum = fields := enumFrom_values 0 fields
    rw [if_pos h8, ht, hsize, if_pos h10, hv]
    refine ⟨rfl, ?_⟩
    by_contra hne
    exact heven ⟨h10, by omega⟩
  · have hdrop : fields.drop 10 = [] := List.drop_eq_nil_iff.mpr (by omega)
    have hlen : ¬ SplitMap.size (if fields.length > 8 then SplitMap.touch fields.enum 9
        else fields.enum) > 10 := by
      split
      · by_cases h9 : fields.length = 9
        · have := touch_length fields.enum 9
          simp only [SplitMap.size]
          simp only [List.enum_length] at this
          omega
        · have ht : SplitMap.touch fields.enum 9 = fields.enum :=
            touch_enumFrom 0 9 fields (by omega) (by omega)
          rw [ht, hsize]; omega
      · rw [hsize]; omega
    rw [if_neg hlen, hdrop]
    refine ⟨rfl, ?_⟩
    have : fields.length - 10 = 0 := by omega
    simp [this]

/-- The round of the simulcast loop on the last string throws: the string after
it is absent and has no alternative. -/
theorem simulcastValue_last (direction : List Char) :
    ∃ e, simulcastValue direction [] = .error e := by
  unfold simulcastValue
  rcases hd : toDirection direction with e | mDirection
  · exact ⟨e, by simp [bind, Except.bind]⟩
  · cases hv : isValid mDirection false true true false
    · exact ⟨.InvalidParameters, by simp [bind, Except.bind, throwInvalidParametersIf, hv]⟩
    · refine ⟨.InvalidParameters, ?_⟩
      simp only [bind, Except.bind, throwInvalidParametersIf, hv]
      rfl

/-- The loop of the simulcast constructor throws on every list of strings
that is not empty. -/
theorem simulcastValues_fails (values : List (List Char)) (h : values ≠ []) :
    ∃ e, simulcastValues values = .error e := by
  induction values with
  | nil => exact absurd rfl h
  | cons direction rest ih =>
    cases rest with
    | nil =>
      obtain ⟨e, he⟩ := simulcastValue_last direction
      exact ⟨e, by simp [simulcastValues, he, bind, Except.bind]⟩
    | cons alternatives rest =>
      obtain ⟨e, he⟩ := ih (by simp)
      rcases hv : simulcastValue direction alternatives with e1 | scValue
      · exact ⟨e1, by simp [simulcastValues, hv, bind, Except.bind]⟩
      · exact ⟨e, by simp [simulcastValues, hv, he, bind, Except.bind]⟩

/-! ## Lemmas on the lowering of the description -/

/-- Appending to the RTCP parameters one candidate and then further ones
appends them all. -/
theorem appendToRTCP_cons (ioRTCPTransport : Option TransportParameters)
    (candidate : ICECandidate) (candidates : List ICECandidate) :
    appendToRTCP
      (some { (match ioRTCPTransport with
               | some rtcp => rtcp
               | none => {}) with
              mICECandidates :=
                (match ioRTCPTransport with
                 | some rtcp => rtcp
                 | none => ({} : TransportParameters)).mICECandidates ++ [candidate] })
      candidates = appendToRTCP ioRTCPTransport (candidate :: candidates) := by
  cases ioRTCPTransport <;> cases candidates <;> simp [appendToRTCP]

/-- A string that equals a string without regard to case does not equal,
without regard to case, a string that differs from it in more than case. -/
theorem equalNoCase_other (str a b : List Char) (h : equalNoCase str a = true)
    (hab : (a.map Char.toLower == b.map Char.toLower) = false) : equalNoCase str b = false := by
  simp only [equalNoCase, beq_iff_eq] at h
  simp only [equalNoCase, h]
  exact hab

/-- The DTLS parameters of a transport that the loop body of
`createTransports` builds for a media line with fingerprint lines: their role
is the value of `toDtlsRole` on the setup value, and the automatic role when
the media line has no setup line. -/
theorem createTransport_role (ext : External) (sdp : SDP) (index : Nat) (mline : MLine)
    (transport : Transport) (hf : mline.mAFingerprintLines ≠ [])
    (h : createTransport ext sdp index mline = .ok (some transport)) :
    ∃ rtp dtls, transport.mRTP = some rtp ∧ rtp.mDTLSParameters = some dtls ∧
      match mline.mASetupLine with
      | some aSetupLine => toDtlsRole aSetupLine.mSetup = .ok dtls.mRole
      | none => dtls.mRole = Role_Auto := by
  have hlen : mline.mAFingerprintLines.length > 0 := List.length_pos.mpr hf
  unfold createTransport at h
  split at h
  · simp at h
  · rw [if_pos hlen] at h
    simp only [bind, Except.bind, pure, Except.pure] at h
    repeat
      (any_goals (split at h)
       all_goals try (simp only [reduceCtorEq] at h)
       all_goals try (simp only [Except.ok.injEq, Option.some.injEq] at h; subst h))
    all_goals
      (refine ⟨_, _, rfl, rfl, ?_⟩
       first
       | exact ‹toDtlsRole _ = Except.ok _›
       | rfl)

/-- Setting the end-of-candidates flag leaves the number of candidates. -/
theorem candidateCount_map_end (rtcp : Option TransportParameters) (endOfCandidates : Bool) :
    candidateCount (rtcp.map (fun rtcp =>
      if endOfCandidates then { rtcp with mEndOfCandidates := true } else rtcp)) =
      candidateCount rtcp := by
  cases rtcp with
  | none => rfl
  | some r => cases endOfCandidates <;> rfl

/-- The call of `convertCandidates` in the loop body of `createTransports`: the
RTCP parameters it is given are present, and without a candidate, exactly
when `rtcp-mux` is not set; the candidates of the transport are those it
returns. -/
theorem createTransport_candidates (ext : External) (sdp : SDP) (index : Nat) (mline : MLine)
    (transport : Transport)
    (h : createTransport ext sdp index mline = .ok (some transport)) :
    ∃ ioRTCPTransport candidates rtcp,
      convertCandidates ext mline.mACandidateLines [] ioRTCPTransport = .ok (candidates, rtcp) ∧
      (ioRTCPTransport.isSome = true ↔ mline.mRTCPMux ≠ some true) ∧
      candidateCount ioRTCPTransport = 0 ∧
      candidateCount transport.mRTP = candidates.length ∧
      transport.mRTP.isSome = true ∧
      transport.mRTCP.isSome = rtcp.isSome ∧
      candidateCount transport.mRTCP = candidateCount rtcp := by
  unfold createTransport at h
  split at h
  · simp at h
  · simp only [bind, Except.bind, pure, Except.pure] at h
    repeat
      (any_goals (split at h)
       all_goals try (simp only [reduceCtorEq] at h)
       all_goals try (simp only [Except.ok.injEq, Option.some.injEq] at h; subst h))
    all_goals
      (refine ⟨_, _, _, ‹convertCandidates ext _ _ _ = Except.ok _›, ?_, ?_, rfl, rfl, ?_, ?_⟩
       · rcases hm : mline.mRTCPMux with _ | mux
         · simp
         · cases mux <;> simp
       · rcases hm : mline.mRTCPMux with _ | mux
         · simp [candidateCount]
         · cases mux <;> simp [candidateCount]
       · simp only [Option.isSome_map']
       · exact candidateCount_map_end _ _)

/-- The identification tags of a group line that the constructor returns are
not empty strings. -/
theorem groupLine_tags_nonempty (value : List Char) (line : AGroupLine)
    (h : AGroupLine.AGroupLine value = .ok line) :
    ∀ tag ∈ line.mIdentificationTags, tag ≠ [] := by
  unfold AGroupLine.AGroupLine at h
  simp only [] at h
  rw [bind_eq_ok] at h
  obtain ⟨_, _, h⟩ := h
  simp only [pure, Except.pure, Except.ok.injEq] at h
  subst h
  intro tag htag
  have hmem := List.mem_of_mem_drop htag
  simp only [splitPruneEmpty, List.enum] at hmem
  rw [enumFrom_values] at hmem
  simp only [List.mem_map, List.mem_filter] at hmem
  obtain ⟨entry, ⟨_, hne⟩, rfl⟩ := hmem
  simpa using hne

/-- The inner loop of the bundle search, entered with a first tag: it finds the
first tag when the mid is among the tags. -/
theorem findBundleInTags_first (mID firstBundleID : List Char) (tags : List (List Char))
    (hfirst : firstBundleID ≠ []) :
    findBundleInTags mID firstBundleID tags = if mID ∈ tags then firstBundleID else [] := by
  induction tags with
  | nil => simp [findBundleInTags]
  | cons mid rest ih =>
    simp only [findBundleInTags, hfirst, if_false, List.mem_cons]
    by_cases h : mid = mID
    · simp [h]
    · have h1 : ¬ mID = mid := fun e => h e.symm
      simp only [ne_eq, h, not_false_eq_true, if_true, ih, h1, false_or]

/-- The inner loop of the bundle search over tags that are not empty: it finds
the first of the tags when the mid is among them. -/
theorem findBundleInTags_spec (mID : List Char) (tags : List (List Char))
    (htags : ∀ tag ∈ tags, tag ≠ []) :
    findBundleInTags mID [] tags = if mID ∈ tags then tags.headD [] else [] := by
  cases tags with
  | nil => simp [findBundleInTags]
  | cons mid rest =>
    have hmid : mid ≠ [] := htags mid (List.mem_cons_self _ _)
    simp only [findBundleInTags, if_true, List.mem_cons, List.headD_cons]
    by_cases h : mid = mID
    · simp [h]
    · have h1 : ¬ mID = mid := fun e => h e.symm
      simp only [ne_eq, h, not_false_eq_true, if_true, h1, false_or]
      exact findBundleInTags_first mID mid rest hmid

/-- The bundle search over group lines whose tags are not empty: it finds the
first tag of the first `BUNDLE` group that has the mid among its tags. -/
theorem findBundleID_spec (mID : List Char) (groups : List AGroupLine)
    (htags : ∀ group ∈ groups, ∀ tag ∈ group.mIdentificationTags, tag ≠ []) :
    findBundleID mID groups =
      match bundleGroupOf mID groups with
      | some group => group.mIdentificationTags.headD []
      | none => [] := by
  induction groups with
  | nil => simp [findBundleID, bundleGroupOf]
  | cons group rest ih =>
    have ih1 := ih (fun g hg => htags g (List.mem_cons_of_mem _ hg))
    have hgroup := htags group (List.mem_cons_self _ _)
    simp only [findBundleID, bundleGroupOf, List.find?_cons]
    by_cases hsem : equalNoCase group.mSemantic "BUNDLE".toList = true
    · simp only [hsem, Bool.not_true, Bool.false_eq_true, if_false, Bool.true_and]
      rw [findBundleInTags_spec mID _ hgroup]
      by_cases hmem : mID ∈ group.mIdentificationTags
      · have hhead : group.mIdentificationTags.headD [] ≠ [] := by
          cases htl : group.mIdentificationTags with
          | nil => rw [htl] at hmem; simp at hmem
          | cons tag tl =>
            rw [htl] at hgroup
            simpa using hgroup tag (List.mem_cons_self _ _)
        simp only [hmem, if_true, ne_eq, hhead, not_false_eq_true, decide_True]
      · simp only [hmem, if_false, ne_eq, not_true_eq_false, decide_False]
        exact ih1
    · have hsem1 : equalNoCase group.mSemantic "BUNDLE".toList = false := by
        simpa using hsem
      simp only [hsem1, Bool.not_false, if_true, Bool.false_and]
      exact ih1

/-- A tag that the bundle search finds is not empty. -/
theorem bundleGroupOf_head (mID : List Char) (groups : List AGroupLine) (group : AGroupLine)
    (htags : ∀ group ∈ groups, ∀ tag ∈ group.mIdentificationTags, tag ≠ [])
    (h : bundleGroupOf mID groups = some group) : group.mIdentificationTags.headD [] ≠ [] := by
  unfold bundleGroupOf at h
  have hmem := List.mem_of_find?_eq_some h
  have hp := List.find?_some h
  simp only [Bool.and_eq_true, decide_eq_true_eq] at hp
  cases htl : group.mIdentificationTags with
  | nil => rw [htl] at hp; simp at hp
  | cons tag tl =>
    have := htags group hmem tag (by rw [htl]; exact List.mem_cons_self _ _)
    simpa using this

/-- The header extensions that the loop over the `extmap` lines pushes: to the
sender capabilities those of the lines applicable to a sender at the local
location, to the receiver capabilities those of the lines applicable to a
receiver at the local location. -/
theorem fillHeaderExtensions_spec (rtp : RTPTypes) (matchCodecKind : CodecKinds)
    (lines : List AExtmapLine) (senderExtensions receiverExtensions : List HeaderExtension)
    (h : fillHeaderExtensions rtp matchCodecKind lines =
      .ok (senderExtensions, receiverExtensions)) :
    senderExtensions =
      (lines.filter (fun extmap =>
        isApplicable ActorRole_Sender Location_Local extmap.mDirection)).map
        (fun extmap => { mKind := rtp.codecKindToString matchCodecKind,
                         mPreferredEncrypt := false, mPreferredID := extmap.mID,
                         mURI := extmap.mURI }) ∧
    receiverExtensions =
      (lines.filter (fun extmap =>
        isApplicable ActorRole_Receiver Location_Local extmap.mDirection)).map
        (fun extmap => { mKind := rtp.codecKindToString matchCodecKind,
                         mPreferredEncrypt := false, mPreferredID := extmap.mID,
                         mURI := extmap.mURI }) := by
  induction lines generalizing senderExtensions receiverExtensions with
  | nil =>
    simp only [fillHeaderExtensions, Except.ok.injEq, Prod.mk.injEq] at h
    simp [h.1.symm, h.2.symm]
  | cons extmap rest ih =>
    simp only [fillHeaderExtensions] at h
    rw [bind_eq_ok] at h
    obtain ⟨mPreferredID, hid, h⟩ := h
    rw [bind_eq_ok] at h
    obtain ⟨⟨senderRest, receiverRest⟩, hrest, h⟩ := h
    obtain ⟨ih1, ih2⟩ := ih senderRest receiverRest hrest
    have hid1 : mPreferredID = extmap.mID := by
      unfold safeInt at hid
      split at hid
      · simp only [Except.ok.injEq] at hid
        exact hid.symm
      · simp at hid
    simp only [pure, Except.pure, Except.ok.injEq, Prod.mk.injEq] at h
    obtain ⟨h1, h2⟩ := h
    subst hid1
    constructor
    · rw [← h1, List.filter_cons]
      split
      · simp only [List.map_cons, ih1]
      · exact ih1
    · rw [← h2, List.filter_cons]
      split
      · simp only [List.map_cons, ih2]
      · exact ih2

/-- The loop of `fixIntoCodecSpecificList` yields the same pair in every round:
the first two strings that the whole of `params` has between its `=`
signs. -/
theorem fixIntoCodecSpecificListLoop_same (params : List Char) (pieces : List (List Char))
    (keyValues : List (List Char × List Char))
    (h : fixIntoCodecSpecificListLoop params pieces = .ok keyValues) :
    keyValues = List.replicate pieces.length
      ((splitPruneEmpty (splitTrim (split params '='))).get 0,
       if (splitPruneEmpty (splitTrim (split params '='))).size > 1
       then (splitPruneEmpty (splitTrim (split params '='))).get 1 else []) := by
  induction pieces generalizing keyValues with
  | nil =>
    simp only [fixIntoCodecSpecificListLoop, Except.ok.injEq] at h
    simp [← h]
  | cons piece rest ih =>
    simp only [fixIntoCodecSpecificListLoop] at h
    rw [bind_eq_ok] at h
    obtain ⟨_, _, h⟩ := h
    rw [bind_eq_ok] at h
    obtain ⟨others, hothers, h⟩ := h
    simp only [pure, Except.pure, Except.ok.injEq] at h
    rw [← h, ih others hothers]
    rfl

/-- Reading a key of an enumerated list gives the string at that position, and
the empty string when the list is shorter. -/
theorem get_enumFrom (n index : Nat) (l : List (List Char)) :
    SplitMap.get (l.enumFrom n) (n + index) = l.getD index [] := by
  induction l generalizing n index with
  | nil => simp [SplitMap.get, List.lookup]
  | cons a l ih =>
    cases index with
    | zero => simp [SplitMap.get, List.enumFrom, List.lookup]
    | succ index =>
      have h := ih (n + 1) index
      have e : n + (index + 1) = n + 1 + index := by omega
      have hne : (n + (index + 1) == n) = false := by simp
      simp only [SplitMap.get, List.enumFrom, List.lookup, hne] at h ⊢
      rw [e, h]
      simp

/-- Reading a key of the split of a value gives the field at that position, and
the empty string when there are fewer fields. -/
theorem get_enum (index : Nat) (l : List (List Char)) :
    SplitMap.get l.enum index = l.getD index [] := by
  have h := get_enumFrom 0 index l
  simpa [List.enum] using h

/-- The strings that `splitPruneEmpty` leaves are not empty. -/
theorem splitPruneEmpty_values_nonempty (m : SplitMap) :
    ∀ value ∈ (splitPruneEmpty m).values, value ≠ [] := by
  intro value hmem
  simp only [splitPruneEmpty, List.enum] at hmem
  rw [enumFrom_values] at hmem
  simp only [List.mem_map, List.mem_filter] at hmem
  obtain ⟨entry, ⟨_, hne⟩, rfl⟩ := hmem
  simpa using hne

/-- The map that `splitPruneEmpty` leaves is the enumeration of its strings. -/
theorem splitPruneEmpty_enum (m : SplitMap) :
    splitPruneEmpty m = (splitPruneEmpty m).values.enum := by
  simp only [splitPruneEmpty, List.enum]
  rw [enumFrom_values]

/-- The split of a value at the space character is the enumeration of its
fields. -/
theorem spaceFields_enum (value : List Char) :
    splitPruneEmpty (splitTrim (split value ' ')) = (spaceFields value).enum :=
  splitPruneEmpty_enum _

/-- The number of strings of the split at the space character is the number of
fields. -/
theorem spaceFields_length (value : List Char) :
    (splitPruneEmpty (splitTrim (split value ' '))).size = (spaceFields value).length := by
  simp [spaceFields, SplitMap.values, SplitMap.size]

/-- The `fmtp` line that the constructor returns: its format strings are the
two fields of the value, the first of which is the payload type. -/
theorem fmtpLine_mFormatSpecific (mline : MLinePtr) (sourceLine : ASSRCLinePtr)
    (value : List Char) (line : AFMTPLine)
    (h : AFMTPLine.AFMTPLine mline sourceLine value = .ok line) :
    line.mFormatSpecific = spaceFields value ∧ (spaceFields value).length = 2 ∧
      numericField 8 ((spaceFields value).getD 0 []) = .ok line.mFormat := by
  unfold AFMTPLine.AFMTPLine at h
  simp only [] at h
  rw [bind_eq_ok] at h
  obtain ⟨_, hsize, h⟩ := h
  rw [bind_eq_ok] at h
  obtain ⟨mFormat, hformat, h⟩ := h
  simp only [pure, Except.pure, Except.ok.injEq] at h
  subst h
  refine ⟨rfl, ?_, ?_⟩
  · rw [← spaceFields_length]
    unfold throwInvalidParametersIf at hsize
    split at hsize
    · simp at hsize
    · rename_i hd
      simp only [ne_eq, decide_not, Bool.not_eq_true', decide_eq_false_iff_not, not_not] at hd
      exact hd.symm
  · rw [spaceFields_enum, get_enum] at hformat
    exact hformat

/-- The media line that the constructor returns: the value has four fields or
more, the media and the protocol string are the fields 0 and 2, and the
formats are the fields from index 4 on. -/
theorem mline_mFmts (value : List Char) (line : MLine) (h : MLine.MLine value = .ok line) :
    4 ≤ (spaceFields value).length ∧
      line.mMedia = (spaceFields value).getD 0 [] ∧
      line.mProtoStr = (spaceFields value).getD 2 [] ∧
      line.mFmts = (spaceFields value).drop 4 := by
  unfold MLine.MLine at h
  simp only [] at h
  rw [bind_eq_ok] at h
  obtain ⟨_, hsize, h⟩ := h
  rw [bind_eq_ok] at h
  obtain ⟨_, _, h⟩ := h
  rw [bind_eq_ok] at h
  obtain ⟨_, _, h⟩ := h
  rw [bind_eq_ok] at h
  obtain ⟨_, _, h⟩ := h
  rw [bind_eq_ok] at h
  obtain ⟨_, _, h⟩ := h
  have hline : line.mMedia = (splitPruneEmpty (splitTrim (split value ' '))).get 0 ∧
      line.mProtoStr = (splitPruneEmpty (splitTrim (split value ' '))).get 2 ∧
      line.mFmts = (splitPruneEmpty (splitTrim (split value ' '))).values.drop 4 := by
    split at h
    · rw [bind_eq_ok] at h
      obtain ⟨_, _, h⟩ := h
      simp only [pure, Except.pure, Except.ok.injEq] at h
      subst h
      exact ⟨rfl, rfl, rfl⟩
    · rw [bind_eq_ok] at h
      obtain ⟨_, _, h⟩ := h
      simp only [pure, Except.pure, Except.ok.injEq] at h
      subst h
      exact ⟨rfl, rfl, rfl⟩
  obtain ⟨hmedia, hproto, hfmts⟩ := hline
  refine ⟨?_, ?_, ?_, hfmts⟩
  · rw [← spaceFields_length]
    unfold throwInvalidParametersIf at hsize
    split at hsize
    · simp at hsize
    · rename_i hd
      simp only [decide_eq_true_eq, not_lt] at hd
      exact hd
  · rw [hmedia, spaceFields_enum, get_enum]
  · rw [hproto, spaceFields_enum, get_enum]

/-- The related address and the related port of a candidate line that the
constructor returns for a value of ten fields or more: the address is the
field at index 9 and the port is the number that this same field denotes. -/
theorem candidateLine_mRelPort (mline : MLinePtr) (value : List Char)
    (line : ACandidateLine) (h : ACandidateLine.ACandidateLine mline value = .ok line)
    (hlen : 10 ≤ (candidateFields value).length) :
    line.mRelAddr = (candidateFields value).getD 9 [] ∧
      (numericField 16 line.mRelAddr).map some = .ok line.mRelPort := by
  unfold ACandidateLine.ACandidateLine at h
  simp only [] at h
  rw [candidateFields_enum] at h
  generalize candidateFields value = fields at h hlen ⊢
  rw [bind_eq_ok] at h
  obtain ⟨_, _, h⟩ := h
  rw [bind_eq_ok] at h
  obtain ⟨_, _, h⟩ := h
  rw [bind_eq_ok] at h
  obtain ⟨_, _, h⟩ := h
  rw [bind_eq_ok] at h
  obtain ⟨_, _, h⟩ := h
  rw [bind_eq_ok] at h
  obtain ⟨_, _, h⟩ := h
  rw [bind_eq_ok] at h
  obtain ⟨_, _, h⟩ := h
  have hsize : SplitMap.size (List.enum fields) = fields.length := by simp [SplitMap.size]
  have h8 : fields.length > 8 := by omega
  have h9 : fields.length > 9 := by omega
  have ht : SplitMap.touch fields.enum 9 = fields.enum :=
    touch_enumFrom 0 9 fields (by omega) (by omega)
  simp only [hsize, h8, if_true, ht, h9] at h
  rw [bind_eq_ok] at h
  obtain ⟨relPort, hport, h⟩ := h
  simp only [pure, Except.pure, Except.ok.injEq] at h
  subst h
  simp only []
  rw [get_enum] at hport ⊢
  cases hn : numericField 16 (fields.getD 9 []) with
  | error e => rw [hn] at hport; simp [Except.map] at hport
  | ok port =>
    rw [hn] at hport
    simp only [Except.map, Except.ok.injEq] at hport ⊢
    exact ⟨trivial, hport⟩

/-- A string without the separator is a single piece. -/
theorem splitPieces_not_mem (sep : Char) (str : List Char) (h : sep ∉ str) :
    splitPieces sep str = [str] := by
  induction str with
  | nil => rfl
  | cons c rest ih =>
    have hc : c ≠ sep := fun e => h (by rw [e]; exact List.mem_cons_self _ _)
    have hrest : sep ∉ rest := fun hm => h (List.mem_cons_of_mem _ hm)
    simp only [splitPieces, ih hrest, hc, if_false]

/-- The split of a string without the separator has one string at most. -/
theorem split_size_not_mem (sep : Char) (str : List Char) (h : sep ∉ str) :
    (splitPruneEmpty (splitTrim (split str sep))).size ≤ 1 := by
  unfold split
  split
  · simp [splitTrim, splitPruneEmpty, SplitMap.size]
  · rw [splitPieces_not_mem sep str h]
    simp only [splitTrim, splitPruneEmpty, SplitMap.size, List.enum, List.enumFrom,
      List.map_cons, List.map_nil, List.enumFrom_length, List.length_map, List.filter_cons,
      List.filter_nil]
    split <;> simp

/-- A character of a string that is no whitespace is a character of the
trimmed string. -/
theorem mem_trim (c : Char) (str : List Char) (hc : isspace c = false) (h : c ∈ str) :
    c ∈ trim str := by
  unfold trim
  have h1 : c ∈ str.dropWhile isspace := by
    rw [← List.takeWhile_append_dropWhile isspace str] at h
    rcases List.mem_append.mp h with ht | hd
    · have := List.mem_takeWhile_imp ht
      rw [hc] at this
      exact absurd this (by simp)
    · exact hd
  have h2 : c ∈ (str.dropWhile isspace).reverse := List.mem_reverse.mpr h1
  rw [← List.takeWhile_append_dropWhile isspace (str.dropWhile isspace).reverse] at h2
  rcases List.mem_append.mp h2 with ht | hd
  · have := List.mem_takeWhile_imp ht
    rw [hc] at this
    exact absurd this (by simp)
  · exact List.mem_reverse.mpr hd

/-- A string that holds the character `=` converts to no number. -/
theorem numeric_of_equals (bits : Nat) (str : List Char) (h : '=' ∈ str) :
    Numeric bits str = none := by
  have hm := mem_trim '=' str (by decide) h
  unfold Numeric
  simp only []
  split
  · rename_i hcond
    have hall := hcond.2.1
    rw [List.all_eq_true] at hall
    have := hall '=' hm
    exact absurd this (by decide)
  · rfl

/-- The outer loop of the rid constructor returns only when the key of every
parameter is `pt`: each parameter then becomes a pair of the parameters, and
no payload type is recorded. A parameter with any other key makes the loop
throw, its whole text being read as a payload type. -/
theorem ridParams_spec (params : List (List Char))
    (mParams : List (List Char × List Char)) (mPayloadTypes : List Nat)
    (h : ridParams params = .ok (mParams, mPayloadTypes)) :
    mPayloadTypes = [] ∧ mParams.length = params.length ∧
      ∀ pair ∈ mParams, pair.1 = "pt".toList := by
  induction params generalizing mParams mPayloadTypes with
  | nil =>
    simp only [ridParams, Except.ok.injEq, Prod.mk.injEq] at h
    obtain ⟨h1, h2⟩ := h
    subst h1; subst h2
    simp
  | cons param rest ih =>
    simp only [ridParams] at h
    rw [bind_eq_ok] at h
    obtain ⟨_, _, h⟩ := h
    split at h
    · rw [bind_eq_ok] at h
      obtain ⟨_, hsize, h⟩ := h
      rw [bind_eq_ok] at h
      obtain ⟨_, hpts, h⟩ := h
      rw [bind_eq_ok] at h
      obtain ⟨pts, hloop, h⟩ := h
      exfalso
      have hmem : '=' ∈ param := by
        by_contra hnot
        have hle := split_size_not_mem '=' param hnot
        unfold throwInvalidParametersIf at hsize
        split at hsize
        · simp at hsize
        · rename_i hd
          simp only [decide_eq_true_eq, not_lt] at hd
          omega
      have hnum := numeric_of_equals 8 param hmem
      cases hvalues : (splitPruneEmpty (splitTrim
          (split ((splitPruneEmpty (splitTrim (split param '='))).get 1) ','))).values with
      | nil =>
        unfold throwInvalidParametersIf at hpts
        split at hpts
        · simp at hpts
        · rename_i hd
          simp only [decide_eq_true_eq, not_lt] at hd
          simp only [SplitMap.values] at hvalues
          simp only [SplitMap.size] at hd
          have := congrArg List.length hvalues
          simp only [List.length_map, List.length_nil] at this
          omega
      | cons ptStr others =>
        rw [hvalues] at hloop
        simp only [ridPayloadTypes, numericField, hnum] at hloop
        simp [bind, Except.bind] at hloop
    · rw [bind_eq_ok] at h
      obtain ⟨⟨params1, others1⟩, hrest, h⟩ := h
      simp only [pure, Except.pure, Except.ok.injEq, Prod.mk.injEq] at h
      obtain ⟨h1, h2⟩ := h
      obtain ⟨ih1, ih2, ih3⟩ := ih params1 others1 hrest
      subst h1; subst h2
      rename_i hkey
      refine ⟨ih1, by simp [ih2], ?_⟩
      intro pair hpair
      rcases List.mem_cons.mp hpair with hp | hp
      · rw [hp]
        simpa using hkey
      · exact ih3 pair hp

/-- A level that the loop of `toAttributeLevel` returns is an entry of the
table, is not `AttributeLevel_None`, and its name equals the string without
regard to case. -/
theorem toAttributeLevelLoop_mem (str : List Char) (table : List AttributeLevels)
    (level : AttributeLevels) (h : toAttributeLevelLoop str table = .ok level) :
    level ∈ table ∧ level ≠ AttributeLevel_None ∧ equalNoCase str level.toString = true := by
  induction table with
  | nil => simp [toAttributeLevelLoop] at h
  | cons check rest ih =>
    simp only [toAttributeLevelLoop] at h
    split at h
    · simp at h
    · rename_i hnone
      split at h
      · rename_i heq
        simp only [Except.ok.injEq] at h
        subst h
        exact ⟨List.mem_cons_self _ _, fun e => hnone e.symm, heq⟩
      · obtain ⟨hm, hn, he⟩ := ih h
        exact ⟨List.mem_cons_of_mem _ hm, hn, he⟩

/-- A record that is recorded at an allowed scope and at source scope is an
`a=fmtp` record: the attribute line type is the only line type, and `fmtp` the
only attribute, whose allowed levels have the source bit. -/
theorem levelAllowed_source (r : LineTypeInfo) (hallowed : r.levelAllowed)
    (hsource : r.mAttributeLevel = AttributeLevel_Source) :
    r.mLineType = LineType_a_Attributes ∧ r.mAttribute = Attirbute_FMTP := by
  obtain ⟨_, ⟨allowedLine, hline, hlineAnd⟩, hattr⟩ := hallowed
  rw [hsource] at hlineAnd hattr
  have hl : r.mLineType = LineType_a_Attributes := by
    cases hlt : r.mLineType <;> rw [hlt] at hline <;>
      simp only [LineTypes.getAttributeLevel, Except.ok.injEq, reduceCtorEq] at hline <;>
      first
      | rfl
      | (subst hline; exact absurd rfl hlineAnd)
  refine ⟨hl, ?_⟩
  obtain ⟨allowedAttr, hattr1, hattrAnd⟩ := hattr hl
  cases hat : r.mAttribute <;> rw [hat] at hattr1 <;>
    simp only [Attributes.getAttributeLevel, Except.ok.injEq, reduceCtorEq] at hattr1 <;>
    first
    | rfl
    | (subst hattr1; exact absurd rfl hattrAnd)

/-- A record that is recorded at an allowed scope and whose attribute is `ssrc`
is recorded at media scope. -/
theorem levelAllowed_ssrc (r : LineTypeInfo) (hallowed : r.levelAllowed)
    (hline : r.mLineType = LineType_a_Attributes) (hssrc : r.mAttribute = Attribute_SSRC) :
    r.mAttributeLevel = AttributeLevel_Media := by
  obtain ⟨hscope, _, hattr⟩ := hallowed
  obtain ⟨allowedAttr, hattr1, hattrAnd⟩ := hattr hline
  rw [hssrc] at hattr1
  simp only [Attributes.getAttributeLevel, Except.ok.injEq] at hattr1
  subst hattr1
  rcases hscope with hs | hm | hsrc
  · rw [hs] at hattrAnd
    exact absurd rfl hattrAnd
  · exact hm
  · rw [hsrc] at hattrAnd
    exact absurd rfl hattrAnd

/-- The second loop of `fillStreamIDs` leaves the sender as it is when no
`ssrc` line it meets has two `fmtp` lines or more. -/
theorem fillStreamIDsFromSSRC_skips (sdp : SDP) (pointers : List Nat) (sender out : RTPSender)
    (hfmtp : ∀ pointer ∈ pointers, ∀ ssrcLine, sdp.assrcLine pointer = .ok ssrcLine →
      ssrcLine.mAFMTPLines.length < 2)
    (h : fillStreamIDsFromSSRC sdp sender pointers = .ok out) : out = sender := by
  induction pointers with
  | nil =>
    simp only [fillStreamIDsFromSSRC, Except.ok.injEq] at h
    exact h.symm
  | cons pointer rest ih =>
    simp only [fillStreamIDsFromSSRC] at h
    rw [bind_eq_ok] at h
    obtain ⟨ssrcLine, hline, h⟩ := h
    have hrest : ∀ p ∈ rest, ∀ l, sdp.assrcLine p = .ok l → l.mAFMTPLines.length < 2 :=
      fun p hp => hfmtp p (List.mem_cons_of_mem _ hp)
    have hlt := hfmtp pointer (List.mem_cons_self _ _) ssrcLine hline
    simp only [hlt, if_true, ite_self] at h
    exact ih hrest h

/-! ## The claims -/

/-- C1. On the text of the scenario "Minimal audio BUNDLE", `parse` returns no
`SDP`. With a NUL after the text in the raw buffer, the tokenizer, the
attribute splitter and the scope validator succeed and leave the records
`minimalAudioBundleRecords`: the record that reaches the typed line parsers
first is the `v` record with the raw value `v=0`, which the `VLine`
constructor that `parseLinesDetails` calls on it rejects, so that the passes
of `parse` throw on this text instead of returning an `SDP`; and every `a=`
line of the text is left with an unknown attribute, so that no mid, ice-ufrag
or setup would reach a media line. Whatever follows the text in memory, a
scan that returns has the `v` record with the raw value `v=0` as its first
record. In `parse` itself the raw buffer holds no NUL and the scan reads past
its end. -/
theorem minimalAudioBundle_typed_parse_fails :
    (parseLines (minimalAudioBundle ++ [NUL]) >>= parseAttributes >>= validateAttributeLevels) =
      .ok minimalAudioBundleRecords ∧
    minimalAudioBundleRecords.head? =
      some { mLineType := LineType_v_Version, mAttributeLevel := AttributeLevel_Session,
             mValue := "v=0".toList } ∧
    VLine.VLine "v=0".toList = .error .InvalidParameters ∧
    (∀ r ∈ minimalAudioBundleRecords, r.mAttribute = Attribute_Unknown) ∧
    (parseLines (minimalAudioBundle ++ [NUL]) >>= parseAttributes >>= validateAttributeLevels >>=
      parseValidated) = .error .InvalidParameters ∧
    (∀ beyond infos, parseLines (minimalAudioBundle ++ beyond) = .ok infos →
      infos.head? = some { mLineType := LineType_v_Version, mValue := "v=0".toList }) ∧
    parse minimalAudioBundle = .error .UndefinedBehaviour := by
  refine ⟨by rfl, by rfl, by rfl, by decide, by rfl, ?_, parse_reads_past_buffer _⟩
  intro beyond infos h
  cases hok : parseLines (minimalAudioBundle ++ [NUL]) with
  | error e =>
    have h2 : (parseLines (minimalAudioBundle ++ [NUL])).isOk = true := by rfl
    rw [hok] at h2
    exact absurd h2 (by simp [Except.isOk, Except.toBool])
  | ok tokenized =>
    rw [parseLines_leading minimalAudioBundle beyond tokenized (by rfl) (by rfl) hok] at h
    have hhead : tokenized.head? =
        some { mLineType := LineType_v_Version, mValue := "v=0".toList } := by
      have h2 : (parseLines (minimalAudioBundle ++ [NUL])).map (fun t => t.head?) =
          .ok (some { mLineType := LineType_v_Version, mValue := "v=0".toList }) := by rfl
      rw [hok] at h2
      simpa [Except.map] using h2
    cases hb : parseLines beyond with
    | error e => rw [hb] at h; simp [Except.map] at h
    | ok more =>
      rw [hb] at h
      simp only [Except.map, Except.ok.injEq] at h
      subst h
      cases tokenized with
      | nil => simp at hhead
      | cons first others => simpa using hhead

/-- C2. The `VLine` constructor accepts a value exactly when the trimmed value
converts to the number 0: a `VLine` that was built has version 0, a value that
converts to another number is rejected, a value whose conversion fails (not a
number, or out of the 64-bit range) is rejected; ` 0` followed by a carriage
return is accepted, `1` and `2 ^ 64` are rejected. -/
theorem VLine_accepts_only_version_zero (value : List Char) :
    ((∃ v, VLine.VLine value = .ok v) ↔ Numeric 64 (trim value) = some 0) ∧
    (∀ v, VLine.VLine value = .ok v → v.mVersion = 0) ∧
    (∀ n, Numeric 64 (trim value) = some n → n ≠ 0 →
      VLine.VLine value = .error .InvalidParameters) ∧
    (Numeric 64 (trim value) = none → VLine.VLine value = .error .InvalidParameters) ∧
    VLine.VLine " 0\r".toList = .ok { mVersion := 0 } ∧
    VLine.VLine "1".toList = .error .InvalidParameters ∧
    VLine.VLine "18446744073709551616".toList = .error .InvalidParameters := by
  refine ⟨?_, ?_, ?_, ?_, by rfl, by rfl, by rfl⟩
  · rcases h : Numeric 64 (trim value) with _ | n
    · simp [VLine.VLine, h]
    · by_cases hn : n = 0
      · subst hn; simp [VLine.VLine, h]
      · have : 0 ≠ n := fun h0 => hn h0.symm
        simp [VLine.VLine, h, this, hn]
  · intro v
    rcases h : Numeric 64 (trim value) with _ | n
    · simp [VLine.VLine, h]
    · by_cases hn : n = 0
      · subst hn; simp [VLine.VLine, h]; intro hv; rw [← hv]
      · have : 0 ≠ n := fun h0 => hn h0.symm
        simp [VLine.VLine, h, this]
  · intro n h hn
    have : 0 ≠ n := fun h0 => hn h0.symm
    simp [VLine.VLine, h, this]
  · intro h
    simp [VLine.VLine, h]

/-- C4. The raw value of every record of the tokenizer starts with the letter
of its line type, on whatever raw buffer the tokenizer returns: it holds the
whole line, the letter and the `=` included, and not the bytes after the `=`.
The tokenizer returns on every text that a NUL follows. The text `v=0`
followed by a NUL gives the value `v=0`, and whatever follows this text in
memory, a scan that returns has the record with the value `v=0` as its first
record. -/
theorem parseLines_value_keeps_letter :
    (∀ mRawBuffer infos, parseLines mRawBuffer = .ok infos →
      ∀ r ∈ infos, ∃ rest, r.mValue = r.mLineType.toChar :: rest) ∧
    (∀ text, ∃ infos, parseLines (text ++ [NUL]) = .ok infos) ∧
    parseLines ("v=0\r\n".toList ++ [NUL]) =
      .ok [{ mLineType := LineType_v_Version, mValue := "v=0".toList }] ∧
    (∀ beyond infos, parseLines ("v=0\r\n".toList ++ beyond) = .ok infos →
      infos.head? = some { mLineType := LineType_v_Version, mValue := "v=0".toList }) := by
  refine ⟨?_, ?_, by rfl, ?_⟩
  · intro mRawBuffer infos hok r hr
    obtain ⟨c, rest, hc, hrec⟩ := parseLines_mem mRawBuffer infos r hok hr
    subst hrec
    exact ⟨rest, by simp [toLineType_letter c hc]⟩
  · intro text
    exact ⟨_, (parseLinesFrom_spec (text ++ [NUL]) (by simp)).1⟩
  · intro beyond infos h
    rw [parseLines_leading "v=0\r\n".toList beyond
      [{ mLineType := LineType_v_Version, mValue := "v=0".toList }] (by rfl) (by rfl)
      (by rfl)] at h
    cases hb : parseLines beyond with
    | error e => rw [hb] at h; simp [Except.map] at h
    | ok more =>
      rw [hb] at h
      simp only [Except.map, Except.ok.injEq] at h
      subst h
      rfl

/-- C5. Every record that the attribute splitter returns for the records of the
tokenizer has the attribute `Attribute_Unknown`, whatever the raw buffer: the
name it looks up starts with `a`. The lines `a=mid:a1` and `a=rtcp-mux`,
followed by a NUL, resolve to unknown and not to `mid` and `rtcp-mux`. -/
theorem tokenized_attributes_unknown :
    (∀ mRawBuffer infos, (parseLines mRawBuffer >>= parseAttributes) = .ok infos →
      ∀ r ∈ infos, r.mAttribute = Attribute_Unknown) ∧
    (parseLines ("a=mid:a1\r\na=rtcp-mux\r\n".toList ++ [NUL]) >>= parseAttributes) =
      .ok [{ mLineType := LineType_a_Attributes, mAttribute := Attribute_Unknown,
             mValue := "a=mid".toList },
           { mLineType := LineType_a_Attributes, mAttribute := Attribute_Unknown,
             mValue := "a=rtcp-mux".toList }] := by
  refine ⟨?_, by rfl⟩
  intro mRawBuffer infos h r' hr'
  rw [bind_eq_ok] at h
  obtain ⟨tokenized, hok, h⟩ := h
  obtain ⟨r, hr, hp⟩ := parseAttributes_mem _ _ h r' hr'
  obtain ⟨c, rest, -, hrec⟩ := parseLines_mem mRawBuffer tokenized r hok hr
  subst hrec
  exact parseAttribute_tokenized c rest r' hp

/-- C6. For an `a=` record whose name is a recognized attribute the attribute
splitter throws exactly when the attribute is a flag, whether or not a value
follows the colon, and otherwise leaves the name, not the text after the
colon, as the value of the record: `rtcp-mux` without a value is rejected,
`mid` without a value is accepted and `mid:a1` keeps the value `mid`. On the
records of the tokenizer neither check is reached: the lines `a=mid` and
`a=ice-lite:1`, followed by a NUL, are both accepted. -/
theorem parseAttribute_value_test :
    (∀ info name value, info.mLineType = LineType_a_Attributes →
      parseAttributeScan info.mValue = .ok (name, value) →
      toAttribute name ≠ Attribute_Unknown →
      (requiresEmptyValue (toAttribute name) = true →
        parseAttribute info = .error .InvalidParameters) ∧
      (requiresEmptyValue (toAttribute name) = false →
        parseAttribute info =
          .ok { info with mValue := name, mAttribute := toAttribute name })) ∧
    parseAttributes [{ mLineType := LineType_a_Attributes, mValue := "rtcp-mux".toList }] =
      .error .InvalidParameters ∧
    parseAttributes [{ mLineType := LineType_a_Attributes, mValue := "mid".toList }] =
      .ok [{ mLineType := LineType_a_Attributes, mAttribute := Attribute_MID,
             mValue := "mid".toList }] ∧
    parseAttributes [{ mLineType := LineType_a_Attributes, mValue := "mid:a1".toList }] =
      .ok [{ mLineType := LineType_a_Attributes, mAttribute := Attribute_MID,
             mValue := "mid".toList }] ∧
    (parseLines ("a=mid\r\na=ice-lite:1\r\n".toList ++ [NUL]) >>= parseAttributes) =
      .ok [{ mLineType := LineType_a_Attributes, mAttribute := Attribute_Unknown,
             mValue := "a=mid".toList },
           { mLineType := LineType_a_Attributes, mAttribute := Attribute_Unknown,
             mValue := "a=ice-lite".toList }] := by
  refine ⟨?_, by rfl, by rfl, by rfl, by rfl⟩
  intro info name value ha hs hu
  have hu2 : ¬ Attribute_Unknown = toAttribute name := fun h => hu h.symm
  constructor
  · intro he
    simp [parseAttribute, ha, hs, hu2, he, LineTypeInfo.mValueSet]
  · intro he
    simp [parseAttribute, ha, hs, hu2, he, LineTypeInfo.mValueSet]

/-- C7. For the sender and the receiver role `isApplicable` follows the table:
sender/local and receiver/remote hold exactly for the directions that contain
send (send, sendrecv), sender/remote and receiver/local exactly for those that
contain recv (recv, sendrecv). -/
theorem isApplicable_sender_receiver (direction : Directions) :
    (isApplicable ActorRole_Sender Location_Local direction = true ↔
      (direction = Direction_Send ∨ direction = Direction_SendReceive)) ∧
    (isApplicable ActorRole_Sender Location_Remote direction = true ↔
      (direction = Direction_Receive ∨ direction = Direction_SendReceive)) ∧
    (isApplicable ActorRole_Receiver Location_Local direction = true ↔
      (direction = Direction_Receive ∨ direction = Direction_SendReceive)) ∧
    (isApplicable ActorRole_Receiver Location_Remote direction = true ↔
      (direction = Direction_Send ∨ direction = Direction_SendReceive)) := by
  cases direction <;> decide

/-- C8, as the claim states it, fails: the transceiver role is applicable for
the direction send, and for the direction recv, at both locations. -/
theorem isApplicable_transceiver_one_bit :
    isApplicable ActorRole_Transceiver Location_Local Direction_Send = true ∧
    isApplicable ActorRole_Transceiver Location_Remote Direction_Send = true ∧
    isApplicable ActorRole_Transceiver Location_Local Direction_Receive = true ∧
    isApplicable ActorRole_Transceiver Location_Remote Direction_Receive = true := by
  decide

/-- C8, amended. For the transceiver role and either location `isApplicable`
holds exactly when the direction contains the send bit or the recv bit, that
is for every direction but none. -/
theorem isApplicable_transceiver (location : Locations) (direction : Directions) :
    isApplicable ActorRole_Transceiver location direction = true ↔
      direction ≠ Direction_None := by
  cases location <;> cases direction <;> decide

/-- C9. The allowed levels of the line types and of the recognized attributes
are those of the table of section 4.3. -/
theorem getAttributeLevel_table :
    LineType_v_Version.getAttributeLevel = .ok AttributeLevel_Session ∧
    LineType_o_Origin.getAttributeLevel = .ok AttributeLevel_Session ∧
    LineType_s_SessionName.getAttributeLevel = .ok AttributeLevel_Session ∧
    LineType_t_Timing.getAttributeLevel = .ok AttributeLevel_Session ∧
    LineType_m_MediaLine.getAttributeLevel = .ok AttributeLevel_Session ∧
    LineType_b_Bandwidth.getAttributeLevel = .ok AttributeLevel_SessionAndMedia ∧
    LineType_c_ConnectionDataLine.getAttributeLevel = .ok AttributeLevel_SessionAndMedia ∧
    (∀ attr ∈ [Attribute_Group, Attribute_ICEOptions, Attribute_ICELite,
        Attribute_MSIDSemantic],
      attr.getAttributeLevel = .ok AttributeLevel_Session) ∧
    (∀ attr ∈ [Attribute_BundleOnly, Attribute_MID, Attribute_MSID, Attribute_Candidate,
        Attribute_EndOfCandidates, Attribute_Crypto, Attribute_RTPMap, Attribute_RTCP,
        Attribute_RTCPMux, Attribute_RTCPFB, Attribute_RTCPRSize, Attribute_PTime,
        Attribute_MaxPTime, Attribute_SSRC, Attribute_SSRCGroup, Attribute_Simulcast,
        Attribute_RID, Attribute_SCTPPort, Attribute_MaxMessageSize],
      attr.getAttributeLevel = .ok AttributeLevel_Media) ∧
    (∀ attr ∈ [Attribute_ICEUFrag, Attribute_ICEPwd, Attribute_Fingerprint,
        Attribute_Setup, Attribute_Extmap, Attribute_SendRecv, Attribute_SendOnly,
        Attribute_RecvOnly, Attribute_Inactive],
      attr.getAttributeLevel = .ok AttributeLevel_SessionAndMedia) ∧
    Attirbute_FMTP.getAttributeLevel = .ok AttributeLevel_MediaAndSource ∧
    AttributeLevel_Session.toNat = 1 ∧ AttributeLevel_Media.toNat = 2 ∧
    AttributeLevel_Source.toNat = 4 ∧
    AttributeLevel_SessionAndMedia.toNat =
      AttributeLevel_Session.toNat ||| AttributeLevel_Media.toNat ∧
    AttributeLevel_MediaAndSource.toNat =
      AttributeLevel_Media.toNat ||| AttributeLevel_Source.toNat := by
  refine ⟨rfl, rfl, rfl, rfl, rfl, rfl, rfl, ?_, ?_, ?_, rfl, rfl, rfl, rfl, rfl, rfl⟩
  · intro attr h
    simp only [List.mem_cons, List.mem_singleton, List.not_mem_nil, or_false] at h
    rcases h with h | h | h | h <;> subst h <;> rfl
  · intro attr h
    simp only [List.mem_cons, List.mem_singleton, List.not_mem_nil, or_false] at h
    rcases h with h | h | h | h | h | h | h | h | h | h | h | h | h | h | h | h | h | h | h <;>
      subst h <;> rfl
  · intro attr h
    simp only [List.mem_cons, List.mem_singleton, List.not_mem_nil, or_false] at h
    rcases h with h | h | h | h | h | h | h | h | h <;> subst h <;> rfl

/-- C10. When the scope validator succeeds, it returns the records of its input
with their levels filled in, and every returned record with a known line type
(and, for an `a=` record, a recognized attribute) carries a level that is
exactly one of session, media and source and that is among the allowed levels
of its line type and, for an `a=` record, of its attribute. -/
theorem validateAttributeLevels_scopes (infos out : List LineTypeInfo)
    (h : validateAttributeLevels infos = .ok out) :
    List.Forall₂ LineTypeInfo.sameLine infos out ∧
    ∀ r ∈ out, r.isKnown → r.levelAllowed :=
  validateAttributeLevelsFrom_spec _ infos out (Or.inl rfl) h

/-- C10 at the records `scopedRecords`, which the validator accepts; an
`a=mid` record at session level makes it fail. -/
theorem validateAttributeLevels_scopes_witness :
    validateAttributeLevels scopedRecords = .ok scopedRecordsValidated ∧
    (List.Forall₂ LineTypeInfo.sameLine scopedRecords scopedRecordsValidated ∧
      ∀ r ∈ scopedRecordsValidated, r.isKnown → r.levelAllowed) ∧
    validateAttributeLevels
        [{ mLineType := LineType_a_Attributes, mAttribute := Attribute_MID,
           mValue := "mid".toList }] = .error .InvalidParameters :=
  ⟨by rfl, validateAttributeLevels_scopes scopedRecords scopedRecordsValidated (by rfl),
   by rfl⟩

/-- C11. From every current level, the validator accepts an `m=` record, records
it with the level session and moves to the level media: the records after it
are validated from the level media, the records the validator skips (unknown
line type, unknown attribute) leaving that level as it is. -/
theorem validateAttributeLevels_mline (currentLevel : AttributeLevels) (info : LineTypeInfo)
    (skipped rest : List LineTypeInfo)
    (h : info.mLineType = LineType_m_MediaLine) (hs : ∀ r ∈ skipped, ¬ r.isKnown) :
    validateAttributeLevel currentLevel info =
      .ok (AttributeLevel_Media, { info with mAttributeLevel := AttributeLevel_Session }) ∧
    validateAttributeLevelsFrom currentLevel (info :: (skipped ++ rest)) =
      (validateAttributeLevelsFrom AttributeLevel_Media rest).map
        (fun out => { info with mAttributeLevel := AttributeLevel_Session } :: (skipped ++ out)) := by
  refine ⟨validateAttributeLevel_mediaLine currentLevel info h, ?_⟩
  simp only [validateAttributeLevelsFrom, validateAttributeLevel_mediaLine currentLevel info h]
  cases hv : validateAttributeLevelsFrom AttributeLevel_Media rest <;>
    simp [validateAttributeLevelsFrom_skipped AttributeLevel_Media skipped rest hs, hv,
      Except.map]

/-- The statement of C11 from the level source, on an `m=` record followed by
an `a=` record with an unknown attribute and a `c=` record: the `m=` record
is recorded at the level session and the `c=` record at the level media. -/
theorem validateAttributeLevels_mline_witness :
    (validateAttributeLevel AttributeLevel_Source mediaRecord =
        .ok (AttributeLevel_Media,
             { mediaRecord with mAttributeLevel := AttributeLevel_Session }) ∧
      validateAttributeLevelsFrom AttributeLevel_Source
          (mediaRecord :: ([unknownAttributeRecord] ++ [connectionRecord])) =
        (validateAttributeLevelsFrom AttributeLevel_Media [connectionRecord]).map
          (fun out => { mediaRecord with mAttributeLevel := AttributeLevel_Session } ::
            ([unknownAttributeRecord] ++ out))) ∧
    validateAttributeLevelsFrom AttributeLevel_Source
        [mediaRecord, unknownAttributeRecord, connectionRecord] =
      .ok [{ mediaRecord with mAttributeLevel := AttributeLevel_Session },
           unknownAttributeRecord,
           { connectionRecord with mAttributeLevel := AttributeLevel_Media }] :=
  ⟨validateAttributeLevels_mline AttributeLevel_Source mediaRecord [unknownAttributeRecord]
      [connectionRecord] rfl
      (fun r hr => by
        rw [List.mem_singleton] at hr
        subst hr
        exact fun hk => hk.2 rfl rfl),
    by rfl⟩

/-- C12. The typed-parse and folder passes do not succeed on any record list
that holds an `a=fmtp` record at source level: typed parsing leaves the record
with a null source line pointer (`currentSourceLine` is never assigned), the
flag, session and media folders keep the record, and the source folder throws
on it. -/
theorem parseValidated_source_fmtp_fails (infos : List LineTypeInfo) (r : LineTypeInfo)
    (hm : r ∈ infos) (hr : r.isSourceFmtp) : ∃ e, parseValidated infos = .error e := by
  unfold parseValidated parseLinesDetails
  rcases hp : parseLinesDetailsFrom { ({ mLineInfos := infos } : SDP) with mLineInfos := [] } {}
      infos with e | ⟨sdp1, out⟩
  · exact ⟨e, by simp [hp, bind, Except.bind]⟩
  · have hp' : parseLinesDetailsFrom { ({ mLineInfos := infos } : SDP) with mLineInfos := [] } {}
        ({ mLineInfos := infos } : SDP).mLineInfos = .ok (sdp1, out) := hp
    obtain ⟨r1, hr1, ⟨ht, ha, hl⟩, line, hv, hs⟩ :=
      parseLinesDetailsFrom_source infos _ sdp1 {} out r rfl hp hm hr
    have hflag : ∀ sdp, processFlagAttribute sdp r1 = .ok (sdp, some r1) := by
      intro sdp
      simp [processFlagAttribute, ht, ha, requiresEmptyValue]
    have hsession : ∀ sdp, processSessionLevelValue sdp r1 = .ok (sdp, some r1) := by
      intro sdp
      simp [processSessionLevelValue, hl]
    have hmedia : ∀ sdp, processMediaLevelValue sdp r1 = .ok (sdp, some r1) := by
      intro sdp
      simp [processMediaLevelValue, hl]
    have hsource : ∀ sdp, ∃ e, processSourceLevelValue sdp r1 = .error e := by
      intro sdp
      refine ⟨.InvalidParameters, ?_⟩
      simp only [processSourceLevelValue, hl, ht, ha, hv, hs]
      cases line.mMLine <;> simp
    simp only [hp', bind, Except.bind, processLines, processFlagAttributes,
      processSessionLevelValues, processMediaLevelValues, processSourceLevelValues, runFolder]
    rcases h1 : foldLines processFlagAttribute { sdp1 with mLineInfos := [] } out with
      e | ⟨sdp2, out2⟩
    · exact ⟨e, rfl⟩
    · have m2 := foldLines_mem_kept _ r1 hflag out _ sdp2 out2 h1 hr1
      simp only []
      rcases h2 : foldLines processSessionLevelValue { sdp2 with mLineInfos := [] } out2 with
        e | ⟨sdp3, out3⟩
      · exact ⟨e, rfl⟩
      · have m3 := foldLines_mem_kept _ r1 hsession out2 _ sdp3 out3 h2 m2
        simp only []
        rcases h3 : foldLines processMediaLevelValue { sdp3 with mLineInfos := [] } out3 with
          e | ⟨sdp4, out4⟩
        · exact ⟨e, rfl⟩
        · have m4 := foldLines_mem_kept _ r1 hmedia out3 _ sdp4 out4 h3 m3
          simp only []
          obtain ⟨e, he⟩ := foldLines_error_mem _ r1 hsource out4
            { sdp4 with mLineInfos := [] } m4
          exact ⟨e, by simp [he]⟩

/-- The statement of C12 on the record list `sourceFmtpRecords`: typed parsing
and the flag, session and media folders succeed, and the source folder throws
`InvalidParameters` on the `a=fmtp` record. -/
theorem parseValidated_source_fmtp_fails_witness :
    (∃ e, parseValidated sourceFmtpRecords = .error e) ∧
    parseValidated sourceFmtpRecords = .error .InvalidParameters ∧
    (parseLinesDetails { mLineInfos := sourceFmtpRecords } >>= processFlagAttributes >>=
      processSessionLevelValues >>= processMediaLevelValues).toBool = true :=
  ⟨parseValidated_source_fmtp_fails sourceFmtpRecords
      { mLineType := LineType_a_Attributes, mAttribute := Attirbute_FMTP,
        mAttributeLevel := AttributeLevel_Source, mValue := "96 apt=100".toList }
      (by simp [sourceFmtpRecords]) ⟨rfl, rfl, rfl⟩,
    by rfl, by rfl⟩

/-- C13. The line list is not empty after the four folders have run
successfully: whenever typed parsing and the four folders succeed on a record
list that holds an `a=ice-lite` record at session level or an `a=rtcp-mux` or
`a=rtcp-rsize` record at media level, such a record is still in the line list
of the `SDP` they return. -/
theorem folders_leave_flag_records (infos : List LineTypeInfo) (sdp : SDP)
    (h : parseValidated infos = .ok sdp) (hm : ∃ r ∈ infos, r.isLeftFlag) :
    ∃ r1 ∈ sdp.mLineInfos, r1.isLeftFlag := by
  unfold parseValidated parseLinesDetails at h
  rcases hp : parseLinesDetailsFrom { ({ mLineInfos := infos } : SDP) with mLineInfos := [] } {}
      infos with e | ⟨sdp1, out⟩
  · have hp' : parseLinesDetailsFrom { ({ mLineInfos := infos } : SDP) with mLineInfos := [] } {}
        ({ mLineInfos := infos } : SDP).mLineInfos = .error e := hp
    simp [hp', bind, Except.bind] at h
  · have hp' : parseLinesDetailsFrom { ({ mLineInfos := infos } : SDP) with mLineInfos := [] } {}
        ({ mLineInfos := infos } : SDP).mLineInfos = .ok (sdp1, out) := hp
    have m1 := parseLinesDetailsFrom_leftFlag infos _ sdp1 {} out hp hm
    simp only [hp', bind, Except.bind, processLines, processFlagAttributes,
      processSessionLevelValues, processMediaLevelValues, processSourceLevelValues, runFolder]
      at h
    rcases h1 : foldLines processFlagAttribute { sdp1 with mLineInfos := [] } out with
      e | ⟨sdp2, out2⟩
    · simp [h1] at h
    · have m2 := foldLines_mem_property _ _ processFlagAttribute_leftFlag out _ sdp2 out2 h1 m1
      simp only [h1] at h
      rcases h2 : foldLines processSessionLevelValue { sdp2 with mLineInfos := [] } out2 with
        e | ⟨sdp3, out3⟩
      · simp [h2] at h
      · have m3 :=
          foldLines_mem_property _ _ processSessionLevelValue_leftFlag out2 _ sdp3 out3 h2 m2
        simp only [h2] at h
        rcases h3 : foldLines processMediaLevelValue { sdp3 with mLineInfos := [] } out3 with
          e | ⟨sdp4, out4⟩
        · simp [h3] at h
        · have m4 :=
            foldLines_mem_property _ _ processMediaLevelValue_leftFlag out3 _ sdp4 out4 h3 m3
          simp only [h3] at h
          rcases h4 : foldLines processSourceLevelValue { sdp4 with mLineInfos := [] } out4 with
            e | ⟨sdp5, out5⟩
          · simp [h4] at h
          · have m5 :=
              foldLines_mem_property _ _ processSourceLevelValue_leftFlag out4 _ sdp5 out5 h4 m4
            simp [h4] at h
            subst h
            exact m5

/-- The statement of C13 on the record list `flagRecords`: the passes succeed,
the `a=bundle-only` record is removed, and the `a=ice-lite`, `a=rtcp-mux` and
`a=rtcp-rsize` records are left in the line list. -/
theorem folders_leave_flag_records_witness :
    parseValidated flagRecords = .ok flagRecordsFolded ∧
    flagRecordsFolded.mLineInfos.map (fun r => r.mAttribute) =
      [Attribute_ICELite, Attribute_RTCPMux, Attribute_RTCPRSize] ∧
    ∃ r1 ∈ flagRecordsFolded.mLineInfos, r1.isLeftFlag :=
  ⟨by rfl, by rfl,
    folders_leave_flag_records flagRecords flagRecordsFolded (by rfl)
      ⟨{ mLineType := LineType_a_Attributes, mAttribute := Attribute_ICELite,
         mAttributeLevel := AttributeLevel_Session, mValue := "ice-lite".toList },
       by simp [flagRecords], rfl, Or.inl ⟨rfl, rfl⟩⟩⟩

/-- C14. A second occurrence of a single-valued line in the same scope makes
folding fail. The session folder fails on every line list in which two
occurrences of the same single-valued session line (`v`, `o`, `s`, `t`, `c`,
`ice-ufrag`, `ice-pwd`, `ice-options`, `setup`) stand, and the media folder on
every line list in which two occurrences of the same single-valued media line
(`ice-ufrag`, `ice-pwd`, `setup`, `mid`, `rtcp`, `ptime`, `maxptime`,
`simulcast`, `sctp-port`, `max-message-size`, `c`) of one media line stand. On
one occurrence, the step of the folder fails with `InvalidParameters` when the
slot holds a line, and when the slot holds none it succeeds, fills the slot and
erases the record: a first occurrence does not fail for this reason. -/
theorem single_valued_line_twice (sdp : SDP) (l1 l2 l3 : List LineTypeInfo)
    (sessionSlot : SessionSlot) (a b : LineTypeInfo)
    (mediaSlot : MediaSlot) (pointer : Nat) (c d : LineTypeInfo)
    (ha : a.isSessionOccurrence sessionSlot) (hb : b.isSessionOccurrence sessionSlot)
    (hc : c.isMediaOccurrence mediaSlot pointer) (hd : d.isMediaOccurrence mediaSlot pointer) :
    (∃ e, processSessionLevelValues { sdp with mLineInfos := l1 ++ a :: (l2 ++ b :: l3) } =
        .error e) ∧
    (∃ e, processMediaLevelValues { sdp with mLineInfos := l1 ++ c :: (l2 ++ d :: l3) } =
        .error e) ∧
    (sdp.holds sessionSlot = true →
      processSessionLevelValue sdp a = .error .InvalidParameters) ∧
    (sdp.holds sessionSlot = false →
      ∃ sdp1, processSessionLevelValue sdp a = .ok (sdp1, none) ∧
        sdp1.holds sessionSlot = true) ∧
    (sdp.mlineHolds pointer mediaSlot →
      processMediaLevelValue sdp c = .error .InvalidParameters) ∧
    (∀ mline, sdp.mline pointer = .ok mline → mline.holds mediaSlot = false →
      ∃ sdp1, processMediaLevelValue sdp c = .ok (sdp1, none) ∧
        sdp1.mlineHolds pointer mediaSlot) := by
  refine ⟨?_, ?_, (processSessionLevelValue_occurrence sdp a sessionSlot ha).1,
    (processSessionLevelValue_occurrence sdp a sessionSlot ha).2,
    (processMediaLevelValue_occurrence sdp c mediaSlot pointer hc).1,
    (processMediaLevelValue_occurrence sdp c mediaSlot pointer hc).2.1⟩
  · obtain ⟨e, he⟩ := foldLines_fails processSessionLevelValue
      (fun s => s.holds sessionSlot = true)
      (fun s info s1 left h h0 => processSessionLevelValue_keeps s s1 info left sessionSlot h h0)
      a b
      (fun s s1 left h => by
        rcases hh : s.holds sessionSlot with _ | _
        · obtain ⟨s2, h2, h3⟩ := (processSessionLevelValue_occurrence s a sessionSlot ha).2 hh
          rw [h2] at h
          cases h
          exact h3
        · rw [(processSessionLevelValue_occurrence s a sessionSlot ha).1 hh] at h
          cases h)
      (fun s h0 => ⟨_, (processSessionLevelValue_occurrence s b sessionSlot hb).1 h0⟩)
      { sdp with mLineInfos := [] } l1 l2 l3
    exact ⟨e, by simp [processSessionLevelValues, runFolder, he]⟩
  · obtain ⟨e, he⟩ := foldLines_fails processMediaLevelValue
      (fun s => s.mlineHolds pointer mediaSlot)
      (fun s info s1 left h h0 =>
        processMediaLevelValue_keeps s s1 pointer info left mediaSlot h h0)
      c d
      (fun s s1 left h => (processMediaLevelValue_occurrence s c mediaSlot pointer hc).2.2 s1 left h)
      (fun s h0 => ⟨_, (processMediaLevelValue_occurrence s d mediaSlot pointer hd).1 h0⟩)
      { sdp with mLineInfos := [] } l1 l2 l3
    exact ⟨e, by simp [processMediaLevelValues, runFolder, he]⟩

/-- The statement of C14 on an `SDP` with one media line, for two `s=` records
and two `a=mid` records of the media line; and, from the records before typed
parsing, the passes fail on two `s=` records and on two `a=mid` records of one
media section, and succeed on one of each. -/
theorem single_valued_line_twice_witness :
    sessionNameRecord.isSessionOccurrence .sessionName ∧
    midRecord.isMediaOccurrence .mid 0 ∧
    (∃ e, processSessionLevelValues
        { oneMediaLineSDP with mLineInfos := [sessionNameRecord, sessionNameRecord] } =
          .error e) ∧
    (∃ e, processMediaLevelValues
        { oneMediaLineSDP with mLineInfos := [midRecord, midRecord] } = .error e) ∧
    (∃ sdp1, processSessionLevelValue oneMediaLineSDP sessionNameRecord = .ok (sdp1, none) ∧
        sdp1.holds .sessionName = true) ∧
    (∃ sdp1, processMediaLevelValue oneMediaLineSDP midRecord = .ok (sdp1, none) ∧
        sdp1.mlineHolds 0 .mid) ∧
    parseValidated [{ sessionNameRecord with mLineValue := none },
      { sessionNameRecord with mLineValue := none }] = .error .InvalidParameters ∧
    parseValidated [audioRecord, { midRecord with mLineValue := none },
      { midRecord with mLineValue := none }] = .error .InvalidParameters ∧
    (parseValidated [{ sessionNameRecord with mLineValue := none }, audioRecord,
      { midRecord with mLineValue := none }]).toBool = true :=
  have h := single_valued_line_twice oneMediaLineSDP [] [] [] .sessionName sessionNameRecord
    sessionNameRecord .mid 0 midRecord midRecord ⟨rfl, rfl, rfl⟩ ⟨rfl, rfl, rfl⟩ ⟨rfl, rfl, rfl⟩
    ⟨rfl, rfl, rfl⟩
  ⟨⟨rfl, rfl, rfl⟩, ⟨rfl, rfl, rfl⟩, h.1, h.2.1, h.2.2.2.1 rfl, h.2.2.2.2.2 {} rfl rfl,
    by rfl, by rfl, by rfl⟩

/-- C15. Typed parsing followed by the flag folder does not succeed on any
record list that holds a direction flag record, first occurrence or not: for
`a=sendonly` and `a=recvonly` typed parsing itself fails (`toDirection` is
given the attribute name, which is none of `send`, `recv`, `sendrecv`,
`inactive`), and for `a=sendrecv` and `a=inactive` the flag folder erases the
record twice after it has stored the direction. -/
theorem direction_flag_fails (infos : List LineTypeInfo) (r : LineTypeInfo)
    (hm : r ∈ infos) (hr : r.isDirectionFlag) :
    (∃ e, (parseLinesDetails { mLineInfos := infos } >>= processFlagAttributes) = .error e) ∧
    (r.mAttribute = Attribute_SendOnly ∨ r.mAttribute = Attribute_RecvOnly →
      ∃ e, parseLinesDetails { mLineInfos := infos } = .error e) := by
  constructor
  · unfold parseLinesDetails
    rcases hp : parseLinesDetailsFrom { ({ mLineInfos := infos } : SDP) with mLineInfos := [] }
        {} infos with e | ⟨sdp1, out⟩
    · have hp' : parseLinesDetailsFrom
          { ({ mLineInfos := infos } : SDP) with mLineInfos := [] } {}
          ({ mLineInfos := infos } : SDP).mLineInfos = .error e := hp
      exact ⟨e, by simp [hp', bind, Except.bind]⟩
    · have hp' : parseLinesDetailsFrom
          { ({ mLineInfos := infos } : SDP) with mLineInfos := [] } {}
          ({ mLineInfos := infos } : SDP).mLineInfos = .ok (sdp1, out) := hp
      obtain ⟨r1, hr1, ht, ha⟩ :=
        parseLinesDetailsFrom_directionFlag infos _ sdp1 {} out hp ⟨r, hm, hr⟩
      have hstep : ∀ sdp, ∃ e, processFlagAttribute sdp r1 = .error e := by
        intro sdp
        rcases ha with ha | ha | ha | ha <;>
          simp only [processFlagAttribute, ht, ha, requiresEmptyValue] <;>
          simpa using processDirectionFlag_fails sdp r1
      obtain ⟨e, he⟩ := foldLines_error_mem _ r1 hstep out { sdp1 with mLineInfos := [] } hr1
      exact ⟨e, by simp [hp', bind, Except.bind, processFlagAttributes, runFolder, he]⟩
  · intro ha
    have hstep : ∀ sdp cursor, ∃ e, parseLineDetails sdp cursor r = .error e := by
      intro sdp cursor
      obtain ⟨h1, h2, _, _⟩ :=
        mediaDirectionLine_names (cursor.reset r.mAttributeLevel).currentMLine
      rcases ha with ha | ha
      · obtain ⟨e, he⟩ := h1
        exact ⟨e, by simp [parseLineDetails, hr.1, parseAttributeDetails, ha, he, bind,
          Except.bind]⟩
      · obtain ⟨e, he⟩ := h2
        exact ⟨e, by simp [parseLineDetails, hr.1, parseAttributeDetails, ha, he, bind,
          Except.bind]⟩
    obtain ⟨e, he⟩ := parseLinesDetailsFrom_error_mem r hstep infos
      { ({ mLineInfos := infos } : SDP) with mLineInfos := [] } {} hm
    have he' : parseLinesDetailsFrom
        { ({ mLineInfos := infos } : SDP) with mLineInfos := [] } {}
        ({ mLineInfos := infos } : SDP).mLineInfos = .error e := he
    exact ⟨e, by simp [parseLinesDetails, he']⟩

/-- The statement of C15 on the record lists `sendOnlyRecords` and
`sendRecvRecords`: typed parsing fails on the first and succeeds on the
second, on which the flag folder then fails. -/
theorem direction_flag_fails_witness :
    (∃ e, parseLinesDetails { mLineInfos := sendOnlyRecords } = .error e) ∧
    (parseLinesDetails { mLineInfos := sendRecvRecords }).toBool = true ∧
    (∃ e, (parseLinesDetails { mLineInfos := sendRecvRecords } >>= processFlagAttributes) =
        .error e) :=
  ⟨(direction_flag_fails sendOnlyRecords
      { mLineType := LineType_a_Attributes, mAttribute := Attribute_SendOnly,
        mAttributeLevel := AttributeLevel_Media, mValue := "sendonly".toList }
      (by simp [sendOnlyRecords]) ⟨rfl, Or.inr (Or.inl rfl)⟩).2 (Or.inl rfl),
   by rfl,
   (direction_flag_fails sendRecvRecords
      { mLineType := LineType_a_Attributes, mAttribute := Attribute_SendRecv,
        mAttributeLevel := AttributeLevel_Media, mValue := "sendrecv".toList }
      (by simp [sendRecvRecords]) ⟨rfl, Or.inl rfl⟩).1⟩

/-- C16. A `b=` record at session level is ignored, whatever its value. For
every line list in which the record stands before every `m=` record, which is
the case in every line list the scope validator leaves, typed parsing and the
four folders give the same result, field by field, media line by media line
and record by record, as on the list without the record: they do not fail
because of it, the record is not left in the list, and nothing is written for
it. -/
theorem parseValidated_session_bandwidth (l1 l2 : List LineTypeInfo) (info : LineTypeInfo)
    (hb : info.mLineType = LineType_b_Bandwidth)
    (hl : info.mAttributeLevel = AttributeLevel_Session)
    (h1 : (∀ r ∈ l1, r.mLineType ≠ LineType_m_MediaLine) ∨
      ∃ infos, validateAttributeLevels infos = .ok (l1 ++ info :: l2)) :
    parseValidated (l1 ++ info :: l2) = parseValidated (l1 ++ l2) := by
  have h1 : ∀ r ∈ l1, r.mLineType ≠ LineType_m_MediaLine := by
    rcases h1 with h1 | ⟨infos, hv⟩
    · exact h1
    · exact validateAttributeLevelsFrom_session_bandwidth infos AttributeLevel_Session l1 l2
        info hb hl hv
  have hflag : ∀ sdp, processFlagAttribute sdp { info with mLineType := LineType_Unknown } =
      .ok (sdp, some { info with mLineType := LineType_Unknown }) := by
    intro sdp
    simp [processFlagAttribute]
  have hsession : ∀ sdp, processSessionLevelValue sdp { info with mLineType := LineType_Unknown } =
      .ok (sdp, none) := by
    intro sdp
    simp [processSessionLevelValue, hl]
  unfold parseValidated parseLinesDetails
  rcases parseLinesDetailsFrom_session_bandwidth l1 l2 info hb hl h1
      { ({ mLineInfos := l1 ++ info :: l2 } : SDP) with mLineInfos := [] } with
    ⟨e, he1, he2⟩ | ⟨sdp', k1, k2, hk1, hk2⟩
  · have he2' : parseLinesDetailsFrom
        { ({ mLineInfos := l1 ++ l2 } : SDP) with mLineInfos := [] } {} (l1 ++ l2) = .error e :=
      he2
    simp only [he1, he2']
  · have hk2' : parseLinesDetailsFrom
        { ({ mLineInfos := l1 ++ l2 } : SDP) with mLineInfos := [] } {} (l1 ++ l2) =
          .ok (sdp', k1 ++ k2) := hk2
    simp only [hk1, hk2']
    simp only [bind, Except.bind, processLines, processFlagAttributes, runFolder]
    rcases foldLines_kept processFlagAttribute _ hflag { sdp' with mLineInfos := [] } k1 k2 with
      ⟨e, he1, he2⟩ | ⟨sdp2, j1, j2, hj1, hj2⟩
    · simp only [he1, he2]
    · simp only [hj1, hj2, processSessionLevelValues, runFolder]
      rw [foldLines_erased processSessionLevelValue _ hsession]

/-- The statement of C16 on a line list with a `v=` record, a `b=` record at
session level whose value is not a bandwidth, and an `m=` record: the passes
succeed, as they do without the `b=` record, and leave no record. -/
theorem parseValidated_session_bandwidth_witness :
    parseValidated ([versionRecord] ++ malformedBandwidthRecord :: [audioRecord]) =
      parseValidated ([versionRecord] ++ [audioRecord]) ∧
    (parseValidated ([versionRecord] ++ malformedBandwidthRecord :: [audioRecord])).map
      (fun sdp => (sdp.mLineInfos, sdp.mVLine, sdp.mMLines)) =
      .ok ([], some { mVersion := 0 }, [0]) :=
  ⟨parseValidated_session_bandwidth [versionRecord] [audioRecord] malformedBandwidthRecord
      rfl rfl
      (Or.inl (fun r hr => by
        rw [List.mem_singleton] at hr
        subst hr
        decide)),
    by rfl⟩

/-- C17. The function `createTransports` appends no transport to the
description: whenever it returns, the description is the one it was given,
transports included. On the folded media line `iceMLine`, which has an
`ice-ufrag` and the mid `a1`, the loop body builds the transport `a1`, and the
description, empty before the call, is empty after it. -/
theorem createTransports_appends_nothing :
    (∀ ext sdp ioDescription description,
      createTransports ext sdp ioDescription = .ok description →
        description = ioDescription) ∧
    (createTransport modelExternal iceSDP 0 iceMLine).map
        (fun transport => transport.map (fun t => t.mID)) = .ok (some "a1".toList) ∧
    createTransports modelExternal iceSDP {} = .ok {} ∧
    (createTransports modelExternal iceSDP {}).map (fun d => d.mTransports.length) = .ok 0 :=
  ⟨fun ext sdp ioDescription description h =>
      createTransportsFrom_description ext sdp ioDescription description 0 sdp.mMLines h,
    by rfl, by rfl, by rfl⟩

/-- C18 as stated fails: for the media line `muxComponentTwoMLine`, which has
`rtcp-mux` set and one candidate line, of component id 2, the loop body of
`createTransports` builds a transport with separate RTCP parameters, which
hold the candidate. -/
theorem createTransport_mux_rtcp_candidate :
    muxComponentTwoMLine.mRTCPMux = some true ∧
    muxComponentTwoMLine.mACandidateLines.map (fun c => c.mComponentID) = [2] ∧
    (createTransport modelExternal muxComponentTwoSDP 0 muxComponentTwoMLine).map
        (fun transport => transport.map (fun t =>
          (t.mRTCP.isSome, t.mRTCP.map (fun rtcp => rtcp.mICECandidates.map (fun c => c.mPort))))) =
      .ok (some (true, some [10])) :=
  ⟨rfl, rfl, by rfl⟩

/-- C18, amended. A transport that `createTransports` builds for a media line
without `rtcp-mux` has separate RTCP parameters, for every list of candidate
lines. A transport it builds for a media line with `rtcp-mux` set has none
exactly when every candidate of the media line is among its RTP candidates,
in particular when the media line has no candidate line: `convertCandidates`
creates the RTCP parameters for the first candidate it does not put on the
RTP list, so that they hold a candidate when they are present, and they are
present whenever a candidate line has a component id of 2 or more. -/
theorem createTransport_rtcp_allocation (ext : External) (sdp : SDP) (index : Nat)
    (mline : MLine) (transport : Transport)
    (h : createTransport ext sdp index mline = .ok (some transport)) :
    (mline.mRTCPMux ≠ some true → transport.mRTCP.isSome = true) ∧
    (mline.mRTCPMux = some true →
      (transport.mRTCP = none ↔
        candidateCount transport.mRTP = mline.mACandidateLines.length)) ∧
    (mline.mRTCPMux = some true → mline.mACandidateLines = [] → transport.mRTCP = none) ∧
    (mline.mRTCPMux = some true → ∀ rtcp, transport.mRTCP = some rtcp →
      rtcp.mICECandidates ≠ []) ∧
    ((∃ c ∈ mline.mACandidateLines, 2 ≤ c.mComponentID) → transport.mRTCP.isSome = true) := by
  obtain ⟨io, candidates, rtcp, hc, hio, hio0, hrtp, -, hsome, hcount⟩ :=
    createTransport_candidates ext sdp index mline transport h
  obtain ⟨hlen, hinv⟩ := convertCandidates_count ext _ _ _ _ _ hc
  have hiff := convertCandidates_rtcp ext _ _ _ _ _ hc
  rw [hio0] at hlen
  simp only [List.length_nil, Nat.zero_add] at hlen
  have hmux : mline.mRTCPMux = some true → io.isSome = false := by
    intro hm
    cases hi : io.isSome with
    | false => rfl
    | true => exact absurd hm (hio.1 hi)
  have hpos : mline.mRTCPMux = some true → transport.mRTCP.isSome = true →
      0 < candidateCount transport.mRTCP := by
    intro hm hs
    rw [hcount]
    exact hinv (fun hi => by rw [hmux hm] at hi; exact absurd hi (by simp)) (by rw [← hsome]; exact hs)
  have hnone : mline.mRTCPMux = some true →
      (transport.mRTCP = none ↔ candidateCount transport.mRTP = mline.mACandidateLines.length) := by
    intro hm
    constructor
    · intro hn
      have h0 : candidateCount rtcp = 0 := by rw [← hcount, hn]; rfl
      omega
    · intro he
      cases ht : transport.mRTCP with
      | none => rfl
      | some r =>
        have := hpos hm (by rw [ht]; rfl)
        omega
  refine ⟨?_, hnone, ?_, ?_, ?_⟩
  · intro hm
    rw [hsome, hiff]
    exact Or.inl (hio.2 hm)
  · intro hm hl
    rw [hnone hm, hl, hrtp]
    rw [hl] at hlen
    simp only [List.length_nil] at hlen ⊢
    omega
  · intro hm r hr hnil
    have := hpos hm (by rw [hr]; rfl)
    rw [hr] at this
    simp [candidateCount, hnil] at this
  · rintro ⟨c, hmem, h2⟩
    rw [hsome, hiff]
    exact Or.inr ⟨c, hmem, by omega⟩

/-- The statement of C18, amended, on the media line `muxComponentTwoMLine`,
which has `rtcp-mux` set and a candidate line with component id 2. -/
theorem createTransport_rtcp_allocation_witness :
    createTransport modelExternal muxComponentTwoSDP 0 muxComponentTwoMLine =
      .ok (some muxComponentTwoTransport) ∧
    ((muxComponentTwoMLine.mRTCPMux ≠ some true →
        muxComponentTwoTransport.mRTCP.isSome = true) ∧
     (muxComponentTwoMLine.mRTCPMux = some true →
       (muxComponentTwoTransport.mRTCP = none ↔
         candidateCount muxComponentTwoTransport.mRTP =
           muxComponentTwoMLine.mACandidateLines.length)) ∧
     (muxComponentTwoMLine.mRTCPMux = some true →
       muxComponentTwoMLine.mACandidateLines = [] → muxComponentTwoTransport.mRTCP = none) ∧
     (muxComponentTwoMLine.mRTCPMux = some true → ∀ rtcp,
       muxComponentTwoTransport.mRTCP = some rtcp → rtcp.mICECandidates ≠ []) ∧
     ((∃ c ∈ muxComponentTwoMLine.mACandidateLines, 2 ≤ c.mComponentID) →
       muxComponentTwoTransport.mRTCP.isSome = true)) :=
  ⟨by rfl,
   createTransport_rtcp_allocation modelExternal muxComponentTwoSDP 0 muxComponentTwoMLine
     muxComponentTwoTransport (by rfl)⟩

/-- C19. Whenever `createRTPMediaLines` or `createSCTPMediaLines` returns, the
transports of the description are those it had before the call, and every
media line the call has appended has a transport id that is not empty and is
the id of a transport of the description; a media line for which
`fillMediaLine` finds no such transport is therefore not among them. This
holds for whatever `fillCapabilities` computes. -/
theorem media_lines_reference_transports (ext : External)
    (fillCapabilities : Locations → SDP → MLine → Description → MediaLine →
      Except SDPError (Capabilities × Capabilities))
    (location : Locations) (sdp : SDP) (ioDescription : Description) :
    (∀ description,
      createRTPMediaLines ext fillCapabilities location sdp ioDescription = .ok description →
        description.mTransports = ioDescription.mTransports ∧
        ∃ added, description.mRTPMediaLines = ioDescription.mRTPMediaLines ++ added ∧
          ∀ line ∈ added, line.toMediaLine.referencesTransport description.mTransports) ∧
    (∀ description,
      createSCTPMediaLines ext location sdp ioDescription = .ok description →
        description.mTransports = ioDescription.mTransports ∧
        ∃ added, description.mSCTPMediaLines = ioDescription.mSCTPMediaLines ++ added ∧
          ∀ line ∈ added, line.toMediaLine.referencesTransport description.mTransports) :=
  ⟨fun description h =>
      createRTPMediaLinesFrom_transport ext fillCapabilities location sdp sdp.mMLines
        ioDescription 0 description h,
    fun description h =>
      createSCTPMediaLinesFrom_transport ext sdp sdp.mMLines ioDescription 0 description h⟩

/-- The statement of C19 on the folded `SDP` `iceSDP`: with the transport `a1`
in the description, `createRTPMediaLines` appends one media line, whose
transport id is `a1`; with no transport in the description it appends none. -/
theorem media_lines_reference_transports_witness :
    createRTPMediaLines modelExternal modelFillCapabilities Location_Local iceSDP
      transportDescription = .ok transportDescriptionWithMediaLines ∧
    transportDescriptionWithMediaLines.mRTPMediaLines.map
      (fun line => line.toMediaLine.mTransportID) = ["a1".toList] ∧
    createRTPMediaLines modelExternal modelFillCapabilities Location_Local iceSDP {} = .ok {} ∧
    (transportDescriptionWithMediaLines.mTransports = transportDescription.mTransports ∧
      ∃ added, transportDescriptionWithMediaLines.mRTPMediaLines =
          transportDescription.mRTPMediaLines ++ added ∧
        ∀ line ∈ added, line.toMediaLine.referencesTransport
          transportDescriptionWithMediaLines.mTransports) :=
  ⟨by rfl, by rfl, by rfl,
    (media_lines_reference_transports modelExternal modelFillCapabilities Location_Local iceSDP
      transportDescription).1 transportDescriptionWithMediaLines (by rfl)⟩

/-- C20. The sender that `createRTPSenderLines` appends does not reference a
media line of the description. The search for the media line of a sender
skips the media lines whose id is the sender's media line id and takes the
first other one. For the folded media line `iceMLine`, whose mid is `a1`: when
the only RTP media line of the description is `v1`, a sender with media line
id `a1` is appended; when it is `a1`, no sender is appended. -/
theorem sender_references_other_media_line :
    (∀ mRTPMediaLineID lines found, findMediaLine mRTPMediaLineID lines = some found →
      found ∈ lines ∧ found.toMediaLine.mID ≠ mRTPMediaLineID) ∧
    (createRTPSenderLines modelExternal Location_Local iceSDP otherMediaLineDescription).map
      (fun d => (d.mRTPSenders.map (fun sender => sender.mRTPMediaLineID),
                 d.mRTPMediaLines.map (fun line => line.toMediaLine.mID))) =
      .ok (["a1".toList], ["v1".toList]) ∧
    (createRTPSenderLines modelExternal Location_Local iceSDP ownMediaLineDescription).map
      (fun d => (d.mRTPSenders.map (fun sender => sender.mRTPMediaLineID),
                 d.mRTPMediaLines.map (fun line => line.toMediaLine.mID))) =
      .ok ([], ["a1".toList]) :=
  ⟨findMediaLine_spec, by rfl, by rfl⟩

/-- C22, as the claim states it, fails. The media line `a0` is in the group
`BUNDLE v0 a0`; with a description whose only transport is `a0`, its
transport id is `a0` and not the first tag `v0`. With a second group
`BUNDLE x0 a0` and transports for all three tags, its transport id is the
first tag of the first group and not that of the second. -/
theorem bundle_first_tag_without_transport :
    AGroupLine.AGroupLine "BUNDLE v0 a0".toList = .ok bundleGroupLine ∧
    bundleSDP.mAGroupLines = [bundleGroupLine] ∧
    bundleAudioMLine.mAMIDLine = some { mMID := "a0".toList } ∧
    (fillMediaLine modelExternal 1 bundleSDP bundleAudioMLine audioTransportDescription).map
        (fun mediaLine => mediaLine.mTransportID) = .ok "a0".toList ∧
    (fillMediaLine modelExternal 1 twoBundlesSDP bundleAudioMLine threeTransportDescription).map
        (fun mediaLine => mediaLine.mTransportID) = .ok "v0".toList :=
  ⟨by rfl, rfl, rfl, by rfl, by rfl⟩

/-- C22, amended. The function `fillMediaLine` returns unless the port of the
media line does not fit 16 bits. When the mid of the media line is among the
identification tags of a group line with the semantic `BUNDLE`, and the
description has a transport whose id is the first identification tag of the
first such group, the transport id is that tag; otherwise, and for a media
line whose mid is in no `BUNDLE` group, the transport id is the private
transport id of the media line. The identification tags are taken not to be
empty strings, as the group line constructor leaves them. -/
theorem fillMediaLine_bundle_transport (ext : External) (index : Nat) (sdp : SDP)
    (mline : MLine) (description : Description)
    (htags : ∀ group ∈ sdp.mAGroupLines, ∀ tag ∈ group.mIdentificationTags, tag ≠ []) :
    (fillMediaLine ext index sdp mline description).map
        (fun mediaLine => mediaLine.mTransportID) =
      (safeInt 16 mline.mPort).map (fun _ =>
        match bundleTransportID sdp mline with
        | some first =>
          if description.hasTransport first then first
          else privateTransportID ext index mline description
        | none => privateTransportID ext index mline description) := by
  unfold fillMediaLine
  cases hport : safeInt 16 mline.mPort with
  | error e => simp [bind, Except.bind, Except.map]
  | ok mPort =>
    simp only [bind, Except.bind, pure, Except.pure, Except.map, Except.ok.injEq]
    unfold bundleTransportID privateTransportID Description.hasTransport
    cases hmid : mline.mAMIDLine with
    | none => simp
    | some aMIDLine =>
      simp only []
      rw [findBundleID_spec aMIDLine.mMID sdp.mAGroupLines htags]
      cases hgroup : bundleGroupOf aMIDLine.mMID sdp.mAGroupLines with
      | none => simp
      | some group =>
        have hhead := bundleGroupOf_head aMIDLine.mMID sdp.mAGroupLines group htags hgroup
        simp only [Option.map_some']
        by_cases hfound : description.mTransports.any
            (fun transport => transport.mID = group.mIdentificationTags.headD []) = true
        · simp only [ne_eq, hhead, not_false_eq_true, decide_True, hfound, Bool.and_self,
            Bool.not_true, Bool.false_eq_true, and_false, if_false, if_true]
        · simp only [ne_eq, hhead, not_false_eq_true, decide_True, hfound, Bool.and_false,
            Bool.not_false, and_self, if_true, if_false, Bool.false_eq_true]

/-- The statement of C22, amended, on the media lines `v0` and `a0` with the
group line `a=group:BUNDLE v0 a0` and a description with the transports `v0`
and `a0`: both media lines get the transport id `v0`. -/
theorem fillMediaLine_bundle_transport_witness :
    (∀ group ∈ bundleSDP.mAGroupLines, ∀ tag ∈ group.mIdentificationTags, tag ≠ []) ∧
    (fillMediaLine modelExternal 1 bundleSDP bundleAudioMLine bundleDescription).map
        (fun mediaLine => mediaLine.mTransportID) =
      (safeInt 16 bundleAudioMLine.mPort).map (fun _ =>
        match bundleTransportID bundleSDP bundleAudioMLine with
        | some first =>
          if bundleDescription.hasTransport first then first
          else privateTransportID modelExternal 1 bundleAudioMLine bundleDescription
        | none => privateTransportID modelExternal 1 bundleAudioMLine bundleDescription) ∧
    (fillMediaLine modelExternal 1 bundleSDP bundleAudioMLine bundleDescription).map
        (fun mediaLine => mediaLine.mTransportID) = .ok "v0".toList ∧
    (fillMediaLine modelExternal 0 bundleSDP bundleVideoMLine bundleDescription).map
        (fun mediaLine => mediaLine.mTransportID) = .ok "v0".toList :=
  ⟨by decide,
   fillMediaLine_bundle_transport modelExternal 1 bundleSDP bundleAudioMLine bundleDescription
     (by decide),
   by rfl, by rfl⟩

/-- C23. The function `convertCandidates` converts the candidate lines one by
one and fails with the error of the first line that does not convert;
otherwise it appends to the RTP candidate list the candidates of the lines
whose component id is 0 and to the candidates of the RTCP parameters those of
the lines whose component id is not 0, both in the order of the lines, the
RTCP parameters being allocated when they are absent and such a line
exists. -/
theorem convertCandidates_splits_by_component (ext : External) (lines : List ACandidateLine)
    (outRTPCandidates : List ICECandidate) (ioRTCPTransport : Option TransportParameters) :
    convertCandidates ext lines outRTPCandidates ioRTCPTransport =
      (convertEach ext lines).map (fun pairs =>
        (outRTPCandidates ++ componentZeroCandidates pairs,
         appendToRTCP ioRTCPTransport (componentNonzeroCandidates pairs))) := by
  induction lines generalizing outRTPCandidates ioRTCPTransport with
  | nil =>
    simp [convertCandidates, convertEach, Except.map, componentZeroCandidates,
      componentNonzeroCandidates, appendToRTCP]
  | cons acandidate rest ih =>
    unfold convertCandidates convertEach
    cases hc : convertCandidate ext acandidate with
    | error e => simp [bind, Except.bind, Except.map]
    | ok candidate =>
      simp only [bind, Except.bind]
      by_cases h0 : 0 = acandidate.mComponentID
      · rw [if_pos h0, ih]
        cases convertEach ext rest with
        | error e => simp [Except.map]
        | ok others =>
          simp [Except.map, componentZeroCandidates, componentNonzeroCandidates, ← h0]
      · rw [if_neg h0, ih]
        cases convertEach ext rest with
        | error e => simp [Except.map]
        | ok others =>
          have h1 : ¬ acandidate.mComponentID = 0 := fun h => h0 h.symm
          simp only [Except.map, componentZeroCandidates, componentNonzeroCandidates,
            List.filter_cons, h1, decide_False, Bool.false_eq_true, if_false, ne_eq,
            not_false_eq_true, decide_True, if_true, List.map_cons]
          exact congrArg (fun r => Except.ok (_, r)) (appendToRTCP_cons ioRTCPTransport candidate _)

/-- C24. For a media line with two candidate lines, with the component ids 1
and 2, the transport lowering does not put the component-1 candidate among
the RTP candidates: `convertCandidates` tests the component id against 0, so
the RTP candidate list is empty and both candidates are among the candidates
of the RTCP parameters. For every candidate list without a component id 0 the
RTP candidate list is left as it was. -/
theorem component_one_candidate_in_rtcp :
    ACandidateLine.ACandidateLine (some 0) rtpCandidateValue = .ok rtpCandidateLine ∧
    ACandidateLine.ACandidateLine (some 0) rtcpCandidateValue = .ok rtcpCandidateLine ∧
    rtpCandidateLine.mComponentID = 1 ∧ rtcpCandidateLine.mComponentID = 2 ∧
    createTransport modelExternal twoCandidateSDP 0 twoCandidateMLine =
      .ok (some twoCandidateTransport) ∧
    twoCandidateTransport.mRTP.map (fun rtp => rtp.mICECandidates) = some [] ∧
    twoCandidateTransport.mRTCP.map (fun rtcp => rtcp.mICECandidates.map (fun c => c.mPort)) =
      some [9, 10] ∧
    (∀ (ext : External) (lines : List ACandidateLine) (outRTPCandidates out1 : List ICECandidate)
        (ioRTCPTransport rtcp1 : Option TransportParameters),
      (∀ line ∈ lines, line.mComponentID ≠ 0) →
      convertCandidates ext lines outRTPCandidates ioRTCPTransport = .ok (out1, rtcp1) →
      out1 = outRTPCandidates) := by
  refine ⟨by rfl, by rfl, rfl, rfl, by rfl, by rfl, by rfl, ?_⟩
  intro ext lines
  induction lines with
  | nil =>
    intro out out1 rtcp rtcp1 _ h
    simp only [convertCandidates, Except.ok.injEq, Prod.mk.injEq] at h
    exact h.1.symm
  | cons line rest ih =>
    intro out out1 rtcp rtcp1 hall h
    unfold convertCandidates at h
    rw [bind_eq_ok] at h
    obtain ⟨candidate, _, h⟩ := h
    have h0 : ¬ 0 = line.mComponentID := fun h0 => hall line (List.mem_cons_self _ _) h0.symm
    rw [if_neg h0] at h
    exact ih out out1 _ rtcp1 (fun l hl => hall l (List.mem_cons_of_mem _ hl)) h

/-- C25. The function `toDtlsRole` gives the client role on a setup value that
equals `active` without regard to case, the server role on `passive` and the
automatic role on `actpass` and on `holdconn`; on these values it returns
before its loop reads past the tables. A transport that the lowering builds
for a media line with fingerprint lines has DTLS parameters whose role is the
value of `toDtlsRole` on the setup value of the media line, and the automatic
role when the media line has no setup line. The transports of the media lines
with the setup values `ACTIVE`, `passive`, `ActPass`, `holdconn` and without
setup line are built with these roles. -/
theorem dtls_role_of_setup :
    (∀ setup, equalNoCase setup "active".toList = true → toDtlsRole setup = .ok Role_Client) ∧
    (∀ setup, equalNoCase setup "passive".toList = true → toDtlsRole setup = .ok Role_Server) ∧
    (∀ setup, equalNoCase setup "actpass".toList = true → toDtlsRole setup = .ok Role_Auto) ∧
    (∀ setup, equalNoCase setup "holdconn".toList = true → toDtlsRole setup = .ok Role_Auto) ∧
    (∀ (ext : External) (sdp : SDP) (index : Nat) (mline : MLine) (transport : Transport),
      mline.mAFingerprintLines ≠ [] →
      createTransport ext sdp index mline = .ok (some transport) →
      ∃ rtp dtls, transport.mRTP = some rtp ∧ rtp.mDTLSParameters = some dtls ∧
        match mline.mASetupLine with
        | some aSetupLine => toDtlsRole aSetupLine.mSetup = .ok dtls.mRole
        | none => dtls.mRole = Role_Auto) ∧
    transportRole modelExternal iceSDP 0 (setupMLine (some "ACTIVE".toList)) =
      .ok (some Role_Client) ∧
    transportRole modelExternal iceSDP 0 (setupMLine (some "passive".toList)) =
      .ok (some Role_Server) ∧
    transportRole modelExternal iceSDP 0 (setupMLine (some "ActPass".toList)) =
      .ok (some Role_Auto) ∧
    transportRole modelExternal iceSDP 0 (setupMLine (some "holdconn".toList)) =
      .ok (some Role_Auto) ∧
    transportRole modelExternal iceSDP 0 (setupMLine none) = .ok (some Role_Auto) := by
  refine ⟨?_, ?_, ?_, ?_, ?_, by rfl, by rfl, by rfl, by rfl, by rfl⟩
  · intro setup h
    simp only [toDtlsRole, toDtlsRoleLoop, h, if_true, Bool.false_eq_true, if_false]
  · intro setup h
    have h1 := equalNoCase_other setup _ "active".toList h (by decide)
    simp only [toDtlsRole, toDtlsRoleLoop, h, h1, if_true, Bool.false_eq_true, if_false]
  · intro setup h
    have h1 := equalNoCase_other setup _ "active".toList h (by decide)
    have h2 := equalNoCase_other setup _ "passive".toList h (by decide)
    simp only [toDtlsRole, toDtlsRoleLoop, h, h1, h2, if_true, Bool.false_eq_true, if_false]
  · intro setup h
    have h1 := equalNoCase_other setup _ "active".toList h (by decide)
    have h2 := equalNoCase_other setup _ "passive".toList h (by decide)
    have h3 := equalNoCase_other setup _ "actpass".toList h (by decide)
    simp only [toDtlsRole, toDtlsRoleLoop, h, h1, h2, h3, if_true, Bool.false_eq_true, if_false]
  · intro ext sdp index mline transport hf h
    exact createTransport_role ext sdp index mline transport hf h

/-- C26, as the claim states it, fails. At the remote location, an `extmap`
line of direction send is not applicable to a sender and is applicable to a
receiver, yet `fillCapabilities` puts its header extension into the sender
capabilities and not into the receiver capabilities. -/
theorem remote_extmap_in_sender_capabilities :
    fillCapabilities modelExternal modelRTPTypes Location_Remote extmapSDP extmapMLine {} {} =
      .ok extmapCapabilities ∧
    extmapMLine.mAExtmapLines.map (fun extmap => extmap.mDirection) = [Direction_Send] ∧
    isApplicable ActorRole_Sender Location_Remote Direction_Send = false ∧
    isApplicable ActorRole_Receiver Location_Remote Direction_Send = true ∧
    extmapCapabilities.1.mHeaderExtensions =
      [{ mKind := "audio".toList, mPreferredID := 1,
         mURI := "urn:ietf:params:rtp-hdrext:ssrc-audio-level".toList }] ∧
    extmapCapabilities.2.mHeaderExtensions = [] :=
  ⟨by rfl, by rfl, by rfl, by rfl, by rfl, by rfl⟩

/-- C26, amended. For every location and every media line whose media kind is
audio or video, the header extensions that `fillCapabilities` puts into the
sender capabilities are those of the `extmap` lines of the media line that are
applicable to a sender at the local location, and those it puts into the
receiver capabilities are those of the lines applicable to a receiver at the
local location, in the order of the lines; the location is not consulted. -/
theorem fillCapabilities_header_extensions (ext : External) (rtp : RTPTypes)
    (location : Locations) (sdp : SDP) (mline : MLine) (description : Description)
    (mediaLine : MediaLine) (senderCapabilities receiverCapabilities : Capabilities)
    (hkind : rtp.toCodecKind mline.mMedia = CodecKind_Audio ∨
      rtp.toCodecKind mline.mMedia = CodecKind_Video)
    (h : fillCapabilities ext rtp location sdp mline description mediaLine =
      .ok (senderCapabilities, receiverCapabilities)) :
    senderCapabilities.mHeaderExtensions =
      (mline.mAExtmapLines.filter (fun extmap =>
        isApplicable ActorRole_Sender Location_Local extmap.mDirection)).map
        (headerExtensionOf rtp mline) ∧
    receiverCapabilities.mHeaderExtensions =
      (mline.mAExtmapLines.filter (fun extmap =>
        isApplicable ActorRole_Receiver Location_Local extmap.mDirection)).map
        (headerExtensionOf rtp mline) := by
  unfold fillCapabilities at h
  simp only [] at h
  have hk : ¬ (CodecKind_Audio ≠ rtp.toCodecKind mline.mMedia ∧
      CodecKind_Video ≠ rtp.toCodecKind mline.mMedia) := by
    rcases hkind with hk | hk <;> simp [hk]
  rw [if_neg hk] at h
  rw [bind_eq_ok] at h
  obtain ⟨state, _, h⟩ := h
  rw [bind_eq_ok] at h
  obtain ⟨⟨senderExtensions, receiverExtensions⟩, hext, h⟩ := h
  simp only [pure, Except.pure, Except.ok.injEq, Prod.mk.injEq] at h
  obtain ⟨h1, h2⟩ := h
  obtain ⟨hs, hr⟩ := fillHeaderExtensions_spec rtp _ _ _ _ hext
  rw [← h1, ← h2]
  exact ⟨hs, hr⟩

/-- The statement of C26, amended, on the media line `extmapMLine` at the
remote location. -/
theorem fillCapabilities_header_extensions_witness :
    (modelRTPTypes.toCodecKind extmapMLine.mMedia = CodecKind_Audio ∨
      modelRTPTypes.toCodecKind extmapMLine.mMedia = CodecKind_Video) ∧
    fillCapabilities modelExternal modelRTPTypes Location_Remote extmapSDP extmapMLine {} {} =
      .ok (extmapCapabilities.1, extmapCapabilities.2) ∧
    extmapCapabilities.1.mHeaderExtensions =
      (extmapMLine.mAExtmapLines.filter (fun extmap =>
        isApplicable ActorRole_Sender Location_Local extmap.mDirection)).map
        (headerExtensionOf modelRTPTypes extmapMLine) ∧
    extmapCapabilities.2.mHeaderExtensions =
      (extmapMLine.mAExtmapLines.filter (fun extmap =>
        isApplicable ActorRole_Receiver Location_Local extmap.mDirection)).map
        (headerExtensionOf modelRTPTypes extmapMLine) :=
  ⟨Or.inl (by rfl), by rfl,
   fillCapabilities_header_extensions modelExternal modelRTPTypes Location_Remote extmapSDP
     extmapMLine {} {} extmapCapabilities.1 extmapCapabilities.2 (Or.inl (by rfl)) (by rfl)⟩

/-- C27. Format-specific lowering of an rtx codec fails on the `fmtp` value
`96 apt=100;rtx-time=200`, and on `96 apt=100`, although the key `apt` is
present: the `fmtp` constructor keeps the payload type among the format
strings, and every round of `fixIntoCodecSpecificList` splits the whole
combined string at `=`, so the only key ever met is `96;apt`. On
`96 rtx-time=200` it fails as well. Whatever the format strings, all the pairs
that `fixIntoCodecSpecificList` yields are the same pair. With the key and
value pair `apt`, `100` the loop of the rtx case does find the payload
type 100. -/
theorem rtx_apt_is_not_found :
    AFMTPLine.AFMTPLine (some 0) none "96 apt=100;rtx-time=200".toList = .ok rtxFmtpLine ∧
    AFMTPLine.AFMTPLine (some 0) none "96 apt=100".toList = .ok aptFmtpLine ∧
    AFMTPLine.AFMTPLine (some 0) none "96 rtx-time=200".toList = .ok rtxTimeFmtpLine ∧
    fixIntoCodecSpecificList modelExternal rtxFmtpLine.mFormatSpecific =
      .ok (List.replicate 3 ("96;apt".toList, "100;rtx-time".toList)) ∧
    (∀ (rtp : RTPTypes) (codecCapability : CodecCapability),
      fillCodecFormatSpecific modelExternal rtp SupportedCodec_RTX codecCapability rtxFmtpLine =
        .error .InvalidParameters) ∧
    (∀ (rtp : RTPTypes) (codecCapability : CodecCapability),
      fillCodecFormatSpecific modelExternal rtp SupportedCodec_RTX codecCapability aptFmtpLine =
        .error .InvalidParameters) ∧
    (∀ (rtp : RTPTypes) (codecCapability : CodecCapability),
      fillCodecFormatSpecific modelExternal rtp SupportedCodec_RTX codecCapability
        rtxTimeFmtpLine = .error .InvalidParameters) ∧
    (∀ (ext : External) (formatSpecificList : List (List Char))
        (keyValues : List (List Char × List Char)),
      fixIntoCodecSpecificList ext formatSpecificList = .ok keyValues →
      ∀ pair ∈ keyValues, ∀ other ∈ keyValues, pair = other) ∧
    forKeyValues (rtxKeyValue modelRTPTypes) ({}, false)
        [("apt".toList, "100".toList), ("rtx-time".toList, "200".toList)] =
      .ok ({ mApt := 100, mRTXTime := 200 }, true) := by
  refine ⟨by rfl, by rfl, by rfl, by rfl, fun _ _ => by rfl, fun _ _ => by rfl,
    fun _ _ => by rfl, ?_, by rfl⟩
  intro ext formatSpecificList keyValues h pair hpair other hother
  unfold fixIntoCodecSpecificList at h
  have hsame := fixIntoCodecSpecificListLoop_same _ _ _ h
  rw [hsame] at hpair hother
  rw [List.eq_of_mem_replicate hpair, List.eq_of_mem_replicate hother]

/-- C28. The simulcast line parser does not succeed on any value. Its loop
advances by one string and not by two, so that the alternatives of a pair are
read again as a direction, and the last string is read as a direction with
no alternatives after it. On `send 1;~2,3 recv 4` the first round reads
direction send with the alternatives `[[1],[2 (paused), 3]]`, and the second
round fails on the direction `1;~2,3`. -/
theorem simulcast_line_never_parses :
    (∀ mline value, ∃ e, ASimulcastLine.ASimulcastLine mline value = .error e) ∧
    (∃ e, ASimulcastLine.ASimulcastLine none "send 1;~2,3 recv 4".toList = .error e) ∧
    simulcastValue "send".toList "1;~2,3".toList =
      .ok { mDirection := Direction_Send,
            mAltSCIDs := [[{ mRID := "1".toList }],
                          [{ mPaused := true, mRID := "2".toList }, { mRID := "3".toList }]] } ∧
    (∃ e, simulcastValue "1;~2,3".toList "recv".toList = .error e) := by
  have general : ∀ mline value, ∃ e, ASimulcastLine.ASimulcastLine mline value = .error e := by
    intro mline value
    unfold ASimulcastLine.ASimulcastLine
    by_cases h2 : (splitPruneEmpty (splitTrim (split value ' '))).size < 2
    · exact ⟨.InvalidParameters, by simp [bind, Except.bind, throwInvalidParametersIf, h2]⟩
    · by_cases hodd : 0 ≠ (splitPruneEmpty (splitTrim (split value ' '))).size % 2
      · exact ⟨.InvalidParameters,
          by simp [bind, Except.bind, throwInvalidParametersIf, h2, hodd]⟩
      · have hne : (splitPruneEmpty (splitTrim (split value ' '))).values ≠ [] := by
          intro hnil
          apply h2
          have : (splitPruneEmpty (splitTrim (split value ' '))).length = 0 := by
            simpa [SplitMap.values] using congrArg List.length hnil
          simp [SplitMap.size, this]
        obtain ⟨e, he⟩ := simulcastValues_fails _ hne
        exact ⟨e, by simp [bind, Except.bind, throwInvalidParametersIf, h2, hodd, he]⟩
  exact ⟨general, general none _, by rfl, ⟨.UndefinedBehaviour, by rfl⟩⟩

/-- C29. The candidate line parser rejects every value with fewer than 8
fields and every value with more than 10 fields whose fields after the tenth
are odd in number. A candidate line that it returns has one extension pair for
every two fields from index 10 on, the pair at position `i` holding the fields
at the indexes `10 + 2 * i` and `10 + 2 * i + 1`. The fields are the strings
that the constructor's split at the space character leaves. A value with
twelve fields gives its one pair, and values with seven and with eleven fields
are rejected. -/
theorem candidate_line_fields (mline : MLinePtr) (value : List Char) :
    ((candidateFields value).length < 8 →
      ACandidateLine.ACandidateLine mline value = .error .InvalidParameters) ∧
    (10 < (candidateFields value).length → ((candidateFields value).length - 10) % 2 = 1 →
      ACandidateLine.ACandidateLine mline value = .error .InvalidParameters) ∧
    (∀ line, ACandidateLine.ACandidateLine mline value = .ok line →
      ((candidateFields value).length - 10) % 2 = 0 ∧
      line.mExtensionPairs.length = ((candidateFields value).length - 10) / 2 ∧
      ∀ i, i < line.mExtensionPairs.length →
        line.mExtensionPairs.get? i =
          some ((candidateFields value).getD (10 + 2 * i) [],
                (candidateFields value).getD (10 + 2 * i + 1) [])) ∧
    (ACandidateLine.ACandidateLine none candidateValueTwelve).map
        (fun line => line.mExtensionPairs) = .ok [("generation".toList, "0".toList)] ∧
    ACandidateLine.ACandidateLine none "f 1 udp 5 10.0.0.1 9 typ".toList =
      .error .InvalidParameters ∧
    ACandidateLine.ACandidateLine none "f 1 udp 5 10.0.0.1 9 typ relay 10.0.0.2 7 generation".toList =
      .error .InvalidParameters := by
  refine ⟨?_, ?_, ?_, by rfl, by rfl, by rfl⟩
  · intro h
    rw [candidateFields_length] at h
    unfold ACandidateLine.ACandidateLine
    simp only [throwInvalidParametersIf, h, decide_True, if_true]
    rfl
  · intro h10 hodd
    rw [candidateFields_length] at h10 hodd
    have h8 : ¬ (splitPruneEmpty (splitTrim (split value ' '))).size < 8 := by omega
    have h2 : decide (0 ≠ (splitPruneEmpty (splitTrim (split value ' '))).size % 2) = true :=
      decide_eq_true (by omega)
    unfold ACandidateLine.ACandidateLine
    simp only [throwInvalidParametersIf, h8, decide_False, gt_iff_lt, h10, decide_True, h2,
      Bool.and_self, if_true]
    rfl
  · intro line h
    obtain ⟨hpairs, heven⟩ := candidateLine_mExtensionPairs mline value line h
    obtain ⟨hlen, hget⟩ := extensionPairs_spec ((candidateFields value).drop 10)
    rw [hpairs]
    refine ⟨heven, ?_, ?_⟩
    · rw [hlen, List.length_drop]; omega
    · intro i hi
      rw [hget i hi, List.getD_eq_getElem?_getD, List.getD_eq_getElem?_getD,
        List.getD_eq_getElem?_getD, List.getD_eq_getElem?_getD, List.getElem?_drop,
        List.getElem?_drop]
      rfl

/-- C30. The `rtpmap` line parser does not yield the fields the claim names.
It reads the clock rate from the first string between the slashes, where the
encoding name stands, and the encoding parameters from the second, and never
assigns the encoding name. On `111 opus/48000/2` it throws, `opus` being no
number; whenever it succeeds the encoding name is empty; on `111 48000/2` it
yields payload type 111, clock rate 48000 and encoding parameters 2. -/
theorem rtpmap_line_reads_name_as_clock_rate :
    ARTPMapLine.ARTPMapLine none "111 opus/48000/2".toList = .error .InvalidParameters ∧
    ARTPMapLine.ARTPMapLine none "111 opus/48000".toList = .error .InvalidParameters ∧
    ARTPMapLine.ARTPMapLine none "111 opus".toList = .error .InvalidParameters ∧
    (∀ mline value line, ARTPMapLine.ARTPMapLine mline value = .ok line →
      line.mEncodingName = []) ∧
    ARTPMapLine.ARTPMapLine none "111 48000/2".toList =
      .ok { mPayloadType := 111, mEncodingName := [], mClockRate := 48000,
            mEncodingParameters := some 2 } :=
  ⟨by rfl, by rfl, by rfl, rtpMapLine_mEncodingName, by rfl⟩

/-- C31. The formats of a media line that the parser returns are the fields
from the fifth on: the copying loop starts at index 4, so that the first
format, the field after the protocol, is left out. The media and the protocol
string are the first and the third field. On `audio 9 UDP/TLS/RTP/SAVPF 111`
the formats are empty, and on `audio 9 UDP/TLS/RTP/SAVPF 111 0 8` they are
`0`, `8`. -/
theorem mline_formats_skip_first :
    (∀ (value : List Char) (line : MLine), MLine.MLine value = .ok line →
      4 ≤ (spaceFields value).length ∧
        line.mMedia = (spaceFields value).getD 0 [] ∧
        line.mProtoStr = (spaceFields value).getD 2 [] ∧
        line.mFmts = (spaceFields value).drop 4) ∧
    MLine.MLine "audio 9 UDP/TLS/RTP/SAVPF 111".toList =
      .ok { mMedia := "audio".toList, mPort := 9, mProtoStr := "UDP/TLS/RTP/SAVPF".toList,
            mProto := ProtocolType_RTP, mFmts := [] } ∧
    (MLine.MLine "audio 9 UDP/TLS/RTP/SAVPF 111 0 8".toList).map (fun line => line.mFmts) =
      .ok ["0".toList, "8".toList] ∧
    spaceFields "audio 9 UDP/TLS/RTP/SAVPF 111 0 8".toList =
      ["audio".toList, "9".toList, "UDP/TLS/RTP/SAVPF".toList, "111".toList, "0".toList,
       "8".toList] :=
  ⟨mline_mFmts, by rfl, by rfl, by rfl⟩

/-- C32. The rid line parser throws on `1 send pt=96,97;max-width=640`. Its
test `if (keyValueSplit[0].compare("pt"))` holds when the key is not `pt`, so
that the payload type branch is taken for every other key, and there the loop
reads the whole parameter text as a payload type. Whenever the parser
returns, it has recorded no payload type and the key of every recorded
parameter is `pt`: on `1 send pt=96,97` it yields the parameter `pt`,
`96,97` and no payload type, and on `1 send max-width=640` it throws. -/
theorem rid_line_pt_is_a_param :
    ARIDLine.ARIDLine none "1 send pt=96,97;max-width=640".toList = .error .InvalidParameters ∧
    ARIDLine.ARIDLine none "1 send max-width=640".toList = .error .InvalidParameters ∧
    ARIDLine.ARIDLine none "1 send pt=96,97".toList =
      .ok { mID := "1".toList, mDirection := Direction_Send,
            mParams := [("pt".toList, "96,97".toList)], mPayloadTypes := [] } ∧
    (∀ (mline : MLinePtr) (value : List Char) (line : ARIDLine),
      ARIDLine.ARIDLine mline value = .ok line →
      line.mPayloadTypes = [] ∧ ∀ pair ∈ line.mParams, pair.1 = "pt".toList) := by
  refine ⟨by rfl, by rfl, by rfl, ?_⟩
  intro mline value line h
  unfold ARIDLine.ARIDLine at h
  simp only [] at h
  rw [bind_eq_ok] at h
  obtain ⟨_, _, h⟩ := h
  rw [bind_eq_ok] at h
  obtain ⟨_, _, h⟩ := h
  rw [bind_eq_ok] at h
  obtain ⟨_, _, h⟩ := h
  rw [bind_eq_ok] at h
  obtain ⟨_, _, h⟩ := h
  rw [bind_eq_ok] at h
  obtain ⟨⟨mParams, mPayloadTypes⟩, hparams, h⟩ := h
  simp only [pure, Except.pure, Except.ok.injEq] at h
  subst h
  obtain ⟨h1, _, h3⟩ := ridParams_spec _ _ _ hparams
  exact ⟨h1, h3⟩

/-- C33. For format parameters `k1=v1;k2=v2;...` with two parameters or more,
`fixIntoCodecSpecificList` does not give the pairs `(k1,v1)`, `(k2,v2)`, ...:
every round of its loop over the strings between the semicolons splits the
whole text at `=` and not the string of the round, so that it gives the pair
of `k1` and of the text between the first and the second `=`, once for every
string. Whatever the text, all pairs it gives are the same pair. For a single
parameter `k1=v1` it gives `(k1,v1)`, and for a single string without `=` the
string with an empty value. -/
theorem fixIntoCodecSpecificList_repeats_first_pair :
    fixIntoCodecSpecificList modelExternal ["k1=v1;k2=v2".toList] =
      .ok [("k1".toList, "v1;k2".toList), ("k1".toList, "v1;k2".toList)] ∧
    fixIntoCodecSpecificList modelExternal ["apt=100;rtx-time=200".toList] =
      .ok [("apt".toList, "100;rtx-time".toList), ("apt".toList, "100;rtx-time".toList)] ∧
    fixIntoCodecSpecificList modelExternal ["k1=v1".toList, "k2=v2".toList, "k3=v3".toList] =
      .ok (List.replicate 3 ("k1".toList, "v1;k2".toList)) ∧
    (∀ (ext : External) (formatSpecificList : List (List Char))
        (keyValues : List (List Char × List Char)),
      fixIntoCodecSpecificList ext formatSpecificList = .ok keyValues →
      keyValues = List.replicate keyValues.length
        ((splitPruneEmpty (splitTrim (split (ext.combine formatSpecificList ';') '='))).get 0,
         if (splitPruneEmpty (splitTrim (split (ext.combine formatSpecificList ';') '='))).size > 1
         then (splitPruneEmpty (splitTrim (split (ext.combine formatSpecificList ';') '='))).get 1
         else [])) ∧
    fixIntoCodecSpecificList modelExternal ["k1=v1".toList] = .ok [("k1".toList, "v1".toList)] ∧
    fixIntoCodecSpecificList modelExternal ["piece".toList] = .ok [("piece".toList, [])] := by
  refine ⟨by rfl, by rfl, by rfl, ?_, by rfl, by rfl⟩
  intro ext formatSpecificList keyValues h
  unfold fixIntoCodecSpecificList at h
  have hsame := fixIntoCodecSpecificListLoop_same _ _ _ h
  rw [hsame, List.length_replicate]

/-- C34. The format strings of an `fmtp` line that the parser returns are all
the fields of the value, the payload type included: the list has two elements,
the first is the payload type token and the second the parameter text. On
`96 apt=100` the list is `96`, `apt=100`. The RED lowering, which reads every
format string as a payload type of the redundancy, so finds the payload type
of the RED codec itself: for `116 111/112` it gives 116, 111, 112. -/
theorem fmtp_line_keeps_payload_type :
    (∀ (mline : MLinePtr) (sourceLine : ASSRCLinePtr) (value : List Char) (line : AFMTPLine),
      AFMTPLine.AFMTPLine mline sourceLine value = .ok line →
      line.mFormatSpecific = spaceFields value ∧ (spaceFields value).length = 2 ∧
        numericField 8 ((spaceFields value).getD 0 []) = .ok line.mFormat) ∧
    AFMTPLine.AFMTPLine (some 0) none "96 apt=100".toList = .ok aptFmtpLine ∧
    aptFmtpLine.mFormat = 96 ∧
    aptFmtpLine.mFormatSpecific = ["96".toList, "apt=100".toList] ∧
    AFMTPLine.AFMTPLine (some 0) none "116 111/112".toList = .ok redFmtpLine ∧
    redParametersOf modelExternal 116 [redFmtpLine] =
      .ok (some (.redCodecParameters [116, 111, 112])) :=
  ⟨fmtpLine_mFormatSpecific, by rfl, rfl, rfl, by rfl, by rfl⟩

/-- C35. The bandwidth line parser does not succeed on any value. It requires
the value to split at `:` into exactly two strings and then reads the
bandwidth from `split[2]`, a third string, which is absent and reads as the
empty string. On `AS:128` it throws. -/
theorem bandwidth_line_never_parses :
    (∀ mline value, BLine.BLine mline value = .error .InvalidParameters) ∧
    BLine.BLine none "AS:128".toList = .error .InvalidParameters ∧
    (splitPruneEmpty (splitTrim (split "AS:128".toList ':'))).values =
      ["AS".toList, "128".toList] ∧
    (splitPruneEmpty (splitTrim (split "AS:128".toList ':'))).get 2 = [] := by
  refine ⟨?_, by rfl, by rfl, by rfl⟩
  intro mline value
  unfold BLine.BLine
  simp only []
  by_cases hsize : 2 ≠ (splitPruneEmpty (splitTrim (split value ':'))).size
  · have hd : decide (2 ≠ (splitPruneEmpty (splitTrim (split value ':'))).size) = true :=
      decide_eq_true hsize
    simp only [throwInvalidParametersIf, hd, if_true]
    rfl
  · have hlen : (splitPruneEmpty (splitTrim (split value ':'))).values.length = 2 := by
      simp only [SplitMap.values, List.length_map]
      simp only [SplitMap.size, ne_eq, not_not] at hsize
      exact hsize.symm
    have hget : (splitPruneEmpty (splitTrim (split value ':'))).get 2 = [] := by
      rw [splitPruneEmpty_enum, get_enum]
      exact List.getD_eq_default _ _ (by omega)
    have hd : decide (2 ≠ (splitPruneEmpty (splitTrim (split value ':'))).size) = false :=
      decide_eq_false hsize
    simp only [throwInvalidParametersIf, hd, hget]
    rfl

/-- C36. For a media line with no `msid` lines, an `ssrc` line whose attribute
is `msid` and whose attribute values are a stream id and a track id contributes
nothing to the sender: `fillStreamIDs` skips every `ssrc` line that has fewer
than two `fmtp` lines, the list it tests in place of the attribute values. On
the `ssrc` line `1 msid s1 t1` the sender is left without stream id and without
track id; with two `fmtp` lines under the same `ssrc` line it gets the stream
id `s1` and the track id `t1`. -/
theorem ssrc_msid_line_contributes_nothing :
    ASSRCLine.ASSRCLine (some 0) "1 msid s1 t1".toList = .ok msidSSRCLine ∧
    msidSSRCMLine.mAMSIDLines = [] ∧
    fillStreamIDs msidSSRCSDP msidSSRCMLine {} = .ok {} ∧
    (∀ (sdp : SDP) (mline : MLine) (sender out : RTPSender),
      mline.mAMSIDLines = [] → sender.mMediaStreamIDs = [] →
      (∀ pointer ∈ mline.mASSRCLines, ∀ ssrcLine, sdp.assrcLine pointer = .ok ssrcLine →
        ssrcLine.mAFMTPLines.length < 2) →
      fillStreamIDs sdp mline sender = .ok out → out = sender) ∧
    fillStreamIDs msidSSRCWithFmtpSDP msidSSRCMLine {} =
      .ok { mMediaStreamTrackID := "t1".toList, mMediaStreamIDs := ["s1".toList] } := by
  refine ⟨by rfl, rfl, by rfl, ?_, by rfl⟩
  intro sdp mline sender out hmsid hids hfmtp h
  unfold fillStreamIDs at h
  simp only [hmsid, fillStreamIDsFromMSID, hids, List.length_nil, gt_iff_lt, lt_self_iff_false,
    if_false] at h
  exact fillStreamIDsFromSSRC_skips sdp _ sender out hfmtp h

/-- C37. The function `toProtocolType` classifies `UDP/TLS/RTP/SAVPF`, the
string of the RTP protocol type, as RTP, and `UDP/DTLS/SCTP`, the string of
the SCTP protocol type, as unknown: in the branch of a second string `DTLS`
both returns give `ProtocolType_Unknown`. The two-string form `DTLS/SCTP` is
classified as SCTP, and every string classified as SCTP starts with a string
`DTLS`. The media line `application 9 UDP/DTLS/SCTP 5000 5001` gets the
unknown protocol type. -/
theorem toProtocolType_of_sctp_string :
    toProtocolType ProtocolType_RTP.toString = .ok ProtocolType_RTP ∧
    ProtocolType_SCTP.toString = "UDP/DTLS/SCTP".toList ∧
    toProtocolType ProtocolType_SCTP.toString = .ok ProtocolType_Unknown ∧
    toProtocolType "DTLS/SCTP".toList = .ok ProtocolType_SCTP ∧
    (∀ proto, toProtocolType proto = .ok ProtocolType_SCTP →
      equalNoCase ((split proto '/').get 0) "DTLS".toList = true) ∧
    (MLine.MLine "application 9 UDP/DTLS/SCTP 5000 5001".toList).map
        (fun line => (line.mProtoStr, line.mProto)) =
      .ok ("UDP/DTLS/SCTP".toList, ProtocolType_Unknown) := by
  refine ⟨by rfl, rfl, by rfl, by rfl, ?_, by rfl⟩
  intro proto h
  unfold toProtocolType at h
  simp only [] at h
  split_ifs at h with h1 h2 h3 h4 h5 h6 h7 h8 h9 h10 h11 h12 h13 h14
  all_goals first
    | assumption
    | exact absurd h (by simp)

/-- C38. When the scope validator succeeds, every record it returns with a
known line type (and, for an `a=` record, a recognized attribute) that is
recorded at source scope is an `a=fmtp` record; every other such record is
recorded at session or at media scope, and an `a=ssrc` record at media
scope. -/
theorem validateAttributeLevels_source_is_fmtp (infos out : List LineTypeInfo)
    (h : validateAttributeLevels infos = .ok out) :
    ∀ r ∈ out, r.isKnown →
      (r.mAttributeLevel = AttributeLevel_Source →
        r.mLineType = LineType_a_Attributes ∧ r.mAttribute = Attirbute_FMTP) ∧
      (¬ (r.mLineType = LineType_a_Attributes ∧ r.mAttribute = Attirbute_FMTP) →
        r.mAttributeLevel = AttributeLevel_Session ∨
          r.mAttributeLevel = AttributeLevel_Media) ∧
      (r.mLineType = LineType_a_Attributes → r.mAttribute = Attribute_SSRC →
        r.mAttributeLevel = AttributeLevel_Media) := by
  intro r hr hknown
  have hallowed :=
    (validateAttributeLevelsFrom_spec AttributeLevel_Session infos out (Or.inl rfl) h).2 r hr
      hknown
  refine ⟨levelAllowed_source r hallowed, ?_, levelAllowed_ssrc r hallowed⟩
  intro hnot
  rcases hallowed.1 with hs | hm | hsrc
  · exact Or.inl hs
  · exact Or.inr hm
  · exact absurd (levelAllowed_source r hallowed hsrc) hnot

/-- The statement of C38 on the records `scopedRecords`, where an `a=ssrc`
record is followed by an `a=fmtp` record, recorded at source scope, and by an
`a=rtpmap` record, recorded at media scope. -/
theorem validateAttributeLevels_source_is_fmtp_witness :
    validateAttributeLevels scopedRecords = .ok scopedRecordsValidated ∧
    (∀ r ∈ scopedRecordsValidated, r.isKnown →
      (r.mAttributeLevel = AttributeLevel_Source →
        r.mLineType = LineType_a_Attributes ∧ r.mAttribute = Attirbute_FMTP) ∧
      (¬ (r.mLineType = LineType_a_Attributes ∧ r.mAttribute = Attirbute_FMTP) →
        r.mAttributeLevel = AttributeLevel_Session ∨
          r.mAttributeLevel = AttributeLevel_Media) ∧
      (r.mLineType = LineType_a_Attributes → r.mAttribute = Attribute_SSRC →
        r.mAttributeLevel = AttributeLevel_Media)) ∧
    scopedRecordsValidated.map (fun r => (r.mAttribute, r.mAttributeLevel)) =
      [(Attribute_Unknown, AttributeLevel_Session), (Attribute_Unknown, AttributeLevel_Session),
       (Attribute_MID, AttributeLevel_Media), (Attribute_SSRC, AttributeLevel_Media),
       (Attirbute_FMTP, AttributeLevel_Source), (Attribute_RTPMap, AttributeLevel_Media),
       (Attribute_Unknown, AttributeLevel_None), (Attribute_Unknown, AttributeLevel_Session),
       (Attribute_Unknown, AttributeLevel_Media)] :=
  ⟨by rfl,
   validateAttributeLevels_source_is_fmtp scopedRecords scopedRecordsValidated (by rfl),
   by rfl⟩

/-- C39. The candidate line parser reads the related port from the field at
index 9, the field it has read the related address from, and not from the
field at index 11. On a value `... raddr 10.0.0.2 rport 8000` it throws, the
address being no number; whenever it returns for ten fields or more, the
related port is the number that the related address denotes; on
`... raddr 7 rport 8000` it yields the related address `7`, the related port 7
and the extension pair `rport`, `8000`. -/
theorem candidate_rel_port_reads_rel_addr :
    candidateFields "1 1 udp 2130706431 192.0.2.1 9 typ srflx raddr 10.0.0.2 rport 8000".toList =
      ["1".toList, "1".toList, "udp".toList, "2130706431".toList, "192.0.2.1".toList, "9".toList,
       "typ".toList, "srflx".toList, "raddr".toList, "10.0.0.2".toList, "rport".toList,
       "8000".toList] ∧
    ACandidateLine.ACandidateLine none
        "1 1 udp 2130706431 192.0.2.1 9 typ srflx raddr 10.0.0.2 rport 8000".toList =
      .error .InvalidParameters ∧
    (∀ (mline : MLinePtr) (value : List Char) (line : ACandidateLine),
      ACandidateLine.ACandidateLine mline value = .ok line →
      10 ≤ (candidateFields value).length →
      line.mRelAddr = (candidateFields value).getD 9 [] ∧
        (numericField 16 line.mRelAddr).map some = .ok line.mRelPort) ∧
    (ACandidateLine.ACandidateLine none
        "1 1 udp 2130706431 192.0.2.1 9 typ srflx raddr 7 rport 8000".toList).map
        (fun line => (line.mRelAddr, line.mRelPort, line.mExtensionPairs)) =
      .ok ("7".toList, some 7, [("rport".toList, "8000".toList)]) :=
  ⟨by rfl, by rfl, candidateLine_mRelPort, by rfl⟩

/-- C40. The function `toAttributeLevel` returns the level of each of the
names `session`, `media`, `source`, `session+media`, `session+source` and
`media+source`, and throws on the name `all`: the table it searches has
`AttributeLevel_MediaAndSource` twice and `AttributeLevel_All` not at all. It
returns `AttributeLevel_All` on no string, nor `AttributeLevel_None`. -/
theorem toAttributeLevel_all_fails :
    toAttributeLevel AttributeLevel_Session.toString = .ok AttributeLevel_Session ∧
    toAttributeLevel AttributeLevel_Media.toString = .ok AttributeLevel_Media ∧
    toAttributeLevel AttributeLevel_Source.toString = .ok AttributeLevel_Source ∧
    toAttributeLevel AttributeLevel_SessionAndMedia.toString =
      .ok AttributeLevel_SessionAndMedia ∧
    toAttributeLevel AttributeLevel_SessionAndSource.toString =
      .ok AttributeLevel_SessionAndSource ∧
    toAttributeLevel AttributeLevel_MediaAndSource.toString =
      .ok AttributeLevel_MediaAndSource ∧
    AttributeLevel_All.toString = "all".toList ∧
    toAttributeLevel AttributeLevel_All.toString = .error .InvalidParameters ∧
    (∀ str, toAttributeLevel str ≠ .ok AttributeLevel_All) ∧
    (∀ str, toAttributeLevel str ≠ .ok AttributeLevel_None) := by
  refine ⟨by rfl, by rfl, by rfl, by rfl, by rfl, by rfl, rfl, by rfl, ?_, ?_⟩
  · intro str h
    have hm := (toAttributeLevelLoop_mem str _ _ h).1
    simp at hm
  · intro str h
    exact (toAttributeLevelLoop_mem str _ _ h).2.1 rfl

end OrtcSDP
